import Mathlib

/-!
# The d3plot reader of qd-eng: header, geometry and state decoder

A shallow embedding of `src/qd/cae/dyna_cpp/dyna/D3plot.cpp`.

* A file is a sequence of 32-bit words.  A word is kept as its raw value
  (`Nat`, read modulo `2^32`); `read_int` decodes it as a two's-complement
  `int32_t`, `read_float` hands the same bits out as an `F32`.
* The C++ members of `class D3plot` are the fields of the structures
  `Control` (the `dyna_*` scalars of the header), `ReadPlan` (the `*_read`
  request codes), `Loaded` (the `*_is_read` flags) and `D3plot`.
* A C++ exception is the `Except.error` branch; the object state at the throw
  is not kept.
* `int32_t` arithmetic is done in `Int`.  Signed overflow is undefined
  behaviour in C++ and is outside this model.
* Floating point arithmetic (`+`, `/`, `<`, `>`, `mises_stress`) is a
  parameter, `FloatArith`; floats that are only copied or compared with the
  file-ending marker are handled by their bits.
-/

namespace qd

/-! ## Errors -/

/-- The exceptions the decoder can raise (the message is the static part of the
C++ message), plus the failures of the collaborators it calls. -/
inductive Err where
  | runtime_error (msg : String)
  | invalid_argument (msg : String)
  /-- A word outside the loaded buffer was requested. -/
  | buffer_error
  /-- An index outside a database or vector was requested. -/
  | index_error
  /-- A vector of negative size was requested. -/
  | length_error
  /-- The state loop did not reach the file-ending marker within the fuel. -/
  | out_of_fuel
deriving DecidableEq, Repr

/-! ## Words and floats -/

/-- A single precision float, identified by its 32 bits. -/
structure F32 where
  bits : Nat
deriving DecidableEq, Repr

/-- Two's-complement reading of a 32-bit word. -/
def int32_of_word (w : Nat) : Int :=
  if w % 4294967296 < 2147483648 then ((w % 4294967296 : Nat) : Int)
  else ((w % 4294967296 : Nat) : Int) - 4294967296

/-- The bits of the float `-999999.0f`, the file-ending marker. -/
def endmark_bits : Nat := 0xC97423F0

/-- The value an `int32_t` holds for the mathematical result `x` of an
operation: the two's-complement wrap-around of the built code. -/
def wrap32 (x : Int) : Int := int32_of_word (x % 4294967296).toNat

/-- The `int32_t` sum. -/
def add32 (x y : Int) : Int := wrap32 (x + y)

/-- The `int32_t` difference. -/
def sub32 (x y : Int) : Int := wrap32 (x - y)

/-- The `int32_t` product. -/
def mul32 (x y : Int) : Int := wrap32 (x * y)

/-- The C `abs` on an `int32_t` (undefined for the minimum value in C++). -/
def abs32 (x : Int) : Int := if x < 0 then -x else x

/-- The statement `if (c) throw e;`. -/
def throw_if (c : Prop) [Decidable c] (e : Err) : Except Err Unit :=
  if c then .error e else .ok ()

/-- The allocation `std::vector<T> v(n, x)`; a negative `int32_t` size is a
huge `size_t` and the allocation throws. -/
def alloc {α : Type} (n : Int) (x : α) : Except Err (List α) :=
  if n < 0 then .error .length_error else .ok (List.replicate n.toNat x)

/-- The loop `for (ii = lo; ii < hi; ii += step) out[jj++] = body(ii);` over a
preallocated vector `out`, started at `ii`; writing past the vector is an
index error. -/
def fill_loop {α : Type} (body : Int → Except Err α) (hi step : Int) :
    Int → List α → Except Err (List α)
  | ii, [] => if ii < hi then .error .index_error else .ok []
  | ii, x :: rest =>
    if ii < hi then
      match body ii with
      | .error e => .error e
      | .ok y =>
        match fill_loop body hi step (ii + step) rest with
        | .error e => .error e
        | .ok ys => .ok (y :: ys)
    else .ok (x :: rest)

/-- The loops of the state readers over the entities of a database,
`for (ii = start; ii < hi; ...) { x = get_byIndex(i++); ... }`: the list holds
the entities from the current index on, `s` are the locals that live across
iterations, and `body ii s x` gives the entity after the iteration, the locals
and the next `ii`.  Asking the database for an entity it does not have is an
index error. -/
def db_loop {α σ : Type} (body : Int → σ → α → Except Err (α × σ × Int)) (hi : Int) :
    Int → σ → List α → Except Err (List α)
  | ii, _, [] => if ii < hi then .error .index_error else .ok []
  | ii, s, x :: rest =>
    if ii < hi then
      match body ii s x with
      | .error e => .error e
      | .ok r =>
        match db_loop body hi r.2.2 r.2.1 rest with
        | .error e => .error e
        | .ok ys => .ok (r.1 :: ys)
    else .ok (x :: rest)

/-- The float operations the decoder uses on values it reduces over shell
layers.  They are a parameter of the model. -/
structure FloatArith where
  /-- The float `x + y`. -/
  add : F32 → F32 → F32
  /-- The float `x / y`. -/
  div : F32 → F32 → F32
  /-- The comparison `x > y`. -/
  gt : F32 → F32 → Bool
  /-- The comparison `x < y`. -/
  lt : F32 → F32 → Bool
  /-- The conversion `(float) n`. -/
  ofInt : Int → F32
  /-- The helper `MathUtility::mises_stress` on a 6-component tensor. -/
  mises_stress : List F32 → F32

/-! ## The word buffer -/

/-- Modelled from the spec: the word buffer (`AbstractBuffer` with its two
back-ends `D3plotBuffer` and `FemzipBuffer` is not among the sources).  It
holds the words of the geometry section, of the part section and of every
state segment; `current` is the section loaded right now and `pending` are the
state segments that `read_nextState` has not delivered yet. -/
structure Buffer where
  geometry : List Nat
  parts : List Nat
  states : List (List Nat)
  current : List Nat
  pending : List (List Nat)
deriving DecidableEq, Repr

namespace Buffer

/-- Modelled from the spec: the raw word at index `iWord` of the loaded
section; a read outside of it is fatal. -/
def read_word (b : Buffer) (iWord : Int) : Except Err Nat :=
  if iWord < 0 then .error .buffer_error
  else match b.current[iWord.toNat]? with
    | some w => .ok w
    | none => .error .buffer_error

/-- Modelled from the spec: `read_i32(w)`. -/
def read_int (b : Buffer) (iWord : Int) : Except Err Int :=
  match b.read_word iWord with
  | .ok w => .ok (int32_of_word w)
  | .error e => .error e

/-- Modelled from the spec: `read_f32(w)`. -/
def read_float (b : Buffer) (iWord : Int) : Except Err F32 :=
  match b.read_word iWord with
  | .ok w => .ok ⟨w % 4294967296⟩
  | .error e => .error e

/-- Modelled from the spec: `read_f32_range(w, n, out)`, the `n` floats from
word `iWord` on. -/
def read_float_array (b : Buffer) (iWord : Int) : Nat → Except Err (List F32)
  | 0 => .ok []
  | n + 1 =>
    match b.read_float iWord with
    | .error e => .error e
    | .ok x =>
      match read_float_array b (iWord + 1) n with
      | .error e => .error e
      | .ok xs => .ok (x :: xs)

/-- Modelled from the spec: the `n` integers from word `iWord` on (the loops
`for (ii = wordPosition; ii < wordPosition + n; ii++) v[jj++] = read_int(ii)`). -/
def read_int_array (b : Buffer) (iWord : Int) : Nat → Except Err (List Int)
  | 0 => .ok []
  | n + 1 =>
    match b.read_int iWord with
    | .error e => .error e
    | .ok x =>
      match read_int_array b (iWord + 1) n with
      | .error e => .error e
      | .ok xs => .ok (x :: xs)

/-- The four ASCII characters of a word, lowest byte first. -/
def word_chars (w : Nat) : List Char :=
  [Char.ofNat (w % 256), Char.ofNat (w / 256 % 256), Char.ofNat (w / 65536 % 256),
   Char.ofNat (w / 16777216 % 256)]

/-- The characters of `n` words from `iWord` on. -/
def read_chars (b : Buffer) (iWord : Int) : Nat → Except Err (List Char)
  | 0 => .ok []
  | n + 1 =>
    match b.read_word iWord with
    | .error e => .error e
    | .ok w =>
      match read_chars b (iWord + 1) n with
      | .error e => .error e
      | .ok cs => .ok (word_chars (w % 4294967296) ++ cs)

/-- Modelled from the spec: `read_str(w, n_words)`, ASCII, four bytes per word,
whitespace trimmed on the right. -/
def read_str (b : Buffer) (iWord : Int) (n : Nat) : Except Err String :=
  match b.read_chars iWord n with
  | .error e => .error e
  | .ok cs => .ok (String.mk (cs.reverse.dropWhile Char.isWhitespace).reverse)

/-- Modelled from the spec: `load_geometry`. -/
def read_geometryBuffer (b : Buffer) : Buffer := { b with current := b.geometry }

/-- Modelled from the spec: `free_geometry`. -/
def free_geometryBuffer (b : Buffer) : Buffer := { b with current := [] }

/-- Modelled from the spec: `load_parts`. -/
def read_partBuffer (b : Buffer) : Buffer := { b with current := b.parts }

/-- Modelled from the spec: `free_parts`. -/
def free_partBuffer (b : Buffer) : Buffer := { b with current := [] }

/-- Modelled from the spec: `init_first_state_segment`. -/
def init_nextState (b : Buffer) : Buffer := { b with pending := b.states }

/-- Modelled from the spec: `rewind_state_segments`. -/
def rewind_nextState (b : Buffer) : Buffer := { b with pending := b.states }

/-- Modelled from the spec: `has_next_state_segment`. -/
def has_nextState (b : Buffer) : Bool := !b.pending.isEmpty

/-- Modelled from the spec: `read_next_state_segment`: the previous segment is
released and the next one loaded. -/
def read_nextState (b : Buffer) : Buffer :=
  match b.pending with
  | [] => { b with current := [] }
  | seg :: rest => { b with current := seg, pending := rest }

/-- Modelled from the spec: `end_states`, which releases the segment in
flight. -/
def end_nextState (b : Buffer) : Buffer := { b with current := [], pending := [] }

end Buffer

/-! ## The databases -/

/-- Modelled from the spec: a node of `DB_Nodes` (`Node.hpp` is not among the
sources): external id, initial coordinates and three append-only
per-timestep vectors. -/
structure Node where
  nodeID : Int
  coords : List F32
  disp : List (List F32)
  vel : List (List F32)
  accel : List (List F32)
deriving DecidableEq, Repr

namespace Node

/-- Modelled from the spec: `add_disp` appends one entry. -/
def add_disp (n : Node) (v : List F32) : Node := { n with disp := n.disp ++ [v] }

/-- Modelled from the spec: `add_vel` appends one entry. -/
def add_vel (n : Node) (v : List F32) : Node := { n with vel := n.vel ++ [v] }

/-- Modelled from the spec: `add_accel` appends one entry. -/
def add_accel (n : Node) (v : List F32) : Node := { n with accel := n.accel ++ [v] }

/-- Modelled from the spec: `clear_disp`. -/
def clear_disp (n : Node) : Node := { n with disp := [] }

/-- Modelled from the spec: `clear_vel`. -/
def clear_vel (n : Node) : Node := { n with vel := [] }

/-- Modelled from the spec: `clear_accel`. -/
def clear_accel (n : Node) : Node := { n with accel := [] }

end Node

/-- The element families of `Element.hpp`. -/
inductive ElementType where
  | NONE | BEAM | SHELL | SOLID
deriving DecidableEq, Repr

/-- An element as declared in `Element.hpp` (plus the `stress_mises` stream the
decoder feeds): external id, the connectivity record handed over by the
decoder (node indexes, then the material index), the rigid flag and the
append-only per-timestep streams. -/
structure Element where
  elementID : Int
  elemType : ElementType
  record : List Int
  is_rigid : Bool
  energy : List F32
  plastic_strain : List F32
  strain : List (List F32)
  stress : List (List F32)
  stress_mises : List F32
  history_vars : List (List F32)
deriving DecidableEq, Repr

namespace Element

/-- The getter `get_is_rigid`. -/
def get_is_rigid (e : Element) : Bool := e.is_rigid

/-- The setter `set_is_rigid`. -/
def set_is_rigid (e : Element) (r : Bool) : Element := { e with is_rigid := r }

/-- Modelled from the spec: `add_energy` appends one entry. -/
def add_energy (e : Element) (x : F32) : Element := { e with energy := e.energy ++ [x] }

/-- Modelled from the spec: `add_plastic_strain` appends one entry. -/
def add_plastic_strain (e : Element) (x : F32) : Element :=
  { e with plastic_strain := e.plastic_strain ++ [x] }

/-- Modelled from the spec: `add_stress` appends one entry. -/
def add_stress (e : Element) (x : List F32) : Element := { e with stress := e.stress ++ [x] }

/-- Modelled from the spec: `add_stress_mises` appends one entry. -/
def add_stress_mises (e : Element) (x : F32) : Element :=
  { e with stress_mises := e.stress_mises ++ [x] }

/-- Modelled from the spec: `add_strain` appends one entry. -/
def add_strain (e : Element) (x : List F32) : Element := { e with strain := e.strain ++ [x] }

/-- Modelled from the spec: `add_history_vars(vars, iTimestep)` appends the
history values of one state (the store is append-only, one entry per state
read). -/
def add_history_vars (e : Element) (vars : List F32) (_iTimestep : Nat) : Element :=
  { e with history_vars := e.history_vars ++ [vars] }

/-- Modelled from the spec: `clear_energy`. -/
def clear_energy (e : Element) : Element := { e with energy := [] }

/-- Modelled from the spec: `clear_plastic_strain`. -/
def clear_plastic_strain (e : Element) : Element := { e with plastic_strain := [] }

/-- Modelled from the spec: `clear_strain`. -/
def clear_strain (e : Element) : Element := { e with strain := [] }

/-- Modelled from the spec: `clear_stress`. -/
def clear_stress (e : Element) : Element := { e with stress := [] }

/-- Modelled from the spec: `clear_stress_mises`. -/
def clear_stress_mises (e : Element) : Element := { e with stress_mises := [] }

/-- Modelled from the spec: `clear_history_vars`. -/
def clear_history_vars (e : Element) : Element := { e with history_vars := [] }

end Element

/-- Modelled from the spec: a part of `DB_Parts`, external id and name. -/
structure Part where
  partID : Int
  name : String
deriving DecidableEq, Repr

/-- Modelled from the spec: `DB_Elements::add_element_byD3plot`, a fresh
element with empty result streams. -/
def add_element_byD3plot (t : ElementType) (id : Int) (record : List Int) : Element :=
  { elementID := id, elemType := t, record := record, is_rigid := false, energy := [],
    plastic_strain := [], strain := [], stress := [], stress_mises := [], history_vars := [] }

/-- Modelled from the spec: `DB_Nodes::add_node`, a fresh node with empty
result vectors. -/
def add_node (id : Int) (coords : List F32) : Node :=
  { nodeID := id, coords := coords, disp := [], vel := [], accel := [] }

/-! ## The reader -/

/-- The `dyna_*` members of `class D3plot`: the header scalars, the material
table and the two `own_*` flags. -/
structure Control where
  dyna_title : String
  dyna_ndim : Int
  dyna_numnp : Int
  dyna_mdlopt : Int
  dyna_mattyp : Int
  dyna_nglbv : Int
  dyna_nel2 : Int
  dyna_nel4 : Int
  dyna_nel48 : Int
  dyna_nel8 : Int
  dyna_nel20 : Int
  dyna_nelth : Int
  dyna_nmmat : Int
  dyna_nummat2 : Int
  dyna_nummat4 : Int
  dyna_nummat8 : Int
  dyna_nummatth : Int
  dyna_nv1d : Int
  dyna_nv2d : Int
  dyna_nv3d : Int
  dyna_nv3dt : Int
  dyna_maxint : Int
  dyna_istrn : Int
  dyna_neiph : Int
  dyna_neips : Int
  dyna_iu : Int
  dyna_iv : Int
  dyna_ia : Int
  dyna_it : Int
  dyna_idtdt : Int
  dyna_narbs : Int
  dyna_ioshl1 : Int
  dyna_ioshl2 : Int
  dyna_ioshl3 : Int
  dyna_ioshl4 : Int
  dyna_extra : Int
  dyna_numprop : Int
  dyna_numrbe : Int
  dyna_nmsph : Int
  dyna_ngpsph : Int
  dyna_ialemat : Int
  dyna_irbtyp : List Int
  own_nel10 : Bool
  own_external_numbers_I8 : Bool
deriving DecidableEq

/-- The request codes `*_read` set by `read_states_parse` (0: do not read,
1..6: the layer reduction), and the history requests. -/
structure ReadPlan where
  plastic_strain_read : Int
  energy_read : Int
  strain_read : Int
  stress_read : Int
  stress_mises_read : Int
  disp_read : Int
  acc_read : Int
  vel_read : Int
  history_shell_read : List Int
  history_shell_mode : List Int
  history_solid_read : List Int
  history_solid_mode : List Int
deriving DecidableEq, Repr

/-- The flags `*_is_read` and the lists of history variables already loaded. -/
structure Loaded where
  plastic_strain_is_read : Bool
  energy_is_read : Bool
  strain_is_read : Bool
  stress_is_read : Bool
  stress_mises_is_read : Bool
  disp_is_read : Bool
  acc_is_read : Bool
  vel_is_read : Bool
  history_shell_is_read : List Int
  history_solid_is_read : List Int
deriving DecidableEq, Repr

/-- The state of a `D3plot` object. -/
structure D3plot where
  ctrl : Control
  plan : ReadPlan
  loaded : Loaded
  wordPosition : Int
  wordPositionStates : Int
  useFemzip : Bool
  timesteps : List F32
  buffer : Buffer
  db_nodes : List Node
  db_beams : List Element
  db_shells : List Element
  db_solids : List Element
  db_parts : List Part
deriving DecidableEq

/-- The member initialiser list of the constructor: every header scalar is
`-1`, nothing is planned or loaded, the databases are empty. -/
def Control.init : Control :=
  { dyna_title := "", dyna_ndim := -1, dyna_numnp := -1, dyna_mdlopt := -1, dyna_mattyp := -1,
    dyna_nglbv := -1, dyna_nel2 := -1, dyna_nel4 := -1, dyna_nel48 := -1, dyna_nel8 := -1,
    dyna_nel20 := -1, dyna_nelth := -1, dyna_nmmat := -1, dyna_nummat2 := -1,
    dyna_nummat4 := -1, dyna_nummat8 := -1, dyna_nummatth := -1, dyna_nv1d := -1,
    dyna_nv2d := -1, dyna_nv3d := -1, dyna_nv3dt := -1, dyna_maxint := -1, dyna_istrn := -1,
    dyna_neiph := -1, dyna_neips := -1, dyna_iu := -1, dyna_iv := -1, dyna_ia := -1,
    dyna_it := -1, dyna_idtdt := -1, dyna_narbs := -1, dyna_ioshl1 := -1, dyna_ioshl2 := -1,
    dyna_ioshl3 := -1, dyna_ioshl4 := -1, dyna_extra := -1, dyna_numprop := -1,
    dyna_numrbe := -1, dyna_nmsph := -1, dyna_ngpsph := -1, dyna_ialemat := -1,
    dyna_irbtyp := [], own_nel10 := false, own_external_numbers_I8 := false }

/-- The plan with nothing requested (the "safety reset" of
`read_states_parse`). -/
def ReadPlan.init : ReadPlan :=
  { plastic_strain_read := 0, energy_read := 0, strain_read := 0, stress_read := 0,
    stress_mises_read := 0, disp_read := 0, acc_read := 0, vel_read := 0,
    history_shell_read := [], history_shell_mode := [], history_solid_read := [],
    history_solid_mode := [] }

/-- Nothing loaded yet. -/
def Loaded.init : Loaded :=
  { plastic_strain_is_read := false, energy_is_read := false, strain_is_read := false,
    stress_is_read := false, stress_mises_is_read := false, disp_is_read := false,
    acc_is_read := false, vel_is_read := false, history_shell_is_read := [],
    history_solid_is_read := [] }

/-- The object right after the member initialiser list. -/
def D3plot.init (buffer : Buffer) (useFemzip : Bool) : D3plot :=
  { ctrl := Control.init, plan := ReadPlan.init, loaded := Loaded.init, wordPosition := 0,
    wordPositionStates := 0, useFemzip := useFemzip, timesteps := [], buffer := buffer,
    db_nodes := [], db_beams := [], db_shells := [], db_solids := [], db_parts := [] }


/-! ## Header -/

namespace D3plot

/-- The helper `isFileEnding`: the float at `iWord` is the marker `-999999`.
The C++ test `read_float(iWord) + 999999.0f == 0.` holds exactly for the float
`-999999.0f`, whose bits are `endmark_bits`. -/
def isFileEnding (d : D3plot) (iWord : Int) : Except Err Bool :=
  match d.buffer.read_float iWord with
  | .error e => .error e
  | .ok x => .ok (x.bits == endmark_bits)

/-- The derivation of `istrn` at the end of `read_header`; `old` is the value
the member holds before (the constructor sets `-1`).  The expression is
evaluated in `int32_t`, operation by operation. -/
def derive_istrn (idtdt nv2d maxint ioshl1 ioshl2 ioshl3 ioshl4 neips old : Int) : Int :=
  if idtdt > 100 then Int.tmod idtdt 10000
  else if nv2d > 0 then
    if add32 (add32 (sub32 nv2d (mul32 maxint (add32 (add32 (mul32 6 ioshl1) ioshl2) neips)))
        (mul32 8 ioshl3)) (mul32 4 ioshl4) > 1 then 1 else 0
  else old

/-- The decoding of the raw `ndim` word: the resulting `(mattyp, ndim)`. -/
def decode_ndim (ndim0 : Int) : Except Err (Int × Int) :=
  if ndim0 = 5 ∨ ndim0 = 7 then .ok (1, 3)
  else if ndim0 = 4 then .ok (0, 3)
  else if ndim0 > 5 then
    .error (Err.runtime_error "State data contains rigid road surface which can not be handled.")
  else .error (Err.runtime_error "Invalid parameter dyna_ndim")

/-- The method `read_header`. -/
def read_header (d : D3plot) : Except Err D3plot := do
  let b := d.buffer
  let filetype0 ← b.read_int 11
  let filetype := if filetype0 > 1000 then filetype0 - 1000 else filetype0
  let own_external_numbers_I8 :=
    if filetype0 > 1000 then true else d.ctrl.own_external_numbers_I8
  throw_if (filetype ≠ 1 ∧ filetype ≠ 5)
    (Err.runtime_error "Wrong filetype != 1 (or 5) in header of d3plot.")
  let dyna_title ← b.read_str 0 10
  let ndim0 ← b.read_int 15
  let mattyp_ndim ← decode_ndim ndim0
  let dyna_numnp ← b.read_int 16
  let dyna_nglbv ← b.read_int 18
  let dyna_iu ← b.read_int 20
  let dyna_iv ← b.read_int 21
  let dyna_ia ← b.read_int 22
  let dyna_it ← b.read_int 19
  let dyna_nel2 ← b.read_int 28
  let dyna_nel4 ← b.read_int 31
  let nel8_0 ← b.read_int 23
  let dyna_nelth ← b.read_int 40
  let dyna_nel48 ← b.read_int 55
  let dyna_nel8 := if nel8_0 < 0 then abs32 nel8_0 else nel8_0
  let own_nel10 := if nel8_0 < 0 then true else d.ctrl.own_nel10
  let dyna_nmmat ← b.read_int 51
  let dyna_nummat2 ← b.read_int 29
  let dyna_nummat4 ← b.read_int 32
  let dyna_nummat8 ← b.read_int 24
  let dyna_nummatth ← b.read_int 41
  let dyna_nv1d ← b.read_int 30
  let dyna_nv2d ← b.read_int 33
  let dyna_nv3d ← b.read_int 27
  let dyna_nv3dt ← b.read_int 42
  let dyna_neiph ← b.read_int 34
  let dyna_neips ← b.read_int 35
  let maxint0 ← b.read_int 36
  let mdlopt1 : Int := if maxint0 ≥ 0 then 0 else 1
  let maxint1 := if maxint0 ≥ 0 then maxint0 else abs32 maxint0
  let dyna_mdlopt := if maxint1 > 10000 then 2 else mdlopt1
  let dyna_maxint := if maxint1 > 10000 then abs32 maxint1 - 10000 else maxint1
  let dyna_narbs ← b.read_int 39
  let ioshl1_0 ← b.read_int 43
  let dyna_ioshl1 : Int := if ioshl1_0 = 1000 then 1 else 0
  let ioshl2_0 ← b.read_int 44
  let dyna_ioshl2 : Int := if ioshl2_0 = 1000 then 1 else 0
  let ioshl3_0 ← b.read_int 45
  let dyna_ioshl3 : Int := if ioshl3_0 = 1000 then 1 else 0
  let ioshl4_0 ← b.read_int 46
  let dyna_ioshl4 : Int := if ioshl4_0 = 1000 then 1 else 0
  let dyna_idtdt ← b.read_int 56
  let dyna_extra ← b.read_int 57
  let dyna_nmsph ← b.read_int 37
  let dyna_ngpsph ← b.read_int 38
  let dyna_ialemat ← b.read_int 47
  let dyna_nel20 ← (if dyna_extra > 0 then b.read_int 64 else .ok 0)
  let dyna_istrn := derive_istrn dyna_idtdt dyna_nv2d dyna_maxint dyna_ioshl1 dyna_ioshl2
    dyna_ioshl3 dyna_ioshl4 dyna_neips d.ctrl.dyna_istrn
  throw_if (dyna_nmsph ≠ 0 ∨ dyna_ngpsph ≠ 0)
    (Err.runtime_error "SPH mats and elements can not be handled.")
  throw_if (dyna_ialemat ≠ 0) (Err.runtime_error "ALE can not be handled.")
  throw_if (dyna_nelth > 0) (Err.runtime_error "Can not handle thick shell elements.")
  throw_if (dyna_it ≠ 0) (Err.runtime_error "dyna_it != 0: Can not handle temperatures.")
  throw_if (own_external_numbers_I8 = true)
    (Err.runtime_error "Can not handle external ids with double length.")
  let wordPosition : Int := if dyna_extra > 0 then 64 * 2 else 64
  pure { d with
    ctrl := { d.ctrl with
      dyna_title := dyna_title, dyna_ndim := mattyp_ndim.2, dyna_numnp := dyna_numnp,
      dyna_mdlopt := dyna_mdlopt, dyna_mattyp := mattyp_ndim.1, dyna_nglbv := dyna_nglbv,
      dyna_nel2 := dyna_nel2, dyna_nel4 := dyna_nel4, dyna_nel48 := dyna_nel48,
      dyna_nel8 := dyna_nel8, dyna_nel20 := dyna_nel20, dyna_nelth := dyna_nelth,
      dyna_nmmat := dyna_nmmat, dyna_nummat2 := dyna_nummat2, dyna_nummat4 := dyna_nummat4,
      dyna_nummat8 := dyna_nummat8, dyna_nummatth := dyna_nummatth, dyna_nv1d := dyna_nv1d,
      dyna_nv2d := dyna_nv2d, dyna_nv3d := dyna_nv3d, dyna_nv3dt := dyna_nv3dt,
      dyna_maxint := dyna_maxint, dyna_istrn := dyna_istrn, dyna_neiph := dyna_neiph,
      dyna_neips := dyna_neips, dyna_iu := dyna_iu, dyna_iv := dyna_iv, dyna_ia := dyna_ia,
      dyna_it := dyna_it, dyna_idtdt := dyna_idtdt, dyna_narbs := dyna_narbs,
      dyna_ioshl1 := dyna_ioshl1, dyna_ioshl2 := dyna_ioshl2, dyna_ioshl3 := dyna_ioshl3,
      dyna_ioshl4 := dyna_ioshl4, dyna_extra := dyna_extra, dyna_nmsph := dyna_nmsph,
      dyna_ngpsph := dyna_ngpsph, dyna_ialemat := dyna_ialemat, own_nel10 := own_nel10,
      own_external_numbers_I8 := own_external_numbers_I8 },
    wordPosition := wordPosition }

/-! ## Material section and geometry -/

/-- The method `read_matsection`. -/
def read_matsection (d : D3plot) : Except Err D3plot :=
  if d.ctrl.dyna_mattyp = 0 then
    .ok { d with ctrl := { d.ctrl with dyna_numrbe := 0 } }
  else do
    let numrbe ← d.buffer.read_int d.wordPosition
    let tmp_nummat ← d.buffer.read_int (d.wordPosition + 1)
    throw_if (tmp_nummat ≠ d.ctrl.dyna_nmmat)
      (Err.runtime_error "dyna_nmmat != nummat in matsection!")
    let start := d.wordPosition + 2
    throw_if (tmp_nummat < 0) Err.length_error
    let irbtyp ← d.buffer.read_int_array start tmp_nummat.toNat
    pure { d with
      ctrl := { d.ctrl with dyna_numrbe := numrbe, dyna_irbtyp := d.ctrl.dyna_irbtyp ++ irbtyp },
      wordPosition := d.wordPosition + (2 + tmp_nummat) }

/-- The method `read_geometry_nodes`: the coordinates and the reader with the
word position advanced. -/
def read_geometry_nodes (d : D3plot) : Except Err (List (List F32) × D3plot) := do
  let wordsToRead := d.ctrl.dyna_numnp * d.ctrl.dyna_ndim
  let buffer_nodes ← alloc d.ctrl.dyna_numnp (List.replicate 3 (F32.mk 0))
  let buffer_nodes ← fill_loop (fun ii => d.buffer.read_float_array ii 3)
    (d.wordPosition + wordsToRead) 3 d.wordPosition buffer_nodes
  pure (buffer_nodes, { d with wordPosition := d.wordPosition + wordsToRead })

/-- The method `read_geometry_elem8`. -/
def read_geometry_elem8 (d : D3plot) : Except Err (List (List Int) × D3plot) :=
  if d.ctrl.dyna_nel8 = 0 then .ok ([], d)
  else do
    let nVarsElem8 : Int := 9
    let buffer_elems8 ← alloc d.ctrl.dyna_nel8 (List.replicate 9 (0 : Int))
    let wordsToRead := nVarsElem8 * d.ctrl.dyna_nel8
    let buffer_elems8 ← fill_loop (fun ii => d.buffer.read_int_array ii 9)
      (d.wordPosition + wordsToRead) nVarsElem8 d.wordPosition buffer_elems8
    let wp := d.wordPosition + wordsToRead
    let wp := if d.ctrl.own_nel10 then wp + 2 * d.ctrl.dyna_nel8 else wp
    pure (buffer_elems8, { d with wordPosition := wp })

/-- The method `read_geometry_elem4`. -/
def read_geometry_elem4 (d : D3plot) : Except Err (List (List Int) × D3plot) :=
  if d.ctrl.dyna_nel4 = 0 then .ok ([], d)
  else do
    let nVarsElem4 : Int := 5
    let buffer_elems4 ← alloc d.ctrl.dyna_nel4 (List.replicate 5 (0 : Int))
    let wordsToRead := nVarsElem4 * d.ctrl.dyna_nel4
    let buffer_elems4 ← fill_loop (fun ii => d.buffer.read_int_array ii 5)
      (d.wordPosition + wordsToRead) nVarsElem4 d.wordPosition buffer_elems4
    pure (buffer_elems4, { d with wordPosition := d.wordPosition + wordsToRead })

/-- The three words kept of a beam record: nodes 0 and 1 and the material at
offset 5. -/
def read_beam_record (b : Buffer) (ii : Int) : Except Err (List Int) := do
  let n0 ← b.read_int ii
  let n1 ← b.read_int (ii + 1)
  let mat ← b.read_int (ii + 5)
  pure [n0, n1, mat]

/-- The method `read_geometry_elem2`. -/
def read_geometry_elem2 (d : D3plot) : Except Err (List (List Int) × D3plot) :=
  if d.ctrl.dyna_nel2 = 0 then .ok ([], d)
  else do
    let nVarsElem2 : Int := 6
    let buffer_elems2 ← alloc d.ctrl.dyna_nel2 (List.replicate 3 (0 : Int))
    let wordsToRead := nVarsElem2 * d.ctrl.dyna_nel2
    let buffer_elems2 ← fill_loop (read_beam_record d.buffer)
      (d.wordPosition + wordsToRead) nVarsElem2 d.wordPosition buffer_elems2
    pure (buffer_elems2, { d with wordPosition := d.wordPosition + wordsToRead })

/-- A vector `std::vector<int32_t> ids(n)` filled by the loop
`for (ii = wp; ii < wp + n; ii++) ids[jj++] = read_int(ii);`. -/
def read_ids (b : Buffer) (wp n : Int) : Except Err (List Int) :=
  if n < 0 then .error .length_error else b.read_int_array wp n.toNat

/-- The method `read_geometry_numbering`: the id vectors (nodes, solids, beams,
shells) and the reader with the word position advanced; the empty list when
there is no numbering block.  The test of `nsrb` builds its exception without
throwing it, so it has no effect. -/
def read_geometry_numbering (d : D3plot) : Except Err (List (List Int) × D3plot) :=
  if d.ctrl.dyna_narbs = 0 then .ok ([], d)
  else do
    let b := d.buffer
    let c := d.ctrl
    let wp := d.wordPosition
    let nsort ← b.read_int wp
    let nsrh ← b.read_int (wp + 1)
    throw_if (nsrh ≠ c.dyna_numnp + abs32 nsort)
      (Err.runtime_error "nsrh != nsort + numnp is inconsistent in dyna file.")
    let nsrb ← b.read_int (wp + 2)
    let nsrs ← b.read_int (wp + 3)
    throw_if (nsrs ≠ nsrb + c.dyna_nel2)
      (Err.runtime_error "nsrs != nsrb + nel2 is inconsistent in dyna file.")
    let nsrt ← b.read_int (wp + 4)
    throw_if (nsrt ≠ nsrs + c.dyna_nel4)
      (Err.runtime_error "nsrt != nsrs + nel4 is inconsistent in dyna file.")
    let nNode ← b.read_int (wp + 5)
    throw_if (nNode ≠ c.dyna_numnp)
      (Err.runtime_error "Number of nodes is not defined consistent in d3plot geometry section.")
    let nMaterials := c.dyna_nummat2 + c.dyna_nummat4 + c.dyna_nummat8 + c.dyna_nummatth
    let wp := if nsort < 0 then wp + 16 else wp + 10
    let nodeIDs ← read_ids b wp c.dyna_numnp
    let wp := wp + c.dyna_numnp
    let solidIDs ← read_ids b wp c.dyna_nel8
    let wp := wp + c.dyna_nel8
    let beamIDs ← read_ids b wp c.dyna_nel2
    let wp := wp + c.dyna_nel2
    let shellIDs ← read_ids b wp c.dyna_nel4
    let wp := wp + c.dyna_nel4
    let wp := wp + c.dyna_nelth
    let _externalPartIDs ← read_ids b (wp + c.dyna_nmmat) nMaterials
    let _internalPartIDs ← read_ids b (wp + 2 * c.dyna_nmmat) nMaterials
    let wp := wp + 3 * c.dyna_nmmat
    let wp := if c.own_nel10 then wp + 2 * abs32 c.dyna_nel8 else wp
    let wp := if c.dyna_nel48 > 0 then wp + 5 * c.dyna_nel48 else wp
    let wp := if c.dyna_extra > 0 ∧ c.dyna_nel20 > 0 then wp + 13 * c.dyna_nel20 else wp
    pure ([nodeIDs, solidIDs, beamIDs, shellIDs], { d with wordPosition := wp })

/-- The loop of `read_geometry_parts`: `n` records of 19 words from `start`
on, the external id and then 18 words of name. -/
def read_part_records (b : Buffer) : Int → Nat → Except Err (List Part)
  | _, 0 => .ok []
  | start, n + 1 =>
    match b.read_int start with
    | .error e => .error e
    | .ok partID =>
      match b.read_str (start + 1) 18 with
      | .error e => .error e
      | .ok partName =>
        match read_part_records b (start + 19) n with
        | .error e => .error e
        | .ok ps => .ok ({ partID := partID, name := partName } :: ps)

/-- The method `read_geometry_parts`. -/
def read_geometry_parts (d : D3plot) : Except Err D3plot := do
  let ntype ← d.buffer.read_int d.wordPosition
  throw_if (ntype ≠ 90001) (Err.runtime_error "ntype must be 90001 in part section.")
  let numprop ← d.buffer.read_int (d.wordPosition + 1)
  throw_if (numprop < 0)
    (Err.runtime_error "negative number of parts in part section makes no sense.")
  let parts ← read_part_records d.buffer ((d.wordPosition + 1) + 0 * 19 + 1) numprop.toNat
  pure { d with
    ctrl := { d.ctrl with dyna_numprop := numprop },
    db_parts := d.db_parts ++ parts,
    wordPosition := d.wordPosition + (1 + (numprop + 1) * 19 + 1) }

/-- The entry `v[i]` of a vector, which C++ does not range-check. -/
def vec_at {α : Type} (v : List α) (i : Int) : Except Err α :=
  if i < 0 then .error .index_error
  else match v[i.toNat]? with
    | some x => .ok x
    | none => .error .index_error

/-- The lookup `dyna_irbtyp[i]` in the element loops of `read_geometry`.  The
shell loop uses the entry it reads (`used = true`), and an index outside of
the table is an index error.  The beam loop and the solid loop compare the
entry with 20 in an `if` whose body is empty (`used = false`): nothing depends
on the entry, and the loop goes on whatever the index is. -/
def irbtyp_entry (used : Bool) (c : Control) (i : Int) : Except Err Int :=
  match vec_at c.dyna_irbtyp i with
  | .ok m => .ok m
  | .error e => if used = true then .error e else .ok 0

/-- The indices at which an element loop of `read_geometry` looks `dyna_irbtyp`
up: `record.back() + off` for every record when `mattyp = 1`, none otherwise. -/
def irbtyp_indices (off : Int) (c : Control) (rs : List (List Int)) : List Int :=
  if c.dyna_mattyp = 1 then rs.map (fun r => r.getLastD 0 + off) else []

/-- The loops of `read_geometry` that add the beams (`off = 0`, `rigid = false`),
the shells (`off = -1`, `rigid = true`) and the solids (`off = 0`,
`rigid = false`): element `ii` gets the id `ids[ii]` and its record; when
`mattyp = 1` the entry `irbtyp[record.back() + off]` is looked up, and a shell
is flagged rigid when that entry is 20. -/
def add_elements (t : ElementType) (off : Int) (rigid : Bool) (c : Control) :
    List Int → List (List Int) → Except Err (List Element)
  | _, [] => .ok []
  | [], _ :: _ => .error .index_error
  | id :: ids, r :: rs =>
    match (if c.dyna_mattyp = 1 then irbtyp_entry rigid c (r.getLastD 0 + off) else .ok 0) with
    | .error e => .error e
    | .ok m =>
      match add_elements t off rigid c ids rs with
      | .error e => .error e
      | .ok es =>
        .ok ((if rigid = true ∧ c.dyna_mattyp = 1 ∧ m = 20
              then (add_element_byD3plot t id r).set_is_rigid true
              else add_element_byD3plot t id r) :: es)

/-- The method `read_geometry`. -/
def read_geometry (d : D3plot) : Except Err D3plot := do
  let r ← d.read_geometry_nodes
  let buffer_nodes := r.1
  let r ← r.2.read_geometry_elem8
  let buffer_elems8 := r.1
  let d := r.2
  let d := if d.ctrl.dyna_nelth > 0
    then { d with wordPosition := d.wordPosition + 9 * d.ctrl.dyna_nelth } else d
  let r ← d.read_geometry_elem2
  let buffer_elems2 := r.1
  let r ← r.2.read_geometry_elem4
  let buffer_elems4 := r.1
  let r ← r.2.read_geometry_numbering
  let buffer_numbering := r.1
  let d := r.2
  let fin ← d.isFileEnding d.wordPosition
  throw_if (fin = false)
    (Err.runtime_error "Anticipated file ending wrong in geometry section.")
  let d := { d with wordPosition := d.wordPosition + 1 }
  let d := { d with buffer := d.buffer.free_geometryBuffer.read_partBuffer }
  let d := if d.useFemzip then { d with wordPosition := 1 } else d
  let d ← d.read_geometry_parts
  let fin ← d.isFileEnding d.wordPosition
  throw_if (fin = false) (Err.runtime_error "Anticipated file ending wrong in part section.")
  let d := { d with buffer := d.buffer.free_partBuffer }
  let numbering0 ← vec_at buffer_numbering 0
  throw_if (numbering0.length ≠ buffer_nodes.length)
    (Err.runtime_error "Buffer node-numbering and buffer-nodes have different sizes.")
  let nodes := List.zipWith add_node numbering0 buffer_nodes
  let numbering2 ← vec_at buffer_numbering 2
  let beams ← add_elements ElementType.BEAM 0 false d.ctrl numbering2 buffer_elems2
  let numbering3 ← vec_at buffer_numbering 3
  let shells ← add_elements ElementType.SHELL (-1) true d.ctrl numbering3 buffer_elems4
  let nRigidShells : Int := ((shells.countP Element.get_is_rigid : Nat) : Int)
  throw_if (nRigidShells ≠ d.ctrl.dyna_numrbe) (Err.runtime_error "nRigidShells != numrbe")
  let numbering1 ← vec_at buffer_numbering 1
  let solids ← add_elements ElementType.SOLID 0 false d.ctrl numbering1 buffer_elems8
  pure { d with
    db_nodes := d.db_nodes ++ nodes, db_beams := d.db_beams ++ beams,
    db_shells := d.db_shells ++ shells, db_solids := d.db_solids ++ solids }

/-! ## Parsing the variable requests -/

/-- The test `needle` occurs in the character list (as a contiguous run). -/
def has_infix (needle : List Char) : List Char → Bool
  | [] => needle.isEmpty
  | c :: cs => needle.isPrefixOf (c :: cs) || has_infix needle cs

/-- The test `s.find(sub) != std::string::npos`. -/
def str_contains (s sub : String) : Bool := has_infix sub.data s.data

/-- The scan behind `extract_integers`; `acc` is the number being read. -/
def extract_integers_aux : List Char → Option Nat → List Int
  | [], none => []
  | [], some n => [(n : Int)]
  | c :: cs, acc =>
    if c.isDigit then extract_integers_aux cs (some (acc.getD 0 * 10 + (c.toNat - 48)))
    else match acc with
      | none => extract_integers_aux cs none
      | some n => (n : Int) :: extract_integers_aux cs none

/-- Modelled from the spec: `extract_integers` of `TextUtility.hpp` (not among
the sources), the integer indices written in a request string, in order:
here the maximal runs of decimal digits. -/
def extract_integers (s : String) : List Int := extract_integers_aux s.data none

/-- The method `read_states_parse_readMode`. -/
def read_states_parse_readMode (_variable : String) : Int :=
  if str_contains _variable "max" then 1
  else if str_contains _variable "min" then 2
  else if str_contains _variable "outer" then 3
  else if str_contains _variable "mid" then 4
  else if str_contains _variable "inner" then 5
  else if str_contains _variable "mean" then 6
  else 6

/-- The three loops of `read_states_parse` over the indices of one history
request: indices already loaded are erased, then indices already planned by
an earlier request, and an index below 1 among the remaining ones is an
error. -/
def parse_history (is_read planned hist_vars : List Int) : Except Err (List Int) :=
  let hv := is_read.foldl (fun hv x => hv.erase x) hist_vars
  let hv := planned.foldl (fun hv x => hv.erase x) hv
  if hv.any (fun x => decide (x < 1)) then
    .error (Err.invalid_argument "History variable index must be at least 1.")
  else .ok hv

/-- The body of the loop of `read_states_parse` for one request string. -/
def read_states_parse_variable (c : Control) (l : Loaded) (p : ReadPlan) (v : String) :
    Except Err ReadPlan :=
  if str_contains v "disp" then
    if c.dyna_iu = 0 then
      .error (Err.invalid_argument "Unable to read displacements, since there are none.")
    else .ok { p with disp_read := if l.disp_is_read then 0 else read_states_parse_readMode v }
  else if str_contains v "vel" then
    if c.dyna_iv = 0 then
      .error (Err.invalid_argument "Unable to read velocities, since there are none.")
    else .ok { p with vel_read := if l.vel_is_read then 0 else read_states_parse_readMode v }
  else if str_contains v "accel" then
    if c.dyna_ia = 0 then
      .error (Err.invalid_argument "Unable to read accelerations, since there are none.")
    else .ok { p with acc_read := if l.acc_is_read then 0 else read_states_parse_readMode v }
  else if str_contains v "stress_mises" then
    .ok { p with stress_mises_read :=
      if l.stress_mises_is_read then 0 else read_states_parse_readMode v }
  else if str_contains v "stress" then
    .ok { p with stress_read := if l.stress_is_read then 0 else read_states_parse_readMode v }
  else if str_contains v "plastic_strain" then
    .ok { p with plastic_strain_read :=
      if l.plastic_strain_is_read then 0 else read_states_parse_readMode v }
  else if str_contains v "strain" then
    if c.dyna_istrn = 0 then
      .error (Err.invalid_argument "Unable to read strains, since there are none.")
    else .ok { p with strain_read := if l.strain_is_read then 0 else read_states_parse_readMode v }
  else if str_contains v "energy" then
    if c.dyna_ioshl4 = 0 then
      .error (Err.invalid_argument "Unable to read energies, since there are none.")
    else .ok { p with energy_read := if l.energy_is_read then 0 else read_states_parse_readMode v }
  else if str_contains v "history" then
    if (extract_integers v).length < 1 then
      .error (Err.invalid_argument "No history variable index specified.")
    else if str_contains v "shell" then
      match parse_history l.history_shell_is_read p.history_shell_read (extract_integers v) with
      | .error e => .error e
      | .ok hv =>
        .ok { p with
          history_shell_read := p.history_shell_read ++ hv,
          history_shell_mode :=
            p.history_shell_mode ++ List.replicate hv.length (read_states_parse_readMode v) }
    else if str_contains v "solid" then
      match parse_history l.history_solid_is_read p.history_solid_read (extract_integers v) with
      | .error e => .error e
      | .ok hv =>
        .ok { p with
          history_solid_read := p.history_solid_read ++ hv,
          history_solid_mode :=
            p.history_solid_mode ++ List.replicate hv.length (read_states_parse_readMode v) }
    else
      .error (Err.invalid_argument
        "Please specify the element type for all history variables as either shell or solid")
  else .error (Err.invalid_argument "Reading of variable is undefined")

/-- The loop of `read_states_parse` over the request strings. -/
def read_states_parse_loop (c : Control) (l : Loaded) : ReadPlan → List String → Except Err ReadPlan
  | p, [] => .ok p
  | p, v :: vs =>
    match read_states_parse_variable c l p v with
    | .error e => .error e
    | .ok p1 => read_states_parse_loop c l p1 vs

/-- The method `read_states_parse`: the plan is reset and then filled from the
request strings. -/
def read_states_parse (c : Control) (l : Loaded) (_variables : List String) :
    Except Err ReadPlan :=
  read_states_parse_loop c l ReadPlan.init _variables

/-! ## Reading the states -/

/-- The body of the loop `for (ii = start; ii < hi; ii += ndim)` of the three
node readers: the node gets the `ndim` floats at `ii` through `add`. -/
def read_states_node_body (b : Buffer) (ndim : Int) (add : Node → List F32 → Node) (ii : Int)
    (_s : Unit) (node : Node) : Except Err (Node × Unit × Int) :=
  match b.read_float_array ii ndim.toNat with
  | .error e => .error e
  | .ok v => .ok (add node v, (), ii + ndim)

/-- The loop `for (ii = start; ii < hi; ii += ndim)` of the three node readers,
over the nodes of the database in index order. -/
def read_states_node_loop (b : Buffer) (ndim : Int) (add : Node → List F32 → Node) (hi : Int)
    (start : Int) (nodes : List Node) : Except Err (List Node) :=
  db_loop (read_states_node_body b ndim add) hi start () nodes

/-- The local `start` of `read_states_displacement`. -/
def disp_start (c : Control) (wordPosition : Int) : Int := wordPosition + c.dyna_nglbv + 1

/-- The local `start` of `read_states_velocity`. -/
def vel_start (c : Control) (wordPosition : Int) : Int :=
  1 + c.dyna_nglbv + c.dyna_iu * c.dyna_numnp * c.dyna_ndim + wordPosition

/-- The local `start` of `read_states_acceleration`. -/
def acc_start (c : Control) (wordPosition : Int) : Int :=
  1 + c.dyna_nglbv + (c.dyna_iu + c.dyna_iv) * c.dyna_numnp * c.dyna_ndim + wordPosition

/-- The method `read_states_displacement`. -/
def read_states_displacement (d : D3plot) : Except Err D3plot :=
  if d.ctrl.dyna_iu ≠ 1 then .ok d
  else
    let start := disp_start d.ctrl d.wordPosition
    let wordsToRead := d.ctrl.dyna_numnp * d.ctrl.dyna_ndim
    match read_states_node_loop d.buffer d.ctrl.dyna_ndim Node.add_disp (start + wordsToRead)
        start d.db_nodes with
    | .error e => .error e
    | .ok nodes => .ok { d with db_nodes := nodes }

/-- The method `read_states_velocity`. -/
def read_states_velocity (d : D3plot) : Except Err D3plot :=
  if d.ctrl.dyna_iv ≠ 1 then .ok d
  else
    let start := vel_start d.ctrl d.wordPosition
    let wordsToRead := d.ctrl.dyna_numnp * d.ctrl.dyna_ndim
    match read_states_node_loop d.buffer d.ctrl.dyna_ndim Node.add_vel (start + wordsToRead)
        start d.db_nodes with
    | .error e => .error e
    | .ok nodes => .ok { d with db_nodes := nodes }

/-- The method `read_states_acceleration`. -/
def read_states_acceleration (d : D3plot) : Except Err D3plot :=
  if d.ctrl.dyna_ia ≠ 1 then .ok d
  else
    let start := acc_start d.ctrl d.wordPosition
    let wordsToRead := d.ctrl.dyna_numnp * d.ctrl.dyna_ndim
    match read_states_node_loop d.buffer d.ctrl.dyna_ndim Node.add_accel (start + wordsToRead)
        start d.db_nodes with
    | .error e => .error e
    | .ok nodes => .ok { d with db_nodes := nodes }

/-- The history loop of `read_states_elem8`: one value per requested index that
is within the limit `neiph`, read at `ii + 6 + index`. -/
def elem8_history (c : Control) (b : Buffer) (ii : Int) : List Int → Except Err (List F32)
  | [] => .ok []
  | idx :: idxs =>
    if idx > c.dyna_neiph then elem8_history c b ii idxs
    else
      match b.read_float (ii + 6 + idx) with
      | .error e => .error e
      | .ok x =>
        match elem8_history c b ii idxs with
        | .error e => .error e
        | .ok xs => .ok (x :: xs)

/-- The body of the loop of `read_states_elem8` for the solid whose record
starts at word `ii`. -/
def read_states_elem8_element (fa : FloatArith) (c : Control) (p : ReadPlan) (b : Buffer)
    (iState : Nat) (ii : Int) (element : Element) : Except Err Element := do
  let element ←
    (if p.stress_read ≠ 0 ∨ p.stress_mises_read ≠ 0 then
      match b.read_float_array ii 6 with
      | .error e => .error e
      | .ok tmp_vector =>
        .ok ((fun el : Element =>
              if p.stress_mises_read ≠ 0 then el.add_stress_mises (fa.mises_stress tmp_vector)
              else el)
            (if p.stress_read ≠ 0 then element.add_stress tmp_vector else element))
    else .ok element)
  let element ←
    (if p.plastic_strain_read ≠ 0 then
      match b.read_float (ii + 6) with
      | .error e => .error e
      | .ok x => .ok (element.add_plastic_strain x)
    else .ok element)
  let element ←
    (if c.dyna_istrn = 1 ∧ p.strain_read ≠ 0 then
      match b.read_float_array (ii + c.dyna_nv3d - 6) 6 with
      | .error e => .error e
      | .ok tmp_vector => .ok (element.add_strain tmp_vector)
    else .ok element)
  (if p.history_solid_read.length ≠ 0 then
    match elem8_history c b ii p.history_solid_read with
    | .error e => .error e
    | .ok history_vars => .ok (element.add_history_vars history_vars iState)
  else .ok element)

/-- The body of the loop of `read_states_elem8` with the step `ii += nv3d`. -/
def read_states_elem8_body (fa : FloatArith) (c : Control) (p : ReadPlan) (b : Buffer)
    (iState : Nat) (ii : Int) (_s : Unit) (element : Element) :
    Except Err (Element × Unit × Int) :=
  match read_states_elem8_element fa c p b iState ii element with
  | .error e => .error e
  | .ok element1 => .ok (element1, (), ii + c.dyna_nv3d)

/-- The loop `for (ii = start; ii < hi; ii += nv3d)` of `read_states_elem8` over
the solids of the database in index order. -/
def read_states_elem8_loop (fa : FloatArith) (c : Control) (p : ReadPlan) (b : Buffer)
    (iState : Nat) (hi : Int) (start : Int) (solids : List Element) : Except Err (List Element) :=
  db_loop (read_states_elem8_body fa c p b iState) hi start () solids

/-- The local `start` of `read_states_elem8`. -/
def elem8_start (c : Control) (wordPosition : Int) : Int :=
  wordPosition + 1 + c.dyna_nglbv + (c.dyna_iu + c.dyna_iv + c.dyna_ia) * c.dyna_numnp * c.dyna_ndim

/-- The method `read_states_elem8`. -/
def read_states_elem8 (fa : FloatArith) (iState : Nat) (d : D3plot) : Except Err D3plot :=
  if d.ctrl.dyna_nv3d ≤ 0 ∧ d.ctrl.dyna_nel8 ≤ 0 then .ok d
  else
    let start := elem8_start d.ctrl d.wordPosition
    let wordsToRead := d.ctrl.dyna_nv3d * d.ctrl.dyna_nel8
    match read_states_elem8_loop fa d.ctrl d.plan d.buffer iState (start + wordsToRead) start
        d.db_solids with
    | .error e => .error e
    | .ok solids => .ok { d with db_solids := solids }

/-- The float `0.f`. -/
def zero_f : F32 := F32.mk 0

/-- The float `2.f`. -/
def two_f : F32 := F32.mk 0x40000000

/-- The layer index `(int32_t)(dyna_maxint_float / 2.f)` of the mid layer (for
`maxint` below `2^24`, where the conversion to float is exact). -/
def mid_layer (c : Control) : Int := Int.tdiv c.dyna_maxint 2

/-- The variables of `read_states_elem4` that are reduced over the layers of a
shell. -/
structure LayerVars where
  plastic_strain : F32
  tmp_vec_stress : List F32
  stress_mises : F32
  history_vars : List F32

/-- The block "LAYER: PLASTIC_STRAIN" of the layer loop: the new value of the
local `plastic_strain`. -/
def elem4_layer_plastic_strain (fa : FloatArith) (c : Control) (p : ReadPlan) (b : Buffer)
    (iLayer layerStart : Int) (plastic_strain : F32) : Except Err F32 :=
  if p.plastic_strain_read ≠ 0 ∧ c.dyna_ioshl2 ≠ 0 then
    match b.read_float (layerStart + c.dyna_ioshl1 * 6) with
    | .error e => .error e
    | .ok _tmp =>
      .ok (
        if iLayer = 0 then _tmp
        else if p.plastic_strain_read = 1 then
          (if fa.gt plastic_strain _tmp then plastic_strain else _tmp)
        else if p.plastic_strain_read = 2 then
          (if fa.lt plastic_strain _tmp then plastic_strain else _tmp)
        else if p.plastic_strain_read = 3 then
          (if iLayer = c.dyna_maxint - 1 then _tmp else plastic_strain)
        else if p.plastic_strain_read = 4 then
          (if iLayer = mid_layer c then _tmp else plastic_strain)
        else if p.plastic_strain_read = 5 then plastic_strain
        else if p.plastic_strain_read = 6 then
          (if iLayer = c.dyna_maxint - 1
           then fa.div (fa.add plastic_strain _tmp) (fa.ofInt c.dyna_maxint)
           else fa.add plastic_strain _tmp)
        else plastic_strain)
  else .ok plastic_strain

/-- The `switch (this->stress_read)` of the layer loop for a layer other than
the first: the new value of `tmp_vec_stress`. -/
def elem4_switch_stress (fa : FloatArith) (c : Control) (p : ReadPlan) (iLayer : Int)
    (tmp_vec6 tmp_vec_stress : List F32) : List F32 :=
  if p.stress_read = 1 then
    List.zipWith (fun x s => if fa.gt x s then x else s) tmp_vec6 tmp_vec_stress
  else if p.stress_read = 2 then
    List.zipWith (fun x s => if fa.lt x s then x else s) tmp_vec6 tmp_vec_stress
  else if p.stress_read = 3 then
    (if iLayer = c.dyna_maxint - 1 then tmp_vec6 else tmp_vec_stress)
  else if p.stress_read = 4 then
    (if iLayer = mid_layer c then tmp_vec6 else tmp_vec_stress)
  else if p.stress_read = 5 then tmp_vec_stress
  else if p.stress_read = 6 then
    (if iLayer = c.dyna_maxint - 1
     then List.zipWith (fun x s => fa.div (fa.add s x) (fa.ofInt c.dyna_maxint)) tmp_vec6
       tmp_vec_stress
     else List.zipWith (fun x s => fa.add s x) tmp_vec6 tmp_vec_stress)
  else tmp_vec_stress

/-- The `switch (this->stress_mises_read)` of the layer loop for a layer other
than the first: the new value of `stress_mises`. -/
def elem4_switch_mises (fa : FloatArith) (c : Control) (p : ReadPlan) (iLayer : Int)
    (tmp_vec6 : List F32) (stress_mises : F32) : F32 :=
  if p.stress_mises_read = 1 then
    (if fa.gt (fa.mises_stress tmp_vec6) stress_mises then fa.mises_stress tmp_vec6
     else stress_mises)
  else if p.stress_mises_read = 2 then
    (if fa.lt (fa.mises_stress tmp_vec6) stress_mises then fa.mises_stress tmp_vec6
     else stress_mises)
  else if p.stress_mises_read = 3 then
    (if iLayer = c.dyna_maxint - 1 then fa.mises_stress tmp_vec6 else stress_mises)
  else if p.stress_mises_read = 4 then
    (if iLayer = mid_layer c then fa.mises_stress tmp_vec6 else stress_mises)
  else if p.stress_mises_read = 5 then stress_mises
  else if p.stress_mises_read = 6 then
    (if iLayer = c.dyna_maxint - 1
     then fa.div (fa.add stress_mises (fa.mises_stress tmp_vec6)) (fa.ofInt c.dyna_maxint)
     else fa.add stress_mises (fa.mises_stress tmp_vec6))
  else stress_mises

/-- The block "LAYER: STRESS TENSOR AND MISES" of the layer loop: the new
values of `tmp_vec_stress` and `stress_mises`. -/
def elem4_layer_stress (fa : FloatArith) (c : Control) (p : ReadPlan) (b : Buffer)
    (iLayer layerStart : Int) (tmp_vec_stress : List F32) (stress_mises : F32) :
    Except Err (List F32 × F32) :=
  if (p.stress_read ≠ 0 ∨ p.stress_mises_read ≠ 0) ∧ c.dyna_ioshl1 ≠ 0 then
    match b.read_float_array layerStart 6 with
    | .error e => .error e
    | .ok tmp_vec6 =>
      if iLayer = 0 then .ok (tmp_vec6, fa.mises_stress tmp_vec6)
      else .ok (elem4_switch_stress fa c p iLayer tmp_vec6 tmp_vec_stress,
                elem4_switch_mises fa c p iLayer tmp_vec6 stress_mises)
  else .ok (tmp_vec_stress, stress_mises)

/-- The body of the loop "LAYERS: HISTORY SHELL" for one requested index `idx`
with mode `mode`: the new value of `history_vars[jj]`. -/
def elem4_layer_history_entry (fa : FloatArith) (c : Control) (b : Buffer)
    (iLayer layerStart : Int) (idx mode : Int) (v : F32) : Except Err F32 :=
  if idx > c.dyna_neips then .ok v
  else if mode = 1 then
    match b.read_float (layerStart + 6 + idx) with
    | .error e => .error e
    | .ok _tmp => .ok (if iLayer = 0 then _tmp else if fa.gt _tmp v then _tmp else v)
  else if mode = 2 then
    match b.read_float (layerStart + 6 + idx) with
    | .error e => .error e
    | .ok _tmp => .ok (if iLayer = 0 then _tmp else if fa.lt _tmp v then _tmp else v)
  else if mode = 3 ∧ iLayer = c.dyna_maxint - 1 then b.read_float (layerStart + 6 + idx)
  else if mode = 4 ∧ iLayer = mid_layer c then b.read_float (layerStart + 6 + idx)
  else if mode = 5 ∧ iLayer = 1 then b.read_float (layerStart + 6 + idx)
  else if mode = 6 then
    match b.read_float (layerStart + 6 + idx) with
    | .error e => .error e
    | .ok x =>
      .ok (if iLayer = c.dyna_maxint - 1 then fa.div (fa.add v x) (fa.ofInt c.dyna_maxint)
           else fa.add v x)
  else .ok v

/-- The loop "LAYERS: HISTORY SHELL" over `history_shell_read`,
`history_shell_mode` and `history_vars` in step. -/
def elem4_layer_history (fa : FloatArith) (c : Control) (b : Buffer) (iLayer layerStart : Int) :
    List Int → List Int → List F32 → Except Err (List F32)
  | [], _, vs => .ok vs
  | _ :: _, [], _ => .error .index_error
  | _ :: _, _ :: _, [] => .error .index_error
  | idx :: idxs, mode :: modes, v :: vs =>
    match elem4_layer_history_entry fa c b iLayer layerStart idx mode v with
    | .error e => .error e
    | .ok v1 =>
      match elem4_layer_history fa c b iLayer layerStart idxs modes vs with
      | .error e => .error e
      | .ok vs1 => .ok (v1 :: vs1)

/-- The body of the loop over the layers for layer `iLayer` of the shell whose
record starts at `ii`. -/
def elem4_layer (fa : FloatArith) (c : Control) (p : ReadPlan) (b : Buffer) (ii iLayer : Int)
    (lv : LayerVars) : Except Err LayerVars := do
  let iLayerSize := c.dyna_neips + (c.dyna_ioshl1 * 6 + c.dyna_ioshl2)
  let layerStart := ii + iLayer * iLayerSize
  let plastic_strain ← elem4_layer_plastic_strain fa c p b iLayer layerStart lv.plastic_strain
  let sm ← elem4_layer_stress fa c p b iLayer layerStart lv.tmp_vec_stress lv.stress_mises
  let history_vars ← elem4_layer_history fa c b iLayer layerStart p.history_shell_read
    p.history_shell_mode lv.history_vars
  pure { plastic_strain := plastic_strain, tmp_vec_stress := sm.1, stress_mises := sm.2,
         history_vars := history_vars }

/-- The loop `for (iLayer = ...; iLayer < dyna_maxint; ++iLayer)` with `n` layers
to go. -/
def elem4_layers (fa : FloatArith) (c : Control) (p : ReadPlan) (b : Buffer) (ii : Int) :
    Nat → Int → LayerVars → Except Err LayerVars
  | 0, _, lv => .ok lv
  | n + 1, iLayer, lv =>
    match elem4_layer fa c p b ii iLayer lv with
    | .error e => .error e
    | .ok lv1 => elem4_layers fa c p b ii n (iLayer + 1) lv1

/-- The block "STRAIN TENSOR" of `read_states_elem4`: the strain stored for
the shell whose record starts at `ii`. -/
def elem4_strain (fa : FloatArith) (c : Control) (p : ReadPlan) (b : Buffer) (ii : Int) :
    Except Err (List F32) :=
  let strainStart := if c.dyna_nv2d ≥ 45 then ii + c.dyna_nv2d - 13 else ii + c.dyna_nv2d - 12
  if p.strain_read = 1 then do
    let s1 ← b.read_float_array strainStart 6
    let s2 ← b.read_float_array (strainStart + 6) 6
    pure (List.zipWith (fun x y => if fa.gt x y then x else y) s1 s2)
  else if p.strain_read = 2 then do
    let s1 ← b.read_float_array strainStart 6
    let s2 ← b.read_float_array (strainStart + 6) 6
    pure (List.zipWith (fun x y => if fa.lt x y then x else y) s1 s2)
  else if p.strain_read = 3 then b.read_float_array (strainStart + 6) 6
  else if p.strain_read = 5 then b.read_float_array strainStart 6
  else if p.strain_read = 6 ∨ p.strain_read = 4 then do
    let s1 ← b.read_float_array strainStart 6
    let s2 ← b.read_float_array (strainStart + 6) 6
    pure (List.zipWith (fun x y => fa.div (fa.add x y) two_f) s1 s2)
  else .ok (List.replicate 6 zero_f)

/-- The body of the loop of `read_states_elem4` for a shell that is not rigid
and whose record starts at `ii`; `tmp_vec_stress` is the value the local of
that name has when the body starts.  The result is the element and the value
of `tmp_vec_stress` after the body. -/
def read_states_elem4_element (fa : FloatArith) (c : Control) (p : ReadPlan) (b : Buffer)
    (iState : Nat) (ii : Int) (tmp_vec_stress : List F32) (element : Element) :
    Except Err (Element × List F32) := do
  let lv ← elem4_layers fa c p b ii c.dyna_maxint.toNat 0
    { plastic_strain := zero_f, tmp_vec_stress := tmp_vec_stress, stress_mises := zero_f,
      history_vars := List.replicate p.history_shell_read.length zero_f }
  let element :=
    if c.dyna_istrn ≠ 0 ∧ p.plastic_strain_read ≠ 0
    then element.add_plastic_strain lv.plastic_strain else element
  let element := if p.stress_read ≠ 0 then element.add_stress lv.tmp_vec_stress else element
  let element :=
    if p.stress_mises_read ≠ 0 then element.add_stress_mises lv.stress_mises else element
  let element :=
    if p.history_shell_read.length ≠ 0 then element.add_history_vars lv.history_vars iState
    else element
  let element ←
    (if c.dyna_istrn = 1 ∧ p.strain_read ≠ 0 then
      match elem4_strain fa c p b ii with
      | .error e => .error e
      | .ok strain => .ok (element.add_strain strain)
    else .ok element)
  let element ←
    (if p.energy_read ≠ 0 ∧ c.dyna_ioshl4 ≠ 0 then
      if c.dyna_istrn = 1 then
        if c.dyna_nv2d ≥ 45 then
          match b.read_float (ii + c.dyna_nv2d - 1) with
          | .error e => .error e
          | .ok x => .ok (element.add_energy x)
        else .ok element
      else
        match b.read_float (ii + c.dyna_nv2d - 1) with
        | .error e => .error e
        | .ok x => .ok (element.add_energy x)
    else .ok element)
  pure (element, lv.tmp_vec_stress)

/-- The body of the loop `for (ii = start; ii < hi; ++iElement)` of
`read_states_elem4`: a rigid shell is skipped without advancing `ii`, every
other shell is read and advances `ii` by `nv2d`.  The local carried across the
iterations is `tmp_vec_stress`. -/
def read_states_elem4_body (fa : FloatArith) (c : Control) (p : ReadPlan) (b : Buffer)
    (iState : Nat) (ii : Int) (tmp_vec_stress : List F32) (element : Element) :
    Except Err (Element × List F32 × Int) :=
  if element.get_is_rigid then .ok (element, tmp_vec_stress, ii)
  else
    match read_states_elem4_element fa c p b iState ii tmp_vec_stress element with
    | .error e => .error e
    | .ok et => .ok (et.1, et.2, ii + c.dyna_nv2d)

/-- The loop `for (ii = start; ii < hi; ++iElement)` of `read_states_elem4` over
the shells of the database in index order. -/
def read_states_elem4_loop (fa : FloatArith) (c : Control) (p : ReadPlan) (b : Buffer)
    (iState : Nat) (hi : Int) (start : Int) (tmp_vec_stress : List F32) (shells : List Element) :
    Except Err (List Element) :=
  db_loop (read_states_elem4_body fa c p b iState) hi start tmp_vec_stress shells

/-- The local `start` of `read_states_elem4`. -/
def elem4_start (c : Control) (wordPosition : Int) : Int :=
  wordPosition + 1 + c.dyna_nglbv + (c.dyna_iu + c.dyna_iv + c.dyna_ia) * c.dyna_numnp * c.dyna_ndim
    + c.dyna_nv3d * c.dyna_nel8 + c.dyna_nv1d * c.dyna_nel2

/-- The method `read_states_elem4`. -/
def read_states_elem4 (fa : FloatArith) (iState : Nat) (d : D3plot) : Except Err D3plot :=
  if d.ctrl.dyna_istrn ≠ 1 ∧ d.ctrl.dyna_nv2d ≤ 0 ∧ d.ctrl.dyna_nel4 - d.ctrl.dyna_numrbe > 0 then
    .ok d
  else
    let start := elem4_start d.ctrl d.wordPosition
    let wordsToRead := d.ctrl.dyna_nv2d * (d.ctrl.dyna_nel4 - d.ctrl.dyna_numrbe)
    match read_states_elem4_loop fa d.ctrl d.plan d.buffer iState (start + wordsToRead) start
        (List.replicate 6 zero_f) d.db_shells with
    | .error e => .error e
    | .ok shells => .ok { d with db_shells := shells }

/-- The number of words of one state record,
`nVarsNodes + nVarsElems + nDeletionVars + dyna_nglbv + 1`. -/
def state_length (c : Control) (nDeletionVars : Int) : Int :=
  c.dyna_ndim * (c.dyna_iu + c.dyna_iv + c.dyna_ia) * c.dyna_numnp
    + (c.dyna_nel2 * c.dyna_nv1d + (c.dyna_nel4 - c.dyna_numrbe) * c.dyna_nv2d
        + c.dyna_nel8 * c.dyna_nv3d)
    + nDeletionVars + c.dyna_nglbv + 1

/-- The size of the deletion table of a state, by `mdlopt`. -/
def deletion_vars (c : Control) : Except Err Int :=
  if c.dyna_mdlopt = 0 then .ok 0
  else if c.dyna_mdlopt = 1 then .ok c.dyna_numnp
  else if c.dyna_mdlopt = 2 then .ok (c.dyna_nel2 + c.dyna_nel4 + c.dyna_nel8 + c.dyna_nelth)
  else .error (Err.runtime_error "Parameter mdlopt makes no sense.")

/-- The test of `read_states` that the plan asks for an element variable. -/
def wants_elements (p : ReadPlan) : Prop :=
  p.stress_read ≠ 0 ∨ p.stress_mises_read ≠ 0 ∨ p.strain_read ≠ 0 ∨ p.energy_read ≠ 0 ∨
  p.plastic_strain_read ≠ 0 ∨ p.history_shell_read.length ≠ 0 ∨ p.history_solid_read.length ≠ 0

instance (p : ReadPlan) : Decidable (wants_elements p) := by
  unfold wants_elements; infer_instance

/-- The test of `read_states` that the plan asks for nothing. -/
def plan_is_empty (p : ReadPlan) : Prop :=
  p.disp_read + p.vel_read + p.acc_read + p.plastic_strain_read + p.energy_read + p.strain_read
    + p.stress_read + p.stress_mises_read + (p.history_shell_read.length : Int)
    + (p.history_solid_read.length : Int) = 0

instance (p : ReadPlan) : Decidable (plan_is_empty p) := by
  unfold plan_is_empty; infer_instance

/-- The body of the loop "Loop through states" of `read_states` for the state
at the current word position, up to the update of the position. -/
def read_states_state (fa : FloatArith) (timesteps_read : Bool) (iState : Nat) (d : D3plot) :
    Except Err D3plot := do
  let d ←
    (if timesteps_read then
      match d.buffer.read_float d.wordPosition with
      | .error e => .error e
      | .ok state_time => .ok { d with timesteps := d.timesteps ++ [state_time] }
    else .ok d)
  let d ← (if d.ctrl.dyna_iu ≠ 0 ∧ d.plan.disp_read ≠ 0 then d.read_states_displacement
    else .ok d)
  let d ← (if d.ctrl.dyna_iv ≠ 0 ∧ d.plan.vel_read ≠ 0 then d.read_states_velocity else .ok d)
  let d ← (if d.ctrl.dyna_ia ≠ 0 ∧ d.plan.acc_read ≠ 0 then d.read_states_acceleration
    else .ok d)
  (if wants_elements d.plan then
    match d.read_states_elem4 fa iState with
    | .error e => .error e
    | .ok d1 => d1.read_states_elem8 fa iState
  else .ok d)

/-- The loop `while (!isFileEnding(wordPosition))` of `read_states` over the
states of the loaded segment, with fuel; `len` is the length of a state
record.  The result is the reader and the counter `iState`. -/
def read_states_loop (fa : FloatArith) (len : Int) (timesteps_read : Bool) :
    Nat → Nat → D3plot → Except Err (D3plot × Nat)
  | 0, _, _ => .error .out_of_fuel
  | fuel + 1, iState, d =>
    match d.isFileEnding d.wordPosition with
    | .error e => .error e
    | .ok true => .ok (d, iState)
    | .ok false =>
      match read_states_state fa timesteps_read iState d with
      | .error e => .error e
      | .ok d1 =>
        read_states_loop fa len timesteps_read fuel (iState + 1)
          { d1 with wordPosition := d1.wordPosition + len }

/-- The head of the loop "Loop over state files" of `read_states`: the next
segment is loaded and the word position set. -/
def read_states_segment_head (firstFileDone : Bool) (d : D3plot) : Except Err D3plot := do
  let d := { d with buffer := d.buffer.read_nextState }
  let d := if d.useFemzip = false ∧ firstFileDone = true then { d with wordPosition := 0 } else d
  (if d.useFemzip then
    match d.buffer.read_int 2 with
    | .error e => .error e
    | .ok dyna_numprop_states =>
      if d.ctrl.dyna_numprop ≠ dyna_numprop_states then
        .error (Err.runtime_error "Numprop in geometry section != numprop in states section!")
      else .ok { d with wordPosition := 1 + (1 + (d.ctrl.dyna_numprop + 1) * 19 + 1) }
  else .ok d)

/-- The loop `while (this->buffer->has_nextState())` of `read_states`; the list
holds the segments the buffer has not delivered yet (`buffer.pending`). -/
def read_states_files (fa : FloatArith) (fuel : Nat) (len : Int) (timesteps_read : Bool) :
    List (List Nat) → Bool → Nat → D3plot → Except Err (D3plot × Nat)
  | [], _, iState, d => .ok (d, iState)
  | _ :: rest, firstFileDone, iState, d =>
    match read_states_segment_head firstFileDone d with
    | .error e => .error e
    | .ok d1 =>
      match read_states_loop fa len timesteps_read fuel iState d1 with
      | .error e => .error e
      | .ok r => read_states_files fa fuel len timesteps_read rest true r.2 r.1

/-- The block "Set, which variables were read" at the end of `read_states`.
There is no statement for `acc_is_read`. -/
def set_loaded (p : ReadPlan) (l : Loaded) : Loaded :=
  { l with
    disp_is_read := if p.disp_read ≠ 0 then true else l.disp_is_read,
    vel_is_read := if p.vel_read ≠ 0 then true else l.vel_is_read,
    plastic_strain_is_read :=
      if p.plastic_strain_read ≠ 0 then true else l.plastic_strain_is_read,
    energy_is_read := if p.energy_read ≠ 0 then true else l.energy_is_read,
    strain_is_read := if p.strain_read ≠ 0 then true else l.strain_is_read,
    stress_is_read := if p.stress_read ≠ 0 then true else l.stress_is_read,
    stress_mises_is_read := if p.stress_mises_read ≠ 0 then true else l.stress_mises_is_read,
    history_shell_is_read := l.history_shell_is_read ++ p.history_shell_read,
    history_solid_is_read := l.history_solid_is_read ++ p.history_solid_read }

/-- The block "Calc wordPositions" of `read_states`: the first time the segments
are initialised and the position of the states is recorded, afterwards the
segments are rewound and the position is restored. -/
def read_states_rewind (d : D3plot) : D3plot :=
  if d.timesteps.length < 1
  then { d with buffer := d.buffer.init_nextState, wordPositionStates := d.wordPosition }
  else { d with buffer := d.buffer.rewind_nextState, wordPosition := d.wordPositionStates }

/-- The part of `read_states` after the plan is known not to be empty (or the
timestep table to be empty): the walk over the segments and the update of the
flags. -/
def read_states_run (fa : FloatArith) (fuel : Nat) (d : D3plot) : Except Err D3plot :=
  match deletion_vars d.ctrl with
  | .error e => .error e
  | .ok nDeletionVars =>
    match read_states_files fa fuel (state_length d.ctrl nDeletionVars)
        (decide (d.timesteps.length < 1)) d.read_states_rewind.buffer.pending false 0
        d.read_states_rewind with
    | .error e => .error e
    | .ok r =>
      .ok { r.1 with buffer := r.1.buffer.end_nextState, loaded := set_loaded r.1.plan r.1.loaded }

/-- The method `read_states`. -/
def read_states (fa : FloatArith) (fuel : Nat) (_variables : List String) (d : D3plot) :
    Except Err D3plot := do
  throw_if (_variables.length < 1 ∧ d.timesteps.length > 0)
    (Err.invalid_argument "The list of state variables to load is empty.")
  let plan ← read_states_parse d.ctrl d.loaded _variables
  let d := { d with plan := plan }
  (if plan_is_empty d.plan ∧ d.timesteps.length ≠ 0 then .ok d
   else read_states_run fa fuel d)

/-! ## Clearing -/

/-- The booleans `delete_*` of `clear`. -/
structure ClearFlags where
  delete_disp : Bool
  delete_vel : Bool
  delete_accel : Bool
  delete_energy : Bool
  delete_plastic_strain : Bool
  delete_strain : Bool
  delete_stress : Bool
  delete_stress_mises : Bool
  delete_history_shell : Bool
  delete_history_solid : Bool
deriving DecidableEq, Repr

/-- Nothing is to be deleted. -/
def ClearFlags.init : ClearFlags :=
  { delete_disp := false, delete_vel := false, delete_accel := false, delete_energy := false,
    delete_plastic_strain := false, delete_strain := false, delete_stress := false,
    delete_stress_mises := false, delete_history_shell := false, delete_history_solid := false }

/-- The loop of `clear` that converts the strings to booleans. -/
def clear_flags : ClearFlags → List String → Except Err ClearFlags
  | f, [] => .ok f
  | f, v :: vs =>
    if str_contains v "disp" then clear_flags { f with delete_disp := true } vs
    else if str_contains v "vel" then clear_flags { f with delete_vel := true } vs
    else if str_contains v "accel" then clear_flags { f with delete_accel := true } vs
    else if str_contains v "energy" then clear_flags { f with delete_energy := true } vs
    else if str_contains v "plastic_strain" then
      clear_flags { f with delete_plastic_strain := true } vs
    else if str_contains v "strain" then clear_flags { f with delete_strain := true } vs
    else if str_contains v "stress_mises" then
      clear_flags { f with delete_stress_mises := true } vs
    else if str_contains v "stress" then clear_flags { f with delete_stress := true } vs
    else if str_contains v "history" then
      if str_contains v "shell" then clear_flags { f with delete_history_shell := true } vs
      else if str_contains v "solid" then clear_flags { f with delete_history_solid := true } vs
      else clear_flags { f with delete_history_shell := true, delete_history_solid := true } vs
    else .error (Err.invalid_argument "Unknown variable type")

/-- The deletion of `clear` on one node. -/
def clear_node (f : ClearFlags) (n : Node) : Node :=
  (fun n : Node => if f.delete_accel then n.clear_accel else n)
    ((fun n : Node => if f.delete_vel then n.clear_vel else n)
      (if f.delete_disp then n.clear_disp else n))

/-- The deletion of `clear` on one element; `hist` is `delete_history_shell`
for a shell and `delete_history_solid` for a solid. -/
def clear_element (f : ClearFlags) (hist : Bool) (e : Element) : Element :=
  (fun e : Element => if hist then e.clear_history_vars else e)
    ((fun e : Element => if f.delete_stress_mises then e.clear_stress_mises else e)
      ((fun e : Element => if f.delete_stress then e.clear_stress else e)
        ((fun e : Element => if f.delete_strain then e.clear_strain else e)
          ((fun e : Element => if f.delete_plastic_strain then e.clear_plastic_strain else e)
            (if f.delete_energy then e.clear_energy else e)))))

/-- The deletion part of `clear`, once the booleans are known. -/
def clear_apply (f : ClearFlags) (d : D3plot) : D3plot :=
  let d :=
    if f.delete_disp ∨ f.delete_vel ∨ f.delete_accel then
      { d with
        db_nodes := d.db_nodes.map (clear_node f),
        loaded := { d.loaded with
          disp_is_read := if f.delete_disp then false else d.loaded.disp_is_read,
          vel_is_read := if f.delete_vel then false else d.loaded.vel_is_read,
          acc_is_read := if f.delete_accel then false else d.loaded.acc_is_read } }
    else d
  if f.delete_energy ∨ f.delete_plastic_strain ∨ f.delete_strain ∨ f.delete_stress ∨
      f.delete_stress_mises ∨ f.delete_history_shell ∨ f.delete_history_solid then
    { d with
      db_shells := d.db_shells.map (clear_element f f.delete_history_shell),
      db_solids := d.db_solids.map (clear_element f f.delete_history_solid),
      loaded := { d.loaded with
        energy_is_read := if f.delete_energy then false else d.loaded.energy_is_read,
        plastic_strain_is_read :=
          if f.delete_plastic_strain then false else d.loaded.plastic_strain_is_read,
        strain_is_read := if f.delete_strain then false else d.loaded.strain_is_read,
        stress_is_read := if f.delete_stress then false else d.loaded.stress_is_read,
        stress_mises_is_read :=
          if f.delete_stress_mises then false else d.loaded.stress_mises_is_read,
        history_shell_is_read :=
          if f.delete_history_shell then [] else d.loaded.history_shell_is_read,
        history_solid_is_read :=
          if f.delete_history_solid then [] else d.loaded.history_solid_is_read } }
  else d

/-- The method `clear`. -/
def clear (_variables : List String) (d : D3plot) : Except Err D3plot :=
  match clear_flags ClearFlags.init
      (if _variables.length = 0 then
        ["disp", "vel", "accel", "energy", "plastic_strain", "strain", "stress", "stress_mises",
         "history shell", "history solid"]
       else _variables) with
  | .error e => .error e
  | .ok f => .ok (clear_apply f d)

/-! ## The constructor -/

/-- The constructor `D3plot::D3plot(filename, state_variables, useFemzip)` on
the buffer of the file. -/
def new (fa : FloatArith) (fuel : Nat) (buffer : Buffer) (_state_variables : List String)
    (_useFemzip : Bool) : Except Err D3plot := do
  let d := D3plot.init buffer.read_geometryBuffer _useFemzip
  let d ← d.read_header
  let d ← d.read_matsection
  let d ← d.read_geometry
  d.read_states fa fuel _state_variables

/-- The stage of the constructor before the states are read: header, material
section and geometry. -/
def open_geometry (buffer : Buffer) (_useFemzip : Bool) : Except Err D3plot := do
  let d := D3plot.init buffer.read_geometryBuffer _useFemzip
  let d ← d.read_header
  let d ← d.read_matsection
  d.read_geometry

end D3plot

/-! ## The primitive variables and what the store holds for them -/

/-- The eight primitive result variables. -/
inductive Var where
  | disp | vel | accel | energy | plastic_strain | strain | stress | stress_mises
deriving DecidableEq, Repr

namespace Var

/-- The request code of a variable in a plan. -/
def entry (v : Var) (p : ReadPlan) : Int :=
  match v with
  | disp => p.disp_read
  | vel => p.vel_read
  | accel => p.acc_read
  | energy => p.energy_read
  | plastic_strain => p.plastic_strain_read
  | strain => p.strain_read
  | stress => p.stress_read
  | stress_mises => p.stress_mises_read

/-- The loaded-flag of a variable. -/
def flag (v : Var) (l : Loaded) : Bool :=
  match v with
  | disp => l.disp_is_read
  | vel => l.vel_is_read
  | accel => l.acc_is_read
  | energy => l.energy_is_read
  | plastic_strain => l.plastic_strain_is_read
  | strain => l.strain_is_read
  | stress => l.stress_is_read
  | stress_mises => l.stress_mises_is_read

/-- The variable a request string names for `read_states_parse`: the first
match in the order of its tests (`none` for a history request or an unknown
string). -/
def classify (s : String) : Option Var :=
  if D3plot.str_contains s "disp" then some disp
  else if D3plot.str_contains s "vel" then some vel
  else if D3plot.str_contains s "accel" then some accel
  else if D3plot.str_contains s "stress_mises" then some stress_mises
  else if D3plot.str_contains s "stress" then some stress
  else if D3plot.str_contains s "plastic_strain" then some plastic_strain
  else if D3plot.str_contains s "strain" then some strain
  else if D3plot.str_contains s "energy" then some energy
  else none

/-- The variable a request string names for `clear`: the first match in the
order of its tests. -/
def classify_clear (s : String) : Option Var :=
  if D3plot.str_contains s "disp" then some disp
  else if D3plot.str_contains s "vel" then some vel
  else if D3plot.str_contains s "accel" then some accel
  else if D3plot.str_contains s "energy" then some energy
  else if D3plot.str_contains s "plastic_strain" then some plastic_strain
  else if D3plot.str_contains s "strain" then some strain
  else if D3plot.str_contains s "stress_mises" then some stress_mises
  else if D3plot.str_contains s "stress" then some stress
  else none

/-- The plan `p` with the request code of the variable `v` set to `code`. -/
def request (v : Var) (code : Int) (p : ReadPlan) : ReadPlan :=
  match v with
  | disp => { p with disp_read := code }
  | vel => { p with vel_read := code }
  | accel => { p with acc_read := code }
  | energy => { p with energy_read := code }
  | plastic_strain => { p with plastic_strain_read := code }
  | strain => { p with strain_read := code }
  | stress => { p with stress_read := code }
  | stress_mises => { p with stress_mises_read := code }

/-- The test of `read_states_parse` that the file holds the variable. -/
def present (v : Var) (c : Control) : Prop :=
  match v with
  | disp => c.dyna_iu ≠ 0
  | vel => c.dyna_iv ≠ 0
  | accel => c.dyna_ia ≠ 0
  | strain => c.dyna_istrn ≠ 0
  | energy => c.dyna_ioshl4 ≠ 0
  | _ => True

/-- The variable is stored on the nodes and is read from the file: the header
flag of a node variable is exactly 1. -/
def on_nodes (v : Var) (c : Control) : Prop :=
  match v with
  | disp => c.dyna_iu = 1
  | vel => c.dyna_iv = 1
  | accel => c.dyna_ia = 1
  | _ => False

/-- The variable is stored on the shells and every state adds a value of it to
every shell that is not rigid. -/
def on_shells (v : Var) (c : Control) : Prop :=
  0 < c.dyna_nv2d ∧
  match v with
  | stress => True
  | stress_mises => True
  | plastic_strain => c.dyna_istrn ≠ 0
  | strain => c.dyna_istrn = 1
  | energy => c.dyna_ioshl4 ≠ 0 ∧ (c.dyna_istrn = 1 → c.dyna_nv2d ≥ 45)
  | _ => False

/-- The variable is stored on the solids and every state adds a value of it to
every solid. -/
def on_solids (v : Var) (c : Control) : Prop :=
  0 < c.dyna_nv3d ∧
  match v with
  | stress => True
  | stress_mises => True
  | plastic_strain => True
  | strain => c.dyna_istrn = 1
  | _ => False

end Var

/-- The part of a plan that asks for node variables. -/
def ReadPlan.node_part (p : ReadPlan) : Int × Int × Int := (p.disp_read, p.vel_read, p.acc_read)

/-- The part of a plan that asks for element variables. -/
def ReadPlan.elem_part (p : ReadPlan) : Int × Int × Int × Int × Int × List Int × List Int :=
  (p.energy_read, p.plastic_strain_read, p.strain_read, p.stress_read, p.stress_mises_read,
    p.history_shell_read, p.history_solid_read)

/-- The variable is stored on the nodes. -/
def Var.is_nodal (v : Var) : Prop := v = Var.disp ∨ v = Var.vel ∨ v = Var.accel

/-- Every request code of a plan is a read mode or zero. -/
def ReadPlan.nonneg (p : ReadPlan) : Prop :=
  0 ≤ p.disp_read ∧ 0 ≤ p.vel_read ∧ 0 ≤ p.acc_read ∧ 0 ≤ p.plastic_strain_read ∧
  0 ≤ p.energy_read ∧ 0 ≤ p.strain_read ∧ 0 ≤ p.stress_read ∧ 0 ≤ p.stress_mises_read

/-- The result vector a node holds for a variable (one entry per state read). -/
def Node.view (v : Var) (n : Node) : List (List F32) :=
  match v with
  | .disp => n.disp
  | .vel => n.vel
  | .accel => n.accel
  | _ => []

/-- The result vector an element holds for a variable (one entry per state
read; a scalar is a one-component entry). -/
def Element.view (v : Var) (e : Element) : List (List F32) :=
  match v with
  | .energy => e.energy.map (fun x => [x])
  | .plastic_strain => e.plastic_strain.map (fun x => [x])
  | .strain => e.strain
  | .stress => e.stress
  | .stress_mises => e.stress_mises.map (fun x => [x])
  | _ => []

/-- The number of entries a node holds for a variable. -/
def Node.size (v : Var) (n : Node) : Nat := (n.view v).length

/-- The number of entries an element holds for a variable. -/
def Element.size (v : Var) (e : Element) : Nat := (e.view v).length

/-- The rigid flag of a shell with a size that is `k` larger when the shell is
not rigid. -/
def grow_shell (k : Nat) (x : Bool × Nat) : Bool × Nat := (x.1, x.2 + if x.1 = true then 0 else k)

/-- A guarded pass over a database: when `cond` holds the pass `run` gave
`xs1`, otherwise the database `xs` is unchanged. -/
def Phase {α : Type} (cond : Prop) (run : Except Err (List α)) (xs xs1 : List α) : Prop :=
  (cond ∧ run = .ok xs1) ∨ (¬ cond ∧ xs1 = xs)

/-- What `read_states_elem8` appends to the view of the variable `v` of the
solid whose record starts at `ii`, when the plan holds the request code `code`
for `v`: the slice of the solid body for one variable. -/
def elem8_delta (fa : FloatArith) (c : Control) (b : Buffer) (ii : Int) (v : Var) (code : Int) :
    List (List F32) :=
  match v with
  | .stress =>
    if code ≠ 0 then
      match b.read_float_array ii 6 with
      | .ok t => [t]
      | .error _ => []
    else []
  | .stress_mises =>
    if code ≠ 0 then
      match b.read_float_array ii 6 with
      | .ok t => [[fa.mises_stress t]]
      | .error _ => []
    else []
  | .plastic_strain =>
    if code ≠ 0 then
      match b.read_float (ii + 6) with
      | .ok x => [[x]]
      | .error _ => []
    else []
  | .strain =>
    if c.dyna_istrn = 1 ∧ code ≠ 0 then
      match b.read_float_array (ii + c.dyna_nv3d - 6) 6 with
      | .ok t => [t]
      | .error _ => []
    else []
  | _ => []

/-- What `read_states_elem4` appends to the view of the variable `v` of the
shell (not rigid) whose record starts at `ii`, when the plan holds the request
code `code` for `v` and the layer loop ended with the locals `lv`: the slice
of the shell body for one variable. -/
def elem4_delta (fa : FloatArith) (c : Control) (b : Buffer) (ii : Int) (lv : D3plot.LayerVars)
    (v : Var) (code : Int) : List (List F32) :=
  match v with
  | .plastic_strain => if c.dyna_istrn ≠ 0 ∧ code ≠ 0 then [[lv.plastic_strain]] else []
  | .stress => if code ≠ 0 then [lv.tmp_vec_stress] else []
  | .stress_mises => if code ≠ 0 then [[lv.stress_mises]] else []
  | .strain =>
    if c.dyna_istrn = 1 ∧ code ≠ 0 then
      match D3plot.elem4_strain fa c { ReadPlan.init with strain_read := code } b ii with
      | .ok s => [s]
      | .error _ => []
    else []
  | .energy =>
    if code ≠ 0 ∧ c.dyna_ioshl4 ≠ 0 ∧ (c.dyna_istrn = 1 → c.dyna_nv2d ≥ 45) then
      match b.read_float (ii + c.dyna_nv2d - 1) with
      | .ok x => [[x]]
      | .error _ => []
    else []
  | _ => []

/-- Two readers hold the same results for a variable: node by node and element
by element (for the shells together with the rigid flag). -/
def AgreeOn (v : Var) (a b : D3plot) : Prop :=
  a.db_nodes.map (Node.view v) = b.db_nodes.map (Node.view v) ∧
  a.db_shells.map (fun e => (e.is_rigid, e.view v))
    = b.db_shells.map (fun e => (e.is_rigid, e.view v)) ∧
  a.db_solids.map (Element.view v) = b.db_solids.map (Element.view v)

/-- What identifies a node: id and coordinates. -/
def Node.static (n : Node) : Int × List F32 := (n.nodeID, n.coords)

/-- What identifies an element: id, family, connectivity record and rigid flag. -/
def Element.static (e : Element) : Int × ElementType × List Int × Bool :=
  (e.elementID, e.elemType, e.record, e.is_rigid)

/-- The part of a reader that reading the states of a segment does not touch. -/
def D3plot.fixed (d : D3plot) :
    Control × ReadPlan × Loaded × Int × Bool × List Element × List Part :=
  (d.ctrl, d.plan, d.loaded, d.wordPositionStates, d.useFemzip, d.db_beams, d.db_parts)

/-- What reading states keeps of a reader `a` in the reader `a1`: everything
but the result vectors, the identity of every node and element, the history
values when no history is planned, and the results of every variable the plan
does not ask for. -/
def Preserved (a a1 : D3plot) : Prop :=
  a1.fixed = a.fixed ∧
  a1.db_nodes.map Node.static = a.db_nodes.map Node.static ∧
  a1.db_shells.map Element.static = a.db_shells.map Element.static ∧
  a1.db_solids.map Element.static = a.db_solids.map Element.static ∧
  (a.plan.history_shell_read = [] →
    a1.db_shells.map Element.history_vars = a.db_shells.map Element.history_vars) ∧
  (a.plan.history_solid_read = [] →
    a1.db_solids.map Element.history_vars = a.db_solids.map Element.history_vars) ∧
  (∀ v : Var, v.entry a.plan = 0 → AgreeOn v a1 a)

/-- What every call of `read_states` keeps of a reader `a` in the reader `a1`:
the header values, the mode, the beams and parts, the segments behind the
buffer, and the identity of every node, shell and solid. -/
def Kept (a a1 : D3plot) : Prop :=
  a1.ctrl = a.ctrl ∧ a1.useFemzip = a.useFemzip ∧ a1.db_beams = a.db_beams ∧
  a1.db_parts = a.db_parts ∧ a1.buffer.states = a.buffer.states ∧
  a1.db_nodes.map Node.static = a.db_nodes.map Node.static ∧
  a1.db_shells.map Element.static = a.db_shells.map Element.static ∧
  a1.db_solids.map Element.static = a.db_solids.map Element.static

/-- A node without results. -/
def Node.fresh (n : Node) : Prop := n.disp = [] ∧ n.vel = [] ∧ n.accel = []

/-- An element without results. -/
def Element.fresh (e : Element) : Prop :=
  e.energy = [] ∧ e.plastic_strain = [] ∧ e.strain = [] ∧ e.stress = [] ∧ e.stress_mises = [] ∧
  e.history_vars = []

/-- The databases fit the header: there are `numnp` nodes, `nel4` shells of
which `numrbe` are rigid, and `nel8` solids, in three dimensions. -/
def Shape (d : D3plot) : Prop :=
  d.ctrl.dyna_ndim = 3 ∧
  0 ≤ d.ctrl.dyna_numnp ∧ d.db_nodes.length = d.ctrl.dyna_numnp.toNat ∧
  0 ≤ d.ctrl.dyna_nel4 ∧ d.db_shells.length = d.ctrl.dyna_nel4.toNat ∧
  ((d.db_shells.countP Element.get_is_rigid : Nat) : Int) = d.ctrl.dyna_numrbe ∧
  0 ≤ d.ctrl.dyna_nel8 ∧ d.db_solids.length = d.ctrl.dyna_nel8.toNat

/-- The reader as the geometry stage of the constructor leaves it on the
buffer `buf`: nothing is read or loaded yet, the databases fit the header and
hold no results, and a compressed reader stands where every segment of
states starts. -/
def Opened (buf : Buffer) (fz : Bool) (g : D3plot) : Prop :=
  g.timesteps = [] ∧ g.useFemzip = fz ∧ g.loaded = Loaded.init ∧ g.buffer.states = buf.states ∧
  Shape g ∧ (∀ n ∈ g.db_nodes, n.fresh) ∧ (∀ e ∈ g.db_shells, e.fresh) ∧
  (∀ e ∈ g.db_solids, e.fresh) ∧
  (fz = true → g.wordPosition = 1 + (1 + (g.ctrl.dyna_numprop + 1) * 19 + 1))

/-! ## Example files -/

/-- A float arithmetic for the examples: the bits are handled as naturals. -/
def sample_arith : FloatArith :=
  { add := fun x y => F32.mk (x.bits + y.bits), div := fun x y => F32.mk (x.bits / y.bits),
    gt := fun x y => decide (x.bits > y.bits), lt := fun x y => decide (x.bits < y.bits),
    ofInt := fun n => F32.mk n.toNat, mises_stress := fun l => F32.mk (l.map F32.bits).sum }

/-- A block of `n` words that are zero except for the listed `(index, word)`
entries. -/
def words_of (n : Nat) (entries : List (Nat × Nat)) : List Nat :=
  (List.range n).map (fun i => (entries.lookup i).getD 0)

/-- A plain file with one node and no element: header (`numnp = 1`,
`iu = iv = ia = 1`, `narbs = 11`), the coordinates, the numbering block with
the node id 101, the marker, and a part section without parts. -/
def fileA : List Nat :=
  words_of 64 [(11, 1), (15, 4), (16, 1), (20, 1), (21, 1), (22, 1), (39, 11)]
    ++ [1, 2, 3] ++ [0, 1, 1, 1, 1, 1, 0, 0, 0, 0, 101] ++ [endmark_bits]
    ++ [90001, 0] ++ List.replicate 19 0 ++ [endmark_bits]

/-- The states of `fileA`: one state of ten words at word 100 (time 7,
displacement 11 12 13, velocity 21 22 23, acceleration 31 32 33) and the
marker. -/
def segA : List Nat :=
  List.replicate 100 0 ++ [7, 11, 12, 13, 21, 22, 23, 31, 32, 33] ++ [endmark_bits]

/-- The buffer of `fileA` with its states in one segment. -/
def bufA : Buffer :=
  { geometry := fileA, parts := fileA, states := [segA], current := [], pending := [] }

/-- The file `fileA` with the pointer `nsrb` of the numbering block set to 5,
while `nsrh + nel8 = 1`; `nsrs` and `nsrt` follow `nsrb`. -/
def fileB : List Nat :=
  words_of 64 [(11, 1), (15, 4), (16, 1), (20, 1), (21, 1), (22, 1), (39, 11)]
    ++ [1, 2, 3] ++ [0, 1, 5, 5, 5, 1, 0, 0, 0, 0, 101] ++ [endmark_bits]
    ++ [90001, 0] ++ List.replicate 19 0 ++ [endmark_bits]

/-- The buffer of `fileB` with the states of `fileA`. -/
def bufB : Buffer :=
  { geometry := fileB, parts := fileB, states := [segA], current := [], pending := [] }

/-- The file `fileA` with the header flag `iu = 2`. -/
def fileC : List Nat :=
  words_of 64 [(11, 1), (15, 4), (16, 1), (20, 2), (21, 1), (22, 1), (39, 11)]
    ++ [1, 2, 3] ++ [0, 1, 1, 1, 1, 1, 0, 0, 0, 0, 101] ++ [endmark_bits]
    ++ [90001, 0] ++ List.replicate 19 0 ++ [endmark_bits]

/-- The states of `fileC`: one state of thirteen words at word 100 (time 7, six
words of displacements, velocity 21 22 23, acceleration 31 32 33) and the
marker. -/
def segC : List Nat :=
  List.replicate 100 0 ++ [7, 11, 12, 13, 14, 15, 16, 21, 22, 23, 31, 32, 33] ++ [endmark_bits]

/-- The buffer of `fileC`. -/
def bufC : Buffer :=
  { geometry := fileC, parts := fileC, states := [segC], current := [], pending := [] }

/-- A plain file with one node, one solid (`nv3d = 7`) and one shell
(`nv2d = 11`, one layer with stress and plastic strain, energies present):
header (`iu = 1`, `idtdt = 10000`, so `istrn = 0`), the coordinates, the solid
record, the shell record, the numbering block with the ids 101, 201 and 301,
the marker, and a part section without parts. -/
def fileD : List Nat :=
  words_of 64 [(11, 1), (15, 4), (16, 1), (20, 1), (23, 1), (27, 7), (31, 1), (33, 11), (36, 1),
      (39, 13), (43, 1000), (44, 1000), (46, 1000), (56, 10000)]
    ++ [1, 2, 3] ++ [1, 1, 1, 1, 1, 1, 1, 1, 1] ++ [1, 1, 1, 1, 1]
    ++ [0, 1, 2, 2, 3, 1, 0, 0, 0, 0, 101, 201, 301] ++ [endmark_bits]
    ++ [90001, 0] ++ List.replicate 19 0 ++ [endmark_bits]

/-- The states of `fileD`: one state of 22 words at word 116 (time 7,
displacement 11 12 13, then the seven words 201 .. 207, then the eleven words
301 .. 311) and the marker. -/
def segD : List Nat :=
  List.replicate 116 0 ++ [7, 11, 12, 13] ++ [201, 202, 203, 204, 205, 206, 207]
    ++ [301, 302, 303, 304, 305, 306, 307, 308, 309, 310, 311] ++ [endmark_bits]

/-- The buffer of `fileD`. -/
def bufD : Buffer :=
  { geometry := fileD, parts := fileD, states := [segD], current := [], pending := [] }

/-- A first segment for `fileA` without a state at word 100, whose words from 0
on read like a state record (7, then 11 12 13, 21 22 23, 31 32 33) followed by
the marker at word 10. -/
def segE : List Nat :=
  [7, 11, 12, 13, 21, 22, 23, 31, 32, 33] ++ [endmark_bits] ++ List.replicate 89 0
    ++ [endmark_bits]

/-- The buffer of `fileA` with two segments that hold no state: `segE` and a
segment that starts with the marker. -/
def bufE : Buffer :=
  { geometry := fileA, parts := fileA, states := [segE, [endmark_bits]], current := [],
    pending := [] }


/-! ## Calls in sequence, record positions and extrema over layers -/

/-- A sequence of calls of `read_states` on a reader, each with its fuel and
its request list; the first call that fails ends the sequence. -/
def D3plot.read_states_calls (fa : FloatArith) :
    List (Nat × List String) → D3plot → Except Err D3plot
  | [], d => .ok d
  | call :: calls, d =>
    match d.read_states fa call.1 call.2 with
    | .error e => .error e
    | .ok d1 => D3plot.read_states_calls fa calls d1

/-- The rigid shells of a database, each with what it holds. -/
def Element.rigid_part (e : Element) : Option Element := if e.is_rigid = true then some e else none

/-- The word at which the record of the shell with index `j` starts within the
state whose record starts at `wordPosition`: the shell block starts at
`elem4_start` and holds `nv2d` words for every shell before `j` that is not
rigid. -/
def shell_record_start (c : Control) (wordPosition : Int) (shells : List Element) (j : Nat) :
    Int :=
  D3plot.elem4_start c wordPosition
    + c.dyna_nv2d * (((shells.take j).countP (fun e => !e.is_rigid) : Nat) : Int)

/-- A plain file with a material table (`ndim` word 5, so `mattyp = 1`): one
node, one solid of material 2, a shell of material 1 and a shell of material 2,
`nmmat = 3` and the material section `numrbe = 1`, `irbtyp = [20, 0, 20]`.  The
shells have `nv2d = 11` (one layer with stress and plastic strain, energies
present), the solid `nv3d = 7`, and `idtdt = 10000` gives `istrn = 0`. -/
def fileR : List Nat :=
  words_of 64 [(11, 1), (15, 5), (16, 1), (20, 1), (23, 1), (27, 7), (31, 2), (33, 11), (36, 1),
      (39, 23), (43, 1000), (44, 1000), (46, 1000), (51, 3), (56, 10000)]
    ++ [1, 3, 20, 0, 20]
    ++ [1, 2, 3] ++ [1, 1, 1, 1, 1, 1, 1, 1, 2] ++ [1, 1, 1, 1, 1] ++ [1, 1, 1, 1, 2]
    ++ [0, 1, 2, 2, 4, 1, 0, 0, 0, 0, 101, 201, 301, 302] ++ List.replicate 9 0
    ++ [endmark_bits]
    ++ [90001, 0] ++ List.replicate 19 0 ++ [endmark_bits]

/-- The states of `fileR`: one state of 22 words at word 136 (time 7,
displacement 11 12 13, the seven words 201 .. 207 of the solid, and the eleven
words 301 .. 311 of the one shell that is not rigid) and the marker. -/
def segR : List Nat :=
  List.replicate 136 0 ++ [7, 11, 12, 13] ++ [201, 202, 203, 204, 205, 206, 207]
    ++ [301, 302, 303, 304, 305, 306, 307, 308, 309, 310, 311] ++ [endmark_bits]

/-- The buffer of `fileR`. -/
def bufR : Buffer :=
  { geometry := fileR, parts := fileR, states := [segR], current := [], pending := [] }

/-- The geometry of a plain file with one node, one solid and one shell behind
the header words `hdr`: the coordinates, the solid record, the shell record,
the numbering block with the ids 101, 201 and 301, the marker, and a part
section without parts. -/
def shell_file (hdr : List (Nat × Nat)) : List Nat :=
  words_of 64 hdr
    ++ [1, 2, 3] ++ [1, 1, 1, 1, 1, 1, 1, 1, 1] ++ [1, 1, 1, 1, 1]
    ++ [0, 1, 2, 2, 3, 1, 0, 0, 0, 0, 101, 201, 301] ++ [endmark_bits]
    ++ [90001, 0] ++ List.replicate 19 0 ++ [endmark_bits]

/-- A file whose shell has two layers of eight words (stress, plastic strain
and `neips = 1` history word), `nv2d = 16`, and whose solid has `nv3d = 9` with
`neiph = 2` history words; `idtdt = 10000` gives `istrn = 0`. -/
def fileH : List Nat :=
  shell_file [(11, 1), (15, 4), (16, 1), (20, 1), (23, 1), (27, 9), (31, 1), (33, 16), (34, 2),
    (35, 1), (36, 2), (39, 13), (43, 1000), (44, 1000), (56, 10000)]

/-- The states of `fileH`: one state at word 116 (time 7, displacement
11 12 13, the nine words 201 .. 209 of the solid, and the sixteen words of the
shell: layer 0 is 301 .. 308, layer 1 is 311 312 303 314 305 316 317 318) and the
marker. -/
def segH : List Nat :=
  List.replicate 116 0 ++ [7, 11, 12, 13] ++ [201, 202, 203, 204, 205, 206, 207, 208, 209]
    ++ [301, 302, 303, 304, 305, 306, 307, 308] ++ [311, 312, 303, 314, 305, 316, 317, 318]
    ++ [endmark_bits]

/-- The buffer of `fileH`. -/
def bufH : Buffer :=
  { geometry := fileH, parts := fileH, states := [segH], current := [], pending := [] }

/-- A file whose shell has one layer of seven words (stress and `neips = 1`
history word, no plastic strain: `ioshl1 = 1`, `ioshl2 = 0`) and `nv2d = 8`;
there is no value for the solid (`nv3d = 0`). -/
def fileG : List Nat :=
  shell_file [(11, 1), (15, 4), (16, 1), (20, 1), (23, 1), (31, 1), (33, 8), (35, 1), (36, 1),
    (39, 13), (43, 1000), (56, 10000)]

/-- The states of `fileG`: one state at word 116 (time 7, displacement
11 12 13, and the eight words 401 .. 408 of the shell, of which 407 is the
history word of the layer) and the marker. -/
def segG : List Nat :=
  List.replicate 116 0 ++ [7, 11, 12, 13] ++ [401, 402, 403, 404, 405, 406, 407, 408]
    ++ [endmark_bits]

/-- The buffer of `fileG`. -/
def bufG : Buffer :=
  { geometry := fileG, parts := fileG, states := [segG], current := [], pending := [] }

/-- A file with shell strains (`idtdt = 10001`, so `istrn = 1`) whose shell has
`nv2d = 23` words: one layer of seven words (stress and plastic strain), four
words behind the layers (`ioshl4 = 1`) and two strain samples of six words;
there is no value for the solid (`nv3d = 0`). -/
def fileS : List Nat :=
  shell_file [(11, 1), (15, 4), (16, 1), (20, 1), (23, 1), (31, 1), (33, 23), (36, 1), (39, 13),
    (43, 1000), (44, 1000), (46, 1000), (56, 10001)]

/-- The states of `fileS`: one state at word 116 (time 7, displacement
11 12 13, and the 23 words of the shell: 501 .. 511, the strain sample
1 5 3 7 2 9, and the strain sample 4 2 6 1 8 3) and the marker. -/
def segS : List Nat :=
  List.replicate 116 0 ++ [7, 11, 12, 13]
    ++ [501, 502, 503, 504, 505, 506, 507, 508, 509, 510, 511]
    ++ [1, 5, 3, 7, 2, 9] ++ [4, 2, 6, 1, 8, 3] ++ [endmark_bits]

/-- The buffer of `fileS`. -/
def bufS : Buffer :=
  { geometry := fileS, parts := fileS, states := [segS], current := [], pending := [] }

/-- The file `fileS` with values for the solid: `nv3d = 14` words, of which
`neiph = 1` history word and, as `istrn = 1`, six strain words at the end. -/
def fileT : List Nat :=
  shell_file [(11, 1), (15, 4), (16, 1), (20, 1), (23, 1), (27, 14), (31, 1), (33, 23), (34, 1),
    (36, 1), (39, 13), (43, 1000), (44, 1000), (46, 1000), (56, 10001)]

/-- The states of `fileT`: one state at word 116 (time 7, displacement
11 12 13, the fourteen words 601 .. 614 of the solid and the 23 words of the
shell as in `segS`) and the marker. -/
def segT : List Nat :=
  List.replicate 116 0 ++ [7, 11, 12, 13]
    ++ [601, 602, 603, 604, 605, 606, 607, 608, 609, 610, 611, 612, 613, 614]
    ++ [501, 502, 503, 504, 505, 506, 507, 508, 509, 510, 511]
    ++ [1, 5, 3, 7, 2, 9] ++ [4, 2, 6, 1, 8, 3] ++ [endmark_bits]

/-- The buffer of `fileT`. -/
def bufT : Buffer :=
  { geometry := fileT, parts := fileT, states := [segT], current := [], pending := [] }

/-! ## The reduction keywords -/

/-- The reduction keywords in the order `max|min|outer|mid|inner|mean`, each
with its code. -/
def mode_keywords : List (String × Int) :=
  [("max", 1), ("min", 2), ("outer", 3), ("mid", 4), ("inner", 5), ("mean", 6)]

/-- The reduction mode of a request string in the wording of the
specification: the code of the first keyword, in the order of `mode_keywords`,
that occurs in the string, and 6 (mean) when none occurs. -/
def first_mode_keyword (s : String) : Int :=
  match mode_keywords.find? (fun kw => D3plot.str_contains s kw.1) with
  | some kw => kw.2
  | none => 6

/-! ## Example headers -/

/-- A reader on a loaded block of 128 words that are zero except for the
listed entries; the header is the first 64 words of the block. -/
def header_reader (hdr : List (Nat × Nat)) : D3plot :=
  D3plot.init
    { geometry := [], parts := [], states := [], pending := [], current := words_of 128 hdr }
    false

/-! ## Example files for the geometry stages -/

/-- A plain file without numbering block (`narbs = 0`): header, the
coordinates of one node, the marker, and a part section without parts. -/
def fileN : List Nat :=
  words_of 64 [(11, 1), (15, 4), (16, 1), (20, 1)]
    ++ [1, 2, 3] ++ [endmark_bits]
    ++ [90001, 0] ++ List.replicate 19 0 ++ [endmark_bits]

/-- The buffer of `fileN`, without states. -/
def bufN : Buffer :=
  { geometry := fileN, parts := fileN, states := [], current := [], pending := [] }

/-- The file `fileR` with the solid of material 3, the last of the `nmmat = 3`
materials. -/
def fileM : List Nat :=
  words_of 64 [(11, 1), (15, 5), (16, 1), (20, 1), (23, 1), (27, 7), (31, 2), (33, 11), (36, 1),
      (39, 23), (43, 1000), (44, 1000), (46, 1000), (51, 3), (56, 10000)]
    ++ [1, 3, 20, 0, 20]
    ++ [1, 2, 3] ++ [1, 1, 1, 1, 1, 1, 1, 1, 3] ++ [1, 1, 1, 1, 1] ++ [1, 1, 1, 1, 2]
    ++ [0, 1, 2, 2, 4, 1, 0, 0, 0, 0, 101, 201, 301, 302] ++ List.replicate 9 0
    ++ [endmark_bits]
    ++ [90001, 0] ++ List.replicate 19 0 ++ [endmark_bits]

/-- The buffer of `fileM`. -/
def bufM : Buffer :=
  { geometry := fileM, parts := fileM, states := [segR], current := [], pending := [] }

/-- The file `fileA` with two parts: the part section starts at word 79 with
90001 and `numprop = 2`; the record at word 81 holds the id 7 and the name
`PART`, the record at word 100 the id 9 and the name `B` (names padded with
blanks); the marker is at word 138. -/
def fileP : List Nat :=
  words_of 64 [(11, 1), (15, 4), (16, 1), (20, 1), (21, 1), (22, 1), (39, 11)]
    ++ [1, 2, 3] ++ [0, 1, 1, 1, 1, 1, 0, 0, 0, 0, 101] ++ [endmark_bits]
    ++ [90001, 2]
    ++ [7, 1414676816] ++ List.replicate 17 538976288
    ++ [9, 538976322] ++ List.replicate 17 538976288
    ++ List.replicate 19 0 ++ [endmark_bits]

/-- The buffer of `fileP`, without states. -/
def bufP : Buffer :=
  { geometry := fileP, parts := fileP, states := [], current := [], pending := [] }

/-- A plain file with one node, one solid of ten nodes (the raw `nel8` word is
`-1`), one beam and one shell: header, the coordinates, the solid record
11 .. 19 with its two extra words, the beam record 31 .. 36, the shell record
41 .. 45, the numbering block with the ids 101, 201, 301 and 401 and the two
extra words of the solid, the marker, and a part section without parts. -/
def fileQ : List Nat :=
  words_of 64 [(11, 1), (15, 4), (16, 1), (20, 1), (23, 4294967295), (28, 1), (31, 1), (39, 16)]
    ++ [1, 2, 3] ++ [11, 12, 13, 14, 15, 16, 17, 18, 19] ++ [20, 21]
    ++ [31, 32, 33, 34, 35, 36] ++ [41, 42, 43, 44, 45]
    ++ [0, 1, 2, 3, 4, 1, 0, 0, 0, 0, 101, 201, 301, 401] ++ [0, 0] ++ [endmark_bits]
    ++ [90001, 0] ++ List.replicate 19 0 ++ [endmark_bits]

/-- The buffer of `fileQ`, without states. -/
def bufQ : Buffer :=
  { geometry := fileQ, parts := fileQ, states := [], current := [], pending := [] }

/-! ## Example files with several state segments -/

/-- A head of a compressed segment with `numprop` at word 2 and one part
record: 41 words, so that a state starts at word 41. -/
def zip_head (numprop : Nat) : List Nat :=
  [0, 90001, numprop] ++ [7, 1414676816] ++ List.replicate 17 538976288 ++ List.replicate 19 0

/-- A compressed file with the geometry of `fileA`, a part section with one
part, and two state segments with one state each (times 7 and 8). -/
def bufZ : Buffer :=
  { geometry := fileA, parts := zip_head 1 ++ [endmark_bits],
    states := [zip_head 1 ++ [7, 11, 12, 13, 21, 22, 23, 31, 32, 33] ++ [endmark_bits],
               zip_head 1 ++ [8, 14, 15, 16, 24, 25, 26, 34, 35, 36] ++ [endmark_bits]],
    current := [], pending := [] }

/-- The compressed file `bufZ` with a second state segment whose `numprop` word
is 2. -/
def bufY : Buffer :=
  { geometry := fileA, parts := zip_head 1 ++ [endmark_bits],
    states := [zip_head 1 ++ [7, 11, 12, 13, 21, 22, 23, 31, 32, 33] ++ [endmark_bits],
               zip_head 2 ++ [8, 14, 15, 16, 24, 25, 26, 34, 35, 36] ++ [endmark_bits]],
    current := [], pending := [] }

/-- The plain file `fileA` with two state segments: `segA`, whose state is at
word 100, and `segE`, whose state is at word 0. -/
def bufW : Buffer :=
  { geometry := fileA, parts := fileA, states := [segA, segE], current := [], pending := [] }

/-! ## The variable kinds of `clear` -/

/-- The ten variable kinds `clear` tells apart. -/
inductive ClearKind where
  | disp | vel | accel | energy | plastic_strain | strain | stress | stress_mises
  | history_shell | history_solid
deriving DecidableEq, Repr

namespace ClearKind

/-- The boolean `delete_*` of a kind. -/
def flag (k : ClearKind) (f : D3plot.ClearFlags) : Bool :=
  match k with
  | disp => f.delete_disp
  | vel => f.delete_vel
  | accel => f.delete_accel
  | energy => f.delete_energy
  | plastic_strain => f.delete_plastic_strain
  | strain => f.delete_strain
  | stress => f.delete_stress
  | stress_mises => f.delete_stress_mises
  | history_shell => f.delete_history_shell
  | history_solid => f.delete_history_solid

/-- The booleans with the one of the kind `k` set. -/
def mark (f : D3plot.ClearFlags) (k : ClearKind) : D3plot.ClearFlags :=
  match k with
  | disp => { f with delete_disp := true }
  | vel => { f with delete_vel := true }
  | accel => { f with delete_accel := true }
  | energy => { f with delete_energy := true }
  | plastic_strain => { f with delete_plastic_strain := true }
  | strain => { f with delete_strain := true }
  | stress => { f with delete_stress := true }
  | stress_mises => { f with delete_stress_mises := true }
  | history_shell => { f with delete_history_shell := true }
  | history_solid => { f with delete_history_solid := true }

/-- The kind of a primitive variable. -/
def of_var (v : Var) : ClearKind :=
  match v with
  | .disp => disp
  | .vel => vel
  | .accel => accel
  | .energy => energy
  | .plastic_strain => plastic_strain
  | .strain => strain
  | .stress => stress
  | .stress_mises => stress_mises

/-- The result vector of a kind on a node (empty for a kind that is not stored
on nodes). -/
def on_node (k : ClearKind) (n : Node) : List (List F32) :=
  match k with
  | disp => n.disp
  | vel => n.vel
  | accel => n.accel
  | _ => []

/-- The result vector of a kind on an element; `hist` is the history kind of
the family of the element. -/
def on_element (hist : ClearKind) (k : ClearKind) (e : Element) : List (List F32) :=
  match k with
  | energy => e.energy.map (fun x => [x])
  | plastic_strain => e.plastic_strain.map (fun x => [x])
  | strain => e.strain
  | stress => e.stress
  | stress_mises => e.stress_mises.map (fun x => [x])
  | history_shell => if hist = history_shell then e.history_vars else []
  | history_solid => if hist = history_solid then e.history_vars else []
  | _ => []

/-- The loaded-flag of a kind; for a history kind, the list of the indices that
are loaded. -/
def loaded (k : ClearKind) (l : Loaded) : Bool × List Int :=
  match k with
  | disp => (l.disp_is_read, [])
  | vel => (l.vel_is_read, [])
  | accel => (l.acc_is_read, [])
  | energy => (l.energy_is_read, [])
  | plastic_strain => (l.plastic_strain_is_read, [])
  | strain => (l.strain_is_read, [])
  | stress => (l.stress_is_read, [])
  | stress_mises => (l.stress_mises_is_read, [])
  | history_shell => (false, l.history_shell_is_read)
  | history_solid => (false, l.history_solid_is_read)

end ClearKind

/-- The kinds a string names for `clear`: the first of the names disp, vel,
accel, energy, plastic_strain, strain, stress_mises, stress that occurs in it;
otherwise, for a string that contains `history`, the shell history when it
contains `shell`, else the solid history when it contains `solid`, else both;
and `none` for any other string. -/
def clear_kinds (s : String) : Option (List ClearKind) :=
  match Var.classify_clear s with
  | some v => some [ClearKind.of_var v]
  | none =>
    if D3plot.str_contains s "history" then
      if D3plot.str_contains s "shell" then some [ClearKind.history_shell]
      else if D3plot.str_contains s "solid" then some [ClearKind.history_solid]
      else some [ClearKind.history_shell, ClearKind.history_solid]
    else none

/-- The ten names `clear` uses for an empty list. -/
def clear_all_names : List String :=
  ["disp", "vel", "accel", "energy", "plastic_strain", "strain", "stress", "stress_mises",
   "history shell", "history solid"]

/-- The names `clear` works on: the list it is given, and the ten names for
an empty list. -/
def clear_names (vars : List String) : List String :=
  if vars.length = 0 then clear_all_names else vars

/-! ## Segments whose states decode -/

/-- The state record at the word `wp` of the loaded words `seg` decodes for the
plan `p` on the geometry of the reader `g`: the body of the state loop of a
first invocation (`read_states_state` with the time word read) returns on the
reader `g` with the plan `p`, the loaded words `seg` and the word position
`wp`. -/
def StateDecodes (fa : FloatArith) (g : D3plot) (p : ReadPlan) (seg : List Nat) (wp : Int) :
    Prop :=
  ∃ b1, D3plot.read_states_state fa true 0
    { g with plan := p, buffer := { g.buffer with current := seg }, wordPosition := wp } = .ok b1

/-- The words loaded in the buffer `b` hold exactly `k` states of `len` words
from the word `start` on: the time words of the states `0 .. k - 1` are there
and none is the marker, each of these state records decodes for the plan, and
the word where state `k` would start is the marker. -/
def SegmentStates (fa : FloatArith) (g : D3plot) (p : ReadPlan) (b : Buffer) (start len : Int)
    (k : Nat) : Prop :=
  (∀ j : Nat, j < k →
    (∃ t, b.read_float (start + j * len) = .ok t ∧ t.bits ≠ endmark_bits) ∧
    StateDecodes fa g p b.current (start + j * len)) ∧
  ∃ t, b.read_float (start + k * len) = .ok t ∧ t.bits = endmark_bits

/-- The mathematical value of the expression
`nv2d - maxint * (6 * ioshl1 + ioshl2 + neips) + 8 * ioshl3 + 4 * ioshl4` on
the header scalars, without any wrap-around. -/
def Control.istrn_expression (c : Control) : Int :=
  c.dyna_nv2d - c.dyna_maxint * (6 * c.dyna_ioshl1 + c.dyna_ioshl2 + c.dyna_neips)
    + 8 * c.dyna_ioshl3 + 4 * c.dyna_ioshl4

/-! ## Two steps of `read_geometry` -/

/-- The statement `if (dyna_nelth > 0) wordPosition += 9 * dyna_nelth;` of
`read_geometry`. -/
def D3plot.skip_thick_shells (d : D3plot) : D3plot :=
  if d.ctrl.dyna_nelth > 0
  then { d with wordPosition := d.wordPosition + 9 * d.ctrl.dyna_nelth } else d

/-- The reader `read_geometry` hands to `read_geometry_parts`, from the reader
whose position is the marker that ends the geometry: the position is one
further, the part section is loaded, and a compressed reader starts at word
1. -/
def D3plot.parts_reader (d : D3plot) : D3plot :=
  if d.useFemzip
  then { d with wordPosition := 1, buffer := d.buffer.free_geometryBuffer.read_partBuffer }
  else { d with wordPosition := d.wordPosition + 1,
                buffer := d.buffer.free_geometryBuffer.read_partBuffer }

/-! ## Basic facts on `Except` and on the buffer reads -/

theorem Except.bind_eq_ok {ε α β : Type} (x : Except ε α) (f : α → Except ε β) (b : β) :
    (x >>= f) = .ok b ↔ ∃ a, x = .ok a ∧ f a = .ok b := by
  cases x <;> simp [bind, Except.bind]

theorem throw_if_eq_ok (c : Prop) [Decidable c] (e : Err) (u : Unit) :
    throw_if c e = .ok u ↔ ¬ c := by
  unfold throw_if; split <;> simp [*]

theorem Buffer.read_word_eq_ok (b : Buffer) (i : Int) (w : Nat) :
    b.read_word i = .ok w ↔ 0 ≤ i ∧ b.current[i.toNat]? = some w := by
  unfold Buffer.read_word
  split
  · constructor
    · intro h; cases h
    · intro h; omega
  · split
    · rename_i w1 hw
      constructor
      · intro h; cases h; exact ⟨by omega, hw⟩
      · rintro ⟨_, h⟩; rw [hw] at h; cases h; rfl
    · rename_i hw
      constructor
      · intro h; cases h
      · rintro ⟨_, h⟩; rw [hw] at h; cases h

theorem Buffer.read_float_eq_ok (b : Buffer) (i : Int) (x : F32) :
    b.read_float i = .ok x ↔ ∃ w, b.read_word i = .ok w ∧ x = F32.mk (w % 4294967296) := by
  unfold Buffer.read_float
  cases h : b.read_word i with
  | error e => simp
  | ok w => simp [eq_comm]

theorem Buffer.read_float_array_length (b : Buffer) (n : Nat) :
    ∀ (i : Int) (xs : List F32), b.read_float_array i n = .ok xs → xs.length = n := by
  induction n with
  | zero => intro i xs h; simp [Buffer.read_float_array] at h; simp [← h]
  | succ n ih =>
    intro i xs h
    unfold Buffer.read_float_array at h
    split at h
    · cases h
    · split at h
      · cases h
      · rename_i xs1 h1
        cases h
        simp [ih _ _ h1]

theorem Buffer.read_float_array_get (b : Buffer) (n : Nat) :
    ∀ (i : Int) (xs : List F32), b.read_float_array i n = .ok xs →
      ∀ c : Nat, c < n → ∃ x, b.read_float (i + c) = .ok x ∧ xs[c]? = some x := by
  induction n with
  | zero => intro i xs _ c hc; omega
  | succ n ih =>
    intro i xs h c hc
    unfold Buffer.read_float_array at h
    split at h
    · cases h
    · rename_i x hx
      split at h
      · cases h
      · rename_i xs1 h1
        cases h
        cases c with
        | zero => exact ⟨x, by simpa using hx, by simp⟩
        | succ c =>
          obtain ⟨y, hy, hy2⟩ := ih _ _ h1 c (by omega)
          refine ⟨y, ?_, by simpa using hy2⟩
          have : i + ((c + 1 : Nat) : Int) = i + 1 + (c : Int) := by push_cast; ring
          rw [this]; exact hy

/-! ## The generic database loop -/

theorem db_loop_nil {α σ : Type} (body : Int → σ → α → Except Err (α × σ × Int)) (hi ii : Int)
    (s : σ) : db_loop body hi ii s [] = if ii < hi then .error .index_error else .ok [] := by
  simp [db_loop]

theorem db_loop_cons_ok {α σ : Type} (body : Int → σ → α → Except Err (α × σ × Int)) (hi ii : Int)
    (s : σ) (x : α) (rest ys : List α) :
    db_loop body hi ii s (x :: rest) = .ok ys ↔
      (ii < hi ∧ ∃ r zs, body ii s x = .ok r ∧ db_loop body hi r.2.2 r.2.1 rest = .ok zs ∧
          ys = r.1 :: zs)
      ∨ (¬ ii < hi ∧ ys = x :: rest) := by
  rw [db_loop]
  by_cases h : ii < hi
  · simp only [h, if_true, not_true_eq_false, false_and, or_false, true_and]
    cases hb : body ii s x with
    | error e => simp
    | ok r =>
      cases hl : db_loop body hi r.2.2 r.2.1 rest with
      | error e => simp [hl]
      | ok zs => simp [hl, eq_comm]
  · simp [h, eq_comm]

/-- A property of single entities that every iteration establishes and that
holds between an entity and itself holds between the database before and after
the loop. -/
theorem db_loop_forall₂ {α σ : Type} (body : Int → σ → α → Except Err (α × σ × Int)) (hi : Int)
    (P : α → α → Prop) (hrefl : ∀ x, P x x)
    (hbody : ∀ ii s x r, body ii s x = .ok r → P x r.1) :
    ∀ (xs : List α) (ii : Int) (s : σ) (ys : List α),
      db_loop body hi ii s xs = .ok ys → List.Forall₂ P xs ys := by
  intro xs
  induction xs with
  | nil =>
    intro ii s ys h
    rw [db_loop_nil] at h
    split at h
    · cases h
    · cases h; exact List.Forall₂.nil
  | cons x rest ih =>
    intro ii s ys h
    rw [db_loop_cons_ok] at h
    rcases h with ⟨_, r, zs, hb, hl, rfl⟩ | ⟨_, rfl⟩
    · exact List.Forall₂.cons (hbody _ _ _ _ hb) (ih _ _ _ hl)
    · exact List.forall₂_same.mpr (fun x _ => hrefl x)

/-- A projection that no iteration changes is the same on the database before
and after the loop. -/
theorem db_loop_map {α σ β : Type} (body : Int → σ → α → Except Err (α × σ × Int)) (hi : Int)
    (f : α → β) (hbody : ∀ ii s x r, body ii s x = .ok r → f r.1 = f x)
    (xs : List α) (ii : Int) (s : σ) (ys : List α) (h : db_loop body hi ii s xs = .ok ys) :
    ys.map f = xs.map f := by
  have h2 := db_loop_forall₂ body hi (fun x y => f y = f x) (fun _ => rfl) hbody xs ii s ys h
  clear h
  induction h2 with
  | nil => rfl
  | cons h1 _ ih => simp [h1, ih]

/-- Two loops over the same positions, whose bodies keep a projection `f` and a
relation `S` of their locals in step and advance alike, keep the projection of
the two databases equal. -/
theorem db_loop_rel {α σ τ β : Type} (body : Int → σ → α → Except Err (α × σ × Int))
    (body2 : Int → τ → α → Except Err (α × τ × Int)) (hi : Int) (f : α → β) (S : σ → τ → Prop)
    (hbody : ∀ ii s t x y r q, S s t → f x = f y → body ii s x = .ok r → body2 ii t y = .ok q →
      f r.1 = f q.1 ∧ S r.2.1 q.2.1 ∧ r.2.2 = q.2.2) :
    ∀ (xs ys : List α) (ii : Int) (s : σ) (t : τ) (xs1 ys1 : List α),
      xs.map f = ys.map f → S s t →
      db_loop body hi ii s xs = .ok xs1 → db_loop body2 hi ii t ys = .ok ys1 →
      xs1.map f = ys1.map f := by
  intro xs
  induction xs with
  | nil =>
    intro ys ii s t xs1 ys1 hm _ h1 h2
    cases ys with
    | cons y ys => simp at hm
    | nil =>
      rw [db_loop_nil] at h1 h2
      by_cases hlt : ii < hi
      · simp [hlt] at h1
      · simp only [hlt, if_false, Except.ok.injEq] at h1 h2
        subst h1; subst h2; rfl
  | cons x rest ih =>
    intro ys ii s t xs1 ys1 hm hS h1 h2
    cases ys with
    | nil => simp at hm
    | cons y ys =>
      simp only [List.map_cons, List.cons.injEq] at hm
      rw [db_loop_cons_ok] at h1 h2
      rcases h1 with ⟨hlt, r, zs, hb, hl, rfl⟩ | ⟨hge, rfl⟩
      · rcases h2 with ⟨_, q, ws, hb2, hl2, rfl⟩ | ⟨hge2, _⟩
        · obtain ⟨hf, hS2, hii⟩ := hbody _ _ _ _ _ _ _ hS hm.1 hb hb2
          rw [hii] at hl
          simp only [List.map_cons, hf, List.cons.injEq, true_and]
          exact ih _ _ _ _ _ _ hm.2 hS2 hl hl2
        · exact absurd hlt hge2
      · rcases h2 with ⟨hlt2, _⟩ | ⟨_, rfl⟩
        · exact absurd hlt2 hge
        · simp [hm.1, hm.2]

/-- When the words up to `hi` are exactly what the entities take (`adv` words
each, none for an entity the body skips), every entity that takes words went
through the body. -/
theorem db_loop_cover {α σ : Type} (body : Int → σ → α → Except Err (α × σ × Int)) (hi : Int)
    (adv : α → Int) (hadv : ∀ x, 0 ≤ adv x)
    (hstep : ∀ ii s x r, body ii s x = .ok r → r.2.2 = ii + adv x) :
    ∀ (xs : List α) (ii : Int) (s : σ) (ys : List α),
      ii + (xs.map adv).sum ≤ hi → db_loop body hi ii s xs = .ok ys →
      List.Forall₂ (fun x y => (adv x = 0 ∧ y = x) ∨ ∃ jj t r, body jj t x = .ok r ∧ y = r.1)
        xs ys := by
  intro xs
  induction xs with
  | nil =>
    intro ii s ys _ h
    rw [db_loop_nil] at h
    split at h
    · cases h
    · cases h; exact List.Forall₂.nil
  | cons x rest ih =>
    intro ii s ys hsum h
    simp only [List.map_cons, List.sum_cons] at hsum
    have hrest : 0 ≤ (rest.map adv).sum := List.sum_nonneg (by
      intro a ha
      obtain ⟨z, _, rfl⟩ := List.mem_map.mp ha
      exact hadv z)
    rw [db_loop_cons_ok] at h
    rcases h with ⟨_, r, zs, hb, hl, rfl⟩ | ⟨hge, rfl⟩
    · refine List.Forall₂.cons (Or.inr ⟨ii, s, r, hb, rfl⟩) (ih _ _ _ ?_ hl)
      rw [hstep _ _ _ _ hb]; omega
    · have hx : adv x = 0 := by have := hadv x; omega
      have hr0 : (rest.map adv).sum = 0 := by omega
      refine List.Forall₂.cons (Or.inl ⟨hx, rfl⟩) ?_
      apply List.forall₂_same.mpr
      intro z hz
      left
      refine ⟨?_, rfl⟩
      have hz2 : adv z ∈ rest.map adv := List.mem_map.mpr ⟨z, hz, rfl⟩
      have hle := List.single_le_sum (fun a ha => by
        obtain ⟨w, _, rfl⟩ := List.mem_map.mp ha
        exact hadv w) _ hz2
      have := hadv z
      omega

/-! ## Views and the `add_*` methods -/

theorem Node.view_add_disp (v : Var) (n : Node) (x : List F32) :
    (n.add_disp x).view v = if v = Var.disp then n.view v ++ [x] else n.view v := by
  cases v <;> simp [Node.view, Node.add_disp]

theorem Node.view_add_vel (v : Var) (n : Node) (x : List F32) :
    (n.add_vel x).view v = if v = Var.vel then n.view v ++ [x] else n.view v := by
  cases v <;> simp [Node.view, Node.add_vel]

theorem Node.view_add_accel (v : Var) (n : Node) (x : List F32) :
    (n.add_accel x).view v = if v = Var.accel then n.view v ++ [x] else n.view v := by
  cases v <;> simp [Node.view, Node.add_accel]

theorem Element.view_add_energy (v : Var) (e : Element) (x : F32) :
    (e.add_energy x).view v = if v = Var.energy then e.view v ++ [[x]] else e.view v := by
  cases v <;> simp [Element.view, Element.add_energy]

theorem Element.view_add_plastic_strain (v : Var) (e : Element) (x : F32) :
    (e.add_plastic_strain x).view v
      = if v = Var.plastic_strain then e.view v ++ [[x]] else e.view v := by
  cases v <;> simp [Element.view, Element.add_plastic_strain]

theorem Element.view_add_stress (v : Var) (e : Element) (x : List F32) :
    (e.add_stress x).view v = if v = Var.stress then e.view v ++ [x] else e.view v := by
  cases v <;> simp [Element.view, Element.add_stress]

theorem Element.view_add_stress_mises (v : Var) (e : Element) (x : F32) :
    (e.add_stress_mises x).view v
      = if v = Var.stress_mises then e.view v ++ [[x]] else e.view v := by
  cases v <;> simp [Element.view, Element.add_stress_mises]

theorem Element.view_add_strain (v : Var) (e : Element) (x : List F32) :
    (e.add_strain x).view v = if v = Var.strain then e.view v ++ [x] else e.view v := by
  cases v <;> simp [Element.view, Element.add_strain]

theorem Element.view_add_history_vars (v : Var) (e : Element) (x : List F32) (i : Nat) :
    (e.add_history_vars x i).view v = e.view v := by
  cases v <;> simp [Element.view, Element.add_history_vars]

/-- What the state readers never touch on a node. -/
theorem Node.static_add (n : Node) (x : List F32) :
    ((n.add_disp x).nodeID = n.nodeID ∧ (n.add_disp x).coords = n.coords) ∧
    ((n.add_vel x).nodeID = n.nodeID ∧ (n.add_vel x).coords = n.coords) ∧
    ((n.add_accel x).nodeID = n.nodeID ∧ (n.add_accel x).coords = n.coords) := by
  simp [Node.add_disp, Node.add_vel, Node.add_accel]

/-- A node is determined by its id, its coordinates and its three views. -/
theorem Node.node_eq_of_views (n m : Node) (h1 : n.nodeID = m.nodeID) (h2 : n.coords = m.coords)
    (h : ∀ v : Var, n.view v = m.view v) : n = m := by
  have hd := h Var.disp
  have hv := h Var.vel
  have ha := h Var.accel
  simp only [Node.view] at hd hv ha
  cases n; cases m
  simp_all

/-- An element is determined by its identity, its history values and its
views. -/
theorem Element.element_eq_of_views (e f : Element) (h1 : e.elementID = f.elementID)
    (h2 : e.elemType = f.elemType) (h3 : e.record = f.record) (h4 : e.is_rigid = f.is_rigid)
    (h5 : e.history_vars = f.history_vars) (h : ∀ v : Var, e.view v = f.view v) : e = f := by
  have hen := h Var.energy
  have hps := h Var.plastic_strain
  have hsn := h Var.strain
  have hss := h Var.stress
  have hsm := h Var.stress_mises
  simp only [Element.view] at hen hps hsn hss hsm
  have inj : Function.Injective (fun x : F32 => [x]) := fun a b hab => by simpa using hab
  have hen2 := List.map_injective_iff.mpr inj hen
  have hps2 := List.map_injective_iff.mpr inj hps
  have hsm2 := List.map_injective_iff.mpr inj hsm
  cases e; cases f
  simp_all

theorem Element.view_cond_add_stress (v : Var) (c : Prop) [Decidable c] (e : Element)
    (x : List F32) :
    (if c then e.add_stress x else e).view v
      = e.view v ++ (if v = Var.stress ∧ c then [x] else []) := by
  by_cases hc : c <;> by_cases hv : v = Var.stress <;> simp [hc, hv, Element.view_add_stress]

theorem Element.view_cond_add_stress_mises (v : Var) (c : Prop) [Decidable c] (e : Element)
    (x : F32) :
    (if c then e.add_stress_mises x else e).view v
      = e.view v ++ (if v = Var.stress_mises ∧ c then [[x]] else []) := by
  by_cases hc : c <;> by_cases hv : v = Var.stress_mises <;>
    simp [hc, hv, Element.view_add_stress_mises]

theorem Element.view_cond_add_plastic_strain (v : Var) (c : Prop) [Decidable c] (e : Element)
    (x : F32) :
    (if c then e.add_plastic_strain x else e).view v
      = e.view v ++ (if v = Var.plastic_strain ∧ c then [[x]] else []) := by
  by_cases hc : c <;> by_cases hv : v = Var.plastic_strain <;>
    simp [hc, hv, Element.view_add_plastic_strain]

theorem Element.view_cond_add_history_vars (v : Var) (c : Prop) [Decidable c] (e : Element)
    (x : List F32) (i : Nat) :
    (if c then e.add_history_vars x i else e).view v = e.view v := by
  by_cases hc : c <;> simp [hc, Element.view_add_history_vars]

/-! ## Reads depend on the loaded section only -/

theorem Buffer.read_word_congr (b c : Buffer) (h : b.current = c.current) (i : Int) :
    b.read_word i = c.read_word i := by
  simp [Buffer.read_word, h]

theorem Buffer.read_float_congr (b c : Buffer) (h : b.current = c.current) (i : Int) :
    b.read_float i = c.read_float i := by
  simp [Buffer.read_float, Buffer.read_word_congr b c h]

theorem Buffer.read_float_array_congr (b c : Buffer) (h : b.current = c.current) (n : Nat) :
    ∀ i : Int, b.read_float_array i n = c.read_float_array i n := by
  induction n with
  | zero => intro i; simp [Buffer.read_float_array]
  | succ n ih =>
    intro i
    simp [Buffer.read_float_array, Buffer.read_float_congr b c h, ih]

/-! ## The node readers -/

theorem read_states_node_body_ok (b : Buffer) (ndim : Int) (add : Node → List F32 → Node)
    (ii : Int) (s : Unit) (n : Node) (r : Node × Unit × Int) :
    D3plot.read_states_node_body b ndim add ii s n = .ok r ↔
      ∃ v, b.read_float_array ii ndim.toNat = .ok v ∧ r = (add n v, (), ii + ndim) := by
  unfold D3plot.read_states_node_body
  cases h : b.read_float_array ii ndim.toNat with
  | error e => simp
  | ok v => simp [eq_comm]

theorem read_states_displacement_ok (d d1 : D3plot) (h : d.read_states_displacement = .ok d1) :
    d1 = { d with db_nodes := d1.db_nodes } ∧
    Phase (d.ctrl.dyna_iu = 1)
      (D3plot.read_states_node_loop d.buffer d.ctrl.dyna_ndim Node.add_disp
        (D3plot.disp_start d.ctrl d.wordPosition + d.ctrl.dyna_numnp * d.ctrl.dyna_ndim)
        (D3plot.disp_start d.ctrl d.wordPosition) d.db_nodes) d.db_nodes d1.db_nodes := by
  unfold D3plot.read_states_displacement at h
  split at h
  · rename_i hiu
    cases h
    exact ⟨rfl, Or.inr ⟨hiu, rfl⟩⟩
  · rename_i hiu
    simp only at h
    split at h
    · cases h
    · rename_i nodes hl
      cases h
      exact ⟨rfl, Or.inl ⟨by simpa using hiu, hl⟩⟩

theorem read_states_velocity_ok (d d1 : D3plot) (h : d.read_states_velocity = .ok d1) :
    d1 = { d with db_nodes := d1.db_nodes } ∧
    Phase (d.ctrl.dyna_iv = 1)
      (D3plot.read_states_node_loop d.buffer d.ctrl.dyna_ndim Node.add_vel
        (D3plot.vel_start d.ctrl d.wordPosition + d.ctrl.dyna_numnp * d.ctrl.dyna_ndim)
        (D3plot.vel_start d.ctrl d.wordPosition) d.db_nodes) d.db_nodes d1.db_nodes := by
  unfold D3plot.read_states_velocity at h
  split at h
  · rename_i hiu
    cases h
    exact ⟨rfl, Or.inr ⟨hiu, rfl⟩⟩
  · rename_i hiu
    simp only at h
    split at h
    · cases h
    · rename_i nodes hl
      cases h
      exact ⟨rfl, Or.inl ⟨by simpa using hiu, hl⟩⟩

theorem read_states_acceleration_ok (d d1 : D3plot) (h : d.read_states_acceleration = .ok d1) :
    d1 = { d with db_nodes := d1.db_nodes } ∧
    Phase (d.ctrl.dyna_ia = 1)
      (D3plot.read_states_node_loop d.buffer d.ctrl.dyna_ndim Node.add_accel
        (D3plot.acc_start d.ctrl d.wordPosition + d.ctrl.dyna_numnp * d.ctrl.dyna_ndim)
        (D3plot.acc_start d.ctrl d.wordPosition) d.db_nodes) d.db_nodes d1.db_nodes := by
  unfold D3plot.read_states_acceleration at h
  split at h
  · rename_i hiu
    cases h
    exact ⟨rfl, Or.inr ⟨hiu, rfl⟩⟩
  · rename_i hiu
    simp only at h
    split at h
    · cases h
    · rename_i nodes hl
      cases h
      exact ⟨rfl, Or.inl ⟨by simpa using hiu, hl⟩⟩

theorem read_states_elem8_ok (fa : FloatArith) (iState : Nat) (d d1 : D3plot)
    (h : d.read_states_elem8 fa iState = .ok d1) :
    d1 = { d with db_solids := d1.db_solids } ∧
    Phase (¬ (d.ctrl.dyna_nv3d ≤ 0 ∧ d.ctrl.dyna_nel8 ≤ 0))
      (D3plot.read_states_elem8_loop fa d.ctrl d.plan d.buffer iState
        (D3plot.elem8_start d.ctrl d.wordPosition + d.ctrl.dyna_nv3d * d.ctrl.dyna_nel8)
        (D3plot.elem8_start d.ctrl d.wordPosition) d.db_solids) d.db_solids d1.db_solids := by
  unfold D3plot.read_states_elem8 at h
  split at h
  · rename_i hiu
    cases h
    exact ⟨rfl, Or.inr ⟨by simpa using hiu, rfl⟩⟩
  · rename_i hiu
    simp only at h
    split at h
    · cases h
    · rename_i nodes hl
      cases h
      exact ⟨rfl, Or.inl ⟨hiu, hl⟩⟩

theorem read_states_elem4_ok (fa : FloatArith) (iState : Nat) (d d1 : D3plot)
    (h : d.read_states_elem4 fa iState = .ok d1) :
    d1 = { d with db_shells := d1.db_shells } ∧
    Phase (¬ (d.ctrl.dyna_istrn ≠ 1 ∧ d.ctrl.dyna_nv2d ≤ 0 ∧
          d.ctrl.dyna_nel4 - d.ctrl.dyna_numrbe > 0))
      (D3plot.read_states_elem4_loop fa d.ctrl d.plan d.buffer iState
        (D3plot.elem4_start d.ctrl d.wordPosition
          + d.ctrl.dyna_nv2d * (d.ctrl.dyna_nel4 - d.ctrl.dyna_numrbe))
        (D3plot.elem4_start d.ctrl d.wordPosition) (List.replicate 6 D3plot.zero_f) d.db_shells)
      d.db_shells d1.db_shells := by
  unfold D3plot.read_states_elem4 at h
  split at h
  · rename_i hiu
    cases h
    exact ⟨rfl, Or.inr ⟨by simpa using hiu, rfl⟩⟩
  · rename_i hiu
    simp only at h
    split at h
    · cases h
    · rename_i nodes hl
      cases h
      exact ⟨rfl, Or.inl ⟨hiu, hl⟩⟩

/-! ## One state: the passes of `read_states_state` -/

theorem Phase.mono {α : Type} {c1 c2 : Prop} {run : Except Err (List α)} {xs xs1 : List α}
    (h : Phase c1 run xs xs1) (h12 : c1 → c2) (h21 : c2 → c1) : Phase c2 run xs xs1 := by
  rcases h with ⟨hc, hr⟩ | ⟨hc, hr⟩
  · exact Or.inl ⟨h12 hc, hr⟩
  · exact Or.inr ⟨fun h2 => hc (h21 h2), hr⟩

theorem Phase.skip {α : Type} {c : Prop} {run : Except Err (List α)} {xs : List α} (h : ¬ c) :
    Phase c run xs xs := Or.inr ⟨h, rfl⟩

/-- The body of the state loop as a sequence of guarded passes: the time word,
the three node passes, the shell pass and the solid pass.  Nothing else of the
reader changes. -/
theorem read_states_state_ok (fa : FloatArith) (tr : Bool) (iState : Nat) (d d1 : D3plot)
    (h : D3plot.read_states_state fa tr iState d = .ok d1) :
    ∃ nodesA nodesB : List Node,
      d1 = { d with timesteps := d1.timesteps, db_nodes := d1.db_nodes,
                    db_shells := d1.db_shells, db_solids := d1.db_solids } ∧
      ((tr = true ∧ ∃ t, d.buffer.read_float d.wordPosition = .ok t ∧
          d1.timesteps = d.timesteps ++ [t]) ∨ (tr = false ∧ d1.timesteps = d.timesteps)) ∧
      Phase (d.ctrl.dyna_iu = 1 ∧ d.plan.disp_read ≠ 0)
        (D3plot.read_states_node_loop d.buffer d.ctrl.dyna_ndim Node.add_disp
          (D3plot.disp_start d.ctrl d.wordPosition + d.ctrl.dyna_numnp * d.ctrl.dyna_ndim)
          (D3plot.disp_start d.ctrl d.wordPosition) d.db_nodes) d.db_nodes nodesA ∧
      Phase (d.ctrl.dyna_iv = 1 ∧ d.plan.vel_read ≠ 0)
        (D3plot.read_states_node_loop d.buffer d.ctrl.dyna_ndim Node.add_vel
          (D3plot.vel_start d.ctrl d.wordPosition + d.ctrl.dyna_numnp * d.ctrl.dyna_ndim)
          (D3plot.vel_start d.ctrl d.wordPosition) nodesA) nodesA nodesB ∧
      Phase (d.ctrl.dyna_ia = 1 ∧ d.plan.acc_read ≠ 0)
        (D3plot.read_states_node_loop d.buffer d.ctrl.dyna_ndim Node.add_accel
          (D3plot.acc_start d.ctrl d.wordPosition + d.ctrl.dyna_numnp * d.ctrl.dyna_ndim)
          (D3plot.acc_start d.ctrl d.wordPosition) nodesB) nodesB d1.db_nodes ∧
      Phase (D3plot.wants_elements d.plan ∧
          ¬ (d.ctrl.dyna_istrn ≠ 1 ∧ d.ctrl.dyna_nv2d ≤ 0 ∧
              d.ctrl.dyna_nel4 - d.ctrl.dyna_numrbe > 0))
        (D3plot.read_states_elem4_loop fa d.ctrl d.plan d.buffer iState
          (D3plot.elem4_start d.ctrl d.wordPosition
            + d.ctrl.dyna_nv2d * (d.ctrl.dyna_nel4 - d.ctrl.dyna_numrbe))
          (D3plot.elem4_start d.ctrl d.wordPosition) (List.replicate 6 D3plot.zero_f)
          d.db_shells) d.db_shells d1.db_shells ∧
      Phase (D3plot.wants_elements d.plan ∧ ¬ (d.ctrl.dyna_nv3d ≤ 0 ∧ d.ctrl.dyna_nel8 ≤ 0))
        (D3plot.read_states_elem8_loop fa d.ctrl d.plan d.buffer iState
          (D3plot.elem8_start d.ctrl d.wordPosition + d.ctrl.dyna_nv3d * d.ctrl.dyna_nel8)
          (D3plot.elem8_start d.ctrl d.wordPosition) d.db_solids) d.db_solids d1.db_solids := by
  unfold D3plot.read_states_state at h
  simp only [Except.bind_eq_ok] at h
  obtain ⟨d0, h0, dA, hA, dB, hB, dC, hC, hE⟩ := h
  -- the time word
  have e0 : d0 = { d with timesteps := d0.timesteps } ∧
      ((tr = true ∧ ∃ t, d.buffer.read_float d.wordPosition = .ok t ∧
          d0.timesteps = d.timesteps ++ [t]) ∨ (tr = false ∧ d0.timesteps = d.timesteps)) := by
    cases tr with
    | false => simp only [Bool.false_eq_true, if_false, Except.ok.injEq] at h0
               subst h0; exact ⟨rfl, Or.inr ⟨rfl, rfl⟩⟩
    | true =>
      simp only [if_true] at h0
      split at h0
      · cases h0
      · rename_i t ht
        cases h0
        exact ⟨rfl, Or.inl ⟨rfl, t, ht, rfl⟩⟩
  obtain ⟨e0, hts⟩ := e0
  -- displacement
  have eA : dA = { d0 with db_nodes := dA.db_nodes } ∧
      Phase (d0.ctrl.dyna_iu = 1 ∧ d0.plan.disp_read ≠ 0)
        (D3plot.read_states_node_loop d0.buffer d0.ctrl.dyna_ndim Node.add_disp
          (D3plot.disp_start d0.ctrl d0.wordPosition + d0.ctrl.dyna_numnp * d0.ctrl.dyna_ndim)
          (D3plot.disp_start d0.ctrl d0.wordPosition) d0.db_nodes) d0.db_nodes dA.db_nodes := by
    split at hA
    · rename_i hg
      obtain ⟨e, ph⟩ := read_states_displacement_ok _ _ hA
      exact ⟨e, ph.mono (fun hc => ⟨hc, hg.2⟩) (fun hc => hc.1)⟩
    · rename_i hg
      cases hA
      refine ⟨rfl, Phase.skip ?_⟩
      intro hc; exact hg ⟨by rw [hc.1]; decide, hc.2⟩
  obtain ⟨eA, pA⟩ := eA
  have eB : dB = { dA with db_nodes := dB.db_nodes } ∧
      Phase (dA.ctrl.dyna_iv = 1 ∧ dA.plan.vel_read ≠ 0)
        (D3plot.read_states_node_loop dA.buffer dA.ctrl.dyna_ndim Node.add_vel
          (D3plot.vel_start dA.ctrl dA.wordPosition + dA.ctrl.dyna_numnp * dA.ctrl.dyna_ndim)
          (D3plot.vel_start dA.ctrl dA.wordPosition) dA.db_nodes) dA.db_nodes dB.db_nodes := by
    split at hB
    · rename_i hg
      obtain ⟨e, ph⟩ := read_states_velocity_ok _ _ hB
      exact ⟨e, ph.mono (fun hc => ⟨hc, hg.2⟩) (fun hc => hc.1)⟩
    · rename_i hg
      cases hB
      refine ⟨rfl, Phase.skip ?_⟩
      intro hc; exact hg ⟨by rw [hc.1]; decide, hc.2⟩
  obtain ⟨eB, pB⟩ := eB
  have eC : dC = { dB with db_nodes := dC.db_nodes } ∧
      Phase (dB.ctrl.dyna_ia = 1 ∧ dB.plan.acc_read ≠ 0)
        (D3plot.read_states_node_loop dB.buffer dB.ctrl.dyna_ndim Node.add_accel
          (D3plot.acc_start dB.ctrl dB.wordPosition + dB.ctrl.dyna_numnp * dB.ctrl.dyna_ndim)
          (D3plot.acc_start dB.ctrl dB.wordPosition) dB.db_nodes) dB.db_nodes dC.db_nodes := by
    split at hC
    · rename_i hg
      obtain ⟨e, ph⟩ := read_states_acceleration_ok _ _ hC
      exact ⟨e, ph.mono (fun hc => ⟨hc, hg.2⟩) (fun hc => hc.1)⟩
    · rename_i hg
      cases hC
      refine ⟨rfl, Phase.skip ?_⟩
      intro hc; exact hg ⟨by rw [hc.1]; decide, hc.2⟩
  obtain ⟨eC, pC⟩ := eC
  have eE : ∃ d4 : D3plot, d4 = { dC with db_shells := d4.db_shells } ∧
      d1 = { d4 with db_solids := d1.db_solids } ∧
      Phase (D3plot.wants_elements dC.plan ∧
          ¬ (dC.ctrl.dyna_istrn ≠ 1 ∧ dC.ctrl.dyna_nv2d ≤ 0 ∧
              dC.ctrl.dyna_nel4 - dC.ctrl.dyna_numrbe > 0))
        (D3plot.read_states_elem4_loop fa dC.ctrl dC.plan dC.buffer iState
          (D3plot.elem4_start dC.ctrl dC.wordPosition
            + dC.ctrl.dyna_nv2d * (dC.ctrl.dyna_nel4 - dC.ctrl.dyna_numrbe))
          (D3plot.elem4_start dC.ctrl dC.wordPosition) (List.replicate 6 D3plot.zero_f)
          dC.db_shells) dC.db_shells d4.db_shells ∧
      Phase (D3plot.wants_elements dC.plan ∧ ¬ (d4.ctrl.dyna_nv3d ≤ 0 ∧ d4.ctrl.dyna_nel8 ≤ 0))
        (D3plot.read_states_elem8_loop fa d4.ctrl d4.plan d4.buffer iState
          (D3plot.elem8_start d4.ctrl d4.wordPosition + d4.ctrl.dyna_nv3d * d4.ctrl.dyna_nel8)
          (D3plot.elem8_start d4.ctrl d4.wordPosition) d4.db_solids) d4.db_solids
          d1.db_solids := by
    split at hE
    · rename_i hg
      split at hE
      · cases hE
      · rename_i d4 h4
        obtain ⟨e4, p4⟩ := read_states_elem4_ok _ _ _ _ h4
        obtain ⟨e8, p8⟩ := read_states_elem8_ok _ _ _ _ hE
        exact ⟨d4, e4, e8, p4.mono (fun hc => ⟨hg, hc⟩) (fun hc => hc.2),
          p8.mono (fun hc => ⟨hg, hc⟩) (fun hc => hc.2)⟩
    · rename_i hg
      cases hE
      exact ⟨d1, rfl, rfl, Phase.skip (fun hc => hg hc.1), Phase.skip (fun hc => hg hc.1)⟩
  obtain ⟨d4, e4, e8, p4, p8⟩ := eE
  -- put the pieces together
  have hd4 : d4 = { d with timesteps := d0.timesteps, db_nodes := dC.db_nodes,
                           db_shells := d4.db_shells } := by
    rw [e4, eC, eB, eA, e0]
  have hdC : dC = { d with timesteps := d0.timesteps, db_nodes := dC.db_nodes } := by
    rw [eC, eB, eA, e0]
  have hdB : dB = { d with timesteps := d0.timesteps, db_nodes := dB.db_nodes } := by
    rw [eB, eA, e0]
  have hdA : dA = { d with timesteps := d0.timesteps, db_nodes := dA.db_nodes } := by
    rw [eA, e0]
  have hd1 : d1 = { d with timesteps := d0.timesteps, db_nodes := dC.db_nodes,
                           db_shells := d4.db_shells, db_solids := d1.db_solids } := by
    rw [e8, hd4]
  rw [e0] at pA
  rw [hdA] at pB
  rw [hdB] at pC
  rw [hdC] at p4
  rw [hd4] at p8
  rw [hdC] at p8
  refine ⟨dA.db_nodes, dB.db_nodes, ?_, ?_, pA, pB, ?_, ?_, ?_⟩
  · rw [hd1]
  · rw [hd1]; exact hts
  · rw [hd1]; exact pC
  · rw [hd1]; exact p4
  · rw [hd1]; exact p8

/-! ## One solid -/

/-- The body of the solid loop in terms of what it appends: the stress words,
the plastic strain word, the strain words and the history values. -/
theorem read_states_elem8_element_ok (fa : FloatArith) (c : Control) (p : ReadPlan) (b : Buffer)
    (iState : Nat) (ii : Int) (e e1 : Element)
    (h : D3plot.read_states_elem8_element fa c p b iState ii e = .ok e1) :
    ∃ eA eB eC : Element,
      (((p.stress_read ≠ 0 ∨ p.stress_mises_read ≠ 0) ∧
          ∃ t, b.read_float_array ii 6 = .ok t ∧
            eA = (fun el : Element =>
                if p.stress_mises_read ≠ 0 then el.add_stress_mises (fa.mises_stress t) else el)
              (if p.stress_read ≠ 0 then e.add_stress t else e))
        ∨ (¬ (p.stress_read ≠ 0 ∨ p.stress_mises_read ≠ 0) ∧ eA = e)) ∧
      ((p.plastic_strain_read ≠ 0 ∧
          ∃ x, b.read_float (ii + 6) = .ok x ∧ eB = eA.add_plastic_strain x)
        ∨ (¬ p.plastic_strain_read ≠ 0 ∧ eB = eA)) ∧
      (((c.dyna_istrn = 1 ∧ p.strain_read ≠ 0) ∧
          ∃ t, b.read_float_array (ii + c.dyna_nv3d - 6) 6 = .ok t ∧ eC = eB.add_strain t)
        ∨ (¬ (c.dyna_istrn = 1 ∧ p.strain_read ≠ 0) ∧ eC = eB)) ∧
      ((p.history_solid_read.length ≠ 0 ∧
          ∃ hv, D3plot.elem8_history c b ii p.history_solid_read = .ok hv ∧
            e1 = eC.add_history_vars hv iState)
        ∨ (¬ p.history_solid_read.length ≠ 0 ∧ e1 = eC)) := by
  unfold D3plot.read_states_elem8_element at h
  simp only [Except.bind_eq_ok] at h
  obtain ⟨eA, hA, eB, hB, eC, hC, hD⟩ := h
  refine ⟨eA, eB, eC, ?_, ?_, ?_, ?_⟩
  · split at hA
    · rename_i hg
      split at hA
      · cases hA
      · rename_i t ht
        cases hA
        exact Or.inl ⟨hg, t, ht, rfl⟩
    · rename_i hg
      cases hA
      exact Or.inr ⟨hg, rfl⟩
  · split at hB
    · rename_i hg
      split at hB
      · cases hB
      · rename_i t ht
        cases hB
        exact Or.inl ⟨hg, t, ht, rfl⟩
    · rename_i hg
      cases hB
      exact Or.inr ⟨hg, rfl⟩
  · split at hC
    · rename_i hg
      split at hC
      · cases hC
      · rename_i t ht
        cases hC
        exact Or.inl ⟨hg, t, ht, rfl⟩
    · rename_i hg
      cases hC
      exact Or.inr ⟨hg, rfl⟩
  · split at hD
    · rename_i hg
      split at hD
      · cases hD
      · rename_i t ht
        cases hD
        exact Or.inl ⟨hg, t, ht, rfl⟩
    · rename_i hg
      cases hD
      exact Or.inr ⟨hg, rfl⟩

/-- The solid body appends to the view of each variable exactly the slice
`elem8_delta` of that variable, which depends on the plan only through the
request code of the variable. -/
theorem read_states_elem8_element_view (fa : FloatArith) (c : Control) (p : ReadPlan)
    (b : Buffer) (iState : Nat) (ii : Int) (e e1 : Element) (v : Var)
    (h : D3plot.read_states_elem8_element fa c p b iState ii e = .ok e1) :
    e1.view v = e.view v ++ elem8_delta fa c b ii v (v.entry p) := by
  obtain ⟨eA, eB, eC, hA, hB, hC, hD⟩ := read_states_elem8_element_ok _ _ _ _ _ _ _ _ h
  have kD : e1.view v = eC.view v := by
    rcases hD with ⟨_, hv1, _, rfl⟩ | ⟨_, rfl⟩
    · exact Element.view_add_history_vars _ _ _ _
    · rfl
  have kC : eC.view v = eB.view v ++
      (if v = Var.strain ∧ c.dyna_istrn = 1 ∧ p.strain_read ≠ 0 then
        elem8_delta fa c b ii Var.strain p.strain_read else []) := by
    rcases hC with ⟨hg, t, ht, rfl⟩ | ⟨hg, rfl⟩
    · rw [Element.view_add_strain]
      by_cases hv : v = Var.strain
      · simp [hv, hg, elem8_delta, ht]
      · simp [hv]
    · by_cases hv : v = Var.strain
      · have : ¬ (c.dyna_istrn = 1 ∧ p.strain_read ≠ 0) := hg
        simp [hv, this]
      · simp [hv]
  have kB : eB.view v = eA.view v ++
      (if v = Var.plastic_strain ∧ p.plastic_strain_read ≠ 0 then
        elem8_delta fa c b ii Var.plastic_strain p.plastic_strain_read else []) := by
    rcases hB with ⟨hg, t, ht, rfl⟩ | ⟨hg, rfl⟩
    · rw [Element.view_add_plastic_strain]
      by_cases hv : v = Var.plastic_strain
      · simp [hv, hg, elem8_delta, ht]
      · simp [hv]
    · by_cases hv : v = Var.plastic_strain
      · simp [hv, hg]
      · simp [hv]
  have kA : eA.view v = e.view v ++
      ((if v = Var.stress ∧ p.stress_read ≠ 0 then
          elem8_delta fa c b ii Var.stress p.stress_read else []) ++
       (if v = Var.stress_mises ∧ p.stress_mises_read ≠ 0 then
          elem8_delta fa c b ii Var.stress_mises p.stress_mises_read else [])) := by
    rcases hA with ⟨hg, t, ht, rfl⟩ | ⟨hg, rfl⟩
    · by_cases h1 : p.stress_read = 0 <;> by_cases h2 : p.stress_mises_read = 0 <;>
        by_cases hv1 : v = Var.stress <;> by_cases hv2 : v = Var.stress_mises <;>
        simp_all [Element.view_add_stress, Element.view_add_stress_mises, elem8_delta]
    · have h1 : p.stress_read = 0 := by
        by_contra h0; exact hg (Or.inl h0)
      have h2 : p.stress_mises_read = 0 := by
        by_contra h0; exact hg (Or.inr h0)
      simp [h1, h2]
  rw [kD, kC, kB, kA]
  cases v <;> simp [Var.entry, elem8_delta] <;> (intros; simp_all)

/-- The slice of a variable reads the loaded section only. -/
theorem elem8_delta_congr (fa : FloatArith) (c : Control) (b b2 : Buffer)
    (hb : b.current = b2.current) (ii : Int) (v : Var) (code : Int) :
    elem8_delta fa c b ii v code = elem8_delta fa c b2 ii v code := by
  unfold elem8_delta
  simp only [Buffer.read_float_array_congr b b2 hb, Buffer.read_float_congr b b2 hb]

theorem elem8_delta_zero (fa : FloatArith) (c : Control) (b : Buffer) (ii : Int) (v : Var) :
    elem8_delta fa c b ii v 0 = [] := by
  cases v <;> simp [elem8_delta]

/-- What the solid body never touches. -/
theorem read_states_elem8_element_static (fa : FloatArith) (c : Control) (p : ReadPlan)
    (b : Buffer) (iState : Nat) (ii : Int) (e e1 : Element)
    (h : D3plot.read_states_elem8_element fa c p b iState ii e = .ok e1) :
    e1.elementID = e.elementID ∧ e1.elemType = e.elemType ∧ e1.record = e.record ∧
    e1.is_rigid = e.is_rigid ∧ e1.energy = e.energy ∧
    (p.history_solid_read = [] → e1.history_vars = e.history_vars) := by
  obtain ⟨eA, eB, eC, hA, hB, hC, hD⟩ := read_states_elem8_element_ok _ _ _ _ _ _ _ _ h
  have kA : eA.elementID = e.elementID ∧ eA.elemType = e.elemType ∧ eA.record = e.record ∧
      eA.is_rigid = e.is_rigid ∧ eA.energy = e.energy ∧ eA.history_vars = e.history_vars := by
    rcases hA with ⟨hg, t, ht, rfl⟩ | ⟨hg, rfl⟩
    · by_cases h1 : p.stress_read = 0 <;> by_cases h2 : p.stress_mises_read = 0 <;>
        simp [h1, h2, Element.add_stress, Element.add_stress_mises]
    · simp
  have kB : eB.elementID = eA.elementID ∧ eB.elemType = eA.elemType ∧ eB.record = eA.record ∧
      eB.is_rigid = eA.is_rigid ∧ eB.energy = eA.energy ∧ eB.history_vars = eA.history_vars := by
    rcases hB with ⟨hg, t, ht, rfl⟩ | ⟨hg, rfl⟩
    · simp [Element.add_plastic_strain]
    · simp
  have kC : eC.elementID = eB.elementID ∧ eC.elemType = eB.elemType ∧ eC.record = eB.record ∧
      eC.is_rigid = eB.is_rigid ∧ eC.energy = eB.energy ∧ eC.history_vars = eB.history_vars := by
    rcases hC with ⟨hg, t, ht, rfl⟩ | ⟨hg, rfl⟩
    · simp [Element.add_strain]
    · simp
  have kD : e1.elementID = eC.elementID ∧ e1.elemType = eC.elemType ∧ e1.record = eC.record ∧
      e1.is_rigid = eC.is_rigid ∧ e1.energy = eC.energy ∧
      (p.history_solid_read = [] → e1.history_vars = eC.history_vars) := by
    rcases hD with ⟨hg, t, ht, rfl⟩ | ⟨hg, rfl⟩
    · refine ⟨rfl, rfl, rfl, rfl, rfl, ?_⟩
      intro h0; rw [h0] at hg; simp at hg
    · simp
  obtain ⟨a1, a2, a3, a4, a5, a6⟩ := kA
  obtain ⟨b1, b2, b3, b4, b5, b6⟩ := kB
  obtain ⟨c1, c2, c3, c4, c5, c6⟩ := kC
  obtain ⟨d1, d2, d3, d4, d5, d6⟩ := kD
  refine ⟨by rw [d1, c1, b1, a1], by rw [d2, c2, b2, a2], by rw [d3, c3, b3, a3],
    by rw [d4, c4, b4, a4], by rw [d5, c5, b5, a5], ?_⟩
  intro h0
  rw [d6 h0, c6, b6, a6]

/-! ## One shell: the layers -/

theorem elem4_layer_ok (fa : FloatArith) (c : Control) (p : ReadPlan) (b : Buffer)
    (ii iLayer : Int) (lv lv1 : D3plot.LayerVars)
    (h : D3plot.elem4_layer fa c p b ii iLayer lv = .ok lv1) :
    D3plot.elem4_layer_plastic_strain fa c p b iLayer
        (ii + iLayer * (c.dyna_neips + (c.dyna_ioshl1 * 6 + c.dyna_ioshl2))) lv.plastic_strain
      = .ok lv1.plastic_strain ∧
    D3plot.elem4_layer_stress fa c p b iLayer
        (ii + iLayer * (c.dyna_neips + (c.dyna_ioshl1 * 6 + c.dyna_ioshl2))) lv.tmp_vec_stress
        lv.stress_mises = .ok (lv1.tmp_vec_stress, lv1.stress_mises) ∧
    D3plot.elem4_layer_history fa c b iLayer
        (ii + iLayer * (c.dyna_neips + (c.dyna_ioshl1 * 6 + c.dyna_ioshl2)))
        p.history_shell_read p.history_shell_mode lv.history_vars = .ok lv1.history_vars := by
  unfold D3plot.elem4_layer at h
  simp only [Except.bind_eq_ok, pure, Except.pure, Except.ok.injEq] at h
  obtain ⟨ps, hps, sm, hsm, hv, hhv, rfl⟩ := h
  exact ⟨hps, hsm, hhv⟩

theorem elem4_layer_plastic_strain_congr (fa : FloatArith) (c : Control) (p q : ReadPlan)
    (b b2 : Buffer) (hb : b.current = b2.current)
    (hpq : p.plastic_strain_read = q.plastic_strain_read) (iLayer layerStart : Int) (x : F32) :
    D3plot.elem4_layer_plastic_strain fa c p b iLayer layerStart x
      = D3plot.elem4_layer_plastic_strain fa c q b2 iLayer layerStart x := by
  unfold D3plot.elem4_layer_plastic_strain
  rw [hpq, Buffer.read_float_congr b b2 hb]

theorem elem4_switch_stress_congr (fa : FloatArith) (c : Control) (p q : ReadPlan)
    (hpq : p.stress_read = q.stress_read) (iLayer : Int) (t s : List F32) :
    D3plot.elem4_switch_stress fa c p iLayer t s = D3plot.elem4_switch_stress fa c q iLayer t s := by
  unfold D3plot.elem4_switch_stress
  rw [hpq]

theorem elem4_switch_mises_congr (fa : FloatArith) (c : Control) (p q : ReadPlan)
    (hpq : p.stress_mises_read = q.stress_mises_read) (iLayer : Int) (t : List F32) (s : F32) :
    D3plot.elem4_switch_mises fa c p iLayer t s = D3plot.elem4_switch_mises fa c q iLayer t s := by
  unfold D3plot.elem4_switch_mises
  rw [hpq]

/-- The block "stress tensor and mises" of a layer, when it reads. -/
theorem elem4_layer_stress_ok (fa : FloatArith) (c : Control) (p : ReadPlan) (b : Buffer)
    (iLayer layerStart : Int) (t : List F32) (s : F32) (r : List F32 × F32)
    (h : D3plot.elem4_layer_stress fa c p b iLayer layerStart t s = .ok r) :
    (((p.stress_read ≠ 0 ∨ p.stress_mises_read ≠ 0) ∧ c.dyna_ioshl1 ≠ 0) ∧
        ∃ t6, b.read_float_array layerStart 6 = .ok t6 ∧
          r = (if iLayer = 0 then (t6, fa.mises_stress t6)
               else (D3plot.elem4_switch_stress fa c p iLayer t6 t,
                     D3plot.elem4_switch_mises fa c p iLayer t6 s)))
    ∨ (¬ ((p.stress_read ≠ 0 ∨ p.stress_mises_read ≠ 0) ∧ c.dyna_ioshl1 ≠ 0) ∧ r = (t, s)) := by
  unfold D3plot.elem4_layer_stress at h
  split at h
  · rename_i hg
    split at h
    · cases h
    · rename_i t6 ht6
      left
      refine ⟨hg, t6, ht6, ?_⟩
      split at h
      · rename_i h0; cases h; simp [h0]
      · rename_i h0; cases h; simp [h0]
  · rename_i hg
    cases h
    exact Or.inr ⟨hg, rfl⟩

/-- Two layer steps with the same request code for a variable keep the local
that belongs to the variable in step (for stress and mises: when requested). -/
theorem elem4_layer_rel (fa : FloatArith) (c : Control) (p q : ReadPlan) (b b2 : Buffer)
    (hb : b.current = b2.current) (ii iLayer : Int) (lv lw lv1 lw1 : D3plot.LayerVars)
    (h1 : D3plot.elem4_layer fa c p b ii iLayer lv = .ok lv1)
    (h2 : D3plot.elem4_layer fa c q b2 ii iLayer lw = .ok lw1) :
    (p.plastic_strain_read = q.plastic_strain_read → lv.plastic_strain = lw.plastic_strain →
        lv1.plastic_strain = lw1.plastic_strain) ∧
    (p.stress_read = q.stress_read → p.stress_read ≠ 0 → lv.tmp_vec_stress = lw.tmp_vec_stress →
        lv1.tmp_vec_stress = lw1.tmp_vec_stress) ∧
    (p.stress_mises_read = q.stress_mises_read → p.stress_mises_read ≠ 0 →
        lv.stress_mises = lw.stress_mises → lv1.stress_mises = lw1.stress_mises) := by
  obtain ⟨a1, a2, _⟩ := elem4_layer_ok _ _ _ _ _ _ _ _ h1
  obtain ⟨g1, g2, _⟩ := elem4_layer_ok _ _ _ _ _ _ _ _ h2
  refine ⟨?_, ?_, ?_⟩
  · intro hpq hl
    rw [elem4_layer_plastic_strain_congr fa c p q b b2 hb hpq, hl, g1] at a1
    exact (Except.ok.inj a1).symm
  · intro hpq hne hl
    have hq : q.stress_read ≠ 0 := hpq ▸ hne
    rcases elem4_layer_stress_ok _ _ _ _ _ _ _ _ _ a2 with ⟨hg, t6, ht6, e1⟩ | ⟨hg, _⟩
    · rcases elem4_layer_stress_ok _ _ _ _ _ _ _ _ _ g2 with ⟨hg2, u6, hu6, e2⟩ | ⟨hg2, _⟩
      · rw [Buffer.read_float_array_congr b b2 hb, hu6] at ht6
        cases ht6
        have k1 := congrArg Prod.fst e1
        have k2 := congrArg Prod.fst e2
        simp only at k1 k2
        rw [k1, k2]
        by_cases h0 : iLayer = 0
        · simp [h0]
        · simp [h0, elem4_switch_stress_congr fa c p q hpq, hl]
      · exact absurd ⟨Or.inl hq, hg.2⟩ hg2
    · rcases elem4_layer_stress_ok _ _ _ _ _ _ _ _ _ g2 with ⟨hg2, u6, hu6, e2⟩ | ⟨hg2, e2⟩
      · exact absurd ⟨Or.inl hne, hg2.2⟩ hg
      · rename_i e1
        have k1 := congrArg Prod.fst e1
        have k2 := congrArg Prod.fst e2
        simp only at k1 k2
        rw [k1, k2, hl]
  · intro hpq hne hl
    have hq : q.stress_mises_read ≠ 0 := hpq ▸ hne
    rcases elem4_layer_stress_ok _ _ _ _ _ _ _ _ _ a2 with ⟨hg, t6, ht6, e1⟩ | ⟨hg, _⟩
    · rcases elem4_layer_stress_ok _ _ _ _ _ _ _ _ _ g2 with ⟨hg2, u6, hu6, e2⟩ | ⟨hg2, _⟩
      · rw [Buffer.read_float_array_congr b b2 hb, hu6] at ht6
        cases ht6
        have k1 := congrArg Prod.snd e1
        have k2 := congrArg Prod.snd e2
        simp only at k1 k2
        rw [k1, k2]
        by_cases h0 : iLayer = 0
        · simp [h0]
        · simp [h0, elem4_switch_mises_congr fa c p q hpq, hl]
      · exact absurd ⟨Or.inr hq, hg.2⟩ hg2
    · rcases elem4_layer_stress_ok _ _ _ _ _ _ _ _ _ g2 with ⟨hg2, u6, hu6, e2⟩ | ⟨hg2, e2⟩
      · exact absurd ⟨Or.inr hne, hg2.2⟩ hg
      · rename_i e1
        have k1 := congrArg Prod.snd e1
        have k2 := congrArg Prod.snd e2
        simp only at k1 k2
        rw [k1, k2, hl]

/-- The same over the whole layer loop. -/
theorem elem4_layers_rel (fa : FloatArith) (c : Control) (p q : ReadPlan) (b b2 : Buffer)
    (hb : b.current = b2.current) (ii : Int) :
    ∀ (n : Nat) (iLayer : Int) (lv lw lv1 lw1 : D3plot.LayerVars),
      D3plot.elem4_layers fa c p b ii n iLayer lv = .ok lv1 →
      D3plot.elem4_layers fa c q b2 ii n iLayer lw = .ok lw1 →
      (p.plastic_strain_read = q.plastic_strain_read → lv.plastic_strain = lw.plastic_strain →
          lv1.plastic_strain = lw1.plastic_strain) ∧
      (p.stress_read = q.stress_read → p.stress_read ≠ 0 →
          lv.tmp_vec_stress = lw.tmp_vec_stress → lv1.tmp_vec_stress = lw1.tmp_vec_stress) ∧
      (p.stress_mises_read = q.stress_mises_read → p.stress_mises_read ≠ 0 →
          lv.stress_mises = lw.stress_mises → lv1.stress_mises = lw1.stress_mises) := by
  intro n
  induction n with
  | zero =>
    intro iLayer lv lw lv1 lw1 h1 h2
    simp only [D3plot.elem4_layers, Except.ok.injEq] at h1 h2
    subst h1; subst h2
    exact ⟨fun _ h => h, fun _ _ h => h, fun _ _ h => h⟩
  | succ n ih =>
    intro iLayer lv lw lv1 lw1 h1 h2
    rw [D3plot.elem4_layers] at h1 h2
    split at h1
    · cases h1
    · rename_i lvm hm
      split at h2
      · cases h2
      · rename_i lwm hm2
        obtain ⟨r1, r2, r3⟩ := elem4_layer_rel fa c p q b b2 hb ii iLayer lv lw lvm lwm hm hm2
        obtain ⟨s1, s2, s3⟩ := ih (iLayer + 1) lvm lwm lv1 lw1 h1 h2
        exact ⟨fun hpq hl => s1 hpq (r1 hpq hl), fun hpq hne hl => s2 hpq hne (r2 hpq hne hl),
          fun hpq hne hl => s3 hpq hne (r3 hpq hne hl)⟩

/-! ## One shell: the body -/

theorem elem4_strain_congr (fa : FloatArith) (c : Control) (p q : ReadPlan) (b b2 : Buffer)
    (hb : b.current = b2.current) (hpq : p.strain_read = q.strain_read) (ii : Int) :
    D3plot.elem4_strain fa c p b ii = D3plot.elem4_strain fa c q b2 ii := by
  unfold D3plot.elem4_strain
  simp only [hpq, Buffer.read_float_array_congr b b2 hb]

/-- The body of the shell loop for a shell that is not rigid: the layer loop,
the values it adds, the strain block and the energy block. -/
theorem read_states_elem4_element_ok (fa : FloatArith) (c : Control) (p : ReadPlan) (b : Buffer)
    (iState : Nat) (ii : Int) (tmp : List F32) (e : Element) (r : Element × List F32)
    (h : D3plot.read_states_elem4_element fa c p b iState ii tmp e = .ok r) :
    ∃ (lv : D3plot.LayerVars) (eS : Element),
      D3plot.elem4_layers fa c p b ii c.dyna_maxint.toNat 0
        { plastic_strain := D3plot.zero_f, tmp_vec_stress := tmp, stress_mises := D3plot.zero_f,
          history_vars := List.replicate p.history_shell_read.length D3plot.zero_f } = .ok lv ∧
      r.2 = lv.tmp_vec_stress ∧
      (((c.dyna_istrn = 1 ∧ p.strain_read ≠ 0) ∧
          ∃ s, D3plot.elem4_strain fa c p b ii = .ok s ∧
            eS = ((fun el : Element =>
                if p.history_shell_read.length ≠ 0 then el.add_history_vars lv.history_vars iState
                else el)
              ((fun el : Element =>
                  if p.stress_mises_read ≠ 0 then el.add_stress_mises lv.stress_mises else el)
                ((fun el : Element =>
                    if p.stress_read ≠ 0 then el.add_stress lv.tmp_vec_stress else el)
                  (if c.dyna_istrn ≠ 0 ∧ p.plastic_strain_read ≠ 0
                   then e.add_plastic_strain lv.plastic_strain else e)))).add_strain s)
        ∨ (¬ (c.dyna_istrn = 1 ∧ p.strain_read ≠ 0) ∧
            eS = (fun el : Element =>
                if p.history_shell_read.length ≠ 0 then el.add_history_vars lv.history_vars iState
                else el)
              ((fun el : Element =>
                  if p.stress_mises_read ≠ 0 then el.add_stress_mises lv.stress_mises else el)
                ((fun el : Element =>
                    if p.stress_read ≠ 0 then el.add_stress lv.tmp_vec_stress else el)
                  (if c.dyna_istrn ≠ 0 ∧ p.plastic_strain_read ≠ 0
                   then e.add_plastic_strain lv.plastic_strain else e))))) ∧
      (((p.energy_read ≠ 0 ∧ c.dyna_ioshl4 ≠ 0 ∧ (c.dyna_istrn = 1 → c.dyna_nv2d ≥ 45)) ∧
          ∃ x, b.read_float (ii + c.dyna_nv2d - 1) = .ok x ∧ r.1 = eS.add_energy x)
        ∨ (¬ (p.energy_read ≠ 0 ∧ c.dyna_ioshl4 ≠ 0 ∧ (c.dyna_istrn = 1 → c.dyna_nv2d ≥ 45)) ∧
            r.1 = eS)) := by
  unfold D3plot.read_states_elem4_element at h
  simp only [Except.bind_eq_ok, pure, Except.pure, Except.ok.injEq] at h
  obtain ⟨lv, hlv, eS, hS, eE, hE, rfl⟩ := h
  refine ⟨lv, eS, hlv, rfl, ?_, ?_⟩
  · split at hS
    · rename_i hg
      split at hS
      · cases hS
      · rename_i s hs
        cases hS
        exact Or.inl ⟨hg, s, hs, rfl⟩
    · rename_i hg
      cases hS
      exact Or.inr ⟨hg, rfl⟩
  · split at hE
    · rename_i hg
      split at hE
      · rename_i h1
        split at hE
        · rename_i h45
          split at hE
          · cases hE
          · rename_i x hx
            cases hE
            exact Or.inl ⟨⟨hg.1, hg.2, fun _ => h45⟩, x, hx, rfl⟩
        · rename_i h45
          cases hE
          exact Or.inr ⟨fun hc => h45 (hc.2.2 h1), rfl⟩
      · rename_i h1
        split at hE
        · cases hE
        · rename_i x hx
          cases hE
          exact Or.inl ⟨⟨hg.1, hg.2, fun hc => absurd hc h1⟩, x, hx, rfl⟩
    · rename_i hg
      cases hE
      exact Or.inr ⟨fun hc => hg ⟨hc.1, hc.2.1⟩, rfl⟩

/-- The shell body appends to the view of each variable exactly the slice
`elem4_delta` of that variable. -/
theorem read_states_elem4_element_view (fa : FloatArith) (c : Control) (p : ReadPlan)
    (b : Buffer) (iState : Nat) (ii : Int) (tmp : List F32) (e : Element)
    (r : Element × List F32) (v : Var)
    (h : D3plot.read_states_elem4_element fa c p b iState ii tmp e = .ok r) :
    ∃ lv : D3plot.LayerVars,
      D3plot.elem4_layers fa c p b ii c.dyna_maxint.toNat 0
        { plastic_strain := D3plot.zero_f, tmp_vec_stress := tmp, stress_mises := D3plot.zero_f,
          history_vars := List.replicate p.history_shell_read.length D3plot.zero_f } = .ok lv ∧
      r.2 = lv.tmp_vec_stress ∧
      r.1.view v = e.view v ++ elem4_delta fa c b ii lv v (v.entry p) ∧
      (elem4_delta fa c b ii lv v (v.entry p)).length ≤ 1 := by
  obtain ⟨lv, eS, hlv, hr2, hS, hE⟩ := read_states_elem4_element_ok _ _ _ _ _ _ _ _ _ h
  refine ⟨lv, hlv, hr2, ?_⟩
  have kE : r.1.view v = eS.view v ++
      (if v = Var.energy then elem4_delta fa c b ii lv Var.energy p.energy_read else []) := by
    rcases hE with ⟨hg, x, hx, hr⟩ | ⟨hg, hr⟩
    · rw [hr, Element.view_add_energy]
      have hd : elem4_delta fa c b ii lv Var.energy p.energy_read = [[x]] := by
        unfold elem4_delta
        simp only [if_pos hg, hx]
      rw [hd]
      by_cases hv : v = Var.energy <;> simp [hv]
    · rw [hr]
      have hd : elem4_delta fa c b ii lv Var.energy p.energy_read = [] := by
        unfold elem4_delta
        simp only [if_neg hg]
      rw [hd]
      simp
  have key : ∀ el : Element,
      ((fun el : Element =>
              if p.history_shell_read.length ≠ 0 then el.add_history_vars lv.history_vars iState
              else el)
            ((fun el : Element =>
                if p.stress_mises_read ≠ 0 then el.add_stress_mises lv.stress_mises else el)
              ((fun el : Element =>
                  if p.stress_read ≠ 0 then el.add_stress lv.tmp_vec_stress else el)
                (if c.dyna_istrn ≠ 0 ∧ p.plastic_strain_read ≠ 0
                 then el.add_plastic_strain lv.plastic_strain else el)))).view v
        = el.view v ++
          (if v = Var.energy ∨ v = Var.strain then []
           else elem4_delta fa c b ii lv v (v.entry p)) := by
    intro el
    simp only [Element.view_cond_add_history_vars, Element.view_cond_add_stress_mises,
      Element.view_cond_add_stress, Element.view_cond_add_plastic_strain]
    cases v <;> simp [elem4_delta, Var.entry]
  have kS : eS.view v = e.view v ++
      (if v = Var.energy then [] else elem4_delta fa c b ii lv v (v.entry p)) := by
    rcases hS with ⟨hg, s, hs, hr⟩ | ⟨hg, hr⟩
    · rw [hr, Element.view_add_strain, key]
      have hs2 : D3plot.elem4_strain fa c { ReadPlan.init with strain_read := p.strain_read } b ii
          = .ok s := by
        rw [← hs]; exact elem4_strain_congr fa c _ _ b b rfl rfl ii
      have hd : elem4_delta fa c b ii lv Var.strain p.strain_read = [s] := by
        unfold elem4_delta
        simp only [if_pos hg, hs2]
      cases v <;> simp [Var.entry, hd]
    · rw [hr, key]
      have hd : elem4_delta fa c b ii lv Var.strain p.strain_read = [] := by
        unfold elem4_delta
        simp only [if_neg hg]
      cases v <;> simp [Var.entry, hd]
  constructor
  · rw [kE, kS]
    cases v <;> simp [Var.entry, elem4_delta]
  · cases v <;> simp only [elem4_delta, Var.entry] <;> repeat (first | split | simp)

/-- A projection of an element that no `add_*` of the shell body changes is
the same after the body. -/
theorem read_states_elem4_element_inv {β : Type} (f : Element → β) (fa : FloatArith)
    (c : Control) (p : ReadPlan) (b : Buffer) (iState : Nat) (ii : Int) (tmp : List F32)
    (e : Element) (r : Element × List F32)
    (hps : ∀ (el : Element) x, f (el.add_plastic_strain x) = f el)
    (hst : ∀ (el : Element) x, f (el.add_stress x) = f el)
    (hsm : ∀ (el : Element) x, f (el.add_stress_mises x) = f el)
    (hsn : ∀ (el : Element) x, f (el.add_strain x) = f el)
    (hen : ∀ (el : Element) x, f (el.add_energy x) = f el)
    (hh : p.history_shell_read.length ≠ 0 → ∀ (el : Element) x i, f (el.add_history_vars x i) = f el)
    (h : D3plot.read_states_elem4_element fa c p b iState ii tmp e = .ok r) :
    f r.1 = f e := by
  obtain ⟨lv, eS, _, _, hS, hE⟩ := read_states_elem4_element_ok _ _ _ _ _ _ _ _ _ h
  have kE : f r.1 = f eS := by
    rcases hE with ⟨_, x, _, hr⟩ | ⟨_, hr⟩
    · rw [hr, hen]
    · rw [hr]
  have key : ∀ el : Element,
      f ((fun el : Element =>
              if p.history_shell_read.length ≠ 0 then el.add_history_vars lv.history_vars iState
              else el)
            ((fun el : Element =>
                if p.stress_mises_read ≠ 0 then el.add_stress_mises lv.stress_mises else el)
              ((fun el : Element =>
                  if p.stress_read ≠ 0 then el.add_stress lv.tmp_vec_stress else el)
                (if c.dyna_istrn ≠ 0 ∧ p.plastic_strain_read ≠ 0
                 then el.add_plastic_strain lv.plastic_strain else el)))) = f el := by
    intro el
    have s1 : f (if c.dyna_istrn ≠ 0 ∧ p.plastic_strain_read ≠ 0
                 then el.add_plastic_strain lv.plastic_strain else el) = f el := by
      split
      · exact hps _ _
      · rfl
    have s2 : ∀ el2 : Element,
        f (if p.stress_read ≠ 0 then el2.add_stress lv.tmp_vec_stress else el2) = f el2 := by
      intro el2; split
      · exact hst _ _
      · rfl
    have s3 : ∀ el2 : Element,
        f (if p.stress_mises_read ≠ 0 then el2.add_stress_mises lv.stress_mises else el2)
          = f el2 := by
      intro el2; split
      · exact hsm _ _
      · rfl
    have s4 : ∀ el2 : Element,
        f (if p.history_shell_read.length ≠ 0 then el2.add_history_vars lv.history_vars iState
           else el2) = f el2 := by
      intro el2; split
      · rename_i hl; exact hh hl _ _ _
      · rfl
    simp only [s4, s3, s2, s1]
  rw [kE]
  rcases hS with ⟨_, s, _, hr⟩ | ⟨_, hr⟩
  · rw [hr, hsn, key]
  · rw [hr, key]

/-- The slice of a variable depends on the loaded section and on the local of
the layer loop that belongs to the variable. -/
theorem elem4_delta_congr (fa : FloatArith) (c : Control) (b b2 : Buffer)
    (hb : b.current = b2.current) (ii : Int) (lv lw : D3plot.LayerVars) (v : Var) (code : Int)
    (h1 : v = Var.plastic_strain → lv.plastic_strain = lw.plastic_strain)
    (h2 : v = Var.stress → code ≠ 0 → lv.tmp_vec_stress = lw.tmp_vec_stress)
    (h3 : v = Var.stress_mises → code ≠ 0 → lv.stress_mises = lw.stress_mises) :
    elem4_delta fa c b ii lv v code = elem4_delta fa c b2 ii lw v code := by
  cases v
  case plastic_strain => simp only [elem4_delta, h1 rfl]
  case stress =>
    by_cases hc : code = 0
    · simp [elem4_delta, hc]
    · simp only [elem4_delta, h2 rfl hc]
  case stress_mises =>
    by_cases hc : code = 0
    · simp [elem4_delta, hc]
    · simp only [elem4_delta, h3 rfl hc]
  case strain =>
    simp only [elem4_delta, elem4_strain_congr fa c _ _ b b2 hb rfl ii]
  case energy =>
    simp only [elem4_delta, Buffer.read_float_congr b b2 hb]
  all_goals simp [elem4_delta]

theorem elem4_delta_zero (fa : FloatArith) (c : Control) (b : Buffer) (ii : Int)
    (lv : D3plot.LayerVars) (v : Var) : elem4_delta fa c b ii lv v 0 = [] := by
  cases v <;> simp [elem4_delta]

theorem read_states_elem4_body_ok (fa : FloatArith) (c : Control) (p : ReadPlan) (b : Buffer)
    (iState : Nat) (ii : Int) (tmp : List F32) (e : Element) (r : Element × List F32 × Int)
    (h : D3plot.read_states_elem4_body fa c p b iState ii tmp e = .ok r) :
    (e.is_rigid = true ∧ r = (e, tmp, ii)) ∨
    (e.is_rigid = false ∧ ∃ et, D3plot.read_states_elem4_element fa c p b iState ii tmp e = .ok et ∧
        r = (et.1, et.2, ii + c.dyna_nv2d)) := by
  unfold D3plot.read_states_elem4_body at h
  split at h
  · rename_i hr
    cases h
    exact Or.inl ⟨hr, rfl⟩
  · rename_i hr
    split at h
    · cases h
    · rename_i et het
      cases h
      exact Or.inr ⟨by simpa [Element.get_is_rigid] using hr, et, het, rfl⟩

/-- Two runs of the shell loop body at the same words with the same request
code for a variable stay in step on the rigid flag and the view of that
variable (and on `tmp_vec_stress` when stress is requested). -/
theorem read_states_elem4_body_rel (fa : FloatArith) (c : Control) (p q : ReadPlan)
    (b b2 : Buffer) (hb : b.current = b2.current) (i j : Nat) (v : Var)
    (hv : v.entry p = v.entry q) (ii : Int) (s t : List F32) (x y : Element)
    (r r2 : Element × List F32 × Int)
    (hS : v = Var.stress → v.entry p ≠ 0 → s = t)
    (hxy : (x.is_rigid, x.view v) = (y.is_rigid, y.view v))
    (h1 : D3plot.read_states_elem4_body fa c p b i ii s x = .ok r)
    (h2 : D3plot.read_states_elem4_body fa c q b2 j ii t y = .ok r2) :
    (r.1.is_rigid, r.1.view v) = (r2.1.is_rigid, r2.1.view v) ∧
    (v = Var.stress → v.entry p ≠ 0 → r.2.1 = r2.2.1) ∧ r.2.2 = r2.2.2 := by
  simp only [Prod.mk.injEq] at hxy
  obtain ⟨hrig, hview⟩ := hxy
  rcases read_states_elem4_body_ok _ _ _ _ _ _ _ _ _ h1 with ⟨hx, rfl⟩ | ⟨hx, et, het, rfl⟩
  · rcases read_states_elem4_body_ok _ _ _ _ _ _ _ _ _ h2 with ⟨hy, rfl⟩ | ⟨hy, _⟩
    · exact ⟨by simp [hrig, hview], hS, rfl⟩
    · rw [hrig, hy] at hx; cases hx
  · rcases read_states_elem4_body_ok _ _ _ _ _ _ _ _ _ h2 with ⟨hy, _⟩ | ⟨hy, eu, heu, rfl⟩
    · rw [hrig, hy] at hx; cases hx
    · obtain ⟨lv, hlv, hr2, hvw, _⟩ := read_states_elem4_element_view _ _ _ _ _ _ _ _ _ v het
      obtain ⟨lw, hlw, hq2, hvw2, _⟩ := read_states_elem4_element_view _ _ _ _ _ _ _ _ _ v heu
      obtain ⟨k1, k2, k3⟩ := elem4_layers_rel fa c p q b b2 hb ii _ _ _ _ _ _ hlv hlw
      have hr1 : et.1.is_rigid = x.is_rigid :=
        read_states_elem4_element_inv (fun el => el.is_rigid) _ _ _ _ _ _ _ _ _
          (fun _ _ => rfl) (fun _ _ => rfl) (fun _ _ => rfl) (fun _ _ => rfl) (fun _ _ => rfl)
          (fun _ _ _ _ => rfl) het
      have hr3 : eu.1.is_rigid = y.is_rigid :=
        read_states_elem4_element_inv (fun el => el.is_rigid) _ _ _ _ _ _ _ _ _
          (fun _ _ => rfl) (fun _ _ => rfl) (fun _ _ => rfl) (fun _ _ => rfl) (fun _ _ => rfl)
          (fun _ _ _ _ => rfl) heu
      have hd : elem4_delta fa c b ii lv v (v.entry p) = elem4_delta fa c b2 ii lw v (v.entry q) := by
        rw [← hv]
        apply elem4_delta_congr fa c b b2 hb
        · intro hvv; subst hvv; exact k1 hv rfl
        · intro hvv hne; subst hvv
          exact k2 hv hne (hS rfl hne)
        · intro hvv hne; subst hvv; exact k3 hv hne rfl
      refine ⟨?_, ?_, rfl⟩
      · simp only [Prod.mk.injEq]
        exact ⟨by rw [hr1, hr3, hrig], by rw [hvw, hvw2, hview, hd]⟩
      · intro hvv hne
        subst hvv
        simp only
        rw [hr2, hq2]
        exact k2 hv hne (hS rfl hne)

/-! ## The passes over the databases, one variable at a time -/

/-- A node pass leaves every projection alone that its `add` does not change. -/
theorem node_phase_map {β : Type} (f : Node → β) (cond : Prop) (b : Buffer) (ndim : Int)
    (add : Node → List F32 → Node) (hi st : Int) (xs xs1 : List Node)
    (hf : ∀ n w, f (add n w) = f n)
    (h : Phase cond (D3plot.read_states_node_loop b ndim add hi st xs) xs xs1) :
    xs1.map f = xs.map f := by
  rcases h with ⟨_, hl⟩ | ⟨_, rfl⟩
  · unfold D3plot.read_states_node_loop at hl
    refine db_loop_map _ hi f ?_ xs st () xs1 hl
    intro ii s x r hr
    rw [read_states_node_body_ok] at hr
    obtain ⟨w, _, rfl⟩ := hr
    exact hf x w
  · rfl

/-- Two node passes over the same words that both run, or both do not, keep
the views of the two databases equal. -/
theorem node_phase_rel (v : Var) (ca cb : Prop) (b b2 : Buffer) (hb : b.current = b2.current)
    (ndim : Int) (add : Node → List F32 → Node) (hi st : Int) (xs ys xs1 ys1 : List Node)
    (hadd : ∀ n m w, n.view v = m.view v → (add n w).view v = (add m w).view v)
    (hc : ca ↔ cb) (hxy : xs.map (Node.view v) = ys.map (Node.view v))
    (h1 : Phase ca (D3plot.read_states_node_loop b ndim add hi st xs) xs xs1)
    (h2 : Phase cb (D3plot.read_states_node_loop b2 ndim add hi st ys) ys ys1) :
    xs1.map (Node.view v) = ys1.map (Node.view v) := by
  rcases h1 with ⟨h1c, hl1⟩ | ⟨h1c, rfl⟩
  · rcases h2 with ⟨_, hl2⟩ | ⟨h2c, _⟩
    · unfold D3plot.read_states_node_loop at hl1 hl2
      refine db_loop_rel _ _ hi (Node.view v) (fun _ _ => True) ?_ xs ys st () () xs1 ys1 hxy
        trivial hl1 hl2
      intro ii s t x y r q _ hxy2 hr hq
      rw [read_states_node_body_ok] at hr hq
      obtain ⟨w, hw, rfl⟩ := hr
      obtain ⟨u, hu, rfl⟩ := hq
      rw [Buffer.read_float_array_congr b b2 hb, hu] at hw
      cases hw
      exact ⟨hadd _ _ _ hxy2, trivial, rfl⟩
    · exact absurd (hc.mp h1c) h2c
  · rcases h2 with ⟨h2c, _⟩ | ⟨_, rfl⟩
    · exact absurd (hc.mpr h2c) h1c
    · exact hxy

theorem Node.view_add_rel (v : Var) :
    (∀ (n m : Node) (w : List F32), n.view v = m.view v →
        (n.add_disp w).view v = (m.add_disp w).view v) ∧
    (∀ (n m : Node) (w : List F32), n.view v = m.view v →
        (n.add_vel w).view v = (m.add_vel w).view v) ∧
    (∀ (n m : Node) (w : List F32), n.view v = m.view v →
        (n.add_accel w).view v = (m.add_accel w).view v) := by
  refine ⟨?_, ?_, ?_⟩ <;> intro n m w h
  · rw [Node.view_add_disp, Node.view_add_disp, h]
  · rw [Node.view_add_vel, Node.view_add_vel, h]
  · rw [Node.view_add_accel, Node.view_add_accel, h]

/-- The three node passes of two runs of one state keep the node views of a
variable equal, when the request code of that variable is the same in both. -/
theorem node_phases_rel (v : Var) (b b2 : Buffer) (hb : b.current = b2.current) (c : Control)
    (p q : ReadPlan) (hv : v.entry p = v.entry q) (wp : Int)
    (xs ys xsA ysA xsB ysB xsC ysC : List Node)
    (hxy : xs.map (Node.view v) = ys.map (Node.view v))
    (a1 : Phase (c.dyna_iu = 1 ∧ p.disp_read ≠ 0)
      (D3plot.read_states_node_loop b c.dyna_ndim Node.add_disp
        (D3plot.disp_start c wp + c.dyna_numnp * c.dyna_ndim) (D3plot.disp_start c wp) xs) xs xsA)
    (a2 : Phase (c.dyna_iv = 1 ∧ p.vel_read ≠ 0)
      (D3plot.read_states_node_loop b c.dyna_ndim Node.add_vel
        (D3plot.vel_start c wp + c.dyna_numnp * c.dyna_ndim) (D3plot.vel_start c wp) xsA) xsA xsB)
    (a3 : Phase (c.dyna_ia = 1 ∧ p.acc_read ≠ 0)
      (D3plot.read_states_node_loop b c.dyna_ndim Node.add_accel
        (D3plot.acc_start c wp + c.dyna_numnp * c.dyna_ndim) (D3plot.acc_start c wp) xsB) xsB xsC)
    (b1 : Phase (c.dyna_iu = 1 ∧ q.disp_read ≠ 0)
      (D3plot.read_states_node_loop b2 c.dyna_ndim Node.add_disp
        (D3plot.disp_start c wp + c.dyna_numnp * c.dyna_ndim) (D3plot.disp_start c wp) ys) ys ysA)
    (b2p : Phase (c.dyna_iv = 1 ∧ q.vel_read ≠ 0)
      (D3plot.read_states_node_loop b2 c.dyna_ndim Node.add_vel
        (D3plot.vel_start c wp + c.dyna_numnp * c.dyna_ndim) (D3plot.vel_start c wp) ysA) ysA ysB)
    (b3 : Phase (c.dyna_ia = 1 ∧ q.acc_read ≠ 0)
      (D3plot.read_states_node_loop b2 c.dyna_ndim Node.add_accel
        (D3plot.acc_start c wp + c.dyna_numnp * c.dyna_ndim) (D3plot.acc_start c wp) ysB) ysB ysC) :
    xsC.map (Node.view v) = ysC.map (Node.view v) := by
  obtain ⟨r1, r2, r3⟩ := Node.view_add_rel v
  have hA : xsA.map (Node.view v) = ysA.map (Node.view v) := by
    by_cases hvv : v = Var.disp
    · subst hvv
      simp only [Var.entry] at hv
      exact node_phase_rel _ _ _ b b2 hb _ _ _ _ _ _ _ _ r1 (by rw [hv]) hxy a1 b1
    · rw [node_phase_map (Node.view v) _ _ _ _ _ _ _ _
          (fun n w => by rw [Node.view_add_disp, if_neg hvv]) a1,
        node_phase_map (Node.view v) _ _ _ _ _ _ _ _
          (fun n w => by rw [Node.view_add_disp, if_neg hvv]) b1]
      exact hxy
  have hB : xsB.map (Node.view v) = ysB.map (Node.view v) := by
    by_cases hvv : v = Var.vel
    · subst hvv
      simp only [Var.entry] at hv
      exact node_phase_rel _ _ _ b b2 hb _ _ _ _ _ _ _ _ r2 (by rw [hv]) hA a2 b2p
    · rw [node_phase_map (Node.view v) _ _ _ _ _ _ _ _
          (fun n w => by rw [Node.view_add_vel, if_neg hvv]) a2,
        node_phase_map (Node.view v) _ _ _ _ _ _ _ _
          (fun n w => by rw [Node.view_add_vel, if_neg hvv]) b2p]
      exact hA
  by_cases hvv : v = Var.accel
  · subst hvv
    simp only [Var.entry] at hv
    exact node_phase_rel _ _ _ b b2 hb _ _ _ _ _ _ _ _ r3 (by rw [hv]) hB a3 b3
  · rw [node_phase_map (Node.view v) _ _ _ _ _ _ _ _
        (fun n w => by rw [Node.view_add_accel, if_neg hvv]) a3,
      node_phase_map (Node.view v) _ _ _ _ _ _ _ _
        (fun n w => by rw [Node.view_add_accel, if_neg hvv]) b3]
    exact hB

theorem elem4_delta_nil (fa : FloatArith) (c : Control) (b : Buffer) (ii : Int)
    (lv : D3plot.LayerVars) (v : Var) (code : Int)
    (h : code = 0 ∨ v = Var.disp ∨ v = Var.vel ∨ v = Var.accel) :
    elem4_delta fa c b ii lv v code = [] := by
  rcases h with h | h | h | h
  · rw [h]; exact elem4_delta_zero _ _ _ _ _ _
  all_goals (subst h; simp [elem4_delta])

theorem elem8_delta_nil (fa : FloatArith) (c : Control) (b : Buffer) (ii : Int)
    (v : Var) (code : Int)
    (h : code = 0 ∨ v = Var.disp ∨ v = Var.vel ∨ v = Var.accel) :
    elem8_delta fa c b ii v code = [] := by
  rcases h with h | h | h | h
  · rw [h]; exact elem8_delta_zero _ _ _ _ _
  all_goals (subst h; simp [elem8_delta])

theorem wants_elements_of_entry (p : ReadPlan) (v : Var) (h : v.entry p ≠ 0)
    (hv : ¬ (v = Var.disp ∨ v = Var.vel ∨ v = Var.accel)) : D3plot.wants_elements p := by
  unfold D3plot.wants_elements
  cases v <;> simp_all [Var.entry]

theorem read_states_elem4_body_frame (fa : FloatArith) (c : Control) (p : ReadPlan)
    (b : Buffer) (i : Nat) (v : Var)
    (hd : v.entry p = 0 ∨ v = Var.disp ∨ v = Var.vel ∨ v = Var.accel)
    (ii : Int) (s : List F32) (x : Element) (r : Element × List F32 × Int)
    (h : D3plot.read_states_elem4_body fa c p b i ii s x = .ok r) :
    (r.1.is_rigid, r.1.view v) = (x.is_rigid, x.view v) := by
  rcases read_states_elem4_body_ok _ _ _ _ _ _ _ _ _ h with ⟨_, rfl⟩ | ⟨_, et, het, rfl⟩
  · rfl
  · obtain ⟨lv, _, _, hvw, _⟩ := read_states_elem4_element_view _ _ _ _ _ _ _ _ _ v het
    have hr1 : et.1.is_rigid = x.is_rigid :=
      read_states_elem4_element_inv (fun el => el.is_rigid) _ _ _ _ _ _ _ _ _
        (fun _ _ => rfl) (fun _ _ => rfl) (fun _ _ => rfl) (fun _ _ => rfl) (fun _ _ => rfl)
        (fun _ _ _ _ => rfl) het
    simp only [Prod.mk.injEq]
    refine ⟨hr1, ?_⟩
    rw [hvw, elem4_delta_nil _ _ _ _ _ _ _ hd, List.append_nil]

/-- The shell passes of two runs of one state keep the rigid flags and the
views of a variable equal, when the request code of that variable is the same
in both. -/
theorem shell_phase_rel (v : Var) (fa : FloatArith) (c : Control) (p q : ReadPlan)
    (b b2 : Buffer) (hb : b.current = b2.current) (i j : Nat) (hv : v.entry p = v.entry q)
    (skip : Prop) (hi st : Int) (tmp : List F32) (xs ys xs1 ys1 : List Element)
    (hxy : xs.map (fun e => (e.is_rigid, e.view v)) = ys.map (fun e => (e.is_rigid, e.view v)))
    (h1 : Phase (D3plot.wants_elements p ∧ ¬ skip)
      (D3plot.read_states_elem4_loop fa c p b i hi st tmp xs) xs xs1)
    (h2 : Phase (D3plot.wants_elements q ∧ ¬ skip)
      (D3plot.read_states_elem4_loop fa c q b2 j hi st tmp ys) ys ys1) :
    xs1.map (fun e => (e.is_rigid, e.view v)) = ys1.map (fun e => (e.is_rigid, e.view v)) := by
  have frame : ∀ (r : ReadPlan) (bb : Buffer) (k : Nat) (zs zs1 : List Element) (cond : Prop),
      (v.entry r = 0 ∨ v = Var.disp ∨ v = Var.vel ∨ v = Var.accel) →
      Phase cond (D3plot.read_states_elem4_loop fa c r bb k hi st tmp zs) zs zs1 →
      zs1.map (fun e => (e.is_rigid, e.view v)) = zs.map (fun e => (e.is_rigid, e.view v)) := by
    intro r bb k zs zs1 cond hd h
    rcases h with ⟨_, hl⟩ | ⟨_, rfl⟩
    · unfold D3plot.read_states_elem4_loop at hl
      exact db_loop_map _ hi _ (fun ii s x r0 hr0 =>
        read_states_elem4_body_frame fa c r bb k v hd ii s x r0 hr0) zs st tmp zs1 hl
    · rfl
  by_cases hd : v.entry p = 0 ∨ v = Var.disp ∨ v = Var.vel ∨ v = Var.accel
  · rw [frame p b i xs xs1 _ hd h1, frame q b2 j ys ys1 _ (hv ▸ hd) h2]
    exact hxy
  · have hne : v.entry p ≠ 0 := fun h0 => hd (Or.inl h0)
    have hnv : ¬ (v = Var.disp ∨ v = Var.vel ∨ v = Var.accel) := fun h0 => hd (Or.inr h0)
    have wp : D3plot.wants_elements p := wants_elements_of_entry p v hne hnv
    have wq : D3plot.wants_elements q := wants_elements_of_entry q v (hv ▸ hne) hnv
    rcases h1 with ⟨h1c, hl1⟩ | ⟨h1c, rfl⟩
    · rcases h2 with ⟨_, hl2⟩ | ⟨h2c, _⟩
      · unfold D3plot.read_states_elem4_loop at hl1 hl2
        refine db_loop_rel _ _ hi (fun e => (e.is_rigid, e.view v))
          (fun s t => v = Var.stress → v.entry p ≠ 0 → s = t) ?_ xs ys st tmp tmp xs1 ys1 hxy
          (fun _ _ => rfl) hl1 hl2
        intro ii s t x y r r2 hS hxy2 hr hr2
        exact read_states_elem4_body_rel fa c p q b b2 hb i j v hv ii s t x y r r2 hS hxy2 hr hr2
      · exact absurd ⟨wq, h1c.2⟩ h2c
    · rcases h2 with ⟨h2c, _⟩ | ⟨_, rfl⟩
      · exact absurd ⟨wp, h2c.2⟩ h1c
      · exact hxy

theorem read_states_elem8_body_ok (fa : FloatArith) (c : Control) (p : ReadPlan) (b : Buffer)
    (iState : Nat) (ii : Int) (s : Unit) (e : Element) (r : Element × Unit × Int)
    (h : D3plot.read_states_elem8_body fa c p b iState ii s e = .ok r) :
    ∃ e1, D3plot.read_states_elem8_element fa c p b iState ii e = .ok e1 ∧
      r = (e1, (), ii + c.dyna_nv3d) := by
  unfold D3plot.read_states_elem8_body at h
  split at h
  · cases h
  · rename_i e1 he1
    cases h
    exact ⟨e1, he1, rfl⟩

/-- The solid passes of two runs of one state keep the views of a variable
equal, when the request code of that variable is the same in both. -/
theorem solid_phase_rel (v : Var) (fa : FloatArith) (c : Control) (p q : ReadPlan)
    (b b2 : Buffer) (hb : b.current = b2.current) (i j : Nat) (hv : v.entry p = v.entry q)
    (skip : Prop) (hi st : Int) (xs ys xs1 ys1 : List Element)
    (hxy : xs.map (Element.view v) = ys.map (Element.view v))
    (h1 : Phase (D3plot.wants_elements p ∧ ¬ skip)
      (D3plot.read_states_elem8_loop fa c p b i hi st xs) xs xs1)
    (h2 : Phase (D3plot.wants_elements q ∧ ¬ skip)
      (D3plot.read_states_elem8_loop fa c q b2 j hi st ys) ys ys1) :
    xs1.map (Element.view v) = ys1.map (Element.view v) := by
  have frame : ∀ (r : ReadPlan) (bb : Buffer) (k : Nat) (zs zs1 : List Element) (cond : Prop),
      (v.entry r = 0 ∨ v = Var.disp ∨ v = Var.vel ∨ v = Var.accel) →
      Phase cond (D3plot.read_states_elem8_loop fa c r bb k hi st zs) zs zs1 →
      zs1.map (Element.view v) = zs.map (Element.view v) := by
    intro r bb k zs zs1 cond hd h
    rcases h with ⟨_, hl⟩ | ⟨_, rfl⟩
    · unfold D3plot.read_states_elem8_loop at hl
      refine db_loop_map _ hi _ ?_ zs st () zs1 hl
      intro ii s x r0 hr0
      obtain ⟨e1, he1, rfl⟩ := read_states_elem8_body_ok _ _ _ _ _ _ _ _ _ hr0
      simp only
      rw [read_states_elem8_element_view _ _ _ _ _ _ _ _ v he1,
        elem8_delta_nil _ _ _ _ _ _ hd, List.append_nil]
    · rfl
  by_cases hd : v.entry p = 0 ∨ v = Var.disp ∨ v = Var.vel ∨ v = Var.accel
  · rw [frame p b i xs xs1 _ hd h1, frame q b2 j ys ys1 _ (hv ▸ hd) h2]
    exact hxy
  · have hne : v.entry p ≠ 0 := fun h0 => hd (Or.inl h0)
    have hnv : ¬ (v = Var.disp ∨ v = Var.vel ∨ v = Var.accel) := fun h0 => hd (Or.inr h0)
    have wp : D3plot.wants_elements p := wants_elements_of_entry p v hne hnv
    have wq : D3plot.wants_elements q := wants_elements_of_entry q v (hv ▸ hne) hnv
    rcases h1 with ⟨h1c, hl1⟩ | ⟨h1c, rfl⟩
    · rcases h2 with ⟨_, hl2⟩ | ⟨h2c, _⟩
      · unfold D3plot.read_states_elem8_loop at hl1 hl2
        refine db_loop_rel _ _ hi (Element.view v) (fun _ _ => True) ?_ xs ys st () () xs1 ys1
          hxy trivial hl1 hl2
        intro ii s t x y r r2 _ hxy2 hr hr2
        obtain ⟨e1, he1, rfl⟩ := read_states_elem8_body_ok _ _ _ _ _ _ _ _ _ hr
        obtain ⟨e2, he2, rfl⟩ := read_states_elem8_body_ok _ _ _ _ _ _ _ _ _ hr2
        refine ⟨?_, trivial, rfl⟩
        simp only
        rw [read_states_elem8_element_view _ _ _ _ _ _ _ _ v he1,
          read_states_elem8_element_view _ _ _ _ _ _ _ _ v he2, hxy2, hv,
          elem8_delta_congr fa c b b2 hb]
      · exact absurd ⟨wq, h1c.2⟩ h2c
    · rcases h2 with ⟨h2c, _⟩ | ⟨_, rfl⟩
      · exact absurd ⟨wp, h2c.2⟩ h1c
      · exact hxy

/-! ## One state, two runs -/

theorem read_states_state_fixed (fa : FloatArith) (tr : Bool) (i : Nat) (a a1 : D3plot)
    (h : D3plot.read_states_state fa tr i a = .ok a1) :
    a1.fixed = a.fixed ∧ a1.buffer = a.buffer ∧ a1.wordPosition = a.wordPosition := by
  obtain ⟨_, _, e, _⟩ := read_states_state_ok fa tr i a a1 h
  refine ⟨?_, ?_, ?_⟩
  · rw [e]; rfl
  · rw [e]
  · rw [e]

/-- Two runs of the state body at the same words with the same request code
for a variable keep the results for that variable equal. -/
theorem read_states_state_rel (v : Var) (fa : FloatArith) (tr1 tr2 : Bool) (i j : Nat)
    (a b a1 b1 : D3plot) (hc : a.ctrl = b.ctrl) (hbuf : a.buffer.current = b.buffer.current)
    (hwp : a.wordPosition = b.wordPosition) (hv : v.entry a.plan = v.entry b.plan)
    (hag : AgreeOn v a b)
    (h1 : D3plot.read_states_state fa tr1 i a = .ok a1)
    (h2 : D3plot.read_states_state fa tr2 j b = .ok b1) : AgreeOn v a1 b1 := by
  obtain ⟨xA, xB, _, _, pa1, pa2, pa3, pa4, pa5⟩ := read_states_state_ok fa tr1 i a a1 h1
  obtain ⟨yA, yB, _, _, pb1, pb2, pb3, pb4, pb5⟩ := read_states_state_ok fa tr2 j b b1 h2
  rw [← hc, ← hwp] at pb1 pb2 pb3 pb4 pb5
  obtain ⟨hn, hs, ho⟩ := hag
  exact ⟨node_phases_rel v a.buffer b.buffer hbuf a.ctrl a.plan b.plan hv a.wordPosition _ _ _ _
      _ _ _ _ hn pa1 pa2 pa3 pb1 pb2 pb3,
    shell_phase_rel v fa a.ctrl a.plan b.plan a.buffer b.buffer hbuf i j hv _ _ _ _ _ _ _ _ hs
      pa4 pb4,
    solid_phase_rel v fa a.ctrl a.plan b.plan a.buffer b.buffer hbuf i j hv _ _ _ _ _ _ _ ho
      pa5 pb5⟩

/-- Two runs of the state body at the same word that both record the time (or
both do not) keep the timestep tables equal. -/
theorem read_states_state_times (fa : FloatArith) (tr : Bool) (i j : Nat) (a b a1 b1 : D3plot)
    (hbuf : a.buffer.current = b.buffer.current) (hwp : a.wordPosition = b.wordPosition)
    (hts : a.timesteps = b.timesteps)
    (h1 : D3plot.read_states_state fa tr i a = .ok a1)
    (h2 : D3plot.read_states_state fa tr j b = .ok b1) : a1.timesteps = b1.timesteps := by
  obtain ⟨_, _, _, ta, _⟩ := read_states_state_ok fa tr i a a1 h1
  obtain ⟨_, _, _, tb, _⟩ := read_states_state_ok fa tr j b b1 h2
  rcases ta with ⟨ht0, t, ht, e1⟩ | ⟨ht0, e1⟩
  · rcases tb with ⟨_, u, hu, e2⟩ | ⟨hu0, _⟩
    · rw [Buffer.read_float_congr _ _ hbuf, hwp, hu] at ht
      cases ht
      rw [e1, e2, hts]
    · rw [ht0] at hu0; cases hu0
  · rcases tb with ⟨hu0, _⟩ | ⟨_, e2⟩
    · rw [ht0] at hu0; cases hu0
    · rw [e1, e2, hts]

/-- The timestep table after the state body. -/
theorem read_states_state_timesteps (fa : FloatArith) (tr : Bool) (i : Nat) (a a1 : D3plot)
    (h : D3plot.read_states_state fa tr i a = .ok a1) :
    (tr = true ∧ ∃ t, a.buffer.read_float a.wordPosition = .ok t ∧
        a1.timesteps = a.timesteps ++ [t]) ∨ (tr = false ∧ a1.timesteps = a.timesteps) := by
  obtain ⟨_, _, _, ta, _⟩ := read_states_state_ok fa tr i a a1 h
  exact ta

/-! ## What one state keeps -/

theorem Preserved.pres_refl (a : D3plot) : Preserved a a :=
  ⟨rfl, rfl, rfl, rfl, fun _ => rfl, fun _ => rfl, fun _ _ => ⟨rfl, rfl, rfl⟩⟩

theorem Preserved.plan_eq {a a1 : D3plot} (h : Preserved a a1) : a1.plan = a.plan := by
  have := h.1
  simp only [D3plot.fixed, Prod.mk.injEq] at this
  exact this.2.1

theorem Preserved.ctrl_eq {a a1 : D3plot} (h : Preserved a a1) : a1.ctrl = a.ctrl := by
  have := h.1
  simp only [D3plot.fixed, Prod.mk.injEq] at this
  exact this.1

theorem Preserved.pres_trans {a a1 a2 : D3plot} (h1 : Preserved a a1) (h2 : Preserved a1 a2) :
    Preserved a a2 := by
  have hp := h1.plan_eq
  obtain ⟨f1, n1, s1, o1, hs1, ho1, v1⟩ := h1
  obtain ⟨f2, n2, s2, o2, hs2, ho2, v2⟩ := h2
  refine ⟨f2.trans f1, n2.trans n1, s2.trans s1, o2.trans o1, ?_, ?_, ?_⟩
  · intro h; exact (hs2 (hp ▸ h)).trans (hs1 h)
  · intro h; exact (ho2 (hp ▸ h)).trans (ho1 h)
  · intro v hv
    obtain ⟨x1, x2, x3⟩ := v1 v hv
    obtain ⟨y1, y2, y3⟩ := v2 v (hp ▸ hv)
    exact ⟨y1.trans x1, y2.trans x2, y3.trans x3⟩

/-- A change of the word position, the buffer or the timestep table alone
keeps everything `Preserved` speaks of. -/
theorem Preserved.of_eq (a a1 : D3plot) (h1 : a1.fixed = a.fixed)
    (h2 : a1.db_nodes = a.db_nodes) (h3 : a1.db_shells = a.db_shells)
    (h4 : a1.db_solids = a.db_solids) : Preserved a a1 := by
  refine ⟨h1, by rw [h2], by rw [h3], by rw [h4], fun _ => by rw [h3], fun _ => by rw [h4], ?_⟩
  intro v _
  exact ⟨by rw [h2], by rw [h3], by rw [h4]⟩

theorem shell_phase_map {β : Type} (f : Element → β) (fa : FloatArith) (c : Control)
    (p : ReadPlan) (b : Buffer) (i : Nat) (cond : Prop) (hi st : Int) (tmp : List F32)
    (xs xs1 : List Element)
    (hps : ∀ (el : Element) x, f (el.add_plastic_strain x) = f el)
    (hst : ∀ (el : Element) x, f (el.add_stress x) = f el)
    (hsm : ∀ (el : Element) x, f (el.add_stress_mises x) = f el)
    (hsn : ∀ (el : Element) x, f (el.add_strain x) = f el)
    (hen : ∀ (el : Element) x, f (el.add_energy x) = f el)
    (hh : p.history_shell_read.length ≠ 0 →
      ∀ (el : Element) x k, f (el.add_history_vars x k) = f el)
    (h : Phase cond (D3plot.read_states_elem4_loop fa c p b i hi st tmp xs) xs xs1) :
    xs1.map f = xs.map f := by
  rcases h with ⟨_, hl⟩ | ⟨_, rfl⟩
  · unfold D3plot.read_states_elem4_loop at hl
    refine db_loop_map _ hi f ?_ xs st tmp xs1 hl
    intro ii s x r hr
    rcases read_states_elem4_body_ok _ _ _ _ _ _ _ _ _ hr with ⟨_, rfl⟩ | ⟨_, et, het, rfl⟩
    · rfl
    · exact read_states_elem4_element_inv f _ _ _ _ _ _ _ _ _ hps hst hsm hsn hen hh het
  · rfl

theorem shell_phase_frame (v : Var) (fa : FloatArith) (c : Control) (p : ReadPlan) (b : Buffer)
    (i : Nat) (cond : Prop) (hi st : Int) (tmp : List F32) (xs xs1 : List Element)
    (hd : v.entry p = 0 ∨ v = Var.disp ∨ v = Var.vel ∨ v = Var.accel)
    (h : Phase cond (D3plot.read_states_elem4_loop fa c p b i hi st tmp xs) xs xs1) :
    xs1.map (fun e => (e.is_rigid, e.view v)) = xs.map (fun e => (e.is_rigid, e.view v)) := by
  rcases h with ⟨_, hl⟩ | ⟨_, rfl⟩
  · unfold D3plot.read_states_elem4_loop at hl
    exact db_loop_map _ hi _ (fun ii s x r0 hr0 =>
      read_states_elem4_body_frame fa c p b i v hd ii s x r0 hr0) xs st tmp xs1 hl
  · rfl

theorem solid_phase_map {β : Type} (f : Element → β) (fa : FloatArith) (c : Control)
    (p : ReadPlan) (b : Buffer) (i : Nat) (cond : Prop) (hi st : Int) (xs xs1 : List Element)
    (hf : ∀ ii e e1, D3plot.read_states_elem8_element fa c p b i ii e = .ok e1 → f e1 = f e)
    (h : Phase cond (D3plot.read_states_elem8_loop fa c p b i hi st xs) xs xs1) :
    xs1.map f = xs.map f := by
  rcases h with ⟨_, hl⟩ | ⟨_, rfl⟩
  · unfold D3plot.read_states_elem8_loop at hl
    refine db_loop_map _ hi f ?_ xs st () xs1 hl
    intro ii s x r hr
    obtain ⟨e1, he1, rfl⟩ := read_states_elem8_body_ok _ _ _ _ _ _ _ _ _ hr
    exact hf ii x e1 he1
  · rfl

/-- The state body keeps everything but the result vectors it is asked for. -/
theorem read_states_state_preserved (fa : FloatArith) (tr : Bool) (i : Nat) (a a1 : D3plot)
    (h : D3plot.read_states_state fa tr i a = .ok a1) : Preserved a a1 := by
  obtain ⟨hfix, _, _⟩ := read_states_state_fixed fa tr i a a1 h
  obtain ⟨xA, xB, _, _, p1, p2, p3, p4, p5⟩ := read_states_state_ok fa tr i a a1 h
  refine ⟨hfix, ?_, ?_, ?_, ?_, ?_, ?_⟩
  · rw [node_phase_map Node.static _ _ _ Node.add_accel _ _ _ _ (fun _ _ => rfl) p3,
      node_phase_map Node.static _ _ _ Node.add_vel _ _ _ _ (fun _ _ => rfl) p2,
      node_phase_map Node.static _ _ _ Node.add_disp _ _ _ _ (fun _ _ => rfl) p1]
  · exact shell_phase_map Element.static _ _ _ _ _ _ _ _ _ _ _ (fun _ _ => rfl) (fun _ _ => rfl)
      (fun _ _ => rfl) (fun _ _ => rfl) (fun _ _ => rfl) (fun _ _ _ _ => rfl) p4
  · refine solid_phase_map Element.static _ _ _ _ _ _ _ _ _ _ ?_ p5
    intro ii e e1 he
    obtain ⟨k1, k2, k3, k4, _, _⟩ := read_states_elem8_element_static _ _ _ _ _ _ _ _ he
    simp only [Element.static, k1, k2, k3, k4]
  · intro hh
    refine shell_phase_map Element.history_vars _ _ _ _ _ _ _ _ _ _ _ (fun _ _ => rfl)
      (fun _ _ => rfl) (fun _ _ => rfl) (fun _ _ => rfl) (fun _ _ => rfl) ?_ p4
    intro hl; rw [hh] at hl; simp at hl
  · intro hh
    refine solid_phase_map Element.history_vars _ _ _ _ _ _ _ _ _ _ ?_ p5
    intro ii e e1 he
    exact (read_states_elem8_element_static _ _ _ _ _ _ _ _ he).2.2.2.2.2 hh
  · intro v hv
    refine ⟨?_, ?_, ?_⟩
    · have k1 : xA.map (Node.view v) = a.db_nodes.map (Node.view v) := by
        by_cases hvv : v = Var.disp
        · subst hvv
          rcases p1 with ⟨hc, _⟩ | ⟨_, rfl⟩
          · exact absurd hv hc.2
          · rfl
        · exact node_phase_map (Node.view v) _ _ _ _ _ _ _ _
            (fun n w => by rw [Node.view_add_disp, if_neg hvv]) p1
      have k2 : xB.map (Node.view v) = xA.map (Node.view v) := by
        by_cases hvv : v = Var.vel
        · subst hvv
          rcases p2 with ⟨hc, _⟩ | ⟨_, rfl⟩
          · exact absurd hv hc.2
          · rfl
        · exact node_phase_map (Node.view v) _ _ _ _ _ _ _ _
            (fun n w => by rw [Node.view_add_vel, if_neg hvv]) p2
      have k3 : a1.db_nodes.map (Node.view v) = xB.map (Node.view v) := by
        by_cases hvv : v = Var.accel
        · subst hvv
          rcases p3 with ⟨hc, _⟩ | ⟨_, rfl⟩
          · exact absurd hv hc.2
          · rfl
        · exact node_phase_map (Node.view v) _ _ _ _ _ _ _ _
            (fun n w => by rw [Node.view_add_accel, if_neg hvv]) p3
      rw [k3, k2, k1]
    · exact shell_phase_frame v _ _ _ _ _ _ _ _ _ _ _ (Or.inl hv) p4
    · refine solid_phase_map (Element.view v) _ _ _ _ _ _ _ _ _ _ ?_ p5
      intro ii e e1 he
      rw [read_states_elem8_element_view _ _ _ _ _ _ _ _ v he,
        elem8_delta_nil _ _ _ _ _ _ (Or.inl hv), List.append_nil]

/-! ## The states of one segment -/

theorem isFileEnding_congr (a b : D3plot) (hb : a.buffer.current = b.buffer.current) (i : Int) :
    a.isFileEnding i = b.isFileEnding i := by
  unfold D3plot.isFileEnding
  rw [Buffer.read_float_congr _ _ hb]

theorem read_states_loop_succ (fa : FloatArith) (len : Int) (tr : Bool) (fuel i : Nat)
    (d : D3plot) (r : D3plot × Nat) :
    D3plot.read_states_loop fa len tr (fuel + 1) i d = .ok r ↔
      (d.isFileEnding d.wordPosition = .ok true ∧ r = (d, i)) ∨
      (d.isFileEnding d.wordPosition = .ok false ∧
        ∃ d1, D3plot.read_states_state fa tr i d = .ok d1 ∧
          D3plot.read_states_loop fa len tr fuel (i + 1)
            { d1 with wordPosition := d1.wordPosition + len } = .ok r) := by
  rw [D3plot.read_states_loop]
  cases hf : d.isFileEnding d.wordPosition with
  | error e => simp
  | ok fin =>
    cases fin with
    | true => simp [eq_comm]
    | false =>
      simp only [Except.ok.injEq, Bool.false_eq_true, false_and, false_or, true_and]
      cases hs : D3plot.read_states_state fa tr i d with
      | error e => simp
      | ok d1 => simp

/-- The state loop keeps everything but the result vectors it is asked for, the
timestep table and the word position. -/
theorem read_states_loop_preserved (fa : FloatArith) (len : Int) (tr : Bool) :
    ∀ (fuel i : Nat) (d : D3plot) (r : D3plot × Nat),
      D3plot.read_states_loop fa len tr fuel i d = .ok r →
      Preserved d r.1 ∧ r.1.buffer = d.buffer ∧ (tr = false → r.1.timesteps = d.timesteps) ∧
      (tr = true → r.1.timesteps.length + i = d.timesteps.length + r.2) ∧
      (∃ ts, r.1.timesteps = d.timesteps ++ ts) ∧ i ≤ r.2 := by
  intro fuel
  induction fuel with
  | zero => intro i d r h; simp [D3plot.read_states_loop] at h
  | succ fuel ih =>
    intro i d r h
    rw [read_states_loop_succ] at h
    rcases h with ⟨_, rfl⟩ | ⟨_, d1, hs, hl⟩
    · exact ⟨Preserved.pres_refl d, rfl, fun _ => rfl, fun _ => rfl, ⟨[], by simp⟩, le_refl _⟩
    · obtain ⟨hfix, hbuf, hwp⟩ := read_states_state_fixed fa tr i d d1 hs
      have hp := read_states_state_preserved fa tr i d d1 hs
      have hts := read_states_state_timesteps fa tr i d d1 hs
      obtain ⟨q1, q2, q3, q4, q5, q6⟩ := ih (i + 1) _ r hl
      have hp2 : Preserved d1 { d1 with wordPosition := d1.wordPosition + len } :=
        Preserved.of_eq _ _ rfl rfl rfl rfl
      refine ⟨hp.pres_trans (hp2.pres_trans q1), by rw [q2]; exact hbuf, ?_, ?_, ?_, by omega⟩
      · intro h0
        rw [q3 h0]
        rcases hts with ⟨h1, _⟩ | ⟨_, e⟩
        · rw [h0] at h1; cases h1
        · exact e
      · intro h0
        have := q4 h0
        rcases hts with ⟨_, t, _, e⟩ | ⟨h1, _⟩
        · simp only [e, List.length_append, List.length_singleton] at this
          omega
        · rw [h0] at h1; cases h1
      · obtain ⟨ts, hq⟩ := q5
        rcases hts with ⟨_, t, _, e⟩ | ⟨_, e⟩
        · exact ⟨[t] ++ ts, by rw [hq]; simp only [e]; simp⟩
        · exact ⟨ts, by rw [hq]; simp only [e]⟩

/-- Two runs of the state loop over the same words, with the same request code
for a variable, stay in step: they end at the same word after the same number
of states and keep the results for that variable equal. -/
theorem read_states_loop_rel (v : Var) (fa : FloatArith) (len : Int) (tr1 tr2 : Bool) :
    ∀ (fuel1 fuel2 i j : Nat) (a b : D3plot) (ra rb : D3plot × Nat),
      a.ctrl = b.ctrl → a.buffer.current = b.buffer.current →
      a.wordPosition = b.wordPosition → v.entry a.plan = v.entry b.plan → AgreeOn v a b →
      D3plot.read_states_loop fa len tr1 fuel1 i a = .ok ra →
      D3plot.read_states_loop fa len tr2 fuel2 j b = .ok rb →
      AgreeOn v ra.1 rb.1 ∧ ra.1.wordPosition = rb.1.wordPosition ∧ ra.2 + j = rb.2 + i ∧
      (tr1 = tr2 → a.timesteps = b.timesteps → ra.1.timesteps = rb.1.timesteps) := by
  intro fuel1
  induction fuel1 with
  | zero => intro fuel2 i j a b ra rb _ _ _ _ _ h; simp [D3plot.read_states_loop] at h
  | succ fuel1 ih =>
    intro fuel2 i j a b ra rb hc hb hw hv hag h1 h2
    cases fuel2 with
    | zero => simp [D3plot.read_states_loop] at h2
    | succ fuel2 =>
      rw [read_states_loop_succ] at h1 h2
      rw [isFileEnding_congr a b hb, hw] at h1
      rcases h1 with ⟨f1, rfl⟩ | ⟨f1, a1, hs1, hl1⟩
      · rcases h2 with ⟨_, rfl⟩ | ⟨f2, _⟩
        · exact ⟨hag, hw, by simp [Nat.add_comm], fun _ h => h⟩
        · rw [f1] at f2; cases f2
      · rcases h2 with ⟨f2, _⟩ | ⟨_, b1, hs2, hl2⟩
        · rw [f1] at f2; cases f2
        · obtain ⟨fa1, ba1, wa1⟩ := read_states_state_fixed fa tr1 i a a1 hs1
          obtain ⟨fb1, bb1, wb1⟩ := read_states_state_fixed fa tr2 j b b1 hs2
          have hag1 := read_states_state_rel v fa tr1 tr2 i j a b a1 b1 hc hb hw hv hag hs1 hs2
          have pa := read_states_state_preserved fa tr1 i a a1 hs1
          have pb := read_states_state_preserved fa tr2 j b b1 hs2
          obtain ⟨r1, r2, r3, r4⟩ := ih fuel2 (i + 1) (j + 1)
            { a1 with wordPosition := a1.wordPosition + len }
            { b1 with wordPosition := b1.wordPosition + len } ra rb
            (by simp only; rw [pa.ctrl_eq, pb.ctrl_eq, hc])
            (by simp only; rw [ba1, bb1, hb])
            (by simp only; rw [wa1, wb1, hw])
            (by simp only; rw [pa.plan_eq, pb.plan_eq, hv])
            hag1 hl1 hl2
          refine ⟨r1, r2, by omega, ?_⟩
          intro htr hts
          subst htr
          exact r4 rfl (read_states_state_times fa tr1 i j a b a1 b1 hb hw hts hs1 hs2)

/-! ## The walk over the segments -/

/-- Where the state loop stands after it has run: one record length further
for every state. -/
theorem read_states_loop_position (fa : FloatArith) (len : Int) (tr : Bool) :
    ∀ (fuel i : Nat) (d : D3plot) (r : D3plot × Nat),
      D3plot.read_states_loop fa len tr fuel i d = .ok r →
      r.1.wordPosition = d.wordPosition + ((r.2 : Int) - (i : Int)) * len ∧
      (r.2 = i → r.1 = d) ∧ r.1.isFileEnding r.1.wordPosition = .ok true := by
  intro fuel
  induction fuel with
  | zero => intro i d r h; simp [D3plot.read_states_loop] at h
  | succ fuel ih =>
    intro i d r h
    have hle := (read_states_loop_preserved fa len tr (fuel + 1) i d r h).2.2.2.2.2
    rw [read_states_loop_succ] at h
    rcases h with ⟨hf, rfl⟩ | ⟨_, d1, hs, hl⟩
    · exact ⟨by simp, fun _ => rfl, hf⟩
    · obtain ⟨_, _, hwp⟩ := read_states_state_fixed fa tr i d d1 hs
      have hle2 := (read_states_loop_preserved fa len tr fuel (i + 1) _ r hl).2.2.2.2.2
      obtain ⟨q1, _, q3⟩ := ih (i + 1) _ r hl
      refine ⟨?_, fun h0 => by omega, q3⟩
      rw [q1]
      simp only [hwp]
      push_cast
      ring

theorem read_states_segment_head_ok (ffd : Bool) (d d1 : D3plot)
    (h : D3plot.read_states_segment_head ffd d = .ok d1) :
    d1 = { d with buffer := d.buffer.read_nextState, wordPosition := d1.wordPosition } ∧
    (d.useFemzip = true →
      d1.wordPosition = 1 + (1 + (d.ctrl.dyna_numprop + 1) * 19 + 1)) ∧
    (d.useFemzip = false → d1.wordPosition = if ffd = true then 0 else d.wordPosition) := by
  unfold D3plot.read_states_segment_head at h
  cases hz : d.useFemzip with
  | false =>
    cases ffd <;> simp [hz, bind, Except.bind, pure, Except.pure] at h <;> subst h <;> simp
  | true =>
    simp only [hz, Bool.true_eq_false, false_and, if_false, if_true, bind, Except.bind, pure,
      Except.pure] at h
    cases hr : (d.buffer.read_nextState).read_int 2 with
    | error e => simp [hr] at h
    | ok n =>
      simp only [hr] at h
      split at h
      · cases h
      · cases h; simp

theorem read_states_segment_head_preserved (ffd : Bool) (d d1 : D3plot)
    (h : D3plot.read_states_segment_head ffd d = .ok d1) :
    Preserved d d1 ∧ d1.timesteps = d.timesteps ∧ d1.buffer = d.buffer.read_nextState := by
  obtain ⟨e, _, _⟩ := read_states_segment_head_ok ffd d d1 h
  refine ⟨Preserved.of_eq _ _ ?_ ?_ ?_ ?_, ?_, ?_⟩ <;> rw [e]
  rfl

theorem Buffer.read_nextState_states (b : Buffer) :
    b.read_nextState.states = b.states ∧ b.read_nextState.geometry = b.geometry ∧
    b.read_nextState.parts = b.parts := by
  unfold Buffer.read_nextState
  cases b.pending <;> simp

theorem Buffer.read_nextState_cons (b : Buffer) (seg : List Nat) (rest : List (List Nat))
    (h : b.pending = seg :: rest) :
    b.read_nextState.current = seg ∧ b.read_nextState.pending = rest := by
  unfold Buffer.read_nextState
  rw [h]
  simp

/-- The walk over the segments keeps everything but the result vectors it is
asked for, the timestep table, the word position and the segment in flight. -/
theorem read_states_files_preserved (fa : FloatArith) (fuel : Nat) (len : Int) (tr : Bool) :
    ∀ (segs : List (List Nat)) (ffd : Bool) (i : Nat) (d : D3plot) (r : D3plot × Nat),
      D3plot.read_states_files fa fuel len tr segs ffd i d = .ok r →
      Preserved d r.1 ∧ r.1.buffer.states = d.buffer.states ∧
      (tr = false → r.1.timesteps = d.timesteps) ∧
      (tr = true → r.1.timesteps.length + i = d.timesteps.length + r.2) ∧
      (∃ ts, r.1.timesteps = d.timesteps ++ ts) ∧ i ≤ r.2 := by
  intro segs
  induction segs with
  | nil =>
    intro ffd i d r h
    simp only [D3plot.read_states_files, Except.ok.injEq] at h
    subst h
    exact ⟨Preserved.pres_refl d, rfl, fun _ => rfl, fun _ => rfl, ⟨[], by simp⟩, le_refl _⟩
  | cons seg rest ih =>
    intro ffd i d r h
    rw [D3plot.read_states_files] at h
    cases hh : D3plot.read_states_segment_head ffd d with
    | error e => simp [hh] at h
    | ok d1 =>
      simp only [hh] at h
      cases hl : D3plot.read_states_loop fa len tr fuel i d1 with
      | error e => simp [hl] at h
      | ok r1 =>
        simp only [hl] at h
        obtain ⟨p1, t1, b1⟩ := read_states_segment_head_preserved ffd d d1 hh
        obtain ⟨p2, b2, t2, t3, ⟨ts2, t4⟩, t5⟩ := read_states_loop_preserved fa len tr fuel i d1 r1 hl
        obtain ⟨p3, b3, u2, u3, ⟨ts3, u4⟩, u5⟩ := ih true r1.2 r1.1 r h
        refine ⟨p1.pres_trans (p2.pres_trans p3), ?_, ?_, ?_, ?_, by omega⟩
        · rw [b3, b2, b1, (Buffer.read_nextState_states _).1]
        · intro h0; rw [u2 h0, t2 h0, t1]
        · intro h0
          have := t3 h0
          have := u3 h0
          rw [t1] at *
          omega
        · exact ⟨ts2 ++ ts3, by rw [u4, t4, t1, List.append_assoc]⟩

/-- Where the walk over the segments of a plain file stands when it met no
state at all. -/
theorem read_states_files_rest (fa : FloatArith) (fuel : Nat) (len : Int) (tr : Bool) :
    ∀ (segs : List (List Nat)) (ffd : Bool) (i : Nat) (d : D3plot) (r : D3plot × Nat),
      D3plot.read_states_files fa fuel len tr segs ffd i d = .ok r →
      d.useFemzip = false → r.2 = i →
      r.1.wordPosition =
        if segs = [] then d.wordPosition
        else if ffd = true ∨ 2 ≤ segs.length then 0 else d.wordPosition := by
  intro segs
  induction segs with
  | nil =>
    intro ffd i d r h _ _
    simp only [D3plot.read_states_files, Except.ok.injEq] at h
    subst h
    simp
  | cons seg rest ih =>
    intro ffd i d r h hz h0
    rw [D3plot.read_states_files] at h
    cases hh : D3plot.read_states_segment_head ffd d with
    | error e => simp [hh] at h
    | ok d1 =>
      simp only [hh] at h
      cases hl : D3plot.read_states_loop fa len tr fuel i d1 with
      | error e => simp [hl] at h
      | ok r1 =>
        simp only [hl] at h
        obtain ⟨e1, _, w1⟩ := read_states_segment_head_ok ffd d d1 hh
        have hle1 := (read_states_loop_preserved fa len tr fuel i d1 r1 hl).2.2.2.2.2
        have hle2 := (read_states_files_preserved fa fuel len tr rest true r1.2 r1.1 r h).2.2.2.2.2
        have hr1 : r1.2 = i := by omega
        have hd1 := (read_states_loop_position fa len tr fuel i d1 r1 hl).2.1 hr1
        have hz1 : r1.1.useFemzip = false := by rw [hd1, e1]; exact hz
        have := ih true r1.2 r1.1 r h hz1 (by omega)
        rw [this, hd1, w1 hz]
        cases rest with
        | nil => cases ffd <;> simp
        | cons s2 rest2 => cases ffd <;> simp

/-- Two walks over the same segments, with the same request code for a
variable, stay in step. -/
theorem read_states_files_rel (v : Var) (fa : FloatArith) (len : Int) (tr1 tr2 : Bool)
    (fuel1 fuel2 : Nat) :
    ∀ (segs : List (List Nat)) (ffd : Bool) (i j : Nat) (a b : D3plot) (ra rb : D3plot × Nat),
      a.ctrl = b.ctrl → a.useFemzip = b.useFemzip →
      a.buffer.pending = segs → b.buffer.pending = segs →
      (a.useFemzip = true ∨ ffd = true ∨ a.wordPosition = b.wordPosition) →
      v.entry a.plan = v.entry b.plan → AgreeOn v a b →
      D3plot.read_states_files fa fuel1 len tr1 segs ffd i a = .ok ra →
      D3plot.read_states_files fa fuel2 len tr2 segs ffd j b = .ok rb →
      AgreeOn v ra.1 rb.1 ∧ ra.2 + j = rb.2 + i ∧
      (tr1 = tr2 → a.timesteps = b.timesteps → ra.1.timesteps = rb.1.timesteps) ∧
      (segs ≠ [] → ra.1.wordPosition = rb.1.wordPosition) := by
  intro segs
  induction segs with
  | nil =>
    intro ffd i j a b ra rb _ _ _ _ _ _ hag h1 h2
    simp only [D3plot.read_states_files, Except.ok.injEq] at h1 h2
    subst h1 h2
    exact ⟨hag, Nat.add_comm _ _, fun _ h => h, fun h => absurd rfl h⟩
  | cons seg rest ih =>
    intro ffd i j a b ra rb hc hz pa pb hw hv hag h1 h2
    rw [D3plot.read_states_files] at h1 h2
    cases hh1 : D3plot.read_states_segment_head ffd a with
    | error e => simp [hh1] at h1
    | ok a1 =>
      cases hh2 : D3plot.read_states_segment_head ffd b with
      | error e => simp [hh2] at h2
      | ok b1 =>
        simp only [hh1] at h1
        simp only [hh2] at h2
        cases hl1 : D3plot.read_states_loop fa len tr1 fuel1 i a1 with
        | error e => simp [hl1] at h1
        | ok r1 =>
          cases hl2 : D3plot.read_states_loop fa len tr2 fuel2 j b1 with
          | error e => simp [hl2] at h2
          | ok r2 =>
            simp only [hl1] at h1
            simp only [hl2] at h2
            obtain ⟨ea, fa1, wa1⟩ := read_states_segment_head_ok ffd a a1 hh1
            obtain ⟨eb, fb1, wb1⟩ := read_states_segment_head_ok ffd b b1 hh2
            obtain ⟨ca, pna⟩ := Buffer.read_nextState_cons a.buffer seg rest pa
            obtain ⟨cb, pnb⟩ := Buffer.read_nextState_cons b.buffer seg rest pb
            have hc1 : a1.ctrl = b1.ctrl := by rw [ea, eb]; exact hc
            have hb1 : a1.buffer.current = b1.buffer.current := by rw [ea, eb]; simp [ca, cb]
            have hw1 : a1.wordPosition = b1.wordPosition := by
              cases hzz : a.useFemzip with
              | true => rw [fa1 hzz, fb1 (hz ▸ hzz), hc]
              | false =>
                rw [wa1 hzz, wb1 (hz ▸ hzz)]
                rcases hw with h | h | h
                · rw [hzz] at h; cases h
                · simp [h]
                · simp [h]
            have hv1 : v.entry a1.plan = v.entry b1.plan := by rw [ea, eb]; exact hv
            have hag1 : AgreeOn v a1 b1 := by rw [ea, eb]; exact hag
            obtain ⟨g1, g2, g3, g4⟩ := read_states_loop_rel v fa len tr1 tr2 fuel1 fuel2 i j a1 b1
              r1 r2 hc1 hb1 hw1 hv1 hag1 hl1 hl2
            obtain ⟨q1, q2, _⟩ := read_states_loop_preserved fa len tr1 fuel1 i a1 r1 hl1
            obtain ⟨s1, s2, _⟩ := read_states_loop_preserved fa len tr2 fuel2 j b1 r2 hl2
            have hfa : r1.1.fixed = a.fixed := by rw [q1.1, ea]; rfl
            have hfb : r2.1.fixed = b.fixed := by rw [s1.1, eb]; rfl
            simp only [D3plot.fixed, Prod.mk.injEq] at hfa hfb
            obtain ⟨k1, k2, k3, k4⟩ := ih true r1.2 r2.2 r1.1 r2.1 ra rb
              (by rw [hfa.1, hfb.1, hc]) (by rw [hfa.2.2.2.2.1, hfb.2.2.2.2.1, hz])
              (by rw [q2, ea]; exact pna) (by rw [s2, eb]; exact pnb)
              (Or.inr (Or.inl rfl)) (by rw [hfa.2.1, hfb.2.1, hv]) g1 h1 h2
            refine ⟨k1, by omega, ?_, ?_⟩
            · intro htr hts
              refine k3 htr (g4 htr ?_)
              rw [ea, eb]; exact hts
            · intro _
              cases rest with
              | nil =>
                simp only [D3plot.read_states_files, Except.ok.injEq] at h1 h2
                subst h1 h2
                exact g2
              | cons s2 rest2 => exact k4 (by simp)

/-! ## Two scans of the same words meet the same states -/

theorem read_states_loop_times (fa : FloatArith) (len : Int) (tr1 tr2 : Bool) :
    ∀ (fuel1 fuel2 i j : Nat) (a b : D3plot) (ra rb : D3plot × Nat),
      a.buffer.current = b.buffer.current → a.wordPosition = b.wordPosition →
      D3plot.read_states_loop fa len tr1 fuel1 i a = .ok ra →
      D3plot.read_states_loop fa len tr2 fuel2 j b = .ok rb →
      ra.1.wordPosition = rb.1.wordPosition ∧ ra.2 + j = rb.2 + i ∧
      (tr1 = tr2 → a.timesteps = b.timesteps → ra.1.timesteps = rb.1.timesteps) := by
  intro fuel1
  induction fuel1 with
  | zero => intro fuel2 i j a b ra rb _ _ h; simp [D3plot.read_states_loop] at h
  | succ fuel1 ih =>
    intro fuel2 i j a b ra rb hb hw h1 h2
    cases fuel2 with
    | zero => simp [D3plot.read_states_loop] at h2
    | succ fuel2 =>
      rw [read_states_loop_succ] at h1 h2
      rw [isFileEnding_congr a b hb, hw] at h1
      rcases h1 with ⟨f1, rfl⟩ | ⟨f1, a1, hs1, hl1⟩
      · rcases h2 with ⟨_, rfl⟩ | ⟨f2, _⟩
        · exact ⟨hw, by simp [Nat.add_comm], fun _ h => h⟩
        · rw [f1] at f2; cases f2
      · rcases h2 with ⟨f2, _⟩ | ⟨_, b1, hs2, hl2⟩
        · rw [f1] at f2; cases f2
        · obtain ⟨_, ba1, wa1⟩ := read_states_state_fixed fa tr1 i a a1 hs1
          obtain ⟨_, bb1, wb1⟩ := read_states_state_fixed fa tr2 j b b1 hs2
          obtain ⟨r2, r3, r4⟩ := ih fuel2 (i + 1) (j + 1)
            { a1 with wordPosition := a1.wordPosition + len }
            { b1 with wordPosition := b1.wordPosition + len } ra rb
            (by simp only; rw [ba1, bb1, hb])
            (by simp only; rw [wa1, wb1, hw]) hl1 hl2
          refine ⟨r2, by omega, ?_⟩
          intro htr hts
          subst htr
          exact r4 rfl (read_states_state_times fa tr1 i j a b a1 b1 hb hw hts hs1 hs2)

theorem read_states_files_times (fa : FloatArith) (len : Int) (tr1 tr2 : Bool)
    (fuel1 fuel2 : Nat) :
    ∀ (segs : List (List Nat)) (ffd : Bool) (i j : Nat) (a b : D3plot) (ra rb : D3plot × Nat),
      a.ctrl = b.ctrl → a.useFemzip = b.useFemzip →
      a.buffer.pending = segs → b.buffer.pending = segs →
      (a.useFemzip = true ∨ ffd = true ∨ a.wordPosition = b.wordPosition) →
      D3plot.read_states_files fa fuel1 len tr1 segs ffd i a = .ok ra →
      D3plot.read_states_files fa fuel2 len tr2 segs ffd j b = .ok rb →
      ra.2 + j = rb.2 + i ∧
      (tr1 = tr2 → a.timesteps = b.timesteps → ra.1.timesteps = rb.1.timesteps) ∧
      (segs ≠ [] → ra.1.wordPosition = rb.1.wordPosition) := by
  intro segs
  induction segs with
  | nil =>
    intro ffd i j a b ra rb _ _ _ _ _ h1 h2
    simp only [D3plot.read_states_files, Except.ok.injEq] at h1 h2
    subst h1 h2
    exact ⟨Nat.add_comm _ _, fun _ h => h, fun h => absurd rfl h⟩
  | cons seg rest ih =>
    intro ffd i j a b ra rb hc hz pa pb hw h1 h2
    rw [D3plot.read_states_files] at h1 h2
    cases hh1 : D3plot.read_states_segment_head ffd a with
    | error e => simp [hh1] at h1
    | ok a1 =>
      cases hh2 : D3plot.read_states_segment_head ffd b with
      | error e => simp [hh2] at h2
      | ok b1 =>
        simp only [hh1] at h1
        simp only [hh2] at h2
        cases hl1 : D3plot.read_states_loop fa len tr1 fuel1 i a1 with
        | error e => simp [hl1] at h1
        | ok r1 =>
          cases hl2 : D3plot.read_states_loop fa len tr2 fuel2 j b1 with
          | error e => simp [hl2] at h2
          | ok r2 =>
            simp only [hl1] at h1
            simp only [hl2] at h2
            obtain ⟨ea, fa1, wa1⟩ := read_states_segment_head_ok ffd a a1 hh1
            obtain ⟨eb, fb1, wb1⟩ := read_states_segment_head_ok ffd b b1 hh2
            obtain ⟨ca, pna⟩ := Buffer.read_nextState_cons a.buffer seg rest pa
            obtain ⟨cb, pnb⟩ := Buffer.read_nextState_cons b.buffer seg rest pb
            have hb1 : a1.buffer.current = b1.buffer.current := by rw [ea, eb]; simp [ca, cb]
            have hw1 : a1.wordPosition = b1.wordPosition := by
              cases hzz : a.useFemzip with
              | true => rw [fa1 hzz, fb1 (hz ▸ hzz), hc]
              | false =>
                rw [wa1 hzz, wb1 (hz ▸ hzz)]
                rcases hw with h | h | h
                · rw [hzz] at h; cases h
                · simp [h]
                · simp [h]
            obtain ⟨g2, g3, g4⟩ := read_states_loop_times fa len tr1 tr2 fuel1 fuel2 i j a1 b1
              r1 r2 hb1 hw1 hl1 hl2
            obtain ⟨q1, q2, _⟩ := read_states_loop_preserved fa len tr1 fuel1 i a1 r1 hl1
            obtain ⟨s1, s2, _⟩ := read_states_loop_preserved fa len tr2 fuel2 j b1 r2 hl2
            have hfa : r1.1.fixed = a.fixed := by rw [q1.1, ea]; rfl
            have hfb : r2.1.fixed = b.fixed := by rw [s1.1, eb]; rfl
            simp only [D3plot.fixed, Prod.mk.injEq] at hfa hfb
            obtain ⟨k2, k3, k4⟩ := ih true r1.2 r2.2 r1.1 r2.1 ra rb
              (by rw [hfa.1, hfb.1, hc]) (by rw [hfa.2.2.2.2.1, hfb.2.2.2.2.1, hz])
              (by rw [q2, ea]; exact pna) (by rw [s2, eb]; exact pnb)
              (Or.inr (Or.inl rfl)) h1 h2
            refine ⟨by omega, ?_, ?_⟩
            · intro htr hts
              refine k3 htr (g4 htr ?_)
              rw [ea, eb]; exact hts
            · intro _
              cases rest with
              | nil =>
                simp only [D3plot.read_states_files, Except.ok.injEq] at h1 h2
                subst h1 h2
                exact g2
              | cons s2 rest2 => exact k4 (by simp)

/-! ## The plan of a request -/

theorem read_states_parse_readMode_pos (s : String) :
    1 ≤ D3plot.read_states_parse_readMode s ∧ D3plot.read_states_parse_readMode s ≤ 6 := by
  unfold D3plot.read_states_parse_readMode
  repeat' split
  all_goals omega

/-- A request string that names a primitive variable sets the request code of
that variable and nothing else, and is accepted exactly when the file holds
the variable. -/
theorem read_states_parse_variable_classify (c : Control) (l : Loaded) (p : ReadPlan)
    (s : String) (v : Var) (hv : Var.classify s = some v) :
    (v.present c →
      D3plot.read_states_parse_variable c l p s =
        .ok (v.request (if v.flag l = true then 0 else D3plot.read_states_parse_readMode s) p)) ∧
    (¬ v.present c → ∃ e, D3plot.read_states_parse_variable c l p s = .error e) := by
  unfold Var.classify at hv
  unfold D3plot.read_states_parse_variable
  split at hv
  · cases hv
    simp_all [Var.present, Var.request, Var.flag]
  split at hv
  · cases hv
    simp_all [Var.present, Var.request, Var.flag]
  split at hv
  · cases hv
    simp_all [Var.present, Var.request, Var.flag]
  split at hv
  · cases hv
    simp_all [Var.present, Var.request, Var.flag]
  split at hv
  · cases hv
    simp_all [Var.present, Var.request, Var.flag]
  split at hv
  · cases hv
    simp_all [Var.present, Var.request, Var.flag]
  split at hv
  · cases hv
    simp_all [Var.present, Var.request, Var.flag]
  split at hv
  · cases hv
    simp_all [Var.present, Var.request, Var.flag]
  cases hv

theorem read_states_parse_one (c : Control) (l : Loaded) (s : String) (v : Var) (p : ReadPlan)
    (hv : Var.classify s = some v) (h : D3plot.read_states_parse c l [s] = .ok p) :
    v.present c ∧
    p = v.request (if v.flag l = true then 0 else D3plot.read_states_parse_readMode s)
      ReadPlan.init := by
  obtain ⟨h1, h2⟩ := read_states_parse_variable_classify c l ReadPlan.init s v hv
  unfold D3plot.read_states_parse at h
  simp only [D3plot.read_states_parse_loop] at h
  by_cases hp : v.present c
  · rw [h1 hp] at h
    simp only [Except.ok.injEq] at h
    exact ⟨hp, h.symm⟩
  · obtain ⟨e, he⟩ := h2 hp
    rw [he] at h
    cases h

theorem read_states_parse_two (c : Control) (l : Loaded) (s t : String) (v w : Var)
    (p : ReadPlan) (hv : Var.classify s = some v) (hw : Var.classify t = some w)
    (h : D3plot.read_states_parse c l [s, t] = .ok p) :
    v.present c ∧ w.present c ∧
    p = w.request (if w.flag l = true then 0 else D3plot.read_states_parse_readMode t)
      (v.request (if v.flag l = true then 0 else D3plot.read_states_parse_readMode s)
        ReadPlan.init) := by
  obtain ⟨h1, h2⟩ := read_states_parse_variable_classify c l ReadPlan.init s v hv
  unfold D3plot.read_states_parse at h
  simp only [D3plot.read_states_parse_loop] at h
  by_cases hp : v.present c
  · rw [h1 hp] at h
    simp only at h
    obtain ⟨k1, k2⟩ := read_states_parse_variable_classify c l
      (v.request (if v.flag l = true then 0 else D3plot.read_states_parse_readMode s)
        ReadPlan.init) t w hw
    by_cases hq : w.present c
    · rw [k1 hq] at h
      simp only [Except.ok.injEq] at h
      exact ⟨hp, hq, h.symm⟩
    · obtain ⟨e, he⟩ := k2 hq
      rw [he] at h
      cases h
  · obtain ⟨e, he⟩ := h2 hp
    rw [he] at h
    cases h

/-- The plan of a request that is accepted, when a plan of two primitive
requests is accepted. -/
theorem read_states_parse_two_ok (c : Control) (l : Loaded) (s t : String) (v w : Var)
    (hv : Var.classify s = some v) (hw : Var.classify t = some w)
    (hp : v.present c) (hq : w.present c) :
    D3plot.read_states_parse c l [s, t] =
      .ok (w.request (if w.flag l = true then 0 else D3plot.read_states_parse_readMode t)
        (v.request (if v.flag l = true then 0 else D3plot.read_states_parse_readMode s)
          ReadPlan.init)) := by
  unfold D3plot.read_states_parse
  simp only [D3plot.read_states_parse_loop]
  rw [(read_states_parse_variable_classify c l ReadPlan.init s v hv).1 hp]
  simp only
  rw [(read_states_parse_variable_classify c l _ t w hw).1 hq]

theorem read_states_parse_variable_nonneg (c : Control) (l : Loaded) (p p1 : ReadPlan)
    (s : String) (hp : p.nonneg) (h : D3plot.read_states_parse_variable c l p s = .ok p1) :
    p1.nonneg := by
  have hm := (read_states_parse_readMode_pos s).1
  unfold ReadPlan.nonneg at hp ⊢
  obtain ⟨a1, a2, a3, a4, a5, a6, a7, a8⟩ := hp
  unfold D3plot.read_states_parse_variable at h
  by_cases c0 : D3plot.str_contains s "disp" = true
  · rw [if_pos c0] at h
    repeat' split at h
    all_goals first
      | (cases h
         refine ⟨?_, ?_, ?_, ?_, ?_, ?_, ?_, ?_⟩ <;> first
           | assumption
           | exact le_refl _
           | (show (0 : Int) ≤ D3plot.read_states_parse_readMode s; omega))
      | cases h
  rw [if_neg c0] at h
  by_cases c1 : D3plot.str_contains s "vel" = true
  · rw [if_pos c1] at h
    repeat' split at h
    all_goals first
      | (cases h
         refine ⟨?_, ?_, ?_, ?_, ?_, ?_, ?_, ?_⟩ <;> first
           | assumption
           | exact le_refl _
           | (show (0 : Int) ≤ D3plot.read_states_parse_readMode s; omega))
      | cases h
  rw [if_neg c1] at h
  by_cases c2 : D3plot.str_contains s "accel" = true
  · rw [if_pos c2] at h
    repeat' split at h
    all_goals first
      | (cases h
         refine ⟨?_, ?_, ?_, ?_, ?_, ?_, ?_, ?_⟩ <;> first
           | assumption
           | exact le_refl _
           | (show (0 : Int) ≤ D3plot.read_states_parse_readMode s; omega))
      | cases h
  rw [if_neg c2] at h
  by_cases c3 : D3plot.str_contains s "stress_mises" = true
  · rw [if_pos c3] at h
    repeat' split at h
    all_goals first
      | (cases h
         refine ⟨?_, ?_, ?_, ?_, ?_, ?_, ?_, ?_⟩ <;> first
           | assumption
           | exact le_refl _
           | (show (0 : Int) ≤ D3plot.read_states_parse_readMode s; omega))
  rw [if_neg c3] at h
  by_cases c4 : D3plot.str_contains s "stress" = true
  · rw [if_pos c4] at h
    repeat' split at h
    all_goals first
      | (cases h
         refine ⟨?_, ?_, ?_, ?_, ?_, ?_, ?_, ?_⟩ <;> first
           | assumption
           | exact le_refl _
           | (show (0 : Int) ≤ D3plot.read_states_parse_readMode s; omega))
  rw [if_neg c4] at h
  by_cases c5 : D3plot.str_contains s "plastic_strain" = true
  · rw [if_pos c5] at h
    repeat' split at h
    all_goals first
      | (cases h
         refine ⟨?_, ?_, ?_, ?_, ?_, ?_, ?_, ?_⟩ <;> first
           | assumption
           | exact le_refl _
           | (show (0 : Int) ≤ D3plot.read_states_parse_readMode s; omega))
  rw [if_neg c5] at h
  by_cases c6 : D3plot.str_contains s "strain" = true
  · rw [if_pos c6] at h
    repeat' split at h
    all_goals first
      | (cases h
         refine ⟨?_, ?_, ?_, ?_, ?_, ?_, ?_, ?_⟩ <;> first
           | assumption
           | exact le_refl _
           | (show (0 : Int) ≤ D3plot.read_states_parse_readMode s; omega))
      | cases h
  rw [if_neg c6] at h
  by_cases c7 : D3plot.str_contains s "energy" = true
  · rw [if_pos c7] at h
    repeat' split at h
    all_goals first
      | (cases h
         refine ⟨?_, ?_, ?_, ?_, ?_, ?_, ?_, ?_⟩ <;> first
           | assumption
           | exact le_refl _
           | (show (0 : Int) ≤ D3plot.read_states_parse_readMode s; omega))
      | cases h
  rw [if_neg c7] at h
  repeat' split at h
  all_goals first
    | (cases h
       exact ⟨a1, a2, a3, a4, a5, a6, a7, a8⟩)
    | cases h

theorem read_states_parse_nonneg (c : Control) (l : Loaded) (vars : List String) (p : ReadPlan)
    (h : D3plot.read_states_parse c l vars = .ok p) : p.nonneg := by
  unfold D3plot.read_states_parse at h
  have key : ∀ (vars : List String) (p0 p : ReadPlan), p0.nonneg →
      D3plot.read_states_parse_loop c l p0 vars = .ok p → p.nonneg := by
    intro vars
    induction vars with
    | nil =>
      intro p0 p h0 h
      simp only [D3plot.read_states_parse_loop, Except.ok.injEq] at h
      exact h ▸ h0
    | cons s rest ih =>
      intro p0 p h0 h
      rw [D3plot.read_states_parse_loop] at h
      cases hs : D3plot.read_states_parse_variable c l p0 s with
      | error e => simp [hs] at h
      | ok p1 =>
        simp only [hs] at h
        exact ih p1 p (read_states_parse_variable_nonneg c l p0 p1 s h0 hs) h
  exact key vars ReadPlan.init p (by simp [ReadPlan.nonneg, ReadPlan.init]) h

/-- An empty plan asks for nothing. -/
theorem plan_is_empty_iff (p : ReadPlan) (hp : p.nonneg) :
    D3plot.plan_is_empty p ↔
      (∀ v : Var, v.entry p = 0) ∧ p.history_shell_read = [] ∧ p.history_solid_read = [] := by
  unfold ReadPlan.nonneg at hp
  obtain ⟨a1, a2, a3, a4, a5, a6, a7, a8⟩ := hp
  unfold D3plot.plan_is_empty
  constructor
  · intro h
    have h1 : 0 ≤ (p.history_shell_read.length : Int) := Int.ofNat_nonneg _
    have h2 : 0 ≤ (p.history_solid_read.length : Int) := Int.ofNat_nonneg _
    refine ⟨?_, ?_, ?_⟩
    · intro v
      cases v <;> simp only [Var.entry] <;> omega
    · apply List.length_eq_zero.mp; omega
    · apply List.length_eq_zero.mp; omega
  · rintro ⟨h, h1, h2⟩
    have e1 := h Var.disp
    have e2 := h Var.vel
    have e3 := h Var.accel
    have e4 := h Var.energy
    have e5 := h Var.plastic_strain
    have e6 := h Var.strain
    have e7 := h Var.stress
    have e8 := h Var.stress_mises
    simp only [Var.entry] at e1 e2 e3 e4 e5 e6 e7 e8
    rw [h1, h2, e1, e2, e3, e4, e5, e6, e7, e8]
    simp

/-! ## One call of `read_states` -/

theorem read_states_rewind_ok (d : D3plot) :
    d.read_states_rewind =
      { d with
        buffer := { d.buffer with pending := d.buffer.states },
        wordPosition := d.read_states_rewind.wordPosition,
        wordPositionStates := d.read_states_rewind.wordPosition } ∧
    d.read_states_rewind.wordPosition =
      (if d.timesteps.length < 1 then d.wordPosition else d.wordPositionStates) := by
  unfold D3plot.read_states_rewind
  split <;> exact ⟨rfl, rfl⟩

theorem read_states_run_ok (fa : FloatArith) (fuel : Nat) (d d1 : D3plot)
    (h : D3plot.read_states_run fa fuel d = .ok d1) :
    ∃ nDel r, D3plot.deletion_vars d.ctrl = .ok nDel ∧
      D3plot.read_states_files fa fuel (D3plot.state_length d.ctrl nDel)
        (decide (d.timesteps.length < 1)) d.buffer.states false 0 d.read_states_rewind = .ok r ∧
      d1 = { r.1 with buffer := r.1.buffer.end_nextState,
                      loaded := D3plot.set_loaded d.plan d.loaded } := by
  unfold D3plot.read_states_run at h
  cases hn : D3plot.deletion_vars d.ctrl with
  | error e => simp [hn] at h
  | ok nDel =>
    simp only [hn] at h
    have hp : d.read_states_rewind.buffer.pending = d.buffer.states := by
      rw [(read_states_rewind_ok d).1]
    rw [hp] at h
    cases hf : D3plot.read_states_files fa fuel (D3plot.state_length d.ctrl nDel)
        (decide (d.timesteps.length < 1)) d.buffer.states false 0 d.read_states_rewind with
    | error e => rw [hf] at h; cases h
    | ok r =>
      rw [hf] at h
      simp only [Except.ok.injEq] at h
      refine ⟨nDel, r, rfl, hf, ?_⟩
      obtain ⟨p1, _⟩ := read_states_files_preserved _ _ _ _ _ _ _ _ _ hf
      have hfx := p1.1
      rw [(read_states_rewind_ok d).1] at hfx
      simp only [D3plot.fixed, Prod.mk.injEq] at hfx
      subst h
      simp only [hfx.2.1, hfx.2.2.1]

theorem read_states_ok (fa : FloatArith) (fuel : Nat) (vars : List String) (d d1 : D3plot)
    (h : D3plot.read_states fa fuel vars d = .ok d1) :
    ∃ plan, D3plot.read_states_parse d.ctrl d.loaded vars = .ok plan ∧
      ((D3plot.plan_is_empty plan ∧ d.timesteps ≠ [] ∧ d1 = { d with plan := plan }) ∨
       (¬ (D3plot.plan_is_empty plan ∧ d.timesteps ≠ []) ∧
         D3plot.read_states_run fa fuel { d with plan := plan } = .ok d1)) := by
  unfold D3plot.read_states at h
  simp only [Except.bind_eq_ok, throw_if_eq_ok, bind_pure_comp] at h
  obtain ⟨_, _, plan, hp, h⟩ := h
  refine ⟨plan, hp, ?_⟩
  simp only [ne_eq, List.length_eq_zero] at h
  by_cases hc : D3plot.plan_is_empty plan ∧ d.timesteps ≠ []
  · rw [if_pos hc] at h
    cases h
    exact Or.inl ⟨hc.1, hc.2, rfl⟩
  · rw [if_neg hc] at h
    exact Or.inr ⟨hc, h⟩

theorem set_loaded_empty (p : ReadPlan) (l : Loaded) (h : ∀ v : Var, v.entry p = 0)
    (h1 : p.history_shell_read = []) (h2 : p.history_solid_read = []) :
    D3plot.set_loaded p l = l := by
  have e1 := h Var.disp
  have e2 := h Var.vel
  have e4 := h Var.energy
  have e5 := h Var.plastic_strain
  have e6 := h Var.strain
  have e7 := h Var.stress
  have e8 := h Var.stress_mises
  simp only [Var.entry] at e1 e2 e4 e5 e6 e7 e8
  unfold D3plot.set_loaded
  cases l
  simp [e1, e2, e4, e5, e6, e7, e8, h1, h2]

/-- What a call of `read_states` keeps and what it sets. -/
theorem read_states_frame (fa : FloatArith) (fuel : Nat) (vars : List String) (d d1 : D3plot)
    (h : D3plot.read_states fa fuel vars d = .ok d1) :
    Kept d d1 ∧ D3plot.read_states_parse d.ctrl d.loaded vars = .ok d1.plan ∧
    d1.loaded = D3plot.set_loaded d1.plan d.loaded ∧
    (d1.plan.history_shell_read = [] →
      d1.db_shells.map Element.history_vars = d.db_shells.map Element.history_vars) ∧
    (d1.plan.history_solid_read = [] →
      d1.db_solids.map Element.history_vars = d.db_solids.map Element.history_vars) ∧
    (∀ v : Var, v.entry d1.plan = 0 → AgreeOn v d1 d) ∧
    (d.timesteps ≠ [] →
      d1.timesteps = d.timesteps ∧ d1.wordPositionStates = d.wordPositionStates) ∧
    (d.timesteps = [] → d1.wordPositionStates = d.wordPosition) ∧
    (∃ ts, d1.timesteps = d.timesteps ++ ts) := by
  obtain ⟨plan, hp, hr⟩ := read_states_ok fa fuel vars d d1 h
  have hnn := read_states_parse_nonneg _ _ _ _ hp
  rcases hr with ⟨he, ht, rfl⟩ | ⟨_, hrun⟩
  · obtain ⟨e1, e2, e3⟩ := (plan_is_empty_iff plan hnn).1 he
    refine ⟨⟨rfl, rfl, rfl, rfl, rfl, rfl, rfl, rfl⟩, hp, ?_, fun _ => rfl, fun _ => rfl,
      fun _ _ => ⟨rfl, rfl, rfl⟩, fun _ => ⟨rfl, rfl⟩, fun h0 => absurd h0 ht, ⟨[], by simp⟩⟩
    exact (set_loaded_empty plan d.loaded e1 e2 e3).symm
  · obtain ⟨nDel, r, _, hf, rfl⟩ := read_states_run_ok fa fuel _ d1 hrun
    obtain ⟨p1, b1, t1, _, t2, _⟩ := read_states_files_preserved _ _ _ _ _ _ _ _ _ hf
    obtain ⟨rw1, rw2⟩ := read_states_rewind_ok { d with plan := plan }
    obtain ⟨f1, n1, s1, o1, hs1, ho1, v1⟩ := p1
    rw [rw1] at f1 n1 s1 o1 hs1 ho1 v1 b1 t1 t2
    simp only [D3plot.fixed, Prod.mk.injEq] at f1
    obtain ⟨c1, c2, c3, c4, c5, c6, c7⟩ := f1
    simp only at n1 s1 o1 hs1 ho1 v1 b1 t1 t2 rw2
    refine ⟨⟨c1, c5, c6, c7, b1, n1, s1, o1⟩, by simp only [c2]; exact hp, by simp only [c2],
      fun h0 => hs1 (by simpa only [c2] using h0), fun h0 => ho1 (by simpa only [c2] using h0),
      fun v h0 => v1 v (by simpa only [c2] using h0), ?_, ?_, t2⟩
    · intro h0
      have hl : ¬ d.timesteps.length < 1 := by
        cases hd : d.timesteps with
        | nil => exact absurd hd h0
        | cons x xs => simp
      refine ⟨t1 (by simpa using hl), ?_⟩
      simp only [c4]
      rw [rw2, if_neg hl]
    · intro h0
      simp only [c4]
      rw [rw2, h0]
      simp

/-! ## Two calls of `read_states` on the same file -/

theorem read_states_rewind_fields (d : D3plot) :
    d.read_states_rewind.ctrl = d.ctrl ∧ d.read_states_rewind.plan = d.plan ∧
    d.read_states_rewind.useFemzip = d.useFemzip ∧
    d.read_states_rewind.timesteps = d.timesteps ∧
    d.read_states_rewind.buffer.pending = d.buffer.states ∧
    d.read_states_rewind.db_nodes = d.db_nodes ∧ d.read_states_rewind.db_shells = d.db_shells ∧
    d.read_states_rewind.db_solids = d.db_solids := by
  unfold D3plot.read_states_rewind
  split <;> exact ⟨rfl, rfl, rfl, rfl, rfl, rfl, rfl, rfl⟩

theorem read_states_rewind_agree (v : Var) (a b : D3plot) (h : AgreeOn v a b) :
    AgreeOn v a.read_states_rewind b.read_states_rewind := by
  obtain ⟨_, _, _, _, _, a1, a2, a3⟩ := read_states_rewind_fields a
  obtain ⟨_, _, _, _, _, b1, b2, b3⟩ := read_states_rewind_fields b
  unfold AgreeOn
  rw [a1, a2, a3, b1, b2, b3]
  exact h

theorem read_states_rewind_plan (d : D3plot) (p : ReadPlan) :
    ({ d with plan := p } : D3plot).read_states_rewind.wordPosition =
      d.read_states_rewind.wordPosition := by
  rw [(read_states_rewind_ok d).2, (read_states_rewind_ok _).2]

/-- Two walks of `read_states` that both ask for the variable `v`, with the
same request code, on readers of the same file that start their scan at the
same word, keep the results for `v` equal. -/
theorem read_states_run_rel (v : Var) (fa : FloatArith) (fuel1 fuel2 : Nat)
    (a b a1 b1 : D3plot) (hc : a.ctrl = b.ctrl) (hz : a.useFemzip = b.useFemzip)
    (hs : a.buffer.states = b.buffer.states)
    (hw : a.useFemzip = true ∨
      a.read_states_rewind.wordPosition = b.read_states_rewind.wordPosition)
    (hv : v.entry a.plan = v.entry b.plan) (hag : AgreeOn v a b)
    (h1 : D3plot.read_states_run fa fuel1 a = .ok a1)
    (h2 : D3plot.read_states_run fa fuel2 b = .ok b1) : AgreeOn v a1 b1 := by
  obtain ⟨nDel1, r1, hd1, hf1, e1⟩ := read_states_run_ok fa fuel1 _ a1 h1
  obtain ⟨nDel2, r2, hd2, hf2, e2⟩ := read_states_run_ok fa fuel2 _ b1 h2
  rw [hc, hd2] at hd1
  cases hd1
  rw [hc] at hf1
  rw [← hs] at hf2
  obtain ⟨x1, x2, x3, x4, x5, _⟩ := read_states_rewind_fields a
  obtain ⟨y1, y2, y3, y4, y5, _⟩ := read_states_rewind_fields b
  have key := read_states_files_rel v fa _ _ _ fuel1 fuel2 a.buffer.states false 0 0 _ _ r1 r2
    (by rw [x1, y1, hc]) (by rw [x3, y3, hz]) x5 (by rw [y5, hs])
    (by
      rcases hw with h | h
      · left; rw [x3]; exact h
      · right; right; exact h)
    (by rw [x2, y2, hv]) (read_states_rewind_agree v a b hag) hf1 hf2
  rw [e1, e2]
  exact key.1

/-- Two first walks of `read_states` on readers of the same file that start
their scan at the same word record the same timesteps. -/
theorem read_states_run_times (fa : FloatArith) (fuel1 fuel2 : Nat) (a b a1 b1 : D3plot)
    (hc : a.ctrl = b.ctrl) (hz : a.useFemzip = b.useFemzip)
    (hs : a.buffer.states = b.buffer.states)
    (hw : a.useFemzip = true ∨ a.wordPosition = b.wordPosition)
    (ta : a.timesteps = []) (tb : b.timesteps = [])
    (h1 : D3plot.read_states_run fa fuel1 a = .ok a1)
    (h2 : D3plot.read_states_run fa fuel2 b = .ok b1) :
    a1.timesteps = b1.timesteps ∧ (a.buffer.states ≠ [] → a1.wordPosition = b1.wordPosition) := by
  obtain ⟨nDel1, r1, hd1, hf1, e1⟩ := read_states_run_ok fa fuel1 _ a1 h1
  obtain ⟨nDel2, r2, hd2, hf2, e2⟩ := read_states_run_ok fa fuel2 _ b1 h2
  rw [hc, hd2] at hd1
  cases hd1
  rw [hc] at hf1
  rw [← hs] at hf2
  obtain ⟨x1, x2, x3, x4, x5, _⟩ := read_states_rewind_fields a
  obtain ⟨y1, y2, y3, y4, y5, _⟩ := read_states_rewind_fields b
  have ra2 := (read_states_rewind_ok a).2
  have rb2 := (read_states_rewind_ok b).2
  rw [ta] at ra2 hf1
  rw [tb] at rb2 hf2
  simp only [List.length_nil, Nat.lt_one_iff, if_true] at ra2 rb2
  have key := read_states_files_times fa _ _ _ fuel1 fuel2 a.buffer.states false 0 0 _ _ r1 r2
    (by rw [x1, y1, hc]) (by rw [x3, y3, hz]) x5 (by rw [y5, hs])
    (by
      rcases hw with h | h
      · left; rw [x3]; exact h
      · right; right; rw [ra2, rb2]; exact h)
    hf1 hf2
  rw [e1, e2]
  exact ⟨key.2.1 rfl (by rw [x4, y4, ta, tb]), key.2.2⟩

/-- Where a first walk of `read_states` over a plain file leaves the word
position when the file holds no state. -/
theorem read_states_run_settled (fa : FloatArith) (fuel : Nat) (a a1 : D3plot)
    (hz : a.useFemzip = false) (ta : a.timesteps = []) (ta1 : a1.timesteps = [])
    (h : D3plot.read_states_run fa fuel a = .ok a1) :
    a1.wordPosition = if 2 ≤ a.buffer.states.length then 0 else a.wordPosition := by
  obtain ⟨nDel1, r1, hd1, hf1, e1⟩ := read_states_run_ok fa fuel _ a1 h
  obtain ⟨x1, x2, x3, x4, x5, _⟩ := read_states_rewind_fields a
  have ra2 := (read_states_rewind_ok a).2
  rw [ta] at ra2 hf1
  simp only [List.length_nil, Nat.lt_one_iff, if_true] at ra2
  obtain ⟨_, _, _, t3, _, _⟩ := read_states_files_preserved _ _ _ _ _ _ _ _ _ hf1
  have hl := t3 (by simp)
  have ht : r1.1.timesteps = [] := by rw [e1] at ta1; exact ta1
  rw [x4, ht, ta] at hl
  simp only [List.length_nil] at hl
  have key := read_states_files_rest _ _ _ _ _ _ _ _ _ hf1 (by rw [x3]; exact hz) (by omega)
  rw [e1]
  simp only
  rw [key, ra2]
  cases hst : a.buffer.states with
  | nil => simp
  | cons s rest =>
    cases rest with
    | nil => simp
    | cons s2 rest2 => simp

theorem read_states_rel (v : Var) (fa : FloatArith) (fuel1 fuel2 : Nat)
    (vars1 vars2 : List String) (a b a1 b1 : D3plot)
    (hc : a.ctrl = b.ctrl) (hz : a.useFemzip = b.useFemzip)
    (hs : a.buffer.states = b.buffer.states)
    (hw : a.useFemzip = true ∨
      a.read_states_rewind.wordPosition = b.read_states_rewind.wordPosition)
    (h1 : D3plot.read_states fa fuel1 vars1 a = .ok a1)
    (h2 : D3plot.read_states fa fuel2 vars2 b = .ok b1)
    (hv : v.entry a1.plan = v.entry b1.plan) (hv0 : v.entry a1.plan ≠ 0)
    (hag : AgreeOn v a b) : AgreeOn v a1 b1 := by
  obtain ⟨_, pa, _⟩ := read_states_frame fa fuel1 vars1 a a1 h1
  obtain ⟨_, pb, _⟩ := read_states_frame fa fuel2 vars2 b b1 h2
  obtain ⟨p1, hp1, hr1⟩ := read_states_ok fa fuel1 vars1 a a1 h1
  obtain ⟨p2, hp2, hr2⟩ := read_states_ok fa fuel2 vars2 b b1 h2
  rw [hp1] at pa
  rw [hp2] at pb
  cases pa
  cases pb
  have n1 := read_states_parse_nonneg _ _ _ _ hp1
  have n2 := read_states_parse_nonneg _ _ _ _ hp2
  rcases hr1 with ⟨he, _, _⟩ | ⟨_, hrun1⟩
  · exact absurd (((plan_is_empty_iff _ n1).1 he).1 v) hv0
  rcases hr2 with ⟨he, _, _⟩ | ⟨_, hrun2⟩
  · exact absurd (((plan_is_empty_iff _ n2).1 he).1 v) (hv ▸ hv0)
  refine read_states_run_rel v fa fuel1 fuel2 { a with plan := a1.plan } { b with plan := b1.plan }
    a1 b1 hc hz hs ?_ hv hag hrun1 hrun2
  rw [read_states_rewind_plan a, read_states_rewind_plan b]
  exact hw

theorem read_states_first_rel (fa : FloatArith) (fuel1 fuel2 : Nat)
    (vars1 vars2 : List String) (a b a1 b1 : D3plot)
    (hc : a.ctrl = b.ctrl) (hz : a.useFemzip = b.useFemzip)
    (hs : a.buffer.states = b.buffer.states)
    (hw : a.useFemzip = true ∨ a.wordPosition = b.wordPosition)
    (ta : a.timesteps = []) (tb : b.timesteps = [])
    (h1 : D3plot.read_states fa fuel1 vars1 a = .ok a1)
    (h2 : D3plot.read_states fa fuel2 vars2 b = .ok b1) :
    a1.timesteps = b1.timesteps ∧ (a.buffer.states ≠ [] → a1.wordPosition = b1.wordPosition) := by
  obtain ⟨p1, hp1, hr1⟩ := read_states_ok fa fuel1 vars1 a a1 h1
  obtain ⟨p2, hp2, hr2⟩ := read_states_ok fa fuel2 vars2 b b1 h2
  rcases hr1 with ⟨_, h0, _⟩ | ⟨_, hrun1⟩
  · exact absurd ta h0
  rcases hr2 with ⟨_, h0, _⟩ | ⟨_, hrun2⟩
  · exact absurd tb h0
  exact read_states_run_times fa fuel1 fuel2 { a with plan := p1 } { b with plan := p2 } a1 b1
    hc hz hs hw ta tb hrun1 hrun2

theorem read_states_settled (fa : FloatArith) (fuel : Nat) (vars : List String)
    (a a1 : D3plot) (hz : a.useFemzip = false) (ta : a.timesteps = []) (ta1 : a1.timesteps = [])
    (h : D3plot.read_states fa fuel vars a = .ok a1) :
    a1.wordPosition = if 2 ≤ a.buffer.states.length then 0 else a.wordPosition := by
  obtain ⟨p1, hp1, hr1⟩ := read_states_ok fa fuel vars a a1 h
  rcases hr1 with ⟨_, h0, _⟩ | ⟨_, hrun1⟩
  · exact absurd ta h0
  exact read_states_run_settled fa fuel { a with plan := p1 } a1 hz ta ta1 hrun1

/-! ## The geometry stage -/

theorem alloc_ok {α : Type} (n : Int) (x : α) (xs : List α) (h : alloc n x = .ok xs) :
    0 ≤ n ∧ xs.length = n.toNat := by
  unfold alloc at h
  split at h
  · cases h
  · cases h
    exact ⟨by omega, by simp⟩

theorem fill_loop_length {α : Type} (body : Int → Except Err α) (hi step : Int) :
    ∀ (xs : List α) (ii : Int) (ys : List α),
      fill_loop body hi step ii xs = .ok ys → ys.length = xs.length := by
  intro xs
  induction xs with
  | nil =>
    intro ii ys h
    unfold fill_loop at h
    split at h
    · cases h
    · cases h; rfl
  | cons x rest ih =>
    intro ii ys h
    rw [fill_loop] at h
    split at h
    · cases hb : body ii with
      | error e => simp [hb] at h
      | ok y =>
        simp only [hb] at h
        cases hr : fill_loop body hi step (ii + step) rest with
        | error e => simp [hr] at h
        | ok zs =>
          simp only [hr, Except.ok.injEq] at h
          subst h
          simp [ih _ _ hr]
    · cases h; rfl

theorem read_header_ok (d d1 : D3plot) (h : d.read_header = .ok d1) :
    d1 = { d with ctrl := d1.ctrl, wordPosition := d1.wordPosition } ∧
    d1.ctrl.dyna_ndim = 3 ∧ d1.ctrl.dyna_irbtyp = d.ctrl.dyna_irbtyp ∧
    d1.ctrl.dyna_istrn = D3plot.derive_istrn d1.ctrl.dyna_idtdt d1.ctrl.dyna_nv2d
      d1.ctrl.dyna_maxint d1.ctrl.dyna_ioshl1 d1.ctrl.dyna_ioshl2 d1.ctrl.dyna_ioshl3
      d1.ctrl.dyna_ioshl4 d1.ctrl.dyna_neips d.ctrl.dyna_istrn := by
  have hnd : ∀ n r, D3plot.decode_ndim n = .ok r → r.2 = 3 := by
    intro n r hr
    unfold D3plot.decode_ndim at hr
    repeat' split at hr
    all_goals first
      | (cases hr; rfl)
      | cases hr
  unfold D3plot.read_header at h
  simp only [Except.bind_eq_ok, throw_if_eq_ok, pure, Except.pure, Except.ok.injEq] at h
  repeat obtain ⟨_, _, h⟩ := h
  refine ⟨rfl, ?_, rfl, rfl⟩
  exact hnd _ _ (by assumption)

theorem read_matsection_ok (d d1 : D3plot) (h : d.read_matsection = .ok d1) :
    d1 = { d with ctrl := d1.ctrl, wordPosition := d1.wordPosition } ∧
    d1.ctrl = { d.ctrl with dyna_numrbe := d1.ctrl.dyna_numrbe,
                            dyna_irbtyp := d1.ctrl.dyna_irbtyp } := by
  unfold D3plot.read_matsection at h
  split at h
  · cases h; exact ⟨rfl, rfl⟩
  · simp only [Except.bind_eq_ok, throw_if_eq_ok, pure, Except.pure, Except.ok.injEq] at h
    repeat obtain ⟨_, _, h⟩ := h
    exact ⟨rfl, rfl⟩

theorem read_geometry_nodes_ok (d : D3plot) (r : List (List F32) × D3plot)
    (h : d.read_geometry_nodes = .ok r) :
    r.2 = { d with wordPosition := r.2.wordPosition } ∧ 0 ≤ d.ctrl.dyna_numnp ∧
    r.1.length = d.ctrl.dyna_numnp.toNat := by
  unfold D3plot.read_geometry_nodes at h
  simp only [Except.bind_eq_ok, pure, Except.pure, Except.ok.injEq] at h
  obtain ⟨xs, hx, ys, hy, h⟩ := h
  subst h
  obtain ⟨a1, a2⟩ := alloc_ok _ _ _ hx
  exact ⟨rfl, a1, by rw [fill_loop_length _ _ _ _ _ _ hy, a2]⟩

theorem read_geometry_elem8_ok (d : D3plot) (r : List (List Int) × D3plot)
    (h : d.read_geometry_elem8 = .ok r) :
    r.2 = { d with wordPosition := r.2.wordPosition } ∧ 0 ≤ d.ctrl.dyna_nel8 ∧
    r.1.length = d.ctrl.dyna_nel8.toNat := by
  unfold D3plot.read_geometry_elem8 at h
  split at h
  · rename_i h0
    cases h
    exact ⟨rfl, by omega, by simp [h0]⟩
  · simp only [Except.bind_eq_ok, pure, Except.pure, Except.ok.injEq] at h
    obtain ⟨xs, hx, ys, hy, h⟩ := h
    subst h
    obtain ⟨a1, a2⟩ := alloc_ok _ _ _ hx
    exact ⟨rfl, a1, by rw [fill_loop_length _ _ _ _ _ _ hy, a2]⟩

theorem read_geometry_elem4_ok (d : D3plot) (r : List (List Int) × D3plot)
    (h : d.read_geometry_elem4 = .ok r) :
    r.2 = { d with wordPosition := r.2.wordPosition } ∧ 0 ≤ d.ctrl.dyna_nel4 ∧
    r.1.length = d.ctrl.dyna_nel4.toNat := by
  unfold D3plot.read_geometry_elem4 at h
  split at h
  · rename_i h0
    cases h
    exact ⟨rfl, by omega, by simp [h0]⟩
  · simp only [Except.bind_eq_ok, pure, Except.pure, Except.ok.injEq] at h
    obtain ⟨xs, hx, ys, hy, h⟩ := h
    subst h
    obtain ⟨a1, a2⟩ := alloc_ok _ _ _ hx
    exact ⟨rfl, a1, by rw [fill_loop_length _ _ _ _ _ _ hy, a2]⟩

theorem read_geometry_elem2_ok (d : D3plot) (r : List (List Int) × D3plot)
    (h : d.read_geometry_elem2 = .ok r) :
    r.2 = { d with wordPosition := r.2.wordPosition } := by
  unfold D3plot.read_geometry_elem2 at h
  split at h
  · cases h; rfl
  · simp only [Except.bind_eq_ok, pure, Except.pure, Except.ok.injEq] at h
    obtain ⟨xs, hx, ys, hy, h⟩ := h
    subst h
    rfl

theorem read_geometry_numbering_ok (d : D3plot) (r : List (List Int) × D3plot)
    (h : d.read_geometry_numbering = .ok r) :
    r.2 = { d with wordPosition := r.2.wordPosition } := by
  unfold D3plot.read_geometry_numbering at h
  split at h
  · cases h; rfl
  · simp only [Except.bind_eq_ok, throw_if_eq_ok, pure, Except.pure, Except.ok.injEq] at h
    repeat obtain ⟨_, _, h⟩ := h
    rfl

theorem read_geometry_parts_ok (d d1 : D3plot) (h : d.read_geometry_parts = .ok d1) :
    d1 = { d with ctrl := { d.ctrl with dyna_numprop := d1.ctrl.dyna_numprop },
                  db_parts := d1.db_parts,
                  wordPosition := d.wordPosition + (1 + (d1.ctrl.dyna_numprop + 1) * 19 + 1) } := by
  unfold D3plot.read_geometry_parts at h
  simp only [Except.bind_eq_ok, throw_if_eq_ok, pure, Except.pure, Except.ok.injEq] at h
  repeat obtain ⟨_, _, h⟩ := h
  rfl

theorem add_elements_ok (t : ElementType) (off : Int) (rigid : Bool) (c : Control) :
    ∀ (rs : List (List Int)) (ids : List Int) (es : List Element),
      D3plot.add_elements t off rigid c ids rs = .ok es →
      es.length = rs.length ∧ ∀ e ∈ es, e.fresh := by
  intro rs
  induction rs with
  | nil =>
    intro ids es h
    cases ids <;> simp only [D3plot.add_elements, Except.ok.injEq] at h <;> subst h <;> simp
  | cons r rest ih =>
    intro ids es h
    cases ids with
    | nil => simp [D3plot.add_elements] at h
    | cons id ids =>
      rw [D3plot.add_elements] at h
      split at h
      · cases h
      · split at h
        · cases h
        · rename_i es1 h1
          simp only [Except.ok.injEq] at h
          subst h
          obtain ⟨l1, f1⟩ := ih _ _ h1
          refine ⟨by simp [l1], ?_⟩
          intro e he
          simp only [List.mem_cons] at he
          rcases he with rfl | he
          · split <;>
              simp [Element.fresh, Element.set_is_rigid, add_element_byD3plot]
          · exact f1 e he

theorem zipWith_add_node_fresh :
    ∀ (ids : List Int) (cs : List (List F32)), ∀ n ∈ List.zipWith add_node ids cs, n.fresh := by
  intro ids
  induction ids with
  | nil => intro cs n hn; simp at hn
  | cons i ids ih =>
    intro cs n hn
    cases cs with
    | nil => simp at hn
    | cons c cs =>
      simp only [List.zipWith_cons_cons, List.mem_cons] at hn
      rcases hn with rfl | hn
      · exact ⟨rfl, rfl, rfl⟩
      · exact ih cs n hn

theorem read_geometry_ok (d d1 : D3plot) (h : d.read_geometry = .ok d1) :
    ∃ nodes beams shells solids,
      d1.db_nodes = d.db_nodes ++ nodes ∧ d1.db_beams = d.db_beams ++ beams ∧
      d1.db_shells = d.db_shells ++ shells ∧ d1.db_solids = d.db_solids ++ solids ∧
      0 ≤ d.ctrl.dyna_numnp ∧ nodes.length = d.ctrl.dyna_numnp.toNat ∧
      (∀ n ∈ nodes, n.fresh) ∧
      0 ≤ d.ctrl.dyna_nel4 ∧ shells.length = d.ctrl.dyna_nel4.toNat ∧
      ((shells.countP Element.get_is_rigid : Nat) : Int) = d.ctrl.dyna_numrbe ∧
      (∀ e ∈ shells, e.fresh) ∧
      0 ≤ d.ctrl.dyna_nel8 ∧ solids.length = d.ctrl.dyna_nel8.toNat ∧
      (∀ e ∈ solids, e.fresh) ∧
      d1.ctrl = { d.ctrl with dyna_numprop := d1.ctrl.dyna_numprop } ∧
      d1.timesteps = d.timesteps ∧ d1.useFemzip = d.useFemzip ∧ d1.loaded = d.loaded ∧
      d1.plan = d.plan ∧ d1.buffer.states = d.buffer.states ∧
      (d.useFemzip = true → d1.wordPosition = 1 + (1 + (d1.ctrl.dyna_numprop + 1) * 19 + 1)) := by
  unfold D3plot.read_geometry at h
  simp only [Except.bind_eq_ok, throw_if_eq_ok, pure, Except.pure, Except.ok.injEq] at h
  obtain ⟨r1, h1, r2, h2, r3, h3, r4, h4, r5, h5, fin, hfin, _, hfin2, h⟩ := h
  obtain ⟨a, hpa, f2, hf2, _, hf3, n0, hn0, _, hlen, n2, hn2, beams, hbe, n3, hn3, shells, hsh,
    _, hcnt, n1, hn1, solids, hso, h⟩ := h
  subst h
  obtain ⟨e1, k1, k2⟩ := read_geometry_nodes_ok d r1 h1
  obtain ⟨e2, k3, k4⟩ := read_geometry_elem8_ok r1.2 r2 h2
  have e3 : r3.2 = { r2.2 with wordPosition := r3.2.wordPosition } := by
    have := read_geometry_elem2_ok _ r3 h3
    split at this <;> exact this
  obtain ⟨e4, k5, k6⟩ := read_geometry_elem4_ok r3.2 r4 h4
  have e5 := read_geometry_numbering_ok r4.2 r5 h5
  have e6 : r5.2 = { d with wordPosition := r5.2.wordPosition } := by
    rw [e5, e4, e3, e2, e1]
  have ep := read_geometry_parts_ok _ a hpa
  have c1 : r1.2.ctrl = d.ctrl := by rw [e1]
  have c3 : r3.2.ctrl = d.ctrl := by rw [e3, e2, e1]
  rw [c1] at k3 k4
  rw [c3] at k5 k6
  obtain ⟨ls, fs⟩ := add_elements_ok _ _ _ _ _ _ _ hsh
  obtain ⟨lo, fo⟩ := add_elements_ok _ _ _ _ _ _ _ hso
  have ha : a.db_nodes = d.db_nodes ∧ a.db_beams = d.db_beams ∧ a.db_shells = d.db_shells ∧
      a.db_solids = d.db_solids ∧ a.ctrl = { d.ctrl with dyna_numprop := a.ctrl.dyna_numprop } ∧
      a.timesteps = d.timesteps ∧ a.useFemzip = d.useFemzip ∧ a.loaded = d.loaded ∧
      a.plan = d.plan ∧ a.buffer.states = d.buffer.states ∧
      (d.useFemzip = true → a.wordPosition = 1 + (1 + (a.ctrl.dyna_numprop + 1) * 19 + 1)) := by
    rw [ep]
    have hz : r5.2.useFemzip = d.useFemzip := by rw [e6]
    cases hzz : d.useFemzip with
    | false =>
      rw [hzz] at hz
      simp only [hz, Bool.false_eq_true, if_false]
      rw [e6]
      exact ⟨rfl, rfl, rfl, rfl, rfl, rfl, by simp [hzz], rfl, rfl, rfl, by simp⟩
    | true =>
      rw [hzz] at hz
      simp only [hz, if_true]
      rw [e6]
      exact ⟨rfl, rfl, rfl, rfl, rfl, rfl, by simp [hzz], rfl, rfl, rfl, by simp⟩
  obtain ⟨a1, a2, a3, a4, a5, a6, a7, a8, a9, a10, a11⟩ := ha
  have hnr : a.ctrl.dyna_numrbe = d.ctrl.dyna_numrbe := by rw [a5]
  refine ⟨List.zipWith add_node n0 r1.1, beams, shells, solids, ?_, ?_, ?_, ?_, k1, ?_,
    zipWith_add_node_fresh _ _, k5, by rw [ls, k6], ?_, fs, k3, by rw [lo, k4], fo, ?_, a6, a7,
    a8, a9, ?_, a11⟩
  · simp only [a1]
  · simp only [a2]
  · simp only [a3]
  · simp only [a4]
  · simp only [List.length_zipWith]
    have : n0.length = r1.1.length := by
      by_contra hne
      exact hlen hne
    rw [this, Nat.min_self, k2]
  · rw [← hnr]
    by_contra hne
    exact hcnt hne
  · exact a5
  · simp only [Buffer.free_partBuffer]
    exact a10

/-- The constructor is the geometry stage followed by the first call of
`read_states`. -/
theorem new_eq_ok (fa : FloatArith) (fuel : Nat) (buf : Buffer) (vars : List String) (fz : Bool)
    (d : D3plot) :
    D3plot.new fa fuel buf vars fz = .ok d ↔
      ∃ g, D3plot.open_geometry buf fz = .ok g ∧ g.read_states fa fuel vars = .ok d := by
  unfold D3plot.new D3plot.open_geometry
  simp only [Except.bind_eq_ok]
  constructor
  · rintro ⟨d1, h1, d2, h2, d3, h3, h4⟩
    exact ⟨d3, ⟨d1, h1, d2, h2, h3⟩, h4⟩
  · rintro ⟨d3, ⟨d1, h1, d2, h2, h3⟩, h4⟩
    exact ⟨d1, h1, d2, h2, d3, h3, h4⟩

/-- What the geometry stage of the constructor establishes. -/
theorem open_geometry_opened (buf : Buffer) (fz : Bool) (g : D3plot)
    (h : D3plot.open_geometry buf fz = .ok g) : Opened buf fz g := by
  unfold D3plot.open_geometry at h
  simp only [Except.bind_eq_ok] at h
  obtain ⟨d1, h1, d2, h2, h3⟩ := h
  obtain ⟨e1, nd, _, _⟩ := read_header_ok _ d1 h1
  obtain ⟨e2, c2⟩ := read_matsection_ok d1 d2 h2
  obtain ⟨nodes, beams, shells, solids, g1, g2, g3, g4, k1, k2, k3, k4, k5, k6, k7, k8, k9, k10,
    gc, gt, gz, gl, gp, gb, gw⟩ := read_geometry_ok d2 g h3
  have i1 : d2.db_nodes = [] := by rw [e2, e1]; rfl
  have i3 : d2.db_shells = [] := by rw [e2, e1]; rfl
  have i4 : d2.db_solids = [] := by rw [e2, e1]; rfl
  have i5 : d2.timesteps = [] := by rw [e2, e1]; rfl
  have i6 : d2.useFemzip = fz := by rw [e2, e1]; rfl
  have i7 : d2.loaded = Loaded.init := by rw [e2, e1]; rfl
  have i8 : d2.buffer.states = buf.states := by rw [e2, e1]; rfl
  have i9 : d2.ctrl.dyna_ndim = 3 := by rw [c2]; exact nd
  rw [i1, List.nil_append] at g1
  rw [i3, List.nil_append] at g3
  rw [i4, List.nil_append] at g4
  have q1 : g.ctrl.dyna_ndim = d2.ctrl.dyna_ndim := by rw [gc]
  have q2 : g.ctrl.dyna_numnp = d2.ctrl.dyna_numnp := by rw [gc]
  have q3 : g.ctrl.dyna_nel4 = d2.ctrl.dyna_nel4 := by rw [gc]
  have q4 : g.ctrl.dyna_nel8 = d2.ctrl.dyna_nel8 := by rw [gc]
  have q5 : g.ctrl.dyna_numrbe = d2.ctrl.dyna_numrbe := by rw [gc]
  refine ⟨by rw [gt, i5], by rw [gz, i6], by rw [gl, i7], by rw [gb, i8], ?_, ?_, ?_, ?_, ?_⟩
  · unfold Shape
    rw [q1, q2, q3, q4, q5, g1, g3, g4]
    exact ⟨i9, k1, k2, k4, k5, k6, k8, k9⟩
  · rw [g1]; exact k3
  · rw [g3]; exact k7
  · rw [g4]; exact k10
  · intro hz
    exact gw (by rw [i6]; exact hz)

/-! ## Stores are determined by their views -/

theorem nodes_ext : ∀ (xs ys : List Node), xs.map Node.static = ys.map Node.static →
    (∀ v : Var, xs.map (Node.view v) = ys.map (Node.view v)) → xs = ys := by
  intro xs
  induction xs with
  | nil =>
    intro ys h _
    cases ys with
    | nil => rfl
    | cons y ys => simp at h
  | cons x xs ih =>
    intro ys h hv
    cases ys with
    | nil => simp at h
    | cons y ys =>
      simp only [List.map_cons, List.cons.injEq] at h hv
      have hxy : x = y := by
        refine Node.node_eq_of_views x y ?_ ?_ (fun v => (hv v).1)
        · exact congrArg Prod.fst h.1
        · exact congrArg Prod.snd h.1
      rw [hxy, ih ys h.2 (fun v => (hv v).2)]

theorem elements_ext : ∀ (xs ys : List Element),
    xs.map Element.static = ys.map Element.static →
    xs.map Element.history_vars = ys.map Element.history_vars →
    (∀ v : Var, xs.map (Element.view v) = ys.map (Element.view v)) → xs = ys := by
  intro xs
  induction xs with
  | nil =>
    intro ys h _ _
    cases ys with
    | nil => rfl
    | cons y ys => simp at h
  | cons x xs ih =>
    intro ys h hh hv
    cases ys with
    | nil => simp at h
    | cons y ys =>
      simp only [List.map_cons, List.cons.injEq] at h hh hv
      have hs := h.1
      simp only [Element.static, Prod.mk.injEq] at hs
      have hxy : x = y :=
        Element.element_eq_of_views x y hs.1 hs.2.1 hs.2.2.1 hs.2.2.2 hh.1 (fun v => (hv v).1)
      rw [hxy, ih ys h.2 hh.2 (fun v => (hv v).2)]

theorem AgreeOn.agree_refl (v : Var) (a : D3plot) : AgreeOn v a a := ⟨rfl, rfl, rfl⟩

theorem AgreeOn.agree_symm {v : Var} {a b : D3plot} (h : AgreeOn v a b) : AgreeOn v b a :=
  ⟨h.1.symm, h.2.1.symm, h.2.2.symm⟩

theorem AgreeOn.agree_trans {v : Var} {a b c : D3plot} (h1 : AgreeOn v a b) (h2 : AgreeOn v b c) :
    AgreeOn v a c :=
  ⟨h1.1.trans h2.1, h1.2.1.trans h2.2.1, h1.2.2.trans h2.2.2⟩

theorem AgreeOn.shell_views {v : Var} {a b : D3plot} (h : AgreeOn v a b) :
    a.db_shells.map (Element.view v) = b.db_shells.map (Element.view v) := by
  have := congrArg (List.map Prod.snd) h.2.1
  simpa only [List.map_map, Function.comp_def] using this

/-- Two readers with the same identities, history values and views hold the
same databases. -/
theorem stores_ext (a b : D3plot)
    (hn : a.db_nodes.map Node.static = b.db_nodes.map Node.static)
    (hs : a.db_shells.map Element.static = b.db_shells.map Element.static)
    (ho : a.db_solids.map Element.static = b.db_solids.map Element.static)
    (hhs : a.db_shells.map Element.history_vars = b.db_shells.map Element.history_vars)
    (hho : a.db_solids.map Element.history_vars = b.db_solids.map Element.history_vars)
    (hv : ∀ v : Var, AgreeOn v a b) :
    a.db_nodes = b.db_nodes ∧ a.db_shells = b.db_shells ∧ a.db_solids = b.db_solids :=
  ⟨nodes_ext _ _ hn (fun v => (hv v).1),
   elements_ext _ _ hs hhs (fun v => (hv v).shell_views),
   elements_ext _ _ ho hho (fun v => (hv v).2.2)⟩

/-! ## Request codes and flags -/

theorem Var.entry_init (v : Var) : v.entry ReadPlan.init = 0 := by
  cases v <;> rfl

theorem Var.entry_request_same (v : Var) (c : Int) (p : ReadPlan) :
    v.entry (v.request c p) = c := by
  cases v <;> rfl

theorem Var.entry_request_ne (v w : Var) (c : Int) (p : ReadPlan) (h : w ≠ v) :
    w.entry (v.request c p) = w.entry p := by
  cases v <;> cases w <;> first | rfl | exact absurd rfl h

theorem Var.request_history (v : Var) (c : Int) (p : ReadPlan) :
    (v.request c p).history_shell_read = p.history_shell_read ∧
    (v.request c p).history_solid_read = p.history_solid_read := by
  cases v <;> exact ⟨rfl, rfl⟩

/-- The block "Set, which variables were read" raises the flag of every
variable the plan asks for, except that of the accelerations. -/
theorem Var.flag_set_loaded (v : Var) (p : ReadPlan) (l : Loaded) :
    v.flag (D3plot.set_loaded p l) =
      if v = Var.accel then v.flag l else if v.entry p ≠ 0 then true else v.flag l := by
  cases v <;> simp [Var.flag, Var.entry, D3plot.set_loaded]

theorem set_loaded_history (p : ReadPlan) (l : Loaded) :
    (D3plot.set_loaded p l).history_shell_is_read = l.history_shell_is_read ++ p.history_shell_read ∧
    (D3plot.set_loaded p l).history_solid_is_read = l.history_solid_is_read ++ p.history_solid_read :=
  ⟨rfl, rfl⟩

theorem Loaded.ext_flag (l m : Loaded) (h : ∀ v : Var, v.flag l = v.flag m)
    (h1 : l.history_shell_is_read = m.history_shell_is_read)
    (h2 : l.history_solid_is_read = m.history_solid_is_read) : l = m := by
  have e1 := h Var.disp
  have e2 := h Var.vel
  have e3 := h Var.accel
  have e4 := h Var.energy
  have e5 := h Var.plastic_strain
  have e6 := h Var.strain
  have e7 := h Var.stress
  have e8 := h Var.stress_mises
  simp only [Var.flag] at e1 e2 e3 e4 e5 e6 e7 e8
  cases l; cases m
  simp_all

theorem Kept.kept_refl (a : D3plot) : Kept a a := ⟨rfl, rfl, rfl, rfl, rfl, rfl, rfl, rfl⟩

theorem Kept.kept_trans {a b c : D3plot} (h1 : Kept a b) (h2 : Kept b c) : Kept a c := by
  obtain ⟨a1, a2, a3, a4, a5, a6, a7, a8⟩ := h1
  obtain ⟨b1, b2, b3, b4, b5, b6, b7, b8⟩ := h2
  exact ⟨b1.trans a1, b2.trans a2, b3.trans a3, b4.trans a4, b5.trans a5, b6.trans a6,
    b7.trans a7, b8.trans a8⟩

/-- A reader the constructor built on a plain file without states stands at
word 0 when the file has more than one segment. -/
theorem new_settled (fa : FloatArith) (fuel : Nat) (buf : Buffer) (vars : List String)
    (fz : Bool) (d : D3plot) (h : D3plot.new fa fuel buf vars fz = .ok d)
    (ht : d.timesteps = []) (hz : d.useFemzip = false) (h2 : 2 ≤ d.buffer.states.length) :
    d.wordPosition = 0 := by
  obtain ⟨g, hg, hr⟩ := (new_eq_ok fa fuel buf vars fz d).1 h
  obtain ⟨g1, g2, _⟩ := open_geometry_opened buf fz g hg
  obtain ⟨k, _⟩ := read_states_frame fa fuel vars g d hr
  obtain ⟨_, k2, _, _, k5, _⟩ := k
  have := read_states_settled fa fuel vars g d (by rw [← k2]; exact hz) g1 ht hr
  rw [this, if_pos (by rw [← k5]; exact h2)]

/-! ## Splitting a request -/

theorem rewind_position_nil (d : D3plot) (h : d.timesteps = []) :
    d.read_states_rewind.wordPosition = d.wordPosition := by
  rw [(read_states_rewind_ok d).2, h]
  simp

theorem rewind_position_cons (d : D3plot) (h : d.timesteps ≠ []) :
    d.read_states_rewind.wordPosition = d.wordPositionStates := by
  rw [(read_states_rewind_ok d).2]
  cases hd : d.timesteps with
  | nil => exact absurd hd h
  | cons x xs => simp

/-- After a call of `read_states` the next call scans from the same word as a
call in its place would have, on a reader that is settled. -/
theorem read_states_same_start (fa : FloatArith) (fuel : Nat) (vars : List String)
    (d d1 : D3plot)
    (hset : d.timesteps = [] → d.useFemzip = false → 2 ≤ d.buffer.states.length →
      d.wordPosition = 0)
    (h : D3plot.read_states fa fuel vars d = .ok d1) :
    d1.useFemzip = true ∨
      d1.read_states_rewind.wordPosition = d.read_states_rewind.wordPosition := by
  obtain ⟨k, _, _, _, _, _, t1, t2, _⟩ := read_states_frame fa fuel vars d d1 h
  obtain ⟨_, kz, _, _, ks, _⟩ := k
  by_cases ht : d.timesteps = []
  · rw [rewind_position_nil d ht]
    by_cases ht1 : d1.timesteps = []
    · rw [rewind_position_nil d1 ht1]
      cases hz : d.useFemzip with
      | true => left; rw [kz]; exact hz
      | false =>
        right
        rw [read_states_settled fa fuel vars d d1 hz ht ht1 h]
        split
        · rename_i h2
          exact (hset ht hz h2).symm
        · rfl
    · right
      rw [rewind_position_cons d1 ht1]
      exact t2 ht
  · right
    obtain ⟨e1, e2⟩ := t1 ht
    rw [rewind_position_cons d ht, rewind_position_cons d1 (by rw [e1]; exact ht), e2]

/-- Reading two primitive variables in two calls gives the same store as
reading them in one call, on a reader that is settled. -/
theorem read_states_two_calls (fa : FloatArith) (fuel1 fuel2 fuel3 : Nat) (sx sy : String)
    (vx vy : Var) (d d1 d2 d3 : D3plot)
    (hset : d.timesteps = [] → d.useFemzip = false → 2 ≤ d.buffer.states.length →
      d.wordPosition = 0)
    (hx : Var.classify sx = some vx) (hy : Var.classify sy = some vy) (hne : vx ≠ vy)
    (h1 : D3plot.read_states fa fuel1 [sx] d = .ok d1)
    (h2 : D3plot.read_states fa fuel2 [sy] d1 = .ok d2)
    (h3 : D3plot.read_states fa fuel3 [sx, sy] d = .ok d3) :
    d2.db_nodes = d3.db_nodes ∧ d2.db_beams = d3.db_beams ∧ d2.db_shells = d3.db_shells ∧
    d2.db_solids = d3.db_solids ∧ d2.timesteps = d3.timesteps ∧ d2.loaded = d3.loaded := by
  obtain ⟨k1, p1, l1, hs1, ho1, v1, t1, w1, _⟩ := read_states_frame fa fuel1 [sx] d d1 h1
  obtain ⟨k2, p2, l2, hs2, ho2, v2, t2, w2, _⟩ := read_states_frame fa fuel2 [sy] d1 d2 h2
  obtain ⟨k3, p3, l3, hs3, ho3, v3, t3, w3, _⟩ := read_states_frame fa fuel3 [sx, sy] d d3 h3
  obtain ⟨_, q1⟩ := read_states_parse_one _ _ _ _ _ hx p1
  obtain ⟨_, q2⟩ := read_states_parse_one _ _ _ _ _ hy p2
  obtain ⟨_, _, q3⟩ := read_states_parse_two _ _ _ _ _ _ _ hx hy p3
  have hyx : vy ≠ vx := fun h => hne h.symm
  -- the request codes
  have ey1 : vy.entry d1.plan = 0 := by
    rw [q1, Var.entry_request_ne _ _ _ _ hyx, Var.entry_init]
  have fy : vy.flag d1.loaded = vy.flag d.loaded := by
    rw [l1, Var.flag_set_loaded, ey1]
    simp
  rw [fy] at q2
  have ex1 : vx.entry d1.plan = vx.entry d3.plan := by
    rw [q1, q3, Var.entry_request_ne _ _ _ _ hne, Var.entry_request_same]
  have ex2 : vx.entry d2.plan = 0 := by
    rw [q2, Var.entry_request_ne _ _ _ _ hne, Var.entry_init]
  have ey2 : vy.entry d2.plan = vy.entry d3.plan := by
    rw [q2, q3, Var.entry_request_same, Var.entry_request_same]
  have eo : ∀ v : Var, v ≠ vx → v ≠ vy →
      v.entry d1.plan = 0 ∧ v.entry d2.plan = 0 ∧ v.entry d3.plan = 0 := by
    intro v n1 n2
    rw [q1, q2, q3, Var.entry_request_ne _ _ _ _ n1, Var.entry_request_ne _ _ _ _ n2,
      Var.entry_request_ne _ _ _ _ n2, Var.entry_request_ne _ _ _ _ n1, Var.entry_init]
    exact ⟨rfl, rfl, rfl⟩
  have hh1 : d1.plan.history_shell_read = [] ∧ d1.plan.history_solid_read = [] := by
    rw [q1]; exact Var.request_history _ _ _
  have hh2 : d2.plan.history_shell_read = [] ∧ d2.plan.history_solid_read = [] := by
    rw [q2]; exact Var.request_history _ _ _
  have hh3 : d3.plan.history_shell_read = [] ∧ d3.plan.history_solid_read = [] := by
    rw [q3]
    obtain ⟨a, b⟩ := Var.request_history vy
      (if vy.flag d.loaded = true then 0 else D3plot.read_states_parse_readMode sy)
      (vx.request (if vx.flag d.loaded = true then 0 else D3plot.read_states_parse_readMode sx)
        ReadPlan.init)
    obtain ⟨a2, b2⟩ := Var.request_history vx
      (if vx.flag d.loaded = true then 0 else D3plot.read_states_parse_readMode sx) ReadPlan.init
    exact ⟨a.trans a2, b.trans b2⟩
  have k12 := k1.kept_trans k2
  obtain ⟨c1, z1, b1, _, s1, n1, sh1, so1⟩ := k1
  obtain ⟨c12, z12, b12, _, s12, n12, sh12, so12⟩ := k12
  obtain ⟨c3, z3, b3, _, s3, n3, sh3, so3⟩ := k3
  have start := read_states_same_start fa fuel1 [sx] d d1 hset h1
  -- the views
  have hx13 : AgreeOn vx d1 d3 := by
    by_cases hc : vx.entry d1.plan = 0
    · exact (v1 vx hc).agree_trans (v3 vx (ex1 ▸ hc)).agree_symm
    · exact read_states_rel vx fa fuel1 fuel3 [sx] [sx, sy] d d d1 d3 rfl rfl rfl (Or.inr rfl)
        h1 h3 ex1 hc (AgreeOn.agree_refl vx d)
  have hy23 : AgreeOn vy d2 d3 := by
    by_cases hc : vy.entry d2.plan = 0
    · exact ((v2 vy hc).agree_trans (v1 vy ey1)).agree_trans (v3 vy (ey2 ▸ hc)).agree_symm
    · exact read_states_rel vy fa fuel2 fuel3 [sy] [sx, sy] d1 d d2 d3 c1 z1 s1 start h2 h3 ey2
        hc (v1 vy ey1)
  have hall : ∀ v : Var, AgreeOn v d2 d3 := by
    intro v
    by_cases e1 : v = vx
    · subst e1
      exact (v2 v ex2).agree_trans hx13
    · by_cases e2 : v = vy
      · subst e2
        exact hy23
      · obtain ⟨o1, o2, o3⟩ := eo v e1 e2
        exact ((v2 v o2).agree_trans (v1 v o1)).agree_trans (v3 v o3).agree_symm
  obtain ⟨r1, r2, r3⟩ := stores_ext d2 d3 (n12.trans n3.symm) (sh12.trans sh3.symm)
    (so12.trans so3.symm)
    (((hs2 hh2.1).trans (hs1 hh1.1)).trans (hs3 hh3.1).symm)
    (((ho2 hh2.2).trans (ho1 hh1.2)).trans (ho3 hh3.2).symm) hall
  refine ⟨r1, b12.trans b3.symm, r2, r3, ?_, ?_⟩
  · -- the timestep table
    by_cases ht : d.timesteps = []
    · have f13 := (read_states_first_rel fa fuel1 fuel3 [sx] [sx, sy] d d d1 d3 rfl rfl rfl
        (Or.inr rfl) ht ht h1 h3).1
      by_cases ht1 : d1.timesteps = []
      · have hw : d1.useFemzip = true ∨ d1.wordPosition = d.wordPosition := by
          rcases start with h | h
          · exact Or.inl h
          · rw [rewind_position_nil d1 ht1, rewind_position_nil d ht] at h
            exact Or.inr h
        have f21 := (read_states_first_rel fa fuel2 fuel1 [sy] [sx] d1 d d2 d1 c1 z1 s1 hw
          ht1 ht h2 h1).1
        rw [f21, f13]
      · rw [(t2 ht1).1, f13]
    · have e1 := (t1 ht).1
      rw [(t2 (by rw [e1]; exact ht)).1, e1, (t3 ht).1]
  · -- the flags
    rw [l2, l1, l3]
    refine Loaded.ext_flag _ _ ?_ ?_ ?_
    · intro v
      rw [Var.flag_set_loaded, Var.flag_set_loaded, Var.flag_set_loaded]
      by_cases e1 : v = vx
      · subst e1
        rw [ex2, ex1]
        simp
      · by_cases e2 : v = vy
        · subst e2
          rw [ey1, ey2]
          simp
        · obtain ⟨o1, o2, o3⟩ := eo v e1 e2
          rw [o1, o2, o3]
          simp
    · rw [(set_loaded_history _ _).1, (set_loaded_history _ _).1, (set_loaded_history _ _).1,
        hh1.1, hh2.1, hh3.1]
      simp
    · rw [(set_loaded_history _ _).2, (set_loaded_history _ _).2, (set_loaded_history _ _).2,
        hh1.2, hh2.2, hh3.2]
      simp

/-! ## Growth: one entry per state -/

/-- When the words up to `hi` are exactly what the entities take, a size that
every iteration raises by `k` is raised by `k` on every entity. -/
theorem db_loop_grow {α σ : Type} (body : Int → σ → α → Except Err (α × σ × Int)) (hi : Int)
    (adv : α → Int) (hadv : ∀ x, 0 ≤ adv x)
    (hstep : ∀ ii s x r, body ii s x = .ok r → r.2.2 = ii + adv x)
    (f k : α → Nat) (hk0 : ∀ x, adv x = 0 → k x = 0)
    (hbody : ∀ ii s x r, body ii s x = .ok r → f r.1 = f x + k x)
    (xs : List α) (ii : Int) (s : σ) (ys : List α)
    (hsum : ii + (xs.map adv).sum ≤ hi) (h : db_loop body hi ii s xs = .ok ys) :
    ys.map f = xs.map (fun x => f x + k x) := by
  have h2 := db_loop_cover body hi adv hadv hstep xs ii s ys hsum h
  clear h hsum
  induction h2 with
  | nil => rfl
  | cons h1 _ ih =>
    simp only [List.map_cons, List.cons.injEq]
    refine ⟨?_, ih⟩
    rcases h1 with ⟨h0, rfl⟩ | ⟨jj, t, r, hr, rfl⟩
    · rw [hk0 _ h0]; rfl
    · exact hbody _ _ _ _ hr

theorem sum_map_const {α : Type} (xs : List α) (c : Int) :
    (xs.map (fun _ => c)).sum = c * xs.length := by
  induction xs with
  | nil => simp
  | cons x xs ih =>
    simp only [List.map_cons, List.sum_cons, ih, List.length_cons]
    push_cast
    ring

/-- A node pass that runs over a database that fits the header raises the size
that `add` raises on every node. -/
theorem node_phase_grow (f : Node → Nat) (cond : Prop) (b : Buffer) (ndim numnp : Int)
    (add : Node → List F32 → Node) (st : Int) (xs xs1 : List Node)
    (hnd : 0 < ndim) (hnp : 0 ≤ numnp) (hlen : xs.length = numnp.toNat)
    (hf : ∀ n w, f (add n w) = f n + 1) (hc : cond)
    (h : Phase cond (D3plot.read_states_node_loop b ndim add (st + numnp * ndim) st xs) xs xs1) :
    xs1.map f = xs.map (fun n => f n + 1) := by
  rcases h with ⟨_, hl⟩ | ⟨hn, _⟩
  · unfold D3plot.read_states_node_loop at hl
    refine db_loop_grow _ _ (fun _ => ndim) (fun _ => le_of_lt hnd) ?_ f (fun _ => 1) ?_ ?_
      xs st () xs1 ?_ hl
    · intro ii s x r hr
      rw [read_states_node_body_ok] at hr
      obtain ⟨w, _, rfl⟩ := hr
      rfl
    · intro x h0
      simp only at h0
      omega
    · intro ii s x r hr
      rw [read_states_node_body_ok] at hr
      obtain ⟨w, _, rfl⟩ := hr
      exact hf x w
    · rw [sum_map_const, hlen, Int.toNat_of_nonneg hnp, mul_comm]
  · exact absurd hc hn

theorem sum_map_rigid (nv2d : Int) (xs : List Element) :
    (xs.map (fun e : Element => if e.is_rigid = true then (0 : Int) else nv2d)).sum
      = nv2d * ((xs.length : Int) - (xs.countP Element.get_is_rigid : Nat)) := by
  induction xs with
  | nil => simp
  | cons x xs ih =>
    simp only [List.map_cons, List.sum_cons, ih, List.length_cons, List.countP_cons,
      Element.get_is_rigid]
    by_cases hx : x.is_rigid = true
    · simp only [hx, if_true]
      push_cast
      ring
    · simp only [hx, if_false]
      push_cast
      ring

/-- The slice of a shell variable that every state adds is one entry. -/
theorem read_states_elem4_element_grow (fa : FloatArith) (c : Control) (p : ReadPlan)
    (b : Buffer) (iState : Nat) (ii : Int) (tmp : List F32) (e : Element)
    (r : Element × List F32) (v : Var) (hv : v.entry p ≠ 0) (hon : v.on_shells c)
    (h : D3plot.read_states_elem4_element fa c p b iState ii tmp e = .ok r) :
    (r.1.view v).length = (e.view v).length + 1 := by
  obtain ⟨lv, eS, _, _, hS, hE⟩ := read_states_elem4_element_ok _ _ _ _ _ _ _ _ _ h
  obtain ⟨lv2, _, _, hview, _⟩ := read_states_elem4_element_view _ _ _ _ _ _ _ _ _ v h
  rw [hview, List.length_append]
  congr 1
  obtain ⟨_, hon⟩ := hon
  cases v with
  | disp => exact absurd hon id
  | vel => exact absurd hon id
  | accel => exact absurd hon id
  | stress =>
    simp only [Var.entry] at hv
    simp [elem4_delta, Var.entry, hv]
  | stress_mises =>
    simp only [Var.entry] at hv
    simp [elem4_delta, Var.entry, hv]
  | plastic_strain =>
    simp only [Var.entry] at hv
    simp only [Var.on_shells] at hon
    simp [elem4_delta, Var.entry, hv, hon]
  | strain =>
    simp only [Var.entry] at hv
    simp only [Var.on_shells] at hon
    rcases hS with ⟨_, s, hs, _⟩ | ⟨hg, _⟩
    · have hs2 : D3plot.elem4_strain fa c { ReadPlan.init with strain_read := p.strain_read } b ii
          = .ok s := by
        rw [← hs]; exact elem4_strain_congr fa c _ _ b b rfl rfl ii
      simp [elem4_delta, Var.entry, hv, hon, hs2]
    · exact absurd ⟨hon, hv⟩ hg
  | energy =>
    simp only [Var.entry] at hv
    simp only [Var.on_shells] at hon
    rcases hE with ⟨hg, x, hx, _⟩ | ⟨hg, _⟩
    · unfold elem4_delta
      simp only [Var.entry, if_pos hg, hx, List.length_singleton]
    · exact absurd ⟨hv, hon.1, hon.2⟩ hg

/-- The slice of a solid variable that every state adds is one entry. -/
theorem read_states_elem8_element_grow (fa : FloatArith) (c : Control) (p : ReadPlan)
    (b : Buffer) (iState : Nat) (ii : Int) (e e1 : Element) (v : Var) (hv : v.entry p ≠ 0)
    (hon : v.on_solids c)
    (h : D3plot.read_states_elem8_element fa c p b iState ii e = .ok e1) :
    (e1.view v).length = (e.view v).length + 1 := by
  obtain ⟨eA, eB, eC, hA, hB, hC, _⟩ := read_states_elem8_element_ok _ _ _ _ _ _ _ _ h
  rw [read_states_elem8_element_view _ _ _ _ _ _ _ _ v h, List.length_append]
  congr 1
  obtain ⟨_, hon⟩ := hon
  cases v with
  | disp => exact absurd hon id
  | vel => exact absurd hon id
  | accel => exact absurd hon id
  | energy => exact absurd hon id
  | stress =>
    simp only [Var.entry] at hv
    rcases hA with ⟨_, t, ht, _⟩ | ⟨hg, _⟩
    · simp [elem8_delta, Var.entry, hv, ht]
    · exact absurd (Or.inl hv) hg
  | stress_mises =>
    simp only [Var.entry] at hv
    rcases hA with ⟨_, t, ht, _⟩ | ⟨hg, _⟩
    · simp [elem8_delta, Var.entry, hv, ht]
    · exact absurd (Or.inr hv) hg
  | plastic_strain =>
    simp only [Var.entry] at hv
    rcases hB with ⟨_, t, ht, _⟩ | ⟨hg, _⟩
    · simp [elem8_delta, Var.entry, hv, ht]
    · exact absurd hv hg
  | strain =>
    simp only [Var.entry] at hv
    simp only [Var.on_solids] at hon
    rcases hC with ⟨_, t, ht, _⟩ | ⟨hg, _⟩
    · simp [elem8_delta, Var.entry, hv, hon, ht]
    · exact absurd ⟨hon, hv⟩ hg

/-! ## Growth of the databases in one state -/

theorem shell_phase_grow (v : Var) (fa : FloatArith) (c : Control) (p : ReadPlan) (b : Buffer)
    (i : Nat) (cond : Prop) (st : Int) (tmp : List F32) (xs xs1 : List Element)
    (hv : v.entry p ≠ 0) (hon : v.on_shells c) (hc : cond)
    (hlen : (xs.length : Int) = c.dyna_nel4)
    (hrig : ((xs.countP Element.get_is_rigid : Nat) : Int) = c.dyna_numrbe)
    (h : Phase cond (D3plot.read_states_elem4_loop fa c p b i
      (st + c.dyna_nv2d * (c.dyna_nel4 - c.dyna_numrbe)) st tmp xs) xs xs1) :
    xs1.map (fun e => (e.is_rigid, e.size v))
      = (xs.map (fun e => (e.is_rigid, e.size v))).map (grow_shell 1) := by
  rcases h with ⟨_, hl⟩ | ⟨hn, _⟩
  · have hst := shell_phase_map Element.static fa c p b i True _ st tmp xs xs1
      (fun _ _ => rfl) (fun _ _ => rfl) (fun _ _ => rfl) (fun _ _ => rfl) (fun _ _ => rfl)
      (fun _ _ _ _ => rfl) (Or.inl ⟨trivial, hl⟩)
    have hr : xs1.map Element.is_rigid = xs.map Element.is_rigid := by
      have := congrArg (List.map (fun s : Int × ElementType × List Int × Bool => s.2.2.2)) hst
      simpa only [List.map_map, Function.comp_def, Element.static] using this
    unfold D3plot.read_states_elem4_loop at hl
    have hsz := db_loop_grow _ _ (fun e : Element => if e.is_rigid = true then (0 : Int)
        else c.dyna_nv2d) (fun e => by
          by_cases h : e.is_rigid = true <;> simp [h, le_of_lt hon.1]) ?_
      (Element.size v) (fun e => if e.is_rigid = true then 0 else 1) ?_ ?_ xs st tmp xs1 ?_ hl
    · rw [List.map_map]
      have h1 : xs1.map (fun e => (e.is_rigid, e.size v))
          = List.zip (xs1.map Element.is_rigid) (xs1.map (Element.size v)) := by
        rw [List.zip_map']
      rw [h1, hr, hsz, List.zip_map']
      rfl
    · intro ii s x r hr
      rcases read_states_elem4_body_ok _ _ _ _ _ _ _ _ _ hr with ⟨h0, rfl⟩ | ⟨h0, et, _, rfl⟩
      · simp [h0]
      · simp [h0]
    · intro x h0
      have h2 : 0 < c.dyna_nv2d := hon.1
      by_cases h1 : x.is_rigid = true
      · simp [h1]
      · dsimp only at h0
        rw [if_neg h1] at h0
        exfalso
        omega
    · intro ii s x r hr
      rcases read_states_elem4_body_ok _ _ _ _ _ _ _ _ _ hr with ⟨h0, rfl⟩ | ⟨h0, et, het, rfl⟩
      · simp [h0]
      · simp only [h0, Bool.false_eq_true, if_false]
        exact read_states_elem4_element_grow _ _ _ _ _ _ _ _ _ v hv hon het
    · rw [sum_map_rigid, hlen, hrig]
  · exact absurd hc hn

theorem solid_phase_grow (v : Var) (fa : FloatArith) (c : Control) (p : ReadPlan) (b : Buffer)
    (i : Nat) (cond : Prop) (st : Int) (xs xs1 : List Element)
    (hv : v.entry p ≠ 0) (hon : v.on_solids c) (hc : cond)
    (hlen : (xs.length : Int) = c.dyna_nel8)
    (h : Phase cond (D3plot.read_states_elem8_loop fa c p b i
      (st + c.dyna_nv3d * c.dyna_nel8) st xs) xs xs1) :
    xs1.map (Element.size v) = (xs.map (Element.size v)).map (fun n => n + 1) := by
  rcases h with ⟨_, hl⟩ | ⟨hn, _⟩
  · unfold D3plot.read_states_elem8_loop at hl
    rw [List.map_map]
    refine db_loop_grow _ _ (fun _ => c.dyna_nv3d) (fun _ => le_of_lt hon.1) ?_
      (Element.size v) (fun _ => 1) ?_ ?_ xs st () xs1 ?_ hl
    · intro ii s x r hr
      obtain ⟨e1, _, rfl⟩ := read_states_elem8_body_ok _ _ _ _ _ _ _ _ _ hr
      rfl
    · intro x h0
      have h2 : 0 < c.dyna_nv3d := hon.1
      simp only at h0
      omega
    · intro ii s x r hr
      obtain ⟨e1, he1, rfl⟩ := read_states_elem8_body_ok _ _ _ _ _ _ _ _ _ hr
      exact read_states_elem8_element_grow _ _ _ _ _ _ _ _ v hv hon he1
    · rw [sum_map_const, hlen]
  · exact absurd hc hn

theorem node_phase_grow_view (v : Var) (cond : Prop) (b : Buffer) (ndim numnp : Int)
    (add : Node → List F32 → Node) (st : Int) (xs xs1 : List Node)
    (hnd : 0 < ndim) (hnp : 0 ≤ numnp) (hlen : xs.length = numnp.toNat)
    (hf : ∀ n w, (add n w).view v = n.view v ++ [w]) (hc : cond)
    (h : Phase cond (D3plot.read_states_node_loop b ndim add (st + numnp * ndim) st xs) xs xs1) :
    xs1.map (Node.size v) = (xs.map (Node.size v)).map (fun n => n + 1) := by
  rw [List.map_map]
  exact node_phase_grow (Node.size v) cond b ndim numnp add st xs xs1 hnd hnp hlen
    (fun n w => by simp [Node.size, hf]) hc h

theorem node_phase_size (v : Var) (cond : Prop) (b : Buffer) (ndim : Int)
    (add : Node → List F32 → Node) (hi st : Int) (xs xs1 : List Node)
    (hf : ∀ n w, (add n w).view v = n.view v)
    (h : Phase cond (D3plot.read_states_node_loop b ndim add hi st xs) xs xs1) :
    xs1.map (Node.size v) = xs.map (Node.size v) :=
  node_phase_map (Node.size v) cond b ndim add hi st xs xs1
    (fun n w => by simp [Node.size, hf]) h

/-- One state adds one entry of a variable that is asked for to every node,
to every shell that is not rigid and to every solid that stores it. -/
theorem read_states_state_grow (v : Var) (fa : FloatArith) (tr : Bool) (i : Nat)
    (a a1 : D3plot) (hsh : Shape a) (hv : v.entry a.plan ≠ 0)
    (h : D3plot.read_states_state fa tr i a = .ok a1) :
    (v.on_nodes a.ctrl →
      a1.db_nodes.map (Node.size v) = (a.db_nodes.map (Node.size v)).map (fun n => n + 1)) ∧
    (v.on_shells a.ctrl →
      a1.db_shells.map (fun e => (e.is_rigid, e.size v))
        = (a.db_shells.map (fun e => (e.is_rigid, e.size v))).map (grow_shell 1)) ∧
    (v.on_solids a.ctrl →
      a1.db_solids.map (Element.size v)
        = (a.db_solids.map (Element.size v)).map (fun n => n + 1)) := by
  obtain ⟨xA, xB, _, _, p1, p2, p3, p4, p5⟩ := read_states_state_ok fa tr i a a1 h
  obtain ⟨s1, s2, s3, s4, s5, s6, s7, s8⟩ := hsh
  have hnd : 0 < a.ctrl.dyna_ndim := by rw [s1]; decide
  have hA : xA.length = a.ctrl.dyna_numnp.toNat := by
    have := congrArg List.length (node_phase_map Node.static _ _ _ Node.add_disp _ _ _ _
      (fun _ _ => rfl) p1)
    simpa [s3] using this
  have hB : xB.length = a.ctrl.dyna_numnp.toNat := by
    have := congrArg List.length (node_phase_map Node.static _ _ _ Node.add_vel _ _ _ _
      (fun _ _ => rfl) p2)
    simpa [hA] using this
  refine ⟨?_, ?_, ?_⟩
  · intro hon
    cases v with
    | disp =>
      simp only [Var.on_nodes] at hon
      simp only [Var.entry] at hv
      rw [node_phase_size Var.disp _ _ _ Node.add_accel _ _ _ _ (fun _ _ => rfl) p3,
        node_phase_size Var.disp _ _ _ Node.add_vel _ _ _ _ (fun _ _ => rfl) p2]
      exact node_phase_grow_view Var.disp _ _ _ _ Node.add_disp _ _ _ hnd s2 s3 (fun _ _ => rfl) ⟨hon, hv⟩ p1
    | vel =>
      simp only [Var.on_nodes] at hon
      simp only [Var.entry] at hv
      rw [node_phase_size Var.vel _ _ _ Node.add_accel _ _ _ _ (fun _ _ => rfl) p3,
        ← node_phase_size Var.vel _ _ _ Node.add_disp _ _ _ _ (fun _ _ => rfl) p1]
      exact node_phase_grow_view Var.vel _ _ _ _ Node.add_vel _ _ _ hnd s2 hA (fun _ _ => rfl) ⟨hon, hv⟩ p2
    | accel =>
      simp only [Var.on_nodes] at hon
      simp only [Var.entry] at hv
      rw [← node_phase_size Var.accel _ _ _ Node.add_disp _ _ _ _ (fun _ _ => rfl) p1,
        ← node_phase_size Var.accel _ _ _ Node.add_vel _ _ _ _ (fun _ _ => rfl) p2]
      exact node_phase_grow_view Var.accel _ _ _ _ Node.add_accel _ _ _ hnd s2 hB (fun _ _ => rfl) ⟨hon, hv⟩ p3
    | energy => exact absurd hon id
    | plastic_strain => exact absurd hon id
    | strain => exact absurd hon id
    | stress => exact absurd hon id
    | stress_mises => exact absurd hon id
  · intro hon
    have hnv : ¬ (v = Var.disp ∨ v = Var.vel ∨ v = Var.accel) := by
      rintro (rfl | rfl | rfl) <;> exact hon.2
    refine shell_phase_grow v fa _ _ _ i _ _ _ _ _ hv hon
      ⟨wants_elements_of_entry _ v hv hnv, fun hc => ?_⟩ ?_ s6 p4
    · have := Int.toNat_of_nonneg s4
      omega
    · have h1 : 0 < a.ctrl.dyna_nv2d := hon.1
      omega
  · intro hon
    have hnv : ¬ (v = Var.disp ∨ v = Var.vel ∨ v = Var.accel) := by
      rintro (rfl | rfl | rfl) <;> exact hon.2
    refine solid_phase_grow v fa _ _ _ i _ _ _ _ hv hon
      ⟨wants_elements_of_entry _ v hv hnv, fun hc => ?_⟩ ?_ p5
    · have := Int.toNat_of_nonneg s7
      omega
    · have h1 : 0 < a.ctrl.dyna_nv3d := hon.1
      omega

/-! ## Growth over the states of a file -/

theorem countP_rigid_of_static (xs ys : List Element)
    (h : xs.map Element.static = ys.map Element.static) :
    xs.countP Element.get_is_rigid = ys.countP Element.get_is_rigid := by
  have e : ∀ zs : List Element, zs.countP Element.get_is_rigid
      = (zs.map Element.static).countP (fun s => s.2.2.2) := by
    intro zs
    rw [List.countP_map]
    rfl
  rw [e xs, e ys, h]

theorem Shape.of_static (a a1 : D3plot) (hc : a1.ctrl = a.ctrl)
    (hn : a1.db_nodes.map Node.static = a.db_nodes.map Node.static)
    (hs : a1.db_shells.map Element.static = a.db_shells.map Element.static)
    (ho : a1.db_solids.map Element.static = a.db_solids.map Element.static)
    (h : Shape a) : Shape a1 := by
  obtain ⟨s1, s2, s3, s4, s5, s6, s7, s8⟩ := h
  have l1 := congrArg List.length hn
  have l2 := congrArg List.length hs
  have l3 := congrArg List.length ho
  simp only [List.length_map] at l1 l2 l3
  unfold Shape
  rw [hc, l1, l2, l3, countP_rigid_of_static _ _ hs]
  exact ⟨s1, s2, s3, s4, s5, s6, s7, s8⟩

theorem Shape.of_preserved {a a1 : D3plot} (hp : Preserved a a1) (h : Shape a) : Shape a1 :=
  Shape.of_static a a1 hp.ctrl_eq hp.2.1 hp.2.2.1 hp.2.2.2.1 h

theorem Shape.of_kept {a a1 : D3plot} (hk : Kept a a1) (h : Shape a) : Shape a1 :=
  Shape.of_static a a1 hk.1 hk.2.2.2.2.2.1 hk.2.2.2.2.2.2.1 hk.2.2.2.2.2.2.2 h

theorem map_add_add (xs : List Nat) (j k : Nat) :
    (xs.map (fun n => n + j)).map (fun n => n + k) = xs.map (fun n => n + (j + k)) := by
  rw [List.map_map]
  apply List.map_congr_left
  intro n _
  simp only [Function.comp]
  omega

theorem map_add_zero (xs : List Nat) : xs.map (fun n => n + 0) = xs := by
  simp

theorem map_grow_shell (xs : List (Bool × Nat)) (j k : Nat) :
    (xs.map (grow_shell j)).map (grow_shell k) = xs.map (grow_shell (j + k)) := by
  rw [List.map_map]
  apply List.map_congr_left
  rintro ⟨r, n⟩ _
  cases r
  · simp only [grow_shell, Function.comp, Bool.false_eq_true, if_false, Prod.mk.injEq, true_and]
    omega
  · simp [grow_shell, Function.comp]

theorem map_grow_shell_zero (xs : List (Bool × Nat)) : xs.map (grow_shell 0) = xs := by
  have : grow_shell 0 = id := by
    funext x
    obtain ⟨r, n⟩ := x
    cases r <;> simp [grow_shell]
  rw [this, List.map_id]

/-- The state loop adds as many entries of a variable that is asked for as
it reads states. -/
theorem read_states_loop_grow (v : Var) (fa : FloatArith) (len : Int) (tr : Bool) :
    ∀ (fuel i : Nat) (a : D3plot) (r : D3plot × Nat), Shape a → v.entry a.plan ≠ 0 →
      D3plot.read_states_loop fa len tr fuel i a = .ok r →
      (v.on_nodes a.ctrl → r.1.db_nodes.map (Node.size v)
        = (a.db_nodes.map (Node.size v)).map (fun n => n + (r.2 - i))) ∧
      (v.on_shells a.ctrl → r.1.db_shells.map (fun e => (e.is_rigid, e.size v))
        = (a.db_shells.map (fun e => (e.is_rigid, e.size v))).map (grow_shell (r.2 - i))) ∧
      (v.on_solids a.ctrl → r.1.db_solids.map (Element.size v)
        = (a.db_solids.map (Element.size v)).map (fun n => n + (r.2 - i))) := by
  intro fuel
  induction fuel with
  | zero => intro i a r _ _ h; simp [D3plot.read_states_loop] at h
  | succ fuel ih =>
    intro i a r hsh hv h
    rw [read_states_loop_succ] at h
    rcases h with ⟨_, rfl⟩ | ⟨_, a1, hs, hl⟩
    · simp only [Nat.sub_self]
      exact ⟨fun _ => (map_add_zero _).symm, fun _ => (map_grow_shell_zero _).symm,
        fun _ => (map_add_zero _).symm⟩
    · have hp := read_states_state_preserved fa tr i a a1 hs
      obtain ⟨g1, g2, g3⟩ := read_states_state_grow v fa tr i a a1 hsh hv hs
      have hle := (read_states_loop_preserved fa len tr fuel (i + 1) _ r hl).2.2.2.2.2
      have hsh1 : Shape { a1 with wordPosition := a1.wordPosition + len } :=
        Shape.of_static a _ hp.ctrl_eq hp.2.1 hp.2.2.1 hp.2.2.2.1 hsh
      obtain ⟨k1, k2, k3⟩ := ih (i + 1) _ r hsh1 (by simp only; rw [hp.plan_eq]; exact hv) hl
      simp only [hp.ctrl_eq] at k1 k2 k3
      have hk : 1 + (r.2 - (i + 1)) = r.2 - i := by omega
      refine ⟨fun hon => ?_, fun hon => ?_, fun hon => ?_⟩
      · rw [k1 hon, g1 hon, map_add_add, hk]
      · rw [k2 hon, g2 hon, map_grow_shell, hk]
      · rw [k3 hon, g3 hon, map_add_add, hk]

/-- The walk over the segments adds as many entries of a variable that is
asked for as it reads states. -/
theorem read_states_files_grow (v : Var) (fa : FloatArith) (fuel : Nat) (len : Int) (tr : Bool) :
    ∀ (segs : List (List Nat)) (ffd : Bool) (i : Nat) (a : D3plot) (r : D3plot × Nat),
      Shape a → v.entry a.plan ≠ 0 →
      D3plot.read_states_files fa fuel len tr segs ffd i a = .ok r →
      (v.on_nodes a.ctrl → r.1.db_nodes.map (Node.size v)
        = (a.db_nodes.map (Node.size v)).map (fun n => n + (r.2 - i))) ∧
      (v.on_shells a.ctrl → r.1.db_shells.map (fun e => (e.is_rigid, e.size v))
        = (a.db_shells.map (fun e => (e.is_rigid, e.size v))).map (grow_shell (r.2 - i))) ∧
      (v.on_solids a.ctrl → r.1.db_solids.map (Element.size v)
        = (a.db_solids.map (Element.size v)).map (fun n => n + (r.2 - i))) := by
  intro segs
  induction segs with
  | nil =>
    intro ffd i a r _ _ h
    simp only [D3plot.read_states_files, Except.ok.injEq] at h
    subst h
    simp only [Nat.sub_self]
    exact ⟨fun _ => (map_add_zero _).symm, fun _ => (map_grow_shell_zero _).symm,
      fun _ => (map_add_zero _).symm⟩
  | cons seg rest ih =>
    intro ffd i a r hsh hv h
    rw [D3plot.read_states_files] at h
    cases hh : D3plot.read_states_segment_head ffd a with
    | error e => simp [hh] at h
    | ok a1 =>
      simp only [hh] at h
      cases hl : D3plot.read_states_loop fa len tr fuel i a1 with
      | error e => simp [hl] at h
      | ok r1 =>
        simp only [hl] at h
        obtain ⟨p1, _, _⟩ := read_states_segment_head_preserved ffd a a1 hh
        obtain ⟨e1, _, _⟩ := read_states_segment_head_ok ffd a a1 hh
        obtain ⟨p2, _, _, _, _, le2⟩ := read_states_loop_preserved fa len tr fuel i a1 r1 hl
        have le3 := (read_states_files_preserved fa fuel len tr rest true r1.2 r1.1 r h).2.2.2.2.2
        have hsh1 := Shape.of_preserved p1 hsh
        have hv1 : v.entry a1.plan ≠ 0 := by rw [p1.plan_eq]; exact hv
        obtain ⟨g1, g2, g3⟩ := read_states_loop_grow v fa len tr fuel i a1 r1 hsh1 hv1 hl
        obtain ⟨k1, k2, k3⟩ := ih true r1.2 r1.1 r (Shape.of_preserved p2 hsh1)
          (by rw [p2.plan_eq]; exact hv1) h
        have hc : r1.1.ctrl = a.ctrl := by rw [p2.ctrl_eq, p1.ctrl_eq]
        rw [hc] at k1 k2 k3
        rw [p1.ctrl_eq] at g1 g2 g3
        have hk : (r1.2 - i) + (r.2 - r1.2) = r.2 - i := by omega
        have hn : a1.db_nodes = a.db_nodes := by rw [e1]
        have hs : a1.db_shells = a.db_shells := by rw [e1]
        have ho : a1.db_solids = a.db_solids := by rw [e1]
        rw [hn] at g1
        rw [hs] at g2
        rw [ho] at g3
        refine ⟨fun hon => ?_, fun hon => ?_, fun hon => ?_⟩
        · rw [k1 hon, g1 hon, map_add_add, hk]
        · rw [k2 hon, g2 hon, map_grow_shell, hk]
        · rw [k3 hon, g3 hon, map_add_add, hk]

/-! ## Growth in one call of `read_states` -/

/-- A walk of `read_states` reads as many states as a first walk over the same
file from the same word records timesteps. -/
theorem read_states_run_count (fa : FloatArith) (fuel1 fuel2 : Nat) (a b a1 b1 : D3plot)
    (hc : a.ctrl = b.ctrl) (hz : a.useFemzip = b.useFemzip)
    (hs : a.buffer.states = b.buffer.states)
    (hw : a.useFemzip = true ∨
      a.read_states_rewind.wordPosition = b.read_states_rewind.wordPosition)
    (tb : b.timesteps = [])
    (h1 : D3plot.read_states_run fa fuel1 a = .ok a1)
    (h2 : D3plot.read_states_run fa fuel2 b = .ok b1) :
    ∃ nDel r, D3plot.read_states_files fa fuel1 (D3plot.state_length a.ctrl nDel)
        (decide (a.timesteps.length < 1)) a.buffer.states false 0 a.read_states_rewind = .ok r ∧
      a1 = { r.1 with buffer := r.1.buffer.end_nextState,
                      loaded := D3plot.set_loaded a.plan a.loaded } ∧
      r.2 = b1.timesteps.length := by
  obtain ⟨nDel1, r1, hd1, hf1, e1⟩ := read_states_run_ok fa fuel1 _ a1 h1
  obtain ⟨nDel2, r2, hd2, hf2, e2⟩ := read_states_run_ok fa fuel2 _ b1 h2
  refine ⟨nDel1, r1, hf1, e1, ?_⟩
  rw [hc, hd2] at hd1
  cases hd1
  rw [hc] at hf1
  rw [← hs] at hf2
  obtain ⟨x1, x2, x3, x4, x5, _⟩ := read_states_rewind_fields a
  obtain ⟨y1, y2, y3, y4, y5, _⟩ := read_states_rewind_fields b
  have key := read_states_files_times fa _ _ _ fuel1 fuel2 a.buffer.states false 0 0 _ _ r1 r2
    (by rw [x1, y1, hc]) (by rw [x3, y3, hz]) x5 (by rw [y5, hs])
    (by
      rcases hw with h | h
      · left; rw [x3]; exact h
      · right; right; exact h)
    hf1 hf2
  obtain ⟨_, _, _, t3, _, _⟩ := read_states_files_preserved _ _ _ _ _ _ _ _ _ hf2
  have hl := t3 (by rw [tb]; simp)
  rw [y4, tb] at hl
  simp only [List.length_nil] at hl
  rw [e2]
  simp only
  omega

/-- A call of `read_states` adds to every entity as many entries of a variable
it asks for as a first call on the same file, scanning from the same word,
records timesteps. -/
theorem read_states_grow_gen (v : Var) (fa : FloatArith) (fuel0 fuel : Nat)
    (vars0 vars : List String) (g d a a1 : D3plot)
    (hg : g.timesteps = []) (h0 : D3plot.read_states fa fuel0 vars0 g = .ok d)
    (hc : a.ctrl = g.ctrl) (hz : a.useFemzip = g.useFemzip)
    (hs : a.buffer.states = g.buffer.states)
    (hw : a.useFemzip = true ∨ a.read_states_rewind.wordPosition = g.wordPosition)
    (hsh : Shape a) (h : D3plot.read_states fa fuel vars a = .ok a1)
    (hv : v.entry a1.plan ≠ 0) :
    (v.on_nodes a.ctrl → a1.db_nodes.map (Node.size v)
      = (a.db_nodes.map (Node.size v)).map (fun n => n + d.timesteps.length)) ∧
    (v.on_shells a.ctrl → a1.db_shells.map (fun e => (e.is_rigid, e.size v))
      = (a.db_shells.map (fun e => (e.is_rigid, e.size v))).map
          (grow_shell d.timesteps.length)) ∧
    (v.on_solids a.ctrl → a1.db_solids.map (Element.size v)
      = (a.db_solids.map (Element.size v)).map (fun n => n + d.timesteps.length)) := by
  obtain ⟨_, pa, _⟩ := read_states_frame fa fuel vars a a1 h
  obtain ⟨p1, hp1, hr1⟩ := read_states_ok fa fuel vars a a1 h
  obtain ⟨p0, hp0, hr0⟩ := read_states_ok fa fuel0 vars0 g d h0
  rw [hp1] at pa
  cases pa
  have n1 := read_states_parse_nonneg _ _ _ _ hp1
  rcases hr1 with ⟨he, _, _⟩ | ⟨_, hrun1⟩
  · exact absurd (((plan_is_empty_iff _ n1).1 he).1 v) hv
  rcases hr0 with ⟨_, h0n, _⟩ | ⟨_, hrun0⟩
  · exact absurd hg h0n
  obtain ⟨nDel, r, hf, e1, hcount⟩ := read_states_run_count fa fuel fuel0
    { a with plan := a1.plan } { g with plan := p0 } a1 d hc hz hs
    (by
      rcases hw with hw | hw
      · exact Or.inl hw
      · right
        rw [read_states_rewind_plan a, read_states_rewind_plan g, rewind_position_nil g hg]
        exact hw)
    hg hrun1 hrun0
  obtain ⟨x1, x2, x3, x4, x5, x6, x7, x8⟩ := read_states_rewind_fields { a with plan := a1.plan }
  have hshr : Shape ({ a with plan := a1.plan } : D3plot).read_states_rewind :=
    Shape.of_static a _ x1 (by rw [x6]) (by rw [x7]) (by rw [x8]) hsh
  obtain ⟨k1, k2, k3⟩ := read_states_files_grow v fa fuel _ _ _ false 0 _ r hshr
    (by rw [x2]; exact hv) hf
  rw [x1] at k1 k2 k3
  rw [x6] at k1
  rw [x7] at k2
  rw [x8] at k3
  simp only [Nat.sub_zero, hcount] at k1 k2 k3
  rw [e1]
  exact ⟨k1, k2, k3⟩

/-! ## The timesteps of the first segment -/

theorem getElem?_of_map_eq {α β : Type} (f : α → β) (xs ys : List α) (h : ys.map f = xs.map f)
    (i : Nat) (l : β) (hx : (xs.map f)[i]? = some l) : (ys.map f)[i]? = some l := by
  rw [h]; exact hx

theorem read_states_parse_loop_nodal (c : Control) (l : Loaded) :
    ∀ (vars : List String) (p p1 : ReadPlan),
      (∀ s ∈ vars, ∃ v : Var, Var.classify s = some v ∧ v.is_nodal) →
      D3plot.read_states_parse_loop c l p vars = .ok p1 → p1.elem_part = p.elem_part := by
  intro vars
  induction vars with
  | nil =>
    intro p p1 _ h
    simp only [D3plot.read_states_parse_loop, Except.ok.injEq] at h
    rw [h]
  | cons s rest ih =>
    intro p p1 hall h
    rw [D3plot.read_states_parse_loop] at h
    obtain ⟨v, hv, hn⟩ := hall s (List.mem_cons_self _ _)
    obtain ⟨k1, k2⟩ := read_states_parse_variable_classify c l p s v hv
    by_cases hp : v.present c
    · rw [k1 hp] at h
      simp only at h
      rw [ih _ p1 (fun t ht => hall t (List.mem_cons_of_mem _ ht)) h]
      rcases hn with rfl | rfl | rfl <;> rfl
    · obtain ⟨e, he⟩ := k2 hp
      rw [he] at h
      cases h

theorem read_states_parse_variable_not_nodal (c : Control) (l : Loaded) (p p1 : ReadPlan)
    (s : String) (hs : ∀ v : Var, Var.classify s = some v → ¬ v.is_nodal)
    (h : D3plot.read_states_parse_variable c l p s = .ok p1) : p1.node_part = p.node_part := by
  have c0 : ¬ D3plot.str_contains s "disp" = true := by
    intro hc
    exact hs Var.disp (by unfold Var.classify; rw [if_pos hc]) (Or.inl rfl)
  have c1 : ¬ D3plot.str_contains s "vel" = true := by
    intro hc
    exact hs Var.vel (by unfold Var.classify; rw [if_neg c0, if_pos hc]) (Or.inr (Or.inl rfl))
  have c2 : ¬ D3plot.str_contains s "accel" = true := by
    intro hc
    exact hs Var.accel (by unfold Var.classify; rw [if_neg c0, if_neg c1, if_pos hc])
      (Or.inr (Or.inr rfl))
  unfold D3plot.read_states_parse_variable at h
  rw [if_neg c0, if_neg c1, if_neg c2] at h
  by_cases c3 : D3plot.str_contains s "stress_mises" = true
  · rw [if_pos c3] at h; cases h; rfl
  rw [if_neg c3] at h
  by_cases c4 : D3plot.str_contains s "stress" = true
  · rw [if_pos c4] at h; cases h; rfl
  rw [if_neg c4] at h
  by_cases c5 : D3plot.str_contains s "plastic_strain" = true
  · rw [if_pos c5] at h; cases h; rfl
  rw [if_neg c5] at h
  by_cases c6 : D3plot.str_contains s "strain" = true
  · rw [if_pos c6] at h
    split at h
    · cases h
    · cases h; rfl
  rw [if_neg c6] at h
  by_cases c7 : D3plot.str_contains s "energy" = true
  · rw [if_pos c7] at h
    split at h
    · cases h
    · cases h; rfl
  rw [if_neg c7] at h
  repeat' split at h
  all_goals first
    | (cases h; rfl)
    | cases h

theorem read_states_parse_loop_not_nodal (c : Control) (l : Loaded) :
    ∀ (vars : List String) (p p1 : ReadPlan),
      (∀ s ∈ vars, ∀ v : Var, Var.classify s = some v → ¬ v.is_nodal) →
      D3plot.read_states_parse_loop c l p vars = .ok p1 → p1.node_part = p.node_part := by
  intro vars
  induction vars with
  | nil =>
    intro p p1 _ h
    simp only [D3plot.read_states_parse_loop, Except.ok.injEq] at h
    rw [h]
  | cons s rest ih =>
    intro p p1 hall h
    rw [D3plot.read_states_parse_loop] at h
    cases hs : D3plot.read_states_parse_variable c l p s with
    | error e => simp [hs] at h
    | ok p2 =>
      simp only [hs] at h
      rw [ih _ p1 (fun t ht => hall t (List.mem_cons_of_mem _ ht)) h]
      exact read_states_parse_variable_not_nodal c l p p2 s
        (hall s (List.mem_cons_self _ _)) hs

theorem Element.view_nodal (e : Element) (v : Var) (h : v.is_nodal) : e.view v = [] := by
  rcases h with rfl | rfl | rfl <;> rfl

theorem Node.view_not_nodal (n : Node) (v : Var) (h : ¬ v.is_nodal) : n.view v = [] := by
  cases v with
  | disp => exact absurd (Or.inl rfl) h
  | vel => exact absurd (Or.inr (Or.inl rfl)) h
  | accel => exact absurd (Or.inr (Or.inr rfl)) h
  | energy => rfl
  | plastic_strain => rfl
  | strain => rfl
  | stress => rfl
  | stress_mises => rfl

theorem map_const_of_length {α β : Type} (xs ys : List α) (b : β) (h : xs.length = ys.length) :
    xs.map (fun _ => b) = ys.map (fun _ => b) := by
  rw [List.map_const', List.map_const', h]

/-- A call of `read_states` whose plan asks for no element variable and no
history variable leaves the shells and the solids as they are. -/
theorem read_states_elements_kept (fa : FloatArith) (fuel : Nat) (vars : List String)
    (d d1 : D3plot) (h : D3plot.read_states fa fuel vars d = .ok d1)
    (hp : d1.plan.elem_part = ReadPlan.init.elem_part) :
    d1.db_shells = d.db_shells ∧ d1.db_solids = d.db_solids ∧ d1.db_beams = d.db_beams := by
  obtain ⟨k, _, _, hs, ho, hv, _⟩ := read_states_frame fa fuel vars d d1 h
  obtain ⟨_, _, kb, _, _, _, ks, ko⟩ := k
  simp only [ReadPlan.elem_part, ReadPlan.init, Prod.mk.injEq] at hp
  obtain ⟨e1, e2, e3, e4, e5, e6, e7⟩ := hp
  have hls := congrArg List.length ks
  have hlo := congrArg List.length ko
  simp only [List.length_map] at hls hlo
  have hview : ∀ v : Var, d1.db_shells.map (Element.view v) = d.db_shells.map (Element.view v) ∧
      d1.db_solids.map (Element.view v) = d.db_solids.map (Element.view v) := by
    intro v
    by_cases hn : v.is_nodal
    · have f : Element.view v = fun _ => [] := funext (fun e => Element.view_nodal e v hn)
      rw [f]
      exact ⟨map_const_of_length _ _ _ hls, map_const_of_length _ _ _ hlo⟩
    · have hz : v.entry d1.plan = 0 := by
        cases v with
        | disp => exact absurd (Or.inl rfl) hn
        | vel => exact absurd (Or.inr (Or.inl rfl)) hn
        | accel => exact absurd (Or.inr (Or.inr rfl)) hn
        | energy => exact e1
        | plastic_strain => exact e2
        | strain => exact e3
        | stress => exact e4
        | stress_mises => exact e5
      exact ⟨(hv v hz).shell_views, (hv v hz).2.2⟩
  exact ⟨elements_ext _ _ ks (hs e6) (fun v => (hview v).1),
    elements_ext _ _ ko (ho e7) (fun v => (hview v).2), kb⟩

/-- A call of `read_states` whose plan asks for no node variable leaves the
nodes as they are. -/
theorem read_states_nodes_kept (fa : FloatArith) (fuel : Nat) (vars : List String)
    (d d1 : D3plot) (h : D3plot.read_states fa fuel vars d = .ok d1)
    (hp : d1.plan.node_part = ReadPlan.init.node_part) : d1.db_nodes = d.db_nodes := by
  obtain ⟨k, _, _, _, _, hv, _⟩ := read_states_frame fa fuel vars d d1 h
  obtain ⟨_, _, _, _, _, kn, _, _⟩ := k
  simp only [ReadPlan.node_part, ReadPlan.init, Prod.mk.injEq] at hp
  obtain ⟨e1, e2, e3⟩ := hp
  have hln := congrArg List.length kn
  simp only [List.length_map] at hln
  refine nodes_ext _ _ kn (fun v => ?_)
  by_cases hn : v.is_nodal
  · have hz : v.entry d1.plan = 0 := by
      rcases hn with rfl | rfl | rfl <;> simp only [Var.entry] <;> assumption
    exact (hv v hz).1
  · have f : Node.view v = fun _ => [] := funext (fun n => Node.view_not_nodal n v hn)
    rw [f]
    exact map_const_of_length _ _ _ hln

/-! ## Clearing one variable -/

/-- Clearing one primitive variable empties its vectors, lowers its flag and
keeps the rest of the reader. -/
theorem clear_one (s : String) (v : Var) (d dc : D3plot)
    (hv : Var.classify_clear s = some v) (h : D3plot.clear [s] d = .ok dc) :
    dc.ctrl = d.ctrl ∧ dc.useFemzip = d.useFemzip ∧ dc.buffer = d.buffer ∧
    dc.timesteps = d.timesteps ∧ dc.wordPosition = d.wordPosition ∧
    dc.wordPositionStates = d.wordPositionStates ∧
    dc.db_nodes.map Node.static = d.db_nodes.map Node.static ∧
    dc.db_shells.map Element.static = d.db_shells.map Element.static ∧
    dc.db_solids.map Element.static = d.db_solids.map Element.static ∧
    v.flag dc.loaded = false ∧
    dc.db_nodes.map (Node.view v) = d.db_nodes.map (fun _ => []) ∧
    dc.db_shells.map (Element.view v) = d.db_shells.map (fun _ => []) ∧
    dc.db_solids.map (Element.view v) = d.db_solids.map (fun _ => []) := by
  unfold Var.classify_clear at hv
  unfold D3plot.clear at h
  simp only [List.length_singleton, one_ne_zero, if_false, D3plot.clear_flags] at h
  by_cases c0 : D3plot.str_contains s "disp" = true
  · rw [if_pos c0] at hv h
    cases hv
    simp only [Except.ok.injEq] at h
    subst h
    simp [D3plot.clear_apply, D3plot.ClearFlags.init, D3plot.clear_node, D3plot.clear_element,
      Var.flag, Node.view, Element.view, Node.static, Element.static, Node.clear_disp,
      Node.clear_vel, Node.clear_accel, Element.clear_energy, Element.clear_plastic_strain,
      Element.clear_strain, Element.clear_stress, Element.clear_stress_mises,
      Function.comp_def,
      (funext (fun e => Element.view_nodal e Var.disp (Or.inl rfl)) :
        Element.view Var.disp = fun _ => [])]
  rw [if_neg c0] at hv h
  by_cases c1 : D3plot.str_contains s "vel" = true
  · rw [if_pos c1] at hv h
    cases hv
    simp only [Except.ok.injEq] at h
    subst h
    simp [D3plot.clear_apply, D3plot.ClearFlags.init, D3plot.clear_node, D3plot.clear_element,
      Var.flag, Node.view, Element.view, Node.static, Element.static, Node.clear_disp,
      Node.clear_vel, Node.clear_accel, Element.clear_energy, Element.clear_plastic_strain,
      Element.clear_strain, Element.clear_stress, Element.clear_stress_mises,
      Function.comp_def,
      (funext (fun e => Element.view_nodal e Var.vel (Or.inr (Or.inl rfl))) :
        Element.view Var.vel = fun _ => [])]
  rw [if_neg c1] at hv h
  by_cases c2 : D3plot.str_contains s "accel" = true
  · rw [if_pos c2] at hv h
    cases hv
    simp only [Except.ok.injEq] at h
    subst h
    simp [D3plot.clear_apply, D3plot.ClearFlags.init, D3plot.clear_node, D3plot.clear_element,
      Var.flag, Node.view, Element.view, Node.static, Element.static, Node.clear_disp,
      Node.clear_vel, Node.clear_accel, Element.clear_energy, Element.clear_plastic_strain,
      Element.clear_strain, Element.clear_stress, Element.clear_stress_mises,
      Function.comp_def,
      (funext (fun e => Element.view_nodal e Var.accel (Or.inr (Or.inr rfl))) :
        Element.view Var.accel = fun _ => [])]
  rw [if_neg c2] at hv h
  by_cases c3 : D3plot.str_contains s "energy" = true
  · rw [if_pos c3] at hv h
    cases hv
    simp only [Except.ok.injEq] at h
    subst h
    simp [D3plot.clear_apply, D3plot.ClearFlags.init, D3plot.clear_node, D3plot.clear_element,
      Var.flag, Node.view, Element.view, Node.static, Element.static, Node.clear_disp,
      Node.clear_vel, Node.clear_accel, Element.clear_energy, Element.clear_plastic_strain,
      Element.clear_strain, Element.clear_stress, Element.clear_stress_mises,
      Function.comp_def,
      (funext (fun x => Node.view_not_nodal x Var.energy (by rintro (h | h | h) <;> cases h)) :
        Node.view Var.energy = fun _ => [])]
  rw [if_neg c3] at hv h
  by_cases c4 : D3plot.str_contains s "plastic_strain" = true
  · rw [if_pos c4] at hv h
    cases hv
    simp only [Except.ok.injEq] at h
    subst h
    simp [D3plot.clear_apply, D3plot.ClearFlags.init, D3plot.clear_node, D3plot.clear_element,
      Var.flag, Node.view, Element.view, Node.static, Element.static, Node.clear_disp,
      Node.clear_vel, Node.clear_accel, Element.clear_energy, Element.clear_plastic_strain,
      Element.clear_strain, Element.clear_stress, Element.clear_stress_mises,
      Function.comp_def,
      (funext (fun x => Node.view_not_nodal x Var.plastic_strain (by rintro (h | h | h) <;> cases h)) :
        Node.view Var.plastic_strain = fun _ => [])]
  rw [if_neg c4] at hv h
  by_cases c5 : D3plot.str_contains s "strain" = true
  · rw [if_pos c5] at hv h
    cases hv
    simp only [Except.ok.injEq] at h
    subst h
    simp [D3plot.clear_apply, D3plot.ClearFlags.init, D3plot.clear_node, D3plot.clear_element,
      Var.flag, Node.view, Element.view, Node.static, Element.static, Node.clear_disp,
      Node.clear_vel, Node.clear_accel, Element.clear_energy, Element.clear_plastic_strain,
      Element.clear_strain, Element.clear_stress, Element.clear_stress_mises,
      Function.comp_def,
      (funext (fun x => Node.view_not_nodal x Var.strain (by rintro (h | h | h) <;> cases h)) :
        Node.view Var.strain = fun _ => [])]
  rw [if_neg c5] at hv h
  by_cases c6 : D3plot.str_contains s "stress_mises" = true
  · rw [if_pos c6] at hv h
    cases hv
    simp only [Except.ok.injEq] at h
    subst h
    simp [D3plot.clear_apply, D3plot.ClearFlags.init, D3plot.clear_node, D3plot.clear_element,
      Var.flag, Node.view, Element.view, Node.static, Element.static, Node.clear_disp,
      Node.clear_vel, Node.clear_accel, Element.clear_energy, Element.clear_plastic_strain,
      Element.clear_strain, Element.clear_stress, Element.clear_stress_mises,
      Function.comp_def,
      (funext (fun x => Node.view_not_nodal x Var.stress_mises (by rintro (h | h | h) <;> cases h)) :
        Node.view Var.stress_mises = fun _ => [])]
  rw [if_neg c6] at hv h
  by_cases c7 : D3plot.str_contains s "stress" = true
  · rw [if_pos c7] at hv h
    cases hv
    simp only [Except.ok.injEq] at h
    subst h
    simp [D3plot.clear_apply, D3plot.ClearFlags.init, D3plot.clear_node, D3plot.clear_element,
      Var.flag, Node.view, Element.view, Node.static, Element.static, Node.clear_disp,
      Node.clear_vel, Node.clear_accel, Element.clear_energy, Element.clear_plastic_strain,
      Element.clear_strain, Element.clear_stress, Element.clear_stress_mises,
      Function.comp_def,
      (funext (fun x => Node.view_not_nodal x Var.stress (by rintro (h | h | h) <;> cases h)) :
        Node.view Var.stress = fun _ => [])]
  rw [if_neg c7] at hv h
  cases hv


/-! ## What no pass over the shells changes -/

/-- A function of a shell that no step of the shell loop changes has the same
values on the shells after a state. -/
theorem read_states_state_shells_map {β : Type} (f : Element → β)
    (hf : ∀ fa c p b i ii tmp e r,
      D3plot.read_states_elem4_body fa c p b i ii tmp e = .ok r → f r.1 = f e)
    (fa : FloatArith) (tr : Bool) (i : Nat) (d d1 : D3plot)
    (h : D3plot.read_states_state fa tr i d = .ok d1) :
    d1.db_shells.map f = d.db_shells.map f := by
  obtain ⟨_, _, _, _, _, _, _, hsh, _⟩ := read_states_state_ok fa tr i d d1 h
  rcases hsh with ⟨_, hl⟩ | ⟨_, e⟩
  · unfold D3plot.read_states_elem4_loop at hl
    exact db_loop_map _ _ f (fun ii s x r hb => hf fa _ _ _ _ ii s x r hb) _ _ _ _ hl
  · rw [e]

theorem read_states_loop_shells_map {β : Type} (f : Element → β)
    (hf : ∀ fa c p b i ii tmp e r,
      D3plot.read_states_elem4_body fa c p b i ii tmp e = .ok r → f r.1 = f e)
    (fa : FloatArith) (len : Int) (tr : Bool) :
    ∀ (fuel i : Nat) (d : D3plot) (r : D3plot × Nat),
      D3plot.read_states_loop fa len tr fuel i d = .ok r →
      r.1.db_shells.map f = d.db_shells.map f := by
  intro fuel
  induction fuel with
  | zero => intro i d r h; simp [D3plot.read_states_loop] at h
  | succ fuel ih =>
    intro i d r h
    rw [read_states_loop_succ] at h
    rcases h with ⟨_, rfl⟩ | ⟨_, d1, hs, hl⟩
    · rfl
    · rw [ih (i + 1) _ r hl]
      exact read_states_state_shells_map f hf fa tr i d d1 hs

theorem read_states_files_shells_map {β : Type} (f : Element → β)
    (hf : ∀ fa c p b i ii tmp e r,
      D3plot.read_states_elem4_body fa c p b i ii tmp e = .ok r → f r.1 = f e)
    (fa : FloatArith) (fuel : Nat) (len : Int) (tr : Bool) :
    ∀ (segs : List (List Nat)) (ffd : Bool) (i : Nat) (d : D3plot) (r : D3plot × Nat),
      D3plot.read_states_files fa fuel len tr segs ffd i d = .ok r →
      r.1.db_shells.map f = d.db_shells.map f := by
  intro segs
  induction segs with
  | nil =>
    intro ffd i d r h
    simp only [D3plot.read_states_files, Except.ok.injEq] at h
    subst h
    rfl
  | cons seg rest ih =>
    intro ffd i d r h
    rw [D3plot.read_states_files] at h
    cases hh : D3plot.read_states_segment_head ffd d with
    | error e => simp [hh] at h
    | ok d1 =>
      simp only [hh] at h
      cases hl : D3plot.read_states_loop fa len tr fuel i d1 with
      | error e => simp [hl] at h
      | ok r1 =>
        simp only [hl] at h
        have e1 : d1.db_shells = d.db_shells := by
          rw [(read_states_segment_head_ok ffd d d1 hh).1]
        rw [ih true r1.2 r1.1 r h, read_states_loop_shells_map f hf fa len tr fuel i d1 r1 hl, e1]

/-- A function of a shell that no step of the shell loop changes has the same
values on the shells after a call of `read_states`. -/
theorem read_states_shells_map {β : Type} (f : Element → β)
    (hf : ∀ fa c p b i ii tmp e r,
      D3plot.read_states_elem4_body fa c p b i ii tmp e = .ok r → f r.1 = f e)
    (fa : FloatArith) (fuel : Nat) (vars : List String) (d d1 : D3plot)
    (h : D3plot.read_states fa fuel vars d = .ok d1) :
    d1.db_shells.map f = d.db_shells.map f := by
  obtain ⟨plan, _, hc⟩ := read_states_ok fa fuel vars d d1 h
  rcases hc with ⟨_, _, rfl⟩ | ⟨_, hr⟩
  · rfl
  · obtain ⟨nDel, r, _, hfl, rfl⟩ := read_states_run_ok fa fuel _ d1 hr
    have e := read_states_files_shells_map f hf fa fuel _ _ _ _ _ _ r hfl
    have e2 := (read_states_rewind_fields { d with plan := plan }).2.2.2.2.2.2.1
    rw [e2] at e
    exact e

theorem read_states_calls_shells_map {β : Type} (f : Element → β)
    (hf : ∀ fa c p b i ii tmp e r,
      D3plot.read_states_elem4_body fa c p b i ii tmp e = .ok r → f r.1 = f e)
    (fa : FloatArith) :
    ∀ (calls : List (Nat × List String)) (d d1 : D3plot),
      D3plot.read_states_calls fa calls d = .ok d1 →
      d1.db_shells.map f = d.db_shells.map f := by
  intro calls
  induction calls with
  | nil =>
    intro d d1 h
    simp only [D3plot.read_states_calls, Except.ok.injEq] at h
    subst h
    rfl
  | cons call calls ih =>
    intro d d1 h
    rw [D3plot.read_states_calls] at h
    cases hc : D3plot.read_states fa call.1 call.2 d with
    | error e => simp [hc] at h
    | ok d2 =>
      simp only [hc] at h
      rw [ih d2 d1 h, read_states_shells_map f hf fa call.1 call.2 d d2 hc]

/-- A step of the shell loop keeps a rigid shell as it is and keeps a shell
that is not rigid so. -/
theorem read_states_elem4_body_rigid_part (fa : FloatArith) (c : Control) (p : ReadPlan)
    (b : Buffer) (i : Nat) (ii : Int) (tmp : List F32) (e : Element)
    (r : Element × List F32 × Int)
    (h : D3plot.read_states_elem4_body fa c p b i ii tmp e = .ok r) :
    r.1.rigid_part = e.rigid_part := by
  rcases read_states_elem4_body_ok fa c p b i ii tmp e r h with ⟨_, rfl⟩ | ⟨hr, et, het, rfl⟩
  · rfl
  · have hk : et.1.is_rigid = e.is_rigid :=
      read_states_elem4_element_inv Element.is_rigid fa c p b i ii tmp e et
        (fun _ _ => rfl) (fun _ _ => rfl) (fun _ _ => rfl) (fun _ _ => rfl) (fun _ _ => rfl)
        (fun _ _ _ _ => rfl) het
    simp only [Element.rigid_part, hk, hr]
    simp


/-! ## The records and the rigid flags of the geometry -/

theorem Buffer.read_int_array_length (b : Buffer) :
    ∀ (n : Nat) (ii : Int) (xs : List Int), b.read_int_array ii n = .ok xs → xs.length = n := by
  intro n
  induction n with
  | zero => intro ii xs h; simp only [Buffer.read_int_array, Except.ok.injEq] at h; subst h; rfl
  | succ n ih =>
    intro ii xs h
    rw [Buffer.read_int_array] at h
    split at h
    · cases h
    · split at h
      · cases h
      · rename_i ys hy
        simp only [Except.ok.injEq] at h
        subst h
        simp [ih _ _ hy]

/-- What the filling loop wrote at index `i`, when the loop came that far. -/
theorem fill_loop_get {α : Type} (body : Int → Except Err α) (hi step : Int) :
    ∀ (xs : List α) (ii : Int) (ys : List α),
      fill_loop body hi step ii xs = .ok ys →
      ∀ (i : Nat) (y : α), ys[i]? = some y → ii + step * i < hi → 0 ≤ step →
        body (ii + step * i) = .ok y := by
  intro xs
  induction xs with
  | nil =>
    intro ii ys h i y hy _ _
    rw [fill_loop] at h
    split at h
    · cases h
    · cases h; simp at hy
  | cons x rest ih =>
    intro ii ys h i y hy hlt hst
    rw [fill_loop] at h
    split at h
    · split at h
      · cases h
      · rename_i y0 hy0
        split at h
        · cases h
        · rename_i ys1 hys1
          simp only [Except.ok.injEq] at h
          subst h
          cases i with
          | zero =>
            simp only [List.getElem?_cons_zero, Option.some.injEq] at hy
            subst hy
            simpa using hy0
          | succ i =>
            simp only [List.getElem?_cons_succ] at hy
            have := ih (ii + step) ys1 hys1 i y hy
              (by push_cast at hlt; linarith) hst
            rw [← this]
            congr 1
            push_cast
            ring
    · rename_i hge
      exfalso
      have : 0 ≤ step * (i : Int) := mul_nonneg hst (Int.ofNat_nonneg i)
      omega

/-- The lookup of the shell loop is the unchecked access to the table. -/
theorem irbtyp_entry_used (c : Control) (i : Int) :
    D3plot.irbtyp_entry true c i = D3plot.vec_at c.dyna_irbtyp i := by
  unfold D3plot.irbtyp_entry
  cases D3plot.vec_at c.dyna_irbtyp i <;> rfl

/-- The lookup of the beam loop and of the solid loop never fails. -/
theorem irbtyp_entry_unused (c : Control) (i : Int) :
    ∃ m, D3plot.irbtyp_entry false c i = .ok m := by
  unfold D3plot.irbtyp_entry
  cases D3plot.vec_at c.dyna_irbtyp i with
  | error e => exact ⟨0, rfl⟩
  | ok m => exact ⟨m, rfl⟩

/-- The flags `add_elements` sets: an element is flagged rigid exactly when the
family is flagged at all, `mattyp = 1`, and the entry of `irbtyp` its record
points to is 20; the record is stored with the element. -/
theorem add_elements_flags (t : ElementType) (off : Int) (rigid : Bool) (c : Control) :
    ∀ (rs : List (List Int)) (ids : List Int) (es : List Element),
      D3plot.add_elements t off rigid c ids rs = .ok es →
      List.Forall₂ (fun r e => e.record = r ∧
        (e.is_rigid = true ↔ rigid = true ∧ c.dyna_mattyp = 1 ∧
          D3plot.vec_at c.dyna_irbtyp (r.getLastD 0 + off) = .ok 20)) rs es := by
  intro rs
  induction rs with
  | nil =>
    intro ids es h
    cases ids <;> simp only [D3plot.add_elements, Except.ok.injEq] at h <;> subst h <;>
      exact List.Forall₂.nil
  | cons r rest ih =>
    intro ids es h
    cases ids with
    | nil => simp [D3plot.add_elements] at h
    | cons id ids =>
      rw [D3plot.add_elements] at h
      split at h
      · cases h
      · rename_i m hm
        split at h
        · cases h
        · rename_i es1 h1
          simp only [Except.ok.injEq] at h
          subst h
          refine List.Forall₂.cons ?_ (ih _ _ h1)
          by_cases hmt : c.dyna_mattyp = 1
          · rw [if_pos hmt] at hm
            by_cases hg : rigid = true ∧ c.dyna_mattyp = 1 ∧ m = 20
            · rw [if_pos hg]
              refine ⟨rfl, ?_⟩
              simp only [Element.set_is_rigid, true_iff]
              rw [hg.1, irbtyp_entry_used] at hm
              exact ⟨hg.1, hmt, by rw [hm, hg.2.2]⟩
            · rw [if_neg hg]
              refine ⟨rfl, ?_⟩
              simp only [add_element_byD3plot, Bool.false_eq_true, false_iff]
              intro hc
              apply hg
              refine ⟨hc.1, hmt, ?_⟩
              have := hc.2.2
              rw [hc.1, irbtyp_entry_used] at hm
              rw [hm] at this
              cases this
              rfl
          · have hg : ¬ (rigid = true ∧ c.dyna_mattyp = 1 ∧ m = 20) := fun hc => hmt hc.2.1
            rw [if_neg hg]
            refine ⟨rfl, ?_⟩
            simp only [add_element_byD3plot, Bool.false_eq_true, false_iff]
            exact fun hc => hmt hc.2.1

/-- The records `read_geometry_elem4` hands over: record `i` holds the five
words of the file from `wordPosition + 5 * i` on. -/
theorem read_geometry_elem4_records (d : D3plot) (r : List (List Int) × D3plot)
    (h : d.read_geometry_elem4 = .ok r) :
    ∀ (i : Nat) (x : List Int), r.1[i]? = some x →
      d.buffer.read_int_array (d.wordPosition + 5 * i) 5 = .ok x := by
  unfold D3plot.read_geometry_elem4 at h
  split at h
  · cases h
    intro i x hx
    simp at hx
  · simp only [Except.bind_eq_ok, pure, Except.pure, Except.ok.injEq] at h
    obtain ⟨xs, hx, ys, hy, h⟩ := h
    subst h
    obtain ⟨a1, a2⟩ := alloc_ok _ _ _ hx
    have hl := fill_loop_length _ _ _ _ _ _ hy
    intro i x hi
    have hlt : i < ys.length := by
      rcases Nat.lt_or_ge i ys.length with h1 | h1
      · exact h1
      · rw [List.getElem?_eq_none h1] at hi; cases hi
    rw [hl, a2] at hlt
    exact fill_loop_get _ _ _ _ _ _ hy i x hi (by omega) (by decide)

/-- The elements `read_geometry` adds to the databases, with the records of the
shells. -/
theorem read_geometry_elements (d d1 : D3plot) (h : d.read_geometry = .ok d1) :
    ∃ (rs2 rs4 rs8 : List (List Int)) (ids2 ids4 ids8 : List Int)
      (beams shells solids : List Element) (pos : Int),
      d1.db_beams = d.db_beams ++ beams ∧ d1.db_shells = d.db_shells ++ shells ∧
      d1.db_solids = d.db_solids ++ solids ∧
      d1.ctrl.dyna_mattyp = d.ctrl.dyna_mattyp ∧ d1.ctrl.dyna_irbtyp = d.ctrl.dyna_irbtyp ∧
      D3plot.add_elements ElementType.BEAM 0 false d1.ctrl ids2 rs2 = .ok beams ∧
      D3plot.add_elements ElementType.SHELL (-1) true d1.ctrl ids4 rs4 = .ok shells ∧
      D3plot.add_elements ElementType.SOLID 0 false d1.ctrl ids8 rs8 = .ok solids ∧
      (∀ (i : Nat) (x : List Int), rs4[i]? = some x →
        d.buffer.read_int_array (pos + 5 * i) 5 = .ok x) := by
  unfold D3plot.read_geometry at h
  simp only [Except.bind_eq_ok, throw_if_eq_ok, pure, Except.pure, Except.ok.injEq] at h
  obtain ⟨r1, h1, r2, h2, r3, h3, r4, h4, r5, h5, fin, hfin, _, hfin2, h⟩ := h
  obtain ⟨a, hpa, f2, hf2, _, hf3, n0, hn0, _, hlen, n2, hn2, beams, hbe, n3, hn3, shells, hsh,
    _, hcnt, n1, hn1, solids, hso, h⟩ := h
  subst h
  obtain ⟨e1, k1, k2⟩ := read_geometry_nodes_ok d r1 h1
  obtain ⟨e2, k3, k4⟩ := read_geometry_elem8_ok r1.2 r2 h2
  have e3 : r3.2 = { r2.2 with wordPosition := r3.2.wordPosition } := by
    have := read_geometry_elem2_ok _ r3 h3
    split at this <;> exact this
  obtain ⟨e4, k5, k6⟩ := read_geometry_elem4_ok r3.2 r4 h4
  have e5 := read_geometry_numbering_ok r4.2 r5 h5
  have e6 : r5.2 = { d with wordPosition := r5.2.wordPosition } := by
    rw [e5, e4, e3, e2, e1]
  have ep := read_geometry_parts_ok _ a hpa
  have b3 : r3.2.buffer = d.buffer := by rw [e3, e2, e1]
  have hrec := read_geometry_elem4_records r3.2 r4 h4
  rw [b3] at hrec
  have ha : a.db_beams = d.db_beams ∧ a.db_shells = d.db_shells ∧
      a.db_solids = d.db_solids ∧ a.ctrl = { d.ctrl with dyna_numprop := a.ctrl.dyna_numprop } := by
    rw [ep]
    cases hzz : r5.2.useFemzip with
    | false =>
      simp only [Bool.false_eq_true, if_false]
      rw [e6]
      exact ⟨rfl, rfl, rfl, rfl⟩
    | true =>
      simp only [if_true]
      rw [e6]
      exact ⟨rfl, rfl, rfl, rfl⟩
  obtain ⟨a2, a3, a4, a5⟩ := ha
  refine ⟨r3.1, r4.1, r2.1, n2, n3, n1, beams, shells, solids, r3.2.wordPosition, ?_, ?_, ?_, ?_,
    ?_, hbe, hsh, hso, hrec⟩
  · simp only [a2]
  · simp only [a3]
  · simp only [a4]
  · show a.ctrl.dyna_mattyp = d.ctrl.dyna_mattyp
    rw [a5]
  · show a.ctrl.dyna_irbtyp = d.ctrl.dyna_irbtyp
    rw [a5]


theorem forall₂_getElem? {α β : Type} (R : α → β → Prop) :
    ∀ (xs : List α) (ys : List β), List.Forall₂ R xs ys →
      ∀ (i : Nat) (y : β), ys[i]? = some y → ∃ x, xs[i]? = some x ∧ R x y := by
  intro xs ys h
  induction h with
  | nil => intro i y hy; simp at hy
  | cons hxy _ ih =>
    intro i y hy
    cases i with
    | zero =>
      simp only [List.getElem?_cons_zero, Option.some.injEq] at hy
      subst hy
      exact ⟨_, by simp, hxy⟩
    | succ i =>
      simp only [List.getElem?_cons_succ] at hy
      obtain ⟨x, hx, hr⟩ := ih i y hy
      exact ⟨x, by simpa using hx, hr⟩

theorem forall₂_of_mem {α β : Type} (R : α → β → Prop) (xs : List α) (ys : List β)
    (h : List.Forall₂ R xs ys) : ∀ y ∈ ys, ∃ x ∈ xs, R x y := by
  intro y hy
  obtain ⟨i, hi⟩ := List.mem_iff_getElem?.mp hy
  obtain ⟨x, hx, hr⟩ := forall₂_getElem? R xs ys h i y hi
  exact ⟨x, List.mem_iff_getElem?.mpr ⟨i, hx⟩, hr⟩

/-- The last entry of a record of five words is its fifth word. -/
theorem getLastD_of_length_five (r : List Int) (h : r.length = 5) :
    ∃ mat, r[4]? = some mat ∧ r.getLastD 0 = mat := by
  match r, h with
  | [a, b, c, d, m], _ => exact ⟨m, rfl, rfl⟩


/-! ## Where the record of a shell is decoded -/

/-- An entity the loop reaches is handled at the word the entities before it
have advanced the loop to. -/
theorem db_loop_at {α σ : Type} (body : Int → σ → α → Except Err (α × σ × Int)) (hi : Int)
    (adv : α → Int) (hadv : ∀ x, 0 ≤ adv x)
    (hstep : ∀ ii s x r, body ii s x = .ok r → r.2.2 = ii + adv x) :
    ∀ (pre : List α) (e : α) (es : List α) (ii : Int) (s : σ) (ys : List α),
      db_loop body hi ii s (pre ++ e :: es) = .ok ys →
      ii + (pre.map adv).sum < hi →
      ∃ s1 r, body (ii + (pre.map adv).sum) s1 e = .ok r ∧ ys[pre.length]? = some r.1 := by
  intro pre
  induction pre with
  | nil =>
    intro e es ii s ys h hlt
    simp only [List.nil_append] at h
    simp only [List.map_nil, List.sum_nil, add_zero] at hlt ⊢
    rw [db_loop_cons_ok] at h
    rcases h with ⟨_, r, zs, hb, _, rfl⟩ | ⟨hge, _⟩
    · exact ⟨s, r, hb, by simp⟩
    · exact absurd hlt hge
  | cons x pre ih =>
    intro e es ii s ys h hlt
    simp only [List.cons_append] at h
    simp only [List.map_cons, List.sum_cons] at hlt ⊢
    have hnn : 0 ≤ (pre.map adv).sum := List.sum_nonneg (by
      intro y hy
      obtain ⟨z, _, rfl⟩ := List.mem_map.mp hy
      exact hadv z)
    have hx := hadv x
    rw [db_loop_cons_ok] at h
    rcases h with ⟨_, r, zs, hb, hl, rfl⟩ | ⟨hge, _⟩
    · have hs := hstep _ _ _ _ hb
      obtain ⟨s1, r1, hb1, hy⟩ := ih e es r.2.2 r.2.1 zs hl (by rw [hs]; linarith)
      refine ⟨s1, r1, ?_, by simpa using hy⟩
      rw [← hb1, hs]
      congr 1
      ring
    · exact absurd (by linarith) hge

theorem countP_not_rigid_add (xs : List Element) :
    xs.countP (fun e => !e.is_rigid) + xs.countP Element.get_is_rigid = xs.length := by
  induction xs with
  | nil => rfl
  | cons x xs ih =>
    simp only [List.countP_cons, List.length_cons, Element.get_is_rigid]
    by_cases hx : x.is_rigid = true
    · simp only [hx, Bool.not_true, Bool.false_eq_true, if_false, if_true]
      omega
    · have hx2 : x.is_rigid = false := by simpa using hx
      simp only [hx2, Bool.not_false, Bool.false_eq_true, if_false, if_true]
      omega

theorem sum_map_not_rigid (nv2d : Int) (xs : List Element) :
    (xs.map (fun e : Element => if e.is_rigid = true then (0 : Int) else nv2d)).sum
      = nv2d * ((xs.countP (fun e => !e.is_rigid) : Nat) : Int) := by
  rw [sum_map_rigid]
  have := countP_not_rigid_add xs
  congr 1
  omega

theorem countP_take_lt {α : Type} (p : α → Bool) (xs : List α) (j : Nat) (e : α)
    (hj : xs[j]? = some e) (hp : p e = true) : (xs.take j).countP p < xs.countP p := by
  have hlt : j < xs.length := by
    rcases Nat.lt_or_ge j xs.length with h1 | h1
    · exact h1
    · rw [List.getElem?_eq_none h1] at hj; cases hj
  have he : xs[j] = e := by
    rw [List.getElem?_eq_getElem hlt] at hj
    exact Option.some.inj hj
  have hsplit : xs = xs.take j ++ e :: xs.drop (j + 1) := by
    rw [← he]
    simp
  have hc : xs.countP p = (xs.take j).countP p + (e :: xs.drop (j + 1)).countP p := by
    conv_lhs => rw [hsplit]
    rw [List.countP_append]
  rw [hc, List.countP_cons, if_pos hp]
  omega

/-- In a pass of `read_states_elem4` over a database that fits the header,
every shell that is not rigid is decoded at the start of its record: the body
of the loop runs on shell `j` at the word `shell_record_start`, and what it
returns is shell `j` afterwards. -/
theorem read_states_elem4_at (fa : FloatArith) (iState : Nat) (d d4 : D3plot)
    (h : d.read_states_elem4 fa iState = .ok d4) (hsh : Shape d) (hnv : 0 < d.ctrl.dyna_nv2d)
    (j : Nat) (e : Element) (hj : d.db_shells[j]? = some e) (hr : e.is_rigid = false) :
    ∃ tmp et,
      D3plot.read_states_elem4_element fa d.ctrl d.plan d.buffer iState
        (shell_record_start d.ctrl d.wordPosition d.db_shells j) tmp e = .ok et ∧
      d4.db_shells[j]? = some et.1 := by
  obtain ⟨_, ph⟩ := read_states_elem4_ok fa iState d d4 h
  obtain ⟨_, _, _, s4, s5, s6, _, _⟩ := hsh
  rcases ph with ⟨_, hl⟩ | ⟨hn, _⟩
  · have hlt : j < d.db_shells.length := by
      rcases Nat.lt_or_ge j d.db_shells.length with h1 | h1
      · exact h1
      · rw [List.getElem?_eq_none h1] at hj; cases hj
    have he : d.db_shells[j] = e := by
      rw [List.getElem?_eq_getElem hlt] at hj
      exact Option.some.inj hj
    have hsplit : d.db_shells = d.db_shells.take j ++ e :: d.db_shells.drop (j + 1) := by
      rw [← he]
      simp
    have hcount := countP_take_lt (fun x : Element => !x.is_rigid) d.db_shells j e hj
      (by simp [hr])
    have htot := countP_not_rigid_add d.db_shells
    have hlen : (d.db_shells.take j).length = j := by
      rw [List.length_take]
      omega
    unfold D3plot.read_states_elem4_loop at hl
    rw [hsplit] at hl
    have hbound : D3plot.elem4_start d.ctrl d.wordPosition
        + ((d.db_shells.take j).map
            (fun x : Element => if x.is_rigid = true then (0 : Int) else d.ctrl.dyna_nv2d)).sum
        < D3plot.elem4_start d.ctrl d.wordPosition
          + d.ctrl.dyna_nv2d * (d.ctrl.dyna_nel4 - d.ctrl.dyna_numrbe) := by
      rw [sum_map_not_rigid]
      have h1 : ((List.countP (fun x : Element => !x.is_rigid) (d.db_shells.take j) : Nat) : Int)
          < d.ctrl.dyna_nel4 - d.ctrl.dyna_numrbe := by
        have h2 : (d.db_shells.length : Int) = d.ctrl.dyna_nel4 := by
          rw [s5]
          exact Int.toNat_of_nonneg s4
        omega
      nlinarith
    obtain ⟨tmp, r, hb, hy⟩ := db_loop_at _ _
      (fun x : Element => if x.is_rigid = true then (0 : Int) else d.ctrl.dyna_nv2d)
      (fun x => by
        show 0 ≤ (if x.is_rigid = true then (0 : Int) else d.ctrl.dyna_nv2d)
        split <;> omega)
      (fun ii s x r hb => by
        rcases read_states_elem4_body_ok _ _ _ _ _ _ _ _ _ hb with ⟨h0, rfl⟩ | ⟨h0, et, _, rfl⟩
        · simp [h0]
        · simp [h0])
      _ _ _ _ _ _ hl hbound
    rw [hlen] at hy
    rw [sum_map_not_rigid] at hb
    rcases read_states_elem4_body_ok _ _ _ _ _ _ _ _ _ hb with ⟨h0, _⟩ | ⟨_, et, het, rfl⟩
    · rw [hr] at h0; cases h0
    · exact ⟨tmp, et, het, hy⟩
  · exact absurd (fun hc => by omega) hn


/-! ## What one pass of the shell body appends, field by field -/

/-- The streams of a shell after the body of the loop of `read_states_elem4`:
every stream is the one before, followed by at most one value. -/
theorem read_states_elem4_element_fields (fa : FloatArith) (c : Control) (p : ReadPlan)
    (b : Buffer) (iState : Nat) (ii : Int) (tmp : List F32) (e : Element)
    (r : Element × List F32)
    (h : D3plot.read_states_elem4_element fa c p b iState ii tmp e = .ok r) :
    ∃ lv : D3plot.LayerVars,
      D3plot.elem4_layers fa c p b ii c.dyna_maxint.toNat 0
        { plastic_strain := D3plot.zero_f, tmp_vec_stress := tmp, stress_mises := D3plot.zero_f,
          history_vars := List.replicate p.history_shell_read.length D3plot.zero_f } = .ok lv ∧
      r.1.plastic_strain = e.plastic_strain
        ++ (if c.dyna_istrn ≠ 0 ∧ p.plastic_strain_read ≠ 0 then [lv.plastic_strain] else []) ∧
      r.1.stress = e.stress ++ (if p.stress_read ≠ 0 then [lv.tmp_vec_stress] else []) ∧
      r.1.stress_mises = e.stress_mises
        ++ (if p.stress_mises_read ≠ 0 then [lv.stress_mises] else []) ∧
      r.1.history_vars = e.history_vars
        ++ (if p.history_shell_read.length ≠ 0 then [lv.history_vars] else []) ∧
      (((c.dyna_istrn = 1 ∧ p.strain_read ≠ 0) ∧
          ∃ s, D3plot.elem4_strain fa c p b ii = .ok s ∧ r.1.strain = e.strain ++ [s])
        ∨ (¬ (c.dyna_istrn = 1 ∧ p.strain_read ≠ 0) ∧ r.1.strain = e.strain)) ∧
      (((p.energy_read ≠ 0 ∧ c.dyna_ioshl4 ≠ 0 ∧ (c.dyna_istrn = 1 → c.dyna_nv2d ≥ 45)) ∧
          ∃ x, b.read_float (ii + c.dyna_nv2d - 1) = .ok x ∧ r.1.energy = e.energy ++ [x])
        ∨ (¬ (p.energy_read ≠ 0 ∧ c.dyna_ioshl4 ≠ 0 ∧ (c.dyna_istrn = 1 → c.dyna_nv2d ≥ 45)) ∧
            r.1.energy = e.energy)) := by
  obtain ⟨lv, eS, hlv, _, hS, hE⟩ := read_states_elem4_element_ok _ _ _ _ _ _ _ _ _ h
  refine ⟨lv, hlv, ?_⟩
  have key : ∀ eL : Element,
      eL = ((fun el : Element =>
                if p.history_shell_read.length ≠ 0 then el.add_history_vars lv.history_vars iState
                else el)
              ((fun el : Element =>
                  if p.stress_mises_read ≠ 0 then el.add_stress_mises lv.stress_mises else el)
                ((fun el : Element =>
                    if p.stress_read ≠ 0 then el.add_stress lv.tmp_vec_stress else el)
                  (if c.dyna_istrn ≠ 0 ∧ p.plastic_strain_read ≠ 0
                   then e.add_plastic_strain lv.plastic_strain else e)))) →
      eL.plastic_strain = e.plastic_strain
        ++ (if c.dyna_istrn ≠ 0 ∧ p.plastic_strain_read ≠ 0 then [lv.plastic_strain] else []) ∧
      eL.stress = e.stress ++ (if p.stress_read ≠ 0 then [lv.tmp_vec_stress] else []) ∧
      eL.stress_mises = e.stress_mises
        ++ (if p.stress_mises_read ≠ 0 then [lv.stress_mises] else []) ∧
      eL.history_vars = e.history_vars
        ++ (if p.history_shell_read.length ≠ 0 then [lv.history_vars] else []) ∧
      eL.strain = e.strain ∧ eL.energy = e.energy := by
    intro eL hL
    subst hL
    beta_reduce
    by_cases h1 : c.dyna_istrn ≠ 0 ∧ p.plastic_strain_read ≠ 0 <;>
    by_cases h2 : p.stress_read ≠ 0 <;>
    by_cases h3 : p.stress_mises_read ≠ 0 <;>
    by_cases h4 : p.history_shell_read.length ≠ 0 <;>
    (first | simp only [if_pos h1] | simp only [if_neg h1]) <;>
    (first | simp only [if_pos h2] | simp only [if_neg h2]) <;>
    (first | simp only [if_pos h3] | simp only [if_neg h3]) <;>
    (first | simp only [if_pos h4] | simp only [if_neg h4]) <;>
    simp only [Element.add_history_vars, Element.add_stress_mises, Element.add_stress,
      Element.add_plastic_strain, List.append_nil, and_self]
  have hSS : (eS.plastic_strain = e.plastic_strain
        ++ (if c.dyna_istrn ≠ 0 ∧ p.plastic_strain_read ≠ 0 then [lv.plastic_strain] else []) ∧
      eS.stress = e.stress ++ (if p.stress_read ≠ 0 then [lv.tmp_vec_stress] else []) ∧
      eS.stress_mises = e.stress_mises
        ++ (if p.stress_mises_read ≠ 0 then [lv.stress_mises] else []) ∧
      eS.history_vars = e.history_vars
        ++ (if p.history_shell_read.length ≠ 0 then [lv.history_vars] else []) ∧
      eS.energy = e.energy) ∧
      (((c.dyna_istrn = 1 ∧ p.strain_read ≠ 0) ∧
          ∃ s, D3plot.elem4_strain fa c p b ii = .ok s ∧ eS.strain = e.strain ++ [s])
        ∨ (¬ (c.dyna_istrn = 1 ∧ p.strain_read ≠ 0) ∧ eS.strain = e.strain)) := by
    rcases hS with ⟨hg, s, hs, hq⟩ | ⟨hg, hq⟩
    · obtain ⟨k1, k2, k3, k4, k5, k6⟩ := key _ rfl
      rw [hq]
      refine ⟨⟨k1, k2, k3, k4, k6⟩, Or.inl ⟨hg, s, hs, ?_⟩⟩
      exact congrArg (fun l => l ++ [s]) k5
    · obtain ⟨k1, k2, k3, k4, k5, k6⟩ := key _ rfl
      rw [hq]
      exact ⟨⟨k1, k2, k3, k4, k6⟩, Or.inr ⟨hg, k5⟩⟩
  obtain ⟨⟨g1, g2, g3, g4, g5⟩, hstrain⟩ := hSS
  rcases hE with ⟨hg, x, hx, hq⟩ | ⟨hg, hq⟩
  · rw [hq]
    refine ⟨g1, g2, g3, g4, hstrain, Or.inl ⟨hg, x, hx, ?_⟩⟩
    exact congrArg (fun l => l ++ [x]) g5
  · rw [hq]
    exact ⟨g1, g2, g3, g4, hstrain, Or.inr ⟨hg, g5⟩⟩


/-! ## The stress of a shell over its layers -/

/-- The history loop of a solid reads one word per requested index within the
limit `neiph`, in the order of the request. -/
theorem elem8_history_ok (c : Control) (b : Buffer) (ii : Int) :
    ∀ (idxs : List Int) (hv : List F32), D3plot.elem8_history c b ii idxs = .ok hv →
      List.Forall₂ (fun k x => b.read_float (ii + 6 + k) = .ok x)
        (idxs.filter (fun k => decide (k ≤ c.dyna_neiph))) hv := by
  intro idxs
  induction idxs with
  | nil =>
    intro hv h
    simp only [D3plot.elem8_history, Except.ok.injEq] at h
    subst h
    exact List.Forall₂.nil
  | cons k ks ih =>
    intro hv h
    rw [D3plot.elem8_history] at h
    by_cases hk : k > c.dyna_neiph
    · rw [if_pos hk] at h
      have hd : decide (k ≤ c.dyna_neiph) = false := by simp; omega
      have hfl : (k :: ks).filter (fun k => decide (k ≤ c.dyna_neiph))
          = ks.filter (fun k => decide (k ≤ c.dyna_neiph)) := by
        simp only [List.filter_cons, hd, Bool.false_eq_true, if_false]
      rw [hfl]
      exact ih hv h
    · rw [if_neg hk] at h
      have hd : decide (k ≤ c.dyna_neiph) = true := by simp; omega
      have hfl : (k :: ks).filter (fun k => decide (k ≤ c.dyna_neiph))
          = k :: ks.filter (fun k => decide (k ≤ c.dyna_neiph)) := by
        simp only [List.filter_cons, hd, if_true]
      rw [hfl]
      split at h
      · cases h
      · rename_i x hx
        split at h
        · cases h
        · rename_i xs hxs
          simp only [Except.ok.injEq] at h
          subst h
          exact List.Forall₂.cons hx (ih xs hxs)

/-- The history loop of a layer of a shell keeps the length of `history_vars`
and the entry of every index above the limit `neips`. -/
theorem elem4_layer_history_ok (fa : FloatArith) (c : Control) (b : Buffer)
    (iLayer layerStart : Int) :
    ∀ (idxs modes : List Int) (vs vs1 : List F32),
      D3plot.elem4_layer_history fa c b iLayer layerStart idxs modes vs = .ok vs1 →
      vs1.length = vs.length ∧
      ∀ (n : Nat) (k : Int), idxs[n]? = some k → k > c.dyna_neips → vs1[n]? = vs[n]? := by
  intro idxs
  induction idxs with
  | nil =>
    intro modes vs vs1 h
    simp only [D3plot.elem4_layer_history, Except.ok.injEq] at h
    subst h
    exact ⟨rfl, fun n k hn _ => by simp at hn⟩
  | cons idx idxs ih =>
    intro modes vs vs1 h
    cases modes with
    | nil => simp [D3plot.elem4_layer_history] at h
    | cons mode modes =>
      cases vs with
      | nil => simp [D3plot.elem4_layer_history] at h
      | cons v vs =>
        rw [D3plot.elem4_layer_history] at h
        split at h
        · cases h
        · rename_i v1 hv1
          split at h
          · cases h
          · rename_i vs2 hvs2
            simp only [Except.ok.injEq] at h
            subst h
            obtain ⟨l1, l2⟩ := ih modes vs vs2 hvs2
            refine ⟨by simp [l1], ?_⟩
            intro n k hn hk
            cases n with
            | zero =>
              simp only [List.getElem?_cons_zero, Option.some.injEq] at hn
              subst hn
              unfold D3plot.elem4_layer_history_entry at hv1
              rw [if_pos hk] at hv1
              cases hv1
              simp
            | succ n =>
              simp only [List.getElem?_cons_succ] at hn ⊢
              exact l2 n k hn hk

/-- The layer loop of a shell keeps the length of `history_vars` and the entry
of every index above the limit `neips`. -/
theorem elem4_layers_history_ok (fa : FloatArith) (c : Control) (p : ReadPlan) (b : Buffer)
    (ii : Int) :
    ∀ (m : Nat) (iLayer : Int) (lv lv1 : D3plot.LayerVars),
      D3plot.elem4_layers fa c p b ii m iLayer lv = .ok lv1 →
      lv1.history_vars.length = lv.history_vars.length ∧
      ∀ (n : Nat) (k : Int), p.history_shell_read[n]? = some k → k > c.dyna_neips →
        lv1.history_vars[n]? = lv.history_vars[n]? := by
  intro m
  induction m with
  | zero =>
    intro iLayer lv lv1 h
    simp only [D3plot.elem4_layers, Except.ok.injEq] at h
    subst h
    exact ⟨rfl, fun _ _ _ _ => rfl⟩
  | succ m ih =>
    intro iLayer lv lv1 h
    rw [D3plot.elem4_layers] at h
    split at h
    · cases h
    · rename_i lvm hm
      obtain ⟨_, _, a3⟩ := elem4_layer_ok _ _ _ _ _ _ _ _ hm
      obtain ⟨l1, l2⟩ := elem4_layer_history_ok _ _ _ _ _ _ _ _ _ a3
      obtain ⟨l3, l4⟩ := ih (iLayer + 1) lvm lv1 h
      exact ⟨by rw [l3, l1], fun n k hn hk => by rw [l4 n k hn hk, l2 n k hn hk]⟩


/-! ## Substrings and the failures of the parser -/

theorem has_infix_iff (needle : List Char) :
    ∀ s : List Char, D3plot.has_infix needle s = true ↔ needle <:+: s := by
  intro s
  induction s with
  | nil =>
    simp only [ D3plot.has_infix, List.infix_nil, List.isEmpty_iff]
  | cons c cs ih =>
    rw [ D3plot.has_infix, Bool.or_eq_true, ih, List.infix_cons_iff, List.isPrefixOf_iff_prefix]

/-- A string that contains a string contains every substring of it. -/
theorem str_contains_mono (s a b : String) (hab : a.data <:+: b.data)
    (h : D3plot.str_contains s b = true) : D3plot.str_contains s a = true := by
  unfold D3plot.str_contains at h ⊢
  rw [has_infix_iff] at h ⊢
  exact hab.trans h

theorem not_str_contains_mono (s a b : String) (hab : a.data <:+: b.data)
    (h : ¬ D3plot.str_contains s a = true) : ¬ D3plot.str_contains s b = true :=
  fun hb => h (str_contains_mono s a b hab hb)

theorem stress_infix_stress_mises : ("stress" : String).data <:+: ("stress_mises" : String).data :=
  ⟨[], ['_', 'm', 'i', 's', 'e', 's'], rfl⟩

theorem strain_infix_plastic_strain :
    ("strain" : String).data <:+: ("plastic_strain" : String).data :=
  ⟨['p', 'l', 'a', 's', 't', 'i', 'c', '_'], [], rfl⟩

/-- A request string that the parser refuses whatever the plan holds makes the
loop over the request strings fail. -/
theorem read_states_parse_loop_error (c : Control) (l : Loaded) (s : String)
    (hs : ∀ p, ∃ e, D3plot.read_states_parse_variable c l p s = .error e) :
    ∀ (vars : List String) (p : ReadPlan), s ∈ vars →
      ∃ e, D3plot.read_states_parse_loop c l p vars = .error e := by
  intro vars
  induction vars with
  | nil => intro p h; cases h
  | cons v vs ih =>
    intro p h
    rw [D3plot.read_states_parse_loop]
    cases hv : D3plot.read_states_parse_variable c l p v with
    | error e => exact ⟨e, rfl⟩
    | ok p1 =>
      simp only
      rcases List.mem_cons.mp h with rfl | h
      · obtain ⟨e, he⟩ := hs p
        rw [he] at hv
        cases hv
      · exact ih p1 h

/-- A failure of the parser on a list that is not empty is the failure of
`read_states`. -/
theorem read_states_error_of_parse (fa : FloatArith) (fuel : Nat) (vars : List String)
    (d : D3plot) (e : Err) (hne : vars ≠ [])
    (h : D3plot.read_states_parse d.ctrl d.loaded vars = .error e) :
    D3plot.read_states fa fuel vars d = .error e := by
  unfold D3plot.read_states
  have h1 : ¬ (vars.length < 1 ∧ d.timesteps.length > 0) := by
    intro hc
    have : vars.length ≠ 0 := by simpa using hne
    omega
  simp only [throw_if, if_neg h1, h, bind, Except.bind]

/-- A request string with none of the keywords of the tests is refused. -/
theorem read_states_parse_variable_unknown (c : Control) (l : Loaded) (p : ReadPlan)
    (s : String)
    (h1 : ¬ D3plot.str_contains s "disp" = true) (h2 : ¬ D3plot.str_contains s "vel" = true)
    (h3 : ¬ D3plot.str_contains s "accel" = true)
    (h4 : ¬ D3plot.str_contains s "stress" = true)
    (h5 : ¬ D3plot.str_contains s "strain" = true)
    (h6 : ¬ D3plot.str_contains s "energy" = true)
    (h7 : ¬ D3plot.str_contains s "history" = true) :
    D3plot.read_states_parse_variable c l p s
      = .error (Err.invalid_argument "Reading of variable is undefined") := by
  have h4m := not_str_contains_mono s _ _ stress_infix_stress_mises h4
  have h5p := not_str_contains_mono s _ _ strain_infix_plastic_strain h5
  unfold D3plot.read_states_parse_variable
  rw [if_neg h1, if_neg h2, if_neg h3, if_neg h4m, if_neg h4, if_neg h5p, if_neg h5, if_neg h6,
    if_neg h7]


/-! ## The header, word by word -/

theorem decode_ndim_ok (n : Int) (r : Int × Int) (h : D3plot.decode_ndim n = .ok r) :
    (n = 4 ∨ n = 5 ∨ n = 7) ∧ r = (if n = 4 then 0 else 1, 3) := by
  unfold D3plot.decode_ndim at h
  by_cases h57 : n = 5 ∨ n = 7
  · rw [if_pos h57] at h
    cases h
    have hn4 : ¬ n = 4 := by omega
    exact ⟨Or.inr h57, by rw [if_neg hn4]⟩
  · rw [if_neg h57] at h
    by_cases h4 : n = 4
    · rw [if_pos h4] at h
      cases h
      exact ⟨Or.inl h4, by rw [if_pos h4]⟩
    · rw [if_neg h4] at h
      split at h <;> cases h

theorem decode_ndim_error (n : Int) (h4 : n ≠ 4) (h5 : n ≠ 5) (h7 : n ≠ 7) :
    (n > 5 → D3plot.decode_ndim n = .error (Err.runtime_error
      "State data contains rigid road surface which can not be handled.")) ∧
    (¬ n > 5 → D3plot.decode_ndim n = .error (Err.runtime_error "Invalid parameter dyna_ndim")) := by
  unfold D3plot.decode_ndim
  have h57 : ¬ (n = 5 ∨ n = 7) := by omega
  rw [if_neg h57, if_neg h4]
  exact ⟨fun h => by rw [if_pos h], fun h => by rw [if_neg h]⟩

/-- What a successful `read_header` has read at the words of its tests. -/
theorem read_header_words (d d1 : D3plot) (h : d.read_header = .ok d1) :
    ∃ ft n15 m36 : Int,
      d.buffer.read_int 11 = .ok ft ∧ (ft = 1 ∨ ft = 5) ∧
      d.ctrl.own_external_numbers_I8 = false ∧
      d.buffer.read_int 15 = .ok n15 ∧
      D3plot.decode_ndim n15 = .ok (d1.ctrl.dyna_mattyp, d1.ctrl.dyna_ndim) ∧
      d.buffer.read_int 36 = .ok m36 ∧
      d1.ctrl.dyna_mdlopt
        = (if (if m36 ≥ 0 then m36 else abs32 m36) > 10000 then 2
           else if m36 ≥ 0 then 0 else 1) ∧
      d1.ctrl.dyna_maxint
        = (if (if m36 ≥ 0 then m36 else abs32 m36) > 10000
           then abs32 (if m36 ≥ 0 then m36 else abs32 m36) - 10000
           else if m36 ≥ 0 then m36 else abs32 m36) ∧
      d.buffer.read_int 37 = .ok d1.ctrl.dyna_nmsph ∧ d1.ctrl.dyna_nmsph = 0 ∧
      d.buffer.read_int 38 = .ok d1.ctrl.dyna_ngpsph ∧ d1.ctrl.dyna_ngpsph = 0 ∧
      d.buffer.read_int 47 = .ok d1.ctrl.dyna_ialemat ∧ d1.ctrl.dyna_ialemat = 0 ∧
      d.buffer.read_int 40 = .ok d1.ctrl.dyna_nelth ∧ ¬ d1.ctrl.dyna_nelth > 0 ∧
      d.buffer.read_int 19 = .ok d1.ctrl.dyna_it ∧ d1.ctrl.dyna_it = 0 ∧
      d.buffer.read_int 57 = .ok d1.ctrl.dyna_extra ∧
      d1.wordPosition = (if d1.ctrl.dyna_extra > 0 then 128 else 64) := by
  unfold D3plot.read_header at h
  simp only [Except.bind_eq_ok, throw_if_eq_ok, pure, Except.pure, Except.ok.injEq] at h
  obtain ⟨ft, h11, h⟩ := h
  obtain ⟨_, hft, h⟩ := h
  obtain ⟨title, _, h⟩ := h
  obtain ⟨n15, h15, h⟩ := h
  obtain ⟨mn, hmn, h⟩ := h
  obtain ⟨numnp, _, h⟩ := h
  obtain ⟨nglbv, _, h⟩ := h
  obtain ⟨iu, _, h⟩ := h
  obtain ⟨iv, _, h⟩ := h
  obtain ⟨ia, _, h⟩ := h
  obtain ⟨it, h19, h⟩ := h
  obtain ⟨nel2, _, h⟩ := h
  obtain ⟨nel4, _, h⟩ := h
  obtain ⟨nel8, _, h⟩ := h
  obtain ⟨nelth, h40, h⟩ := h
  obtain ⟨nel48, _, h⟩ := h
  obtain ⟨nmmat, _, h⟩ := h
  obtain ⟨nummat2, _, h⟩ := h
  obtain ⟨nummat4, _, h⟩ := h
  obtain ⟨nummat8, _, h⟩ := h
  obtain ⟨nummatth, _, h⟩ := h
  obtain ⟨nv1d, _, h⟩ := h
  obtain ⟨nv2d, _, h⟩ := h
  obtain ⟨nv3d, _, h⟩ := h
  obtain ⟨nv3dt, _, h⟩ := h
  obtain ⟨neiph, _, h⟩ := h
  obtain ⟨neips, _, h⟩ := h
  obtain ⟨m36, h36, h⟩ := h
  obtain ⟨narbs, _, h⟩ := h
  obtain ⟨io1, _, h⟩ := h
  obtain ⟨io2, _, h⟩ := h
  obtain ⟨io3, _, h⟩ := h
  obtain ⟨io4, _, h⟩ := h
  obtain ⟨idtdt, _, h⟩ := h
  obtain ⟨extra, h57, h⟩ := h
  obtain ⟨nmsph, h37, h⟩ := h
  obtain ⟨ngpsph, h38, h⟩ := h
  obtain ⟨ialemat, h47, h⟩ := h
  obtain ⟨nel20, _, h⟩ := h
  obtain ⟨_, hsph, h⟩ := h
  obtain ⟨_, hale, h⟩ := h
  obtain ⟨_, hth, h⟩ := h
  obtain ⟨_, hit, h⟩ := h
  obtain ⟨_, hi8, h⟩ := h
  subst h
  have hle : ¬ ft > 1000 := by
    intro hc
    rw [if_pos hc] at hi8
    exact hi8 rfl
  rw [if_neg hle] at hi8 hft
  have z1 : nmsph = 0 := by omega
  have z2 : ngpsph = 0 := by omega
  have z3 : ialemat = 0 := by omega
  have z4 : it = 0 := by omega
  refine ⟨ft, n15, m36, h11, by omega, by simpa using hi8, h15, hmn, h36, rfl, rfl, h37, z1,
    h38, z2, h47, z3, h40, hth, h19, z4, h57, ?_⟩
  show (if extra > 0 then (64 : Int) * 2 else 64) = if extra > 0 then 128 else 64
  split <;> rfl

/-- A filetype word that is not 1 or 5, after 1000 is taken off a word above
1000, ends `read_header` with the error of the filetype test. -/
theorem read_header_filetype_error (d : D3plot) (ft : Int)
    (h11 : d.buffer.read_int 11 = .ok ft)
    (hbad : (if ft > 1000 then ft - 1000 else ft) ≠ 1 ∧ (if ft > 1000 then ft - 1000 else ft) ≠ 5) :
    d.read_header
      = .error (Err.runtime_error "Wrong filetype != 1 (or 5) in header of d3plot.") := by
  unfold D3plot.read_header
  simp only [h11, bind, Except.bind, throw_if, if_pos hbad]

/-- When the filetype test is passed and the title is read, a failure of the
decoding of the `ndim` word is the failure of `read_header`. -/
theorem read_header_ndim_error (d : D3plot) (ft n : Int) (title : String) (e : Err)
    (h11 : d.buffer.read_int 11 = .ok ft)
    (hft : ¬ ((if ft > 1000 then ft - 1000 else ft) ≠ 1 ∧
      (if ft > 1000 then ft - 1000 else ft) ≠ 5))
    (ht : d.buffer.read_str 0 10 = .ok title) (h15 : d.buffer.read_int 15 = .ok n)
    (he : D3plot.decode_ndim n = .error e) :
    d.read_header = .error e := by
  unfold D3plot.read_header
  simp only [h11, bind, Except.bind, throw_if, if_neg hft, ht, h15, he]

/-- A header whose filetype word is 1001 or 1005 and that passes every other
test ends `read_header` with the error of the last test, the one for external
ids of double length. -/
theorem read_header_I8_error (d : D3plot) (ft n : Int)
    (h11 : d.buffer.read_int 11 = .ok ft) (hft : ft = 1001 ∨ ft = 1005)
    (ht : ∃ title, d.buffer.read_str 0 10 = .ok title)
    (hw : ∀ i : Int, 0 ≤ i → i ≤ 64 → ∃ w, d.buffer.read_int i = .ok w)
    (h15 : d.buffer.read_int 15 = .ok n) (hn : n = 4 ∨ n = 5 ∨ n = 7)
    (h37 : d.buffer.read_int 37 = .ok 0) (h38 : d.buffer.read_int 38 = .ok 0)
    (h47 : d.buffer.read_int 47 = .ok 0) (h19 : d.buffer.read_int 19 = .ok 0)
    (h40 : ∃ w, d.buffer.read_int 40 = .ok w ∧ ¬ w > 0) :
    d.read_header
      = .error (Err.runtime_error "Can not handle external ids with double length.") := by
  obtain ⟨title, ht⟩ := ht
  obtain ⟨w40, h40, hth⟩ := h40
  obtain ⟨mn, hmn⟩ : ∃ mn, D3plot.decode_ndim n = .ok mn := by
    unfold D3plot.decode_ndim
    rcases hn with rfl | rfl | rfl
    · exact ⟨_, rfl⟩
    · exact ⟨_, rfl⟩
    · exact ⟨_, rfl⟩
  obtain ⟨w16, h16⟩ := hw 16 (by decide) (by decide)
  obtain ⟨w18, h18⟩ := hw 18 (by decide) (by decide)
  obtain ⟨w20, h20⟩ := hw 20 (by decide) (by decide)
  obtain ⟨w21, h21⟩ := hw 21 (by decide) (by decide)
  obtain ⟨w22, h22⟩ := hw 22 (by decide) (by decide)
  obtain ⟨w28, h28⟩ := hw 28 (by decide) (by decide)
  obtain ⟨w31, h31⟩ := hw 31 (by decide) (by decide)
  obtain ⟨w23, h23⟩ := hw 23 (by decide) (by decide)
  obtain ⟨w55, h55⟩ := hw 55 (by decide) (by decide)
  obtain ⟨w51, h51⟩ := hw 51 (by decide) (by decide)
  obtain ⟨w29, h29⟩ := hw 29 (by decide) (by decide)
  obtain ⟨w32, h32⟩ := hw 32 (by decide) (by decide)
  obtain ⟨w24, h24⟩ := hw 24 (by decide) (by decide)
  obtain ⟨w41, h41⟩ := hw 41 (by decide) (by decide)
  obtain ⟨w30, h30⟩ := hw 30 (by decide) (by decide)
  obtain ⟨w33, h33⟩ := hw 33 (by decide) (by decide)
  obtain ⟨w27, h27⟩ := hw 27 (by decide) (by decide)
  obtain ⟨w42, h42⟩ := hw 42 (by decide) (by decide)
  obtain ⟨w34, h34⟩ := hw 34 (by decide) (by decide)
  obtain ⟨w35, h35⟩ := hw 35 (by decide) (by decide)
  obtain ⟨w36, h36⟩ := hw 36 (by decide) (by decide)
  obtain ⟨w39, h39⟩ := hw 39 (by decide) (by decide)
  obtain ⟨w43, h43⟩ := hw 43 (by decide) (by decide)
  obtain ⟨w44, h44⟩ := hw 44 (by decide) (by decide)
  obtain ⟨w45, h45⟩ := hw 45 (by decide) (by decide)
  obtain ⟨w46, h46⟩ := hw 46 (by decide) (by decide)
  obtain ⟨w56, h56⟩ := hw 56 (by decide) (by decide)
  obtain ⟨w57, h57⟩ := hw 57 (by decide) (by decide)
  obtain ⟨w64, h64⟩ := hw 64 (by decide) (by decide)
  have hgt : ft > 1000 := by omega
  have hok : ¬ ((if ft > 1000 then ft - 1000 else ft) ≠ 1 ∧
      (if ft > 1000 then ft - 1000 else ft) ≠ 5) := by
    rw [if_pos hgt]
    omega
  unfold D3plot.read_header
  simp only [h11, bind, Except.bind, throw_if, if_neg hok, ht, h15, hmn, h16, h18, h20, h21, h22,
    h19, h28, h31, h23, h40, h55, h51, h29, h32, h24, h41, h30, h33, h27, h42, h34, h35, h36, h39,
    h43, h44, h45, h46, h56, h57, h37, h38, h47, h64]
  have e1 : ¬ ((0 : Int) ≠ 0 ∨ (0 : Int) ≠ 0) := by decide
  have e2 : ¬ ((0 : Int) ≠ 0) := by decide
  by_cases hx : w57 > 0
  · simp only [hx, if_true, e1, e2, hth, if_false, hgt]
    rfl
  · simp only [hx, if_false, e1, e2, hth, hgt, if_true]
    rfl


/-! ## The header values on the readers the constructor builds -/

/-- The stages of `open_geometry`, and what they keep of the header. -/
theorem open_geometry_stages (buf : Buffer) (fz : Bool) (g : D3plot)
    (h : D3plot.open_geometry buf fz = .ok g) :
    ∃ d1 d2, (D3plot.init buf.read_geometryBuffer fz).read_header = .ok d1 ∧
      d1.read_matsection = .ok d2 ∧ d2.read_geometry = .ok g ∧
      g.ctrl.dyna_mdlopt = d1.ctrl.dyna_mdlopt ∧ g.ctrl.dyna_maxint = d1.ctrl.dyna_maxint ∧
      g.ctrl.dyna_mattyp = d1.ctrl.dyna_mattyp ∧ g.ctrl.dyna_ndim = d1.ctrl.dyna_ndim := by
  unfold D3plot.open_geometry at h
  simp only [Except.bind_eq_ok] at h
  obtain ⟨d1, h1, d2, h2, h3⟩ := h
  obtain ⟨_, c2⟩ := read_matsection_ok d1 d2 h2
  obtain ⟨_, _, _, _, _, _, _, _, _, _, _, _, _, _, _, _, _, _, gc, _⟩ := read_geometry_ok d2 g h3
  refine ⟨d1, d2, h1, h2, h3, ?_, ?_, ?_, ?_⟩
  · rw [gc]; show d2.ctrl.dyna_mdlopt = _; rw [c2]
  · rw [gc]; show d2.ctrl.dyna_maxint = _; rw [c2]
  · rw [gc]; show d2.ctrl.dyna_mattyp = _; rw [c2]
  · rw [gc]; show d2.ctrl.dyna_ndim = _; rw [c2]

/-- A sequence of calls of `read_states` keeps the header values. -/
theorem read_states_calls_ctrl (fa : FloatArith) :
    ∀ (calls : List (Nat × List String)) (d d1 : D3plot),
      D3plot.read_states_calls fa calls d = .ok d1 → d1.ctrl = d.ctrl := by
  intro calls
  induction calls with
  | nil =>
    intro d d1 h
    simp only [D3plot.read_states_calls, Except.ok.injEq] at h
    subst h
    rfl
  | cons call calls ih =>
    intro d d1 h
    rw [D3plot.read_states_calls] at h
    cases hc : D3plot.read_states fa call.1 call.2 d with
    | error e => simp [hc] at h
    | ok d2 =>
      simp only [hc] at h
      rw [ih d2 d1 h, (read_states_frame fa call.1 call.2 d d2 hc).1.1]

theorem deletion_vars_ok (c : Control)
    (h : c.dyna_mdlopt = 0 ∨ c.dyna_mdlopt = 1 ∨ c.dyna_mdlopt = 2) :
    ∃ n, D3plot.deletion_vars c = .ok n := by
  unfold D3plot.deletion_vars
  rcases h with h | h | h
  · exact ⟨_, by rw [if_pos h]⟩
  · exact ⟨_, by rw [if_neg (by omega), if_pos h]⟩
  · exact ⟨_, by rw [if_neg (by omega), if_neg (by omega), if_pos h]⟩

/-- A word inside the loaded section can be read as an integer. -/
theorem Buffer.read_int_of_lt (b : Buffer) (i : Int) (h0 : 0 ≤ i)
    (hlt : i.toNat < b.current.length) : ∃ w, b.read_int i = .ok w := by
  unfold Buffer.read_int Buffer.read_word
  rw [if_neg (by omega), List.getElem?_eq_getElem hlt]
  exact ⟨_, rfl⟩


/-! ## Where the record of a solid is decoded -/

theorem sum_map_const_int {α : Type} (k : Int) (xs : List α) :
    (xs.map (fun _ => k)).sum = k * (xs.length : Int) := by
  induction xs with
  | nil => simp
  | cons x xs ih =>
    simp only [List.map_cons, List.sum_cons, ih, List.length_cons]
    push_cast
    ring

/-- In a pass of `read_states_elem8` over a database that fits the header,
solid `j` is decoded at the word `start + nv3d * j`: the body of the loop runs
on it there, and what it returns is solid `j` afterwards. -/
theorem read_states_elem8_at (fa : FloatArith) (iState : Nat) (d d8 : D3plot)
    (h : d.read_states_elem8 fa iState = .ok d8) (hsh : Shape d) (hnv : 0 < d.ctrl.dyna_nv3d)
    (j : Nat) (e : Element) (hj : d.db_solids[j]? = some e) :
    ∃ e1,
      D3plot.read_states_elem8_element fa d.ctrl d.plan d.buffer iState
        (D3plot.elem8_start d.ctrl d.wordPosition + d.ctrl.dyna_nv3d * (j : Int)) e = .ok e1 ∧
      d8.db_solids[j]? = some e1 := by
  obtain ⟨_, ph⟩ := read_states_elem8_ok fa iState d d8 h
  obtain ⟨_, _, _, _, _, _, s7, s8⟩ := hsh
  rcases ph with ⟨_, hl⟩ | ⟨hn, _⟩
  · have hlt : j < d.db_solids.length := by
      rcases Nat.lt_or_ge j d.db_solids.length with h1 | h1
      · exact h1
      · rw [List.getElem?_eq_none h1] at hj; cases hj
    have he : d.db_solids[j] = e := by
      rw [List.getElem?_eq_getElem hlt] at hj
      exact Option.some.inj hj
    have hsplit : d.db_solids = d.db_solids.take j ++ e :: d.db_solids.drop (j + 1) := by
      rw [← he]
      simp
    have hlen : (d.db_solids.take j).length = j := by
      rw [List.length_take]
      omega
    unfold D3plot.read_states_elem8_loop at hl
    rw [hsplit] at hl
    have hbound : D3plot.elem8_start d.ctrl d.wordPosition
        + ((d.db_solids.take j).map (fun _ : Element => d.ctrl.dyna_nv3d)).sum
        < D3plot.elem8_start d.ctrl d.wordPosition + d.ctrl.dyna_nv3d * d.ctrl.dyna_nel8 := by
      rw [sum_map_const_int, hlen]
      have h2 : (d.db_solids.length : Int) = d.ctrl.dyna_nel8 := by
        rw [s8]
        exact Int.toNat_of_nonneg s7
      have h3 : (j : Int) < d.ctrl.dyna_nel8 := by omega
      nlinarith
    obtain ⟨s1, r, hb, hy⟩ := db_loop_at _ _
      (fun _ : Element => d.ctrl.dyna_nv3d) (fun _ => le_of_lt hnv)
      (fun ii s x r hb => by
        obtain ⟨e1, _, rfl⟩ := read_states_elem8_body_ok _ _ _ _ _ _ _ _ _ hb
        rfl)
      _ _ _ _ _ _ hl hbound
    rw [hlen] at hy
    rw [sum_map_const_int, hlen] at hb
    obtain ⟨e1, he1, rfl⟩ := read_states_elem8_body_ok _ _ _ _ _ _ _ _ _ hb
    exact ⟨e1, he1, hy⟩
  · exact absurd (fun hc => by omega) hn

/-- The streams of a solid after the body of the loop of `read_states_elem8`:
every stream is the one before, followed by at most one value, and the energy
is the one before. -/
theorem read_states_elem8_element_fields (fa : FloatArith) (c : Control) (p : ReadPlan)
    (b : Buffer) (iState : Nat) (ii : Int) (e e1 : Element)
    (h : D3plot.read_states_elem8_element fa c p b iState ii e = .ok e1) :
    ((p.stress_read ≠ 0 ∧ ∃ t, b.read_float_array ii 6 = .ok t ∧ e1.stress = e.stress ++ [t])
      ∨ (¬ p.stress_read ≠ 0 ∧ e1.stress = e.stress)) ∧
    ((p.stress_mises_read ≠ 0 ∧ ∃ t, b.read_float_array ii 6 = .ok t ∧
        e1.stress_mises = e.stress_mises ++ [fa.mises_stress t])
      ∨ (¬ p.stress_mises_read ≠ 0 ∧ e1.stress_mises = e.stress_mises)) ∧
    ((p.plastic_strain_read ≠ 0 ∧ ∃ x, b.read_float (ii + 6) = .ok x ∧
        e1.plastic_strain = e.plastic_strain ++ [x])
      ∨ (¬ p.plastic_strain_read ≠ 0 ∧ e1.plastic_strain = e.plastic_strain)) ∧
    (((c.dyna_istrn = 1 ∧ p.strain_read ≠ 0) ∧
        ∃ t, b.read_float_array (ii + c.dyna_nv3d - 6) 6 = .ok t ∧ e1.strain = e.strain ++ [t])
      ∨ (¬ (c.dyna_istrn = 1 ∧ p.strain_read ≠ 0) ∧ e1.strain = e.strain)) ∧
    ((p.history_solid_read.length ≠ 0 ∧
        ∃ hv, D3plot.elem8_history c b ii p.history_solid_read = .ok hv ∧
          e1.history_vars = e.history_vars ++ [hv])
      ∨ (¬ p.history_solid_read.length ≠ 0 ∧ e1.history_vars = e.history_vars)) ∧
    e1.energy = e.energy := by
  obtain ⟨eA, eB, eC, hA, hB, hC, hD⟩ := read_states_elem8_element_ok _ _ _ _ _ _ _ _ h
  have kA : ((p.stress_read ≠ 0 ∧ ∃ t, b.read_float_array ii 6 = .ok t ∧
        eA.stress = e.stress ++ [t]) ∨ (¬ p.stress_read ≠ 0 ∧ eA.stress = e.stress)) ∧
      ((p.stress_mises_read ≠ 0 ∧ ∃ t, b.read_float_array ii 6 = .ok t ∧
        eA.stress_mises = e.stress_mises ++ [fa.mises_stress t])
        ∨ (¬ p.stress_mises_read ≠ 0 ∧ eA.stress_mises = e.stress_mises)) ∧
      eA.plastic_strain = e.plastic_strain ∧ eA.strain = e.strain ∧
      eA.history_vars = e.history_vars ∧ eA.energy = e.energy := by
    rcases hA with ⟨_, t, ht, rfl⟩ | ⟨hg, rfl⟩
    · beta_reduce
      by_cases h1 : p.stress_read ≠ 0 <;> by_cases h2 : p.stress_mises_read ≠ 0
      · simp only [if_pos h1, if_pos h2]
        exact ⟨Or.inl ⟨h1, t, ht, rfl⟩, Or.inl ⟨h2, t, ht, rfl⟩, rfl, rfl, rfl, rfl⟩
      · simp only [if_pos h1, if_neg h2]
        exact ⟨Or.inl ⟨h1, t, ht, rfl⟩, Or.inr ⟨h2, rfl⟩, rfl, rfl, rfl, rfl⟩
      · simp only [if_neg h1, if_pos h2]
        exact ⟨Or.inr ⟨h1, rfl⟩, Or.inl ⟨h2, t, ht, rfl⟩, rfl, rfl, rfl, rfl⟩
      · rw [if_neg h2, if_neg h1]
        exact ⟨Or.inr ⟨h1, rfl⟩, Or.inr ⟨h2, rfl⟩, rfl, rfl, rfl, rfl⟩
    · exact ⟨Or.inr ⟨fun hc => hg (Or.inl hc), rfl⟩, Or.inr ⟨fun hc => hg (Or.inr hc), rfl⟩,
        rfl, rfl, rfl, rfl⟩
  obtain ⟨a1, a2, a3, a4, a5, a6⟩ := kA
  have kB : eB.stress = eA.stress ∧ eB.stress_mises = eA.stress_mises ∧
      ((p.plastic_strain_read ≠ 0 ∧ ∃ x, b.read_float (ii + 6) = .ok x ∧
          eB.plastic_strain = eA.plastic_strain ++ [x])
        ∨ (¬ p.plastic_strain_read ≠ 0 ∧ eB.plastic_strain = eA.plastic_strain)) ∧
      eB.strain = eA.strain ∧ eB.history_vars = eA.history_vars ∧ eB.energy = eA.energy := by
    rcases hB with ⟨hg, x, hx, rfl⟩ | ⟨hg, rfl⟩
    · exact ⟨rfl, rfl, Or.inl ⟨hg, x, hx, rfl⟩, rfl, rfl, rfl⟩
    · exact ⟨rfl, rfl, Or.inr ⟨hg, rfl⟩, rfl, rfl, rfl⟩
  obtain ⟨b1, b2, b3, b4, b5, b6⟩ := kB
  have kC : eC.stress = eB.stress ∧ eC.stress_mises = eB.stress_mises ∧
      eC.plastic_strain = eB.plastic_strain ∧
      (((c.dyna_istrn = 1 ∧ p.strain_read ≠ 0) ∧
          ∃ t, b.read_float_array (ii + c.dyna_nv3d - 6) 6 = .ok t ∧ eC.strain = eB.strain ++ [t])
        ∨ (¬ (c.dyna_istrn = 1 ∧ p.strain_read ≠ 0) ∧ eC.strain = eB.strain)) ∧
      eC.history_vars = eB.history_vars ∧ eC.energy = eB.energy := by
    rcases hC with ⟨hg, t, ht, rfl⟩ | ⟨hg, rfl⟩
    · exact ⟨rfl, rfl, rfl, Or.inl ⟨hg, t, ht, rfl⟩, rfl, rfl⟩
    · exact ⟨rfl, rfl, rfl, Or.inr ⟨hg, rfl⟩, rfl, rfl⟩
  obtain ⟨c1, c2, c3, c4, c5, c6⟩ := kC
  have kD : e1.stress = eC.stress ∧ e1.stress_mises = eC.stress_mises ∧
      e1.plastic_strain = eC.plastic_strain ∧ e1.strain = eC.strain ∧
      ((p.history_solid_read.length ≠ 0 ∧
          ∃ hv, D3plot.elem8_history c b ii p.history_solid_read = .ok hv ∧
            e1.history_vars = eC.history_vars ++ [hv])
        ∨ (¬ p.history_solid_read.length ≠ 0 ∧ e1.history_vars = eC.history_vars)) ∧
      e1.energy = eC.energy := by
    rcases hD with ⟨hg, hv, hhv, rfl⟩ | ⟨hg, rfl⟩
    · exact ⟨rfl, rfl, rfl, rfl, Or.inl ⟨hg, hv, hhv, rfl⟩, rfl⟩
    · exact ⟨rfl, rfl, rfl, rfl, Or.inr ⟨hg, rfl⟩, rfl⟩
  obtain ⟨d1, d2, d3, d4, d5, d6⟩ := kD
  refine ⟨?_, ?_, ?_, ?_, ?_, ?_⟩
  · rw [d1, c1, b1]
    exact a1
  · rw [d2, c2, b2]
    exact a2
  · rw [d3, c3, ← a3]
    exact b3
  · rw [d4, ← a4, ← b4]
    exact c4
  · rw [← a5, ← b5, ← c5]
    exact d5
  · rw [d6, c6, b6, a6]


/-! ## The stages of the geometry -/

theorem Buffer.read_int_array_get (b : Buffer) (n : Nat) :
    ∀ (i : Int) (xs : List Int), b.read_int_array i n = .ok xs →
      ∀ c : Nat, c < n → ∃ x, b.read_int (i + c) = .ok x ∧ xs[c]? = some x := by
  induction n with
  | zero => intro i xs _ c hc; omega
  | succ n ih =>
    intro i xs h c hc
    rw [Buffer.read_int_array] at h
    split at h
    · cases h
    · rename_i x hx
      split at h
      · cases h
      · rename_i ys hy
        simp only [Except.ok.injEq] at h
        subst h
        cases c with
        | zero => exact ⟨x, by simpa using hx, by simp⟩
        | succ c =>
          obtain ⟨y, h1, h2⟩ := ih (i + 1) ys hy c (by omega)
          refine ⟨y, ?_, by simpa using h2⟩
          rw [← h1]
          congr 1
          push_cast
          ring

theorem Buffer.read_int_array_readable (b : Buffer) (n : Nat) :
    ∀ i : Int, (∀ c : Nat, c < n → ∃ x, b.read_int (i + c) = .ok x) →
      ∃ xs, b.read_int_array i n = .ok xs := by
  induction n with
  | zero => intro i _; exact ⟨[], rfl⟩
  | succ n ih =>
    intro i h
    obtain ⟨x, hx⟩ := h 0 (by omega)
    obtain ⟨ys, hy⟩ := ih (i + 1) (fun c hc => by
      obtain ⟨y, h1⟩ := h (c + 1) (by omega)
      refine ⟨y, ?_⟩
      rw [← h1]
      congr 1
      push_cast
      ring)
    refine ⟨x :: ys, ?_⟩
    rw [Buffer.read_int_array]
    simp only [Nat.cast_zero, add_zero] at hx
    rw [hx, hy]

/-- The stages of a successful `read_geometry`, in their order. -/
theorem read_geometry_trace (d g : D3plot) (h : d.read_geometry = .ok g) :
    ∃ (r1 : List (List F32) × D3plot) (r2 r3 r4 r5 : List (List Int) × D3plot) (a : D3plot)
      (n0 n1 n2 n3 : List Int) (beams shells solids : List Element),
      d.read_geometry_nodes = .ok r1 ∧ r1.2.read_geometry_elem8 = .ok r2 ∧
      r2.2.skip_thick_shells.read_geometry_elem2 = .ok r3 ∧
      r3.2.read_geometry_elem4 = .ok r4 ∧ r4.2.read_geometry_numbering = .ok r5 ∧
      r5.2.isFileEnding r5.2.wordPosition = .ok true ∧
      r5.2.parts_reader.read_geometry_parts = .ok a ∧
      a.isFileEnding a.wordPosition = .ok true ∧
      D3plot.vec_at r5.1 0 = .ok n0 ∧ n0.length = r1.1.length ∧
      D3plot.vec_at r5.1 2 = .ok n2 ∧
      D3plot.add_elements ElementType.BEAM 0 false a.ctrl n2 r3.1 = .ok beams ∧
      D3plot.vec_at r5.1 3 = .ok n3 ∧
      D3plot.add_elements ElementType.SHELL (-1) true a.ctrl n3 r4.1 = .ok shells ∧
      ((shells.countP Element.get_is_rigid : Nat) : Int) = a.ctrl.dyna_numrbe ∧
      D3plot.vec_at r5.1 1 = .ok n1 ∧
      D3plot.add_elements ElementType.SOLID 0 false a.ctrl n1 r2.1 = .ok solids ∧
      g = { a with buffer := a.buffer.free_partBuffer,
                   db_nodes := a.db_nodes ++ List.zipWith add_node n0 r1.1,
                   db_beams := a.db_beams ++ beams, db_shells := a.db_shells ++ shells,
                   db_solids := a.db_solids ++ solids } := by
  unfold D3plot.read_geometry at h
  simp only [Except.bind_eq_ok, throw_if_eq_ok, pure, Except.pure, Except.ok.injEq] at h
  obtain ⟨r1, h1, r2, h2, r3, h3, r4, h4, r5, h5, fin, hfin, _, hfin2, h⟩ := h
  obtain ⟨a, hpa, f2, hf2, _, hf3, n0, hn0, _, hlen, n2, hn2, beams, hbe, n3, hn3, shells, hsh,
    _, hcnt, n1, hn1, solids, hso, h⟩ := h
  have e1 : fin = true := by
    cases fin with
    | true => rfl
    | false => exact absurd rfl hfin2
  have e2 : f2 = true := by
    cases f2 with
    | true => rfl
    | false => exact absurd rfl hf3
  subst e1
  subst e2
  refine ⟨r1, r2, r3, r4, r5, a, n0, n1, n2, n3, beams, shells, solids, h1, h2, h3, h4, h5, hfin,
    ?_, hf2, hn0, ?_, hn2, hbe, hn3, hsh, ?_, hn1, hso, h.symm⟩
  · rw [← hpa]
    unfold D3plot.parts_reader
    cases hz : r5.2.useFemzip <;> simp
  · exact not_not.mp hlen
  · exact not_not.mp hcnt

theorem read_geometry_nodes_position (d : D3plot) (r : List (List F32) × D3plot)
    (h : d.read_geometry_nodes = .ok r) :
    r.2.wordPosition = d.wordPosition + d.ctrl.dyna_ndim * d.ctrl.dyna_numnp := by
  unfold D3plot.read_geometry_nodes at h
  simp only [Except.bind_eq_ok, pure, Except.pure, Except.ok.injEq] at h
  obtain ⟨xs, hx, ys, hy, h⟩ := h
  subst h
  show d.wordPosition + d.ctrl.dyna_numnp * d.ctrl.dyna_ndim = _
  rw [mul_comm]

/-- The records `read_geometry_elem8` hands over and the position it leaves:
record `i` holds the nine words of the file from `wordPosition + 9 * i` on. -/
theorem read_geometry_elem8_records (d : D3plot) (r : List (List Int) × D3plot)
    (h : d.read_geometry_elem8 = .ok r) :
    r.2.wordPosition = d.wordPosition + 9 * d.ctrl.dyna_nel8
      + (if d.ctrl.own_nel10 = true then 2 * d.ctrl.dyna_nel8 else 0) ∧
    ∀ (i : Nat) (x : List Int), r.1[i]? = some x →
      d.buffer.read_int_array (d.wordPosition + 9 * i) 9 = .ok x := by
  unfold D3plot.read_geometry_elem8 at h
  split at h
  · rename_i h0
    cases h
    refine ⟨by simp [h0], ?_⟩
    intro i x hx
    simp at hx
  · simp only [Except.bind_eq_ok, pure, Except.pure, Except.ok.injEq] at h
    obtain ⟨xs, hx, ys, hy, h⟩ := h
    subst h
    obtain ⟨a1, a2⟩ := alloc_ok _ _ _ hx
    have hl := fill_loop_length _ _ _ _ _ _ hy
    refine ⟨?_, ?_⟩
    · show (if d.ctrl.own_nel10 = true then d.wordPosition + 9 * d.ctrl.dyna_nel8
          + 2 * d.ctrl.dyna_nel8 else d.wordPosition + 9 * d.ctrl.dyna_nel8) = _
      split <;> ring
    · intro i x hi
      have hlt : i < ys.length := by
        rcases Nat.lt_or_ge i ys.length with h1 | h1
        · exact h1
        · rw [List.getElem?_eq_none h1] at hi; cases hi
      rw [hl, a2] at hlt
      exact fill_loop_get _ _ _ _ _ _ hy i x hi (by omega) (by decide)

/-- The records `read_geometry_elem2` hands over and the position it leaves:
record `i` holds the words at the offsets 0, 1 and 5 of the six words of the
file from `wordPosition + 6 * i` on. -/
theorem read_geometry_elem2_records (d : D3plot) (r : List (List Int) × D3plot)
    (h : d.read_geometry_elem2 = .ok r) :
    0 ≤ d.ctrl.dyna_nel2 ∧ r.1.length = d.ctrl.dyna_nel2.toNat ∧
    r.2.wordPosition = d.wordPosition + 6 * d.ctrl.dyna_nel2 ∧
    ∀ (i : Nat) (x : List Int), r.1[i]? = some x →
      ∃ n0 n1 mat, d.buffer.read_int (d.wordPosition + 6 * i) = .ok n0 ∧
        d.buffer.read_int (d.wordPosition + 6 * i + 1) = .ok n1 ∧
        d.buffer.read_int (d.wordPosition + 6 * i + 5) = .ok mat ∧ x = [n0, n1, mat] := by
  unfold D3plot.read_geometry_elem2 at h
  split at h
  · rename_i h0
    cases h
    refine ⟨by omega, by simp [h0], by simp [h0], ?_⟩
    intro i x hx
    simp at hx
  · simp only [Except.bind_eq_ok, pure, Except.pure, Except.ok.injEq] at h
    obtain ⟨xs, hx, ys, hy, h⟩ := h
    subst h
    obtain ⟨a1, a2⟩ := alloc_ok _ _ _ hx
    have hl := fill_loop_length _ _ _ _ _ _ hy
    refine ⟨a1, by rw [hl, a2], rfl, ?_⟩
    intro i x hi
    have hlt : i < ys.length := by
      rcases Nat.lt_or_ge i ys.length with h1 | h1
      · exact h1
      · rw [List.getElem?_eq_none h1] at hi; cases hi
    rw [hl, a2] at hlt
    have hb := fill_loop_get _ _ _ _ _ _ hy i x hi (by omega) (by decide)
    unfold D3plot.read_beam_record at hb
    simp only [Except.bind_eq_ok, pure, Except.pure, Except.ok.injEq] at hb
    obtain ⟨n0, k0, n1, k1, mat, k2, hq⟩ := hb
    exact ⟨n0, n1, mat, k0, k1, k2, hq.symm⟩

theorem read_geometry_elem4_position (d : D3plot) (r : List (List Int) × D3plot)
    (h : d.read_geometry_elem4 = .ok r) :
    r.2.wordPosition = d.wordPosition + 5 * d.ctrl.dyna_nel4 := by
  unfold D3plot.read_geometry_elem4 at h
  split at h
  · rename_i h0
    cases h
    simp [h0]
  · simp only [Except.bind_eq_ok, pure, Except.pure, Except.ok.injEq] at h
    obtain ⟨xs, hx, ys, hy, h⟩ := h
    subst h
    rfl

theorem forall₂_record_map {P : List Int → Element → Prop} :
    ∀ (rs : List (List Int)) (es : List Element),
      List.Forall₂ (fun r e => e.record = r ∧ P r e) rs es → es.map Element.record = rs := by
  intro rs es hf
  induction hf with
  | nil => rfl
  | cons hx _ ih => simp only [List.map_cons, hx.1, ih]

theorem add_elements_records (t : ElementType) (off : Int) (rigid : Bool) (c : Control)
    (rs : List (List Int)) (ids : List Int) (es : List Element)
    (h : D3plot.add_elements t off rigid c ids rs = .ok es) : es.map Element.record = rs :=
  forall₂_record_map rs es (add_elements_flags t off rigid c rs ids es h)

/-- The parts the loop of `read_geometry_parts` reads: one per record of 19
words, the id and then the name of 18 words. -/
theorem read_part_records_get (b : Buffer) :
    ∀ (n : Nat) (start : Int) (ps : List Part), D3plot.read_part_records b start n = .ok ps →
      ps.length = n ∧
      ∀ i : Nat, i < n → ∃ id name, b.read_int (start + 19 * i) = .ok id ∧
        b.read_str (start + 19 * i + 1) 18 = .ok name ∧
        ps[i]? = some { partID := id, name := name } := by
  intro n
  induction n with
  | zero =>
    intro start ps h
    simp only [D3plot.read_part_records, Except.ok.injEq] at h
    subst h
    exact ⟨rfl, fun i hi => by omega⟩
  | succ n ih =>
    intro start ps h
    rw [D3plot.read_part_records] at h
    split at h
    · cases h
    · rename_i id hid
      split at h
      · cases h
      · rename_i name hname
        split at h
        · cases h
        · rename_i qs hqs
          simp only [Except.ok.injEq] at h
          subst h
          obtain ⟨l1, g1⟩ := ih _ _ hqs
          refine ⟨by simp [l1], ?_⟩
          intro i hi
          cases i with
          | zero =>
            refine ⟨id, name, by simpa using hid, by simpa using hname, by simp⟩
          | succ i =>
            obtain ⟨id2, name2, k1, k2, k3⟩ := g1 i (by omega)
            refine ⟨id2, name2, ?_, ?_, by simpa using k3⟩
            · rw [← k1]
              congr 1
              push_cast
              ring
            · rw [← k2]
              congr 1
              push_cast
              ring

/-- What a successful `read_geometry_parts` has read and stored. -/
theorem read_geometry_parts_layout (d d1 : D3plot) (h : d.read_geometry_parts = .ok d1) :
    d.buffer.read_int d.wordPosition = .ok 90001 ∧
    d.buffer.read_int (d.wordPosition + 1) = .ok d1.ctrl.dyna_numprop ∧
    0 ≤ d1.ctrl.dyna_numprop ∧
    ∃ ps, d1.db_parts = d.db_parts ++ ps ∧ ps.length = d1.ctrl.dyna_numprop.toNat ∧
      (∀ i : Nat, i < d1.ctrl.dyna_numprop.toNat →
        ∃ id name, d.buffer.read_int (d.wordPosition + 1 + 19 * i + 1) = .ok id ∧
          d.buffer.read_str (d.wordPosition + 1 + 19 * i + 1 + 1) 18 = .ok name ∧
          ps[i]? = some { partID := id, name := name }) ∧
      d1.wordPosition = d.wordPosition + (1 + (d1.ctrl.dyna_numprop + 1) * 19 + 1) := by
  unfold D3plot.read_geometry_parts at h
  simp only [Except.bind_eq_ok, throw_if_eq_ok, pure, Except.pure, Except.ok.injEq] at h
  obtain ⟨ntype, h0, _, c0, numprop, h1, _, c1, ps, hps, h⟩ := h
  subst h
  have e0 : ntype = 90001 := not_not.mp c0
  subst e0
  obtain ⟨l1, g1⟩ := read_part_records_get _ _ _ _ hps
  refine ⟨h0, h1, by show 0 ≤ numprop; omega, ps, rfl, l1, ?_, rfl⟩
  intro i hi
  obtain ⟨id, name, k1, k2, k3⟩ := g1 i hi
  refine ⟨id, name, ?_, ?_, k3⟩
  · rw [← k1]
    congr 1
    ring
  · rw [← k2]
    congr 1
    ring

/-- The stages of `read_geometry` before the databases are filled change the
word position only, and `read_geometry_parts` in addition `numprop` and the
parts. -/
theorem read_geometry_stages_frame (d : D3plot) (r1 : List (List F32) × D3plot)
    (r2 r3 r4 r5 : List (List Int) × D3plot) (a : D3plot)
    (h1 : d.read_geometry_nodes = .ok r1) (h2 : r1.2.read_geometry_elem8 = .ok r2)
    (h3 : r2.2.skip_thick_shells.read_geometry_elem2 = .ok r3)
    (h4 : r3.2.read_geometry_elem4 = .ok r4) (h5 : r4.2.read_geometry_numbering = .ok r5)
    (hpa : r5.2.parts_reader.read_geometry_parts = .ok a) :
    r1.2 = { d with wordPosition := r1.2.wordPosition } ∧
    r2.2 = { d with wordPosition := r2.2.wordPosition } ∧
    r2.2.skip_thick_shells = { d with wordPosition := r2.2.skip_thick_shells.wordPosition } ∧
    r3.2 = { d with wordPosition := r3.2.wordPosition } ∧
    r4.2 = { d with wordPosition := r4.2.wordPosition } ∧
    r5.2 = { d with wordPosition := r5.2.wordPosition } ∧
    r5.2.parts_reader = { d with wordPosition := r5.2.parts_reader.wordPosition,
                                 buffer := d.buffer.free_geometryBuffer.read_partBuffer } ∧
    a = { d with ctrl := { d.ctrl with dyna_numprop := a.ctrl.dyna_numprop },
                 db_parts := a.db_parts, wordPosition := a.wordPosition,
                 buffer := d.buffer.free_geometryBuffer.read_partBuffer } := by
  obtain ⟨e1, _, _⟩ := read_geometry_nodes_ok d r1 h1
  obtain ⟨e2, _, _⟩ := read_geometry_elem8_ok r1.2 r2 h2
  have e2b : r2.2 = { d with wordPosition := r2.2.wordPosition } := by rw [e2, e1]
  have es : r2.2.skip_thick_shells
      = { d with wordPosition := r2.2.skip_thick_shells.wordPosition } := by
    unfold D3plot.skip_thick_shells
    split
    · rw [e2b]
    · exact e2b
  have e3 := read_geometry_elem2_ok _ r3 h3
  have e3b : r3.2 = { d with wordPosition := r3.2.wordPosition } := by rw [e3, es]
  obtain ⟨e4, _, _⟩ := read_geometry_elem4_ok r3.2 r4 h4
  have e4b : r4.2 = { d with wordPosition := r4.2.wordPosition } := by rw [e4, e3b]
  have e5 := read_geometry_numbering_ok r4.2 r5 h5
  have e5b : r5.2 = { d with wordPosition := r5.2.wordPosition } := by rw [e5, e4b]
  have ep : r5.2.parts_reader =
      { d with wordPosition := r5.2.parts_reader.wordPosition,
               buffer := d.buffer.free_geometryBuffer.read_partBuffer } := by
    unfold D3plot.parts_reader
    split
    · rw [e5b]
    · rw [e5b]
  have ea := read_geometry_parts_ok _ a hpa
  refine ⟨e1, e2b, es, e3b, e4b, e5b, ep, ?_⟩
  rw [ea, ep]

/-- The counts a successful `read_header` has read; the raw word of `nel8` is
stored by its absolute value, and a negative one sets the flag of the 10-node
solids. -/
theorem read_header_counts (d d1 : D3plot) (h : d.read_header = .ok d1) :
    ∃ w : Int, d.buffer.read_int 23 = .ok w ∧
      d1.ctrl.dyna_nel8 = (if w < 0 then abs32 w else w) ∧
      d1.ctrl.own_nel10 = (if w < 0 then true else d.ctrl.own_nel10) ∧
      d.buffer.read_int 16 = .ok d1.ctrl.dyna_numnp ∧
      d.buffer.read_int 28 = .ok d1.ctrl.dyna_nel2 ∧
      d.buffer.read_int 31 = .ok d1.ctrl.dyna_nel4 ∧
      d.buffer.read_int 51 = .ok d1.ctrl.dyna_nmmat ∧
      d.buffer.read_int 39 = .ok d1.ctrl.dyna_narbs := by
  unfold D3plot.read_header at h
  simp only [Except.bind_eq_ok, throw_if_eq_ok, pure, Except.pure, Except.ok.injEq] at h
  obtain ⟨ft, h11, h⟩ := h
  obtain ⟨_, hft, h⟩ := h
  obtain ⟨title, _, h⟩ := h
  obtain ⟨n15, h15, h⟩ := h
  obtain ⟨mn, hmn, h⟩ := h
  obtain ⟨numnp, h16, h⟩ := h
  obtain ⟨nglbv, _, h⟩ := h
  obtain ⟨iu, _, h⟩ := h
  obtain ⟨iv, _, h⟩ := h
  obtain ⟨ia, _, h⟩ := h
  obtain ⟨it, h19, h⟩ := h
  obtain ⟨nel2, h28, h⟩ := h
  obtain ⟨nel4, h31, h⟩ := h
  obtain ⟨nel8, h23, h⟩ := h
  obtain ⟨nelth, h40, h⟩ := h
  obtain ⟨nel48, _, h⟩ := h
  obtain ⟨nmmat, h51, h⟩ := h
  obtain ⟨nummat2, _, h⟩ := h
  obtain ⟨nummat4, _, h⟩ := h
  obtain ⟨nummat8, _, h⟩ := h
  obtain ⟨nummatth, _, h⟩ := h
  obtain ⟨nv1d, _, h⟩ := h
  obtain ⟨nv2d, _, h⟩ := h
  obtain ⟨nv3d, _, h⟩ := h
  obtain ⟨nv3dt, _, h⟩ := h
  obtain ⟨neiph, _, h⟩ := h
  obtain ⟨neips, _, h⟩ := h
  obtain ⟨m36, h36, h⟩ := h
  obtain ⟨narbs, h39, h⟩ := h
  obtain ⟨io1, _, h⟩ := h
  obtain ⟨io2, _, h⟩ := h
  obtain ⟨io3, _, h⟩ := h
  obtain ⟨io4, _, h⟩ := h
  obtain ⟨idtdt, _, h⟩ := h
  obtain ⟨extra, h57, h⟩ := h
  obtain ⟨nmsph, h37, h⟩ := h
  obtain ⟨ngpsph, h38, h⟩ := h
  obtain ⟨ialemat, h47, h⟩ := h
  obtain ⟨nel20, _, h⟩ := h
  obtain ⟨_, hsph, h⟩ := h
  obtain ⟨_, hale, h⟩ := h
  obtain ⟨_, hth, h⟩ := h
  obtain ⟨_, hit, h⟩ := h
  obtain ⟨_, hi8, h⟩ := h
  subst h
  exact ⟨nel8, h23, rfl, rfl, h16, h28, h31, h51, h39⟩


/-! ## The failures of the loop over the shells -/

/-- When the words up to `hi` are what the entities take, a failure of the loop
is the failure of the body on an entity of the database, at the word the
entities before it have advanced the loop to. -/
theorem db_loop_error {α σ : Type} (body : Int → σ → α → Except Err (α × σ × Int)) (hi : Int)
    (adv : α → Int)
    (hstep : ∀ ii s x r, body ii s x = .ok r → r.2.2 = ii + adv x) :
    ∀ (xs : List α) (ii : Int) (s : σ) (e : Err),
      hi ≤ ii + (xs.map adv).sum → db_loop body hi ii s xs = .error e →
      ∃ (pre : List α) (x : α) (post : List α) (s1 : σ),
        xs = pre ++ x :: post ∧ ii + (pre.map adv).sum < hi ∧
        body (ii + (pre.map adv).sum) s1 x = .error e := by
  intro xs
  induction xs with
  | nil =>
    intro ii s e hsum h
    rw [db_loop_nil] at h
    simp only [List.map_nil, List.sum_nil, add_zero] at hsum
    rw [if_neg (by omega)] at h
    cases h
  | cons x rest ih =>
    intro ii s e hsum h
    simp only [List.map_cons, List.sum_cons] at hsum
    rw [db_loop] at h
    by_cases hlt : ii < hi
    · rw [if_pos hlt] at h
      cases hb : body ii s x with
      | error e1 =>
        rw [hb] at h
        simp only [Except.error.injEq] at h
        subst h
        exact ⟨[], x, rest, s, rfl, by simpa using hlt, by simpa using hb⟩
      | ok r =>
        rw [hb] at h
        simp only at h
        cases hl : db_loop body hi r.2.2 r.2.1 rest with
        | ok zs => rw [hl] at h; cases h
        | error e1 =>
          rw [hl] at h
          simp only [Except.error.injEq] at h
          subst h
          have hs := hstep _ _ _ _ hb
          obtain ⟨pre, y, post, s1, hsplit, hpos, hbody⟩ :=
            ih r.2.2 r.2.1 e1 (by rw [hs]; omega) hl
          refine ⟨x :: pre, y, post, s1, by rw [hsplit]; rfl, ?_, ?_⟩
          · simp only [List.map_cons, List.sum_cons]
            rw [hs] at hpos
            omega
          · simp only [List.map_cons, List.sum_cons]
            rw [hs] at hbody
            rw [← hbody]
            congr 1
            ring
    · rw [if_neg hlt] at h
      cases h

theorem getElem?_append_cons {α : Type} (pre : List α) (x : α) (post : List α) :
    (pre ++ x :: post)[pre.length]? = some x := by
  rw [List.getElem?_append_right (le_refl _)]
  simp

theorem take_append_cons {α : Type} (pre : List α) (x : α) (post : List α) :
    (pre ++ x :: post).take pre.length = pre := by
  simp

/-- A failure of `read_states_elem4` on a database that fits the header is a
failure of the decoding of the record of a shell of the database that is not
rigid, at the start of its record. -/
theorem read_states_elem4_error (fa : FloatArith) (iState : Nat) (d : D3plot) (e : Err)
    (h : d.read_states_elem4 fa iState = .error e) (hsh : Shape d) (hnv : 0 < d.ctrl.dyna_nv2d) :
    ∃ (j : Nat) (x : Element) (tmp : List F32),
      d.db_shells[j]? = some x ∧ x.is_rigid = false ∧
      D3plot.read_states_elem4_element fa d.ctrl d.plan d.buffer iState
        (shell_record_start d.ctrl d.wordPosition d.db_shells j) tmp x = .error e := by
  obtain ⟨_, _, _, s4, s5, s6, _, _⟩ := hsh
  unfold D3plot.read_states_elem4 at h
  rw [if_neg (fun hc => by omega)] at h
  simp only at h
  cases hl : D3plot.read_states_elem4_loop fa d.ctrl d.plan d.buffer iState
      (D3plot.elem4_start d.ctrl d.wordPosition
        + d.ctrl.dyna_nv2d * (d.ctrl.dyna_nel4 - d.ctrl.dyna_numrbe))
      (D3plot.elem4_start d.ctrl d.wordPosition) (List.replicate 6 D3plot.zero_f)
      d.db_shells with
  | ok ys => rw [hl] at h; cases h
  | error e1 =>
    rw [hl] at h
    simp only [Except.error.injEq] at h
    subst h
    unfold D3plot.read_states_elem4_loop at hl
    have htot := countP_not_rigid_add d.db_shells
    have h2 : (d.db_shells.length : Int) = d.ctrl.dyna_nel4 := by
      rw [s5]
      exact Int.toNat_of_nonneg s4
    have hsum : (d.db_shells.map
        (fun x : Element => if x.is_rigid = true then (0 : Int) else d.ctrl.dyna_nv2d)).sum
        = d.ctrl.dyna_nv2d * (d.ctrl.dyna_nel4 - d.ctrl.dyna_numrbe) := by
      rw [sum_map_not_rigid]
      congr 1
      omega
    obtain ⟨pre, x, post, tmp, hsplit, _, hb⟩ := db_loop_error _ _
      (fun x : Element => if x.is_rigid = true then (0 : Int) else d.ctrl.dyna_nv2d)
      (fun ii s x r hb => by
        rcases read_states_elem4_body_ok _ _ _ _ _ _ _ _ _ hb with ⟨h0, rfl⟩ | ⟨h0, et, _, rfl⟩
        · simp [h0]
        · simp [h0])
      _ _ _ _ (by rw [hsum]) hl
    have hr : x.is_rigid = false := by
      cases hx : x.is_rigid with
      | false => rfl
      | true =>
        unfold D3plot.read_states_elem4_body at hb
        simp [Element.get_is_rigid, hx] at hb
    refine ⟨pre.length, x, tmp, ?_, hr, ?_⟩
    · rw [hsplit]
      exact getElem?_append_cons pre x post
    · unfold D3plot.read_states_elem4_body at hb
      simp only [Element.get_is_rigid, hr, Bool.false_eq_true, if_false] at hb
      rw [sum_map_not_rigid] at hb
      have hpos : shell_record_start d.ctrl d.wordPosition d.db_shells pre.length
          = D3plot.elem4_start d.ctrl d.wordPosition
            + d.ctrl.dyna_nv2d * ((pre.countP (fun x => !x.is_rigid) : Nat) : Int) := by
        unfold shell_record_start
        rw [hsplit, take_append_cons]
      rw [hpos]
      split at hb
      · rename_i e2 he2
        simp only [Except.error.injEq] at hb
        rw [← hb]
        exact he2
      · cases hb

/-- A pass of `read_states_elem4` keeps the number of shells and every rigid
shell as it is. -/
theorem read_states_elem4_rigid (fa : FloatArith) (iState : Nat) (d d4 : D3plot)
    (h : d.read_states_elem4 fa iState = .ok d4) :
    d4.db_shells.length = d.db_shells.length ∧
    ∀ (j : Nat) (x : Element), d.db_shells[j]? = some x → x.is_rigid = true →
      d4.db_shells[j]? = some x := by
  obtain ⟨_, ph⟩ := read_states_elem4_ok fa iState d d4 h
  have hm : d4.db_shells.map Element.rigid_part = d.db_shells.map Element.rigid_part := by
    rcases ph with ⟨_, hl⟩ | ⟨_, he⟩
    · unfold D3plot.read_states_elem4_loop at hl
      exact db_loop_map _ _ Element.rigid_part
        (fun ii s x r hb => read_states_elem4_body_rigid_part _ _ _ _ _ _ _ _ _ hb) _ _ _ _ hl
    · rw [he]
  have hlen := congrArg List.length hm
  simp only [List.length_map] at hlen
  refine ⟨hlen, ?_⟩
  intro j x hx hr
  have h1 : (d.db_shells.map Element.rigid_part)[j]? = some (some x) := by
    rw [List.getElem?_map, hx]
    simp [Element.rigid_part, hr]
  rw [← hm, List.getElem?_map] at h1
  cases hy : d4.db_shells[j]? with
  | none => rw [hy] at h1; cases h1
  | some y =>
    rw [hy] at h1
    simp only [Option.map_some', Option.some.injEq] at h1
    unfold Element.rigid_part at h1
    split at h1
    · rw [Option.some.inj h1]
    · cases h1

/-! ## The timestep table over a sequence of calls -/

theorem read_states_calls_timesteps (fa : FloatArith) :
    ∀ (calls : List (Nat × List String)) (d d2 : D3plot), d.timesteps ≠ [] →
      D3plot.read_states_calls fa calls d = .ok d2 →
      d2.timesteps = d.timesteps ∧ d2.wordPositionStates = d.wordPositionStates := by
  intro calls
  induction calls with
  | nil =>
    intro d d2 _ hc
    simp only [D3plot.read_states_calls, Except.ok.injEq] at hc
    subst hc
    exact ⟨rfl, rfl⟩
  | cons call calls ih =>
    intro d d2 ht hc
    rw [D3plot.read_states_calls] at hc
    cases hx : D3plot.read_states fa call.1 call.2 d with
    | error e => simp [hx] at hc
    | ok d3 =>
      simp only [hx] at hc
      obtain ⟨_, _, _, _, _, _, t3, _, _⟩ := read_states_frame fa call.1 call.2 d d3 hx
      obtain ⟨q1, q2⟩ := t3 ht
      obtain ⟨q3, q4⟩ := ih d3 d2 (by rw [q1]; exact ht) hc
      exact ⟨q3.trans q1, q4.trans q2⟩


/-! ## The booleans of `clear` -/

/-- One step of the loop of `clear` over the strings: the booleans of the
kinds the string names are set, and a string that names none is refused. -/
theorem clear_flags_cons (f : D3plot.ClearFlags) (v : String) (vs : List String) :
    D3plot.clear_flags f (v :: vs)
      = (match clear_kinds v with
        | none => Except.error (Err.invalid_argument "Unknown variable type")
        | some ks => D3plot.clear_flags (ks.foldl ClearKind.mark f) vs) := by
  rw [D3plot.clear_flags]
  unfold clear_kinds Var.classify_clear
  by_cases c0 : D3plot.str_contains v "disp" = true
  · simp only [c0, if_true]; rfl
  by_cases c1 : D3plot.str_contains v "vel" = true
  · simp only [c0, c1, if_true, if_false]; rfl
  by_cases c2 : D3plot.str_contains v "accel" = true
  · simp only [c0, c1, c2, if_true, if_false]; rfl
  by_cases c3 : D3plot.str_contains v "energy" = true
  · simp only [c0, c1, c2, c3, if_true, if_false]; rfl
  by_cases c4 : D3plot.str_contains v "plastic_strain" = true
  · simp only [c0, c1, c2, c3, c4, if_true, if_false]; rfl
  by_cases c5 : D3plot.str_contains v "strain" = true
  · simp only [c0, c1, c2, c3, c4, c5, if_true, if_false]; rfl
  by_cases c6 : D3plot.str_contains v "stress_mises" = true
  · simp only [c0, c1, c2, c3, c4, c5, c6, if_true, if_false]; rfl
  by_cases c7 : D3plot.str_contains v "stress" = true
  · simp only [c0, c1, c2, c3, c4, c5, c6, c7, if_true, if_false]; rfl
  simp only [c0, c1, c2, c3, c4, c5, c6, c7, if_false, Bool.false_eq_true]
  by_cases c8 : D3plot.str_contains v "history" = true
  · simp only [c8, if_true]
    by_cases c9 : D3plot.str_contains v "shell" = true
    · simp only [c9, if_true]; rfl
    by_cases c10 : D3plot.str_contains v "solid" = true
    · simp only [c9, c10, if_true, if_false, Bool.false_eq_true]; rfl
    · simp only [c9, c10, if_false, Bool.false_eq_true]; rfl
  · simp only [c8, if_false, Bool.false_eq_true]

theorem ClearKind.flag_mark (f : D3plot.ClearFlags) (k j : ClearKind) :
    j.flag (ClearKind.mark f k) = true ↔ j.flag f = true ∨ j = k := by
  cases k <;> cases j <;> simp [ClearKind.flag, ClearKind.mark]

theorem ClearKind.flag_foldl_mark (ks : List ClearKind) :
    ∀ (f : D3plot.ClearFlags) (j : ClearKind),
      j.flag (ks.foldl ClearKind.mark f) = true ↔ j.flag f = true ∨ j ∈ ks := by
  induction ks with
  | nil => intro f j; simp
  | cons k ks ih =>
    intro f j
    rw [List.foldl_cons, ih, ClearKind.flag_mark]
    simp only [List.mem_cons]
    tauto

/-- The booleans after the loop of `clear`: every string names a kind, and the
boolean of a kind is set exactly when it was set before or a string names the
kind. -/
theorem clear_flags_spec :
    ∀ (vs : List String) (f g : D3plot.ClearFlags), D3plot.clear_flags f vs = .ok g →
      (∀ s ∈ vs, ∃ ks, clear_kinds s = some ks) ∧
      ∀ j : ClearKind, j.flag g = true ↔
        j.flag f = true ∨ ∃ s ∈ vs, ∃ ks, clear_kinds s = some ks ∧ j ∈ ks := by
  intro vs
  induction vs with
  | nil =>
    intro f g h
    simp only [D3plot.clear_flags, Except.ok.injEq] at h
    subst h
    simp
  | cons v vs ih =>
    intro f g h
    rw [clear_flags_cons] at h
    cases hk : clear_kinds v with
    | none => rw [hk] at h; cases h
    | some ks =>
      rw [hk] at h
      simp only at h
      obtain ⟨a1, a2⟩ := ih _ g h
      refine ⟨?_, ?_⟩
      · intro s hs
        rcases List.mem_cons.mp hs with rfl | hs
        · exact ⟨ks, hk⟩
        · exact a1 s hs
      · intro j
        rw [a2 j, ClearKind.flag_foldl_mark]
        constructor
        · rintro ((h1 | h1) | ⟨s, hs, ks2, hk2, hj⟩)
          · exact Or.inl h1
          · exact Or.inr ⟨v, List.mem_cons_self _ _, ks, hk, h1⟩
          · exact Or.inr ⟨s, List.mem_cons_of_mem _ hs, ks2, hk2, hj⟩
        · rintro (h1 | ⟨s, hs, ks2, hk2, hj⟩)
          · exact Or.inl (Or.inl h1)
          · rcases List.mem_cons.mp hs with rfl | hs
            · rw [hk] at hk2
              cases hk2
              exact Or.inl (Or.inr hj)
            · exact Or.inr ⟨s, hs, ks2, hk2, hj⟩

/-- The loop of `clear` accepts every list of strings that name a kind. -/
theorem clear_flags_accepts :
    ∀ (vs : List String) (f : D3plot.ClearFlags), (∀ s ∈ vs, ∃ ks, clear_kinds s = some ks) →
      ∃ g, D3plot.clear_flags f vs = .ok g := by
  intro vs
  induction vs with
  | nil => intro f _; exact ⟨f, rfl⟩
  | cons v vs ih =>
    intro f h
    obtain ⟨ks, hk⟩ := h v (List.mem_cons_self _ _)
    rw [clear_flags_cons, hk]
    exact ih _ (fun s hs => h s (List.mem_cons_of_mem _ hs))

theorem ClearKind.flag_start (j : ClearKind) : j.flag D3plot.ClearFlags.init = false := by
  cases j <;> rfl

/-! ## The deletion of `clear` -/

theorem clear_node_fields (f : D3plot.ClearFlags) (n : Node) :
    (D3plot.clear_node f n).nodeID = n.nodeID ∧ (D3plot.clear_node f n).coords = n.coords ∧
    (D3plot.clear_node f n).disp = (if f.delete_disp = true then [] else n.disp) ∧
    (D3plot.clear_node f n).vel = (if f.delete_vel = true then [] else n.vel) ∧
    (D3plot.clear_node f n).accel = (if f.delete_accel = true then [] else n.accel) := by
  unfold D3plot.clear_node
  cases f.delete_disp <;> cases f.delete_vel <;> cases f.delete_accel <;>
    exact ⟨rfl, rfl, rfl, rfl, rfl⟩

theorem clear_element_fields (f : D3plot.ClearFlags) (hist : Bool) (e : Element) :
    (D3plot.clear_element f hist e).static = e.static ∧
    (D3plot.clear_element f hist e).energy = (if f.delete_energy = true then [] else e.energy) ∧
    (D3plot.clear_element f hist e).plastic_strain
      = (if f.delete_plastic_strain = true then [] else e.plastic_strain) ∧
    (D3plot.clear_element f hist e).strain = (if f.delete_strain = true then [] else e.strain) ∧
    (D3plot.clear_element f hist e).stress = (if f.delete_stress = true then [] else e.stress) ∧
    (D3plot.clear_element f hist e).stress_mises
      = (if f.delete_stress_mises = true then [] else e.stress_mises) ∧
    (D3plot.clear_element f hist e).history_vars
      = (if hist = true then [] else e.history_vars) := by
  unfold D3plot.clear_element
  cases f.delete_energy <;> cases f.delete_plastic_strain <;> cases f.delete_strain <;>
    cases f.delete_stress <;> cases f.delete_stress_mises <;> cases hist <;>
    exact ⟨rfl, rfl, rfl, rfl, rfl, rfl, rfl⟩

/-- The result vector of a kind on a node after the deletion. -/
theorem ClearKind.on_node_clear (f : D3plot.ClearFlags) (k : ClearKind) (n : Node) :
    k.on_node (D3plot.clear_node f n) = (if k.flag f = true then [] else k.on_node n) := by
  obtain ⟨_, _, h1, h2, h3⟩ := clear_node_fields f n
  cases k with
  | disp => exact h1
  | vel => exact h2
  | accel => exact h3
  | energy => exact (ite_self _).symm
  | plastic_strain => exact (ite_self _).symm
  | strain => exact (ite_self _).symm
  | stress => exact (ite_self _).symm
  | stress_mises => exact (ite_self _).symm
  | history_shell => exact (ite_self _).symm
  | history_solid => exact (ite_self _).symm

/-- The result vector of a kind on an element of the family with the history
kind `hist` after the deletion. -/
theorem ClearKind.on_element_clear (f : D3plot.ClearFlags) (hist k : ClearKind) (e : Element)
    (hh : hist = ClearKind.history_shell ∨ hist = ClearKind.history_solid) :
    ClearKind.on_element hist k (D3plot.clear_element f (hist.flag f) e)
      = (if k.flag f = true then [] else ClearKind.on_element hist k e) := by
  obtain ⟨_, h1, h2, h3, h4, h5, h6⟩ := clear_element_fields f (hist.flag f) e
  cases k with
  | disp => exact (ite_self _).symm
  | vel => exact (ite_self _).symm
  | accel => exact (ite_self _).symm
  | energy =>
    show (D3plot.clear_element f (hist.flag f) e).energy.map (fun x => [x])
      = if f.delete_energy = true then [] else e.energy.map (fun x => [x])
    rw [h1]
    split <;> rfl
  | plastic_strain =>
    show (D3plot.clear_element f (hist.flag f) e).plastic_strain.map (fun x => [x])
      = if f.delete_plastic_strain = true then [] else e.plastic_strain.map (fun x => [x])
    rw [h2]
    split <;> rfl
  | strain =>
    show (D3plot.clear_element f (hist.flag f) e).strain
      = if f.delete_strain = true then [] else e.strain
    exact h3
  | stress =>
    show (D3plot.clear_element f (hist.flag f) e).stress
      = if f.delete_stress = true then [] else e.stress
    exact h4
  | stress_mises =>
    show (D3plot.clear_element f (hist.flag f) e).stress_mises.map (fun x => [x])
      = if f.delete_stress_mises = true then [] else e.stress_mises.map (fun x => [x])
    rw [h5]
    split <;> rfl
  | history_shell =>
    show (if hist = ClearKind.history_shell
        then (D3plot.clear_element f (hist.flag f) e).history_vars else [])
      = if f.delete_history_shell = true then []
        else (if hist = ClearKind.history_shell then e.history_vars else [])
    rcases hh with hq | hq
    · rw [if_pos hq, if_pos hq, h6, hq]
      rfl
    · have hne : ¬ hist = ClearKind.history_shell := by rw [hq]; decide
      rw [if_neg hne, if_neg hne, ite_self]
  | history_solid =>
    show (if hist = ClearKind.history_solid
        then (D3plot.clear_element f (hist.flag f) e).history_vars else [])
      = if f.delete_history_solid = true then []
        else (if hist = ClearKind.history_solid then e.history_vars else [])
    rcases hh with hq | hq
    · have hne : ¬ hist = ClearKind.history_solid := by rw [hq]; decide
      rw [if_neg hne, if_neg hne, ite_self]
    · rw [if_pos hq, if_pos hq, h6, hq]
      rfl

/-- Without a node kind named the deletion leaves a node as it is. -/
theorem clear_node_id (f : D3plot.ClearFlags)
    (h : ¬ (f.delete_disp = true ∨ f.delete_vel = true ∨ f.delete_accel = true))
    (ns : List Node) : ns.map (D3plot.clear_node f) = ns := by
  simp only [not_or, Bool.not_eq_true] at h
  obtain ⟨h1, h2, h3⟩ := h
  have e : D3plot.clear_node f = id := by
    funext n
    unfold D3plot.clear_node
    simp [h1, h2, h3]
  rw [e, List.map_id]

/-- Without an element kind named the deletion leaves an element as it is. -/
theorem clear_element_id (f : D3plot.ClearFlags) (hb : Bool) (hh : hb = false)
    (h1 : f.delete_energy = false) (h2 : f.delete_plastic_strain = false)
    (h3 : f.delete_strain = false) (h4 : f.delete_stress = false)
    (h5 : f.delete_stress_mises = false)
    (es : List Element) : es.map (D3plot.clear_element f hb) = es := by
  have e : D3plot.clear_element f hb = id := by
    funext n
    unfold D3plot.clear_element
    simp [h1, h2, h3, h4, h5, hh]
  rw [e, List.map_id]

/-- The loaded-flags after the node part of `clear`. -/
theorem clear_loaded_spec (f : D3plot.ClearFlags) (l : Loaded) (k : ClearKind) :
    k.loaded
      { plastic_strain_is_read :=
          if f.delete_plastic_strain then false else l.plastic_strain_is_read,
        energy_is_read := if f.delete_energy then false else l.energy_is_read,
        strain_is_read := if f.delete_strain then false else l.strain_is_read,
        stress_is_read := if f.delete_stress then false else l.stress_is_read,
        stress_mises_is_read := if f.delete_stress_mises then false else l.stress_mises_is_read,
        disp_is_read := if f.delete_disp then false else l.disp_is_read,
        acc_is_read := if f.delete_accel then false else l.acc_is_read,
        vel_is_read := if f.delete_vel then false else l.vel_is_read,
        history_shell_is_read := if f.delete_history_shell then [] else l.history_shell_is_read,
        history_solid_is_read := if f.delete_history_solid then [] else l.history_solid_is_read }
      = (if k.flag f = true then (false, []) else k.loaded l) := by
  cases k <;> simp only [ClearKind.loaded, ClearKind.flag] <;> split <;> rfl

/-- The deletion part of `clear` in one record. -/
theorem clear_apply_eq (f : D3plot.ClearFlags) (d : D3plot) :
    D3plot.clear_apply f d =
      { d with
        db_nodes := d.db_nodes.map (D3plot.clear_node f),
        db_shells := d.db_shells.map (D3plot.clear_element f f.delete_history_shell),
        db_solids := d.db_solids.map (D3plot.clear_element f f.delete_history_solid),
        loaded :=
          { plastic_strain_is_read :=
              if f.delete_plastic_strain then false else d.loaded.plastic_strain_is_read,
            energy_is_read := if f.delete_energy then false else d.loaded.energy_is_read,
            strain_is_read := if f.delete_strain then false else d.loaded.strain_is_read,
            stress_is_read := if f.delete_stress then false else d.loaded.stress_is_read,
            stress_mises_is_read :=
              if f.delete_stress_mises then false else d.loaded.stress_mises_is_read,
            disp_is_read := if f.delete_disp then false else d.loaded.disp_is_read,
            acc_is_read := if f.delete_accel then false else d.loaded.acc_is_read,
            vel_is_read := if f.delete_vel then false else d.loaded.vel_is_read,
            history_shell_is_read :=
              if f.delete_history_shell then [] else d.loaded.history_shell_is_read,
            history_solid_is_read :=
              if f.delete_history_solid then [] else d.loaded.history_solid_is_read } } := by
  unfold D3plot.clear_apply
  by_cases g1 : (f.delete_disp = true ∨ f.delete_vel = true ∨ f.delete_accel = true)
  · by_cases g2 : (f.delete_energy = true ∨ f.delete_plastic_strain = true ∨
        f.delete_strain = true ∨ f.delete_stress = true ∨ f.delete_stress_mises = true ∨
        f.delete_history_shell = true ∨ f.delete_history_solid = true)
    · simp only [if_pos g1, if_pos g2]
    · simp only [if_pos g1, if_neg g2]
      simp only [not_or, Bool.not_eq_true] at g2
      obtain ⟨h1, h2, h3, h4, h5, h6, h7⟩ := g2
      rw [clear_element_id f _ h6 h1 h2 h3 h4 h5, clear_element_id f _ h7 h1 h2 h3 h4 h5]
      simp [h1, h2, h3, h4, h5, h6, h7]
  · by_cases g2 : (f.delete_energy = true ∨ f.delete_plastic_strain = true ∨
        f.delete_strain = true ∨ f.delete_stress = true ∨ f.delete_stress_mises = true ∨
        f.delete_history_shell = true ∨ f.delete_history_solid = true)
    · simp only [if_neg g1, if_pos g2]
      rw [clear_node_id f g1]
      simp only [not_or, Bool.not_eq_true] at g1
      obtain ⟨h1, h2, h3⟩ := g1
      simp [h1, h2, h3]
    · simp only [if_neg g1, if_neg g2]
      rw [clear_node_id f g1]
      simp only [not_or, Bool.not_eq_true] at g1 g2
      obtain ⟨h1, h2, h3, h4, h5, h6, h7⟩ := g2
      obtain ⟨h8, h9, h10⟩ := g1
      rw [clear_element_id f _ h6 h1 h2 h3 h4 h5, clear_element_id f _ h7 h1 h2 h3 h4 h5]
      simp [h1, h2, h3, h4, h5, h6, h7, h8, h9, h10]

/-- The reader after the deletion part of `clear`. -/
theorem clear_apply_fields (f : D3plot.ClearFlags) (d : D3plot) :
    (D3plot.clear_apply f d).db_nodes = d.db_nodes.map (D3plot.clear_node f) ∧
    (D3plot.clear_apply f d).db_shells
      = d.db_shells.map (D3plot.clear_element f (ClearKind.history_shell.flag f)) ∧
    (D3plot.clear_apply f d).db_solids
      = d.db_solids.map (D3plot.clear_element f (ClearKind.history_solid.flag f)) ∧
    (∀ k : ClearKind, k.loaded (D3plot.clear_apply f d).loaded
      = (if k.flag f = true then (false, []) else k.loaded d.loaded)) ∧
    (D3plot.clear_apply f d).ctrl = d.ctrl ∧ (D3plot.clear_apply f d).plan = d.plan ∧
    (D3plot.clear_apply f d).wordPosition = d.wordPosition ∧
    (D3plot.clear_apply f d).wordPositionStates = d.wordPositionStates ∧
    (D3plot.clear_apply f d).useFemzip = d.useFemzip ∧
    (D3plot.clear_apply f d).timesteps = d.timesteps ∧
    (D3plot.clear_apply f d).buffer = d.buffer ∧
    (D3plot.clear_apply f d).db_beams = d.db_beams ∧
    (D3plot.clear_apply f d).db_parts = d.db_parts := by
  rw [clear_apply_eq]
  exact ⟨rfl, rfl, rfl, clear_loaded_spec f d.loaded, rfl, rfl, rfl, rfl, rfl, rfl, rfl, rfl, rfl⟩

/-! ## Arithmetic in `int32_t` -/

theorem wrap32_range (x : Int) : -2147483648 ≤ wrap32 x ∧ wrap32 x < 2147483648 := by
  unfold wrap32 int32_of_word
  split <;> omega

theorem wrap32_modEq (x : Int) : wrap32 x ≡ x [ZMOD 4294967296] := by
  unfold Int.ModEq wrap32 int32_of_word
  split <;> omega

theorem wrap32_of_range (x : Int) (h1 : -2147483648 ≤ x) (h2 : x < 2147483648) :
    wrap32 x = x := by
  unfold wrap32 int32_of_word
  split <;> omega

theorem wrap32_congr (x y : Int) (h : x ≡ y [ZMOD 4294967296]) : wrap32 x = wrap32 y := by
  unfold Int.ModEq at h
  unfold wrap32
  rw [h]

/-- The expression of `read_header` for `istrn`, evaluated operation by
operation in `int32_t`, is the wrap-around of its mathematical value. -/
theorem istrn_expression_wrap (nv2d maxint i1 i2 i3 i4 neips : Int) :
    add32 (add32 (sub32 nv2d (mul32 maxint (add32 (add32 (mul32 6 i1) i2) neips)))
        (mul32 8 i3)) (mul32 4 i4)
      = wrap32 (nv2d - maxint * (6 * i1 + i2 + neips) + 8 * i3 + 4 * i4) := by
  unfold add32 sub32 mul32
  apply wrap32_congr
  have a1 := wrap32_modEq (6 * i1)
  have a2 := wrap32_modEq (wrap32 (6 * i1) + i2)
  have a3 := wrap32_modEq (wrap32 (wrap32 (6 * i1) + i2) + neips)
  have a4 := wrap32_modEq (maxint * wrap32 (wrap32 (wrap32 (6 * i1) + i2) + neips))
  have a5 := wrap32_modEq
    (nv2d - wrap32 (maxint * wrap32 (wrap32 (wrap32 (6 * i1) + i2) + neips)))
  have a6 := wrap32_modEq (8 * i3)
  have a7 := wrap32_modEq (wrap32
    (nv2d - wrap32 (maxint * wrap32 (wrap32 (wrap32 (6 * i1) + i2) + neips))) + wrap32 (8 * i3))
  have a8 := wrap32_modEq (4 * i4)
  have b2 : wrap32 (wrap32 (6 * i1) + i2) ≡ 6 * i1 + i2 [ZMOD 4294967296] :=
    a2.trans (a1.add_right i2)
  have b3 : wrap32 (wrap32 (wrap32 (6 * i1) + i2) + neips) ≡ 6 * i1 + i2 + neips
      [ZMOD 4294967296] := a3.trans (b2.add_right neips)
  have b4 : wrap32 (maxint * wrap32 (wrap32 (wrap32 (6 * i1) + i2) + neips))
      ≡ maxint * (6 * i1 + i2 + neips) [ZMOD 4294967296] := a4.trans (b3.mul_left maxint)
  have b5 := a5.trans ((Int.ModEq.refl nv2d).sub b4)
  have b7 := a7.trans (b5.add a6)
  exact b7.add a8

/-! ## Whether a state decodes does not depend on the results held -/

theorem SegmentStates.congr (fa : FloatArith) (g : D3plot) (p : ReadPlan) (b c : Buffer)
    (start len : Int) (k : Nat) (h : b.current = c.current)
    (hs : SegmentStates fa g p b start len k) : SegmentStates fa g p c start len k := by
  obtain ⟨h1, h2⟩ := hs
  refine ⟨fun j hj => ?_, ?_⟩
  · obtain ⟨a1, a2⟩ := h1 j hj
    rw [Buffer.read_float_congr _ _ h] at a1
    rw [h] at a2
    exact ⟨a1, a2⟩
  · rw [Buffer.read_float_congr _ _ h] at h2
    exact h2

set_option maxRecDepth 100000 in
/-- C1 (counterexample): `fileD` has one solid (`nv3d = 7`), no beam and one
shell (`nv2d = 11`, not rigid); the state record starts at word 116 and the
node block ends at record offset `1 + nglbv + (iu + iv + ia) * numnp * ndim
= 4`.  The stress of the solid is made of the words at the record offsets
4 .. 9 (201 .. 206), not of those at `4 + nv1d * nel2 + nv2d * (nel4 - numrbe)
= 15`, and the stress of the shell is made of the words at the offsets
11 .. 16 (301 .. 306), not of those at `4 + nv1d * nel2 = 4`. -/
theorem element_blocks_counterexample :
    ∃ d, D3plot.new sample_arith 5 bufD ["stress"] false = .ok d ∧
      d.wordPositionStates = 116 ∧
      1 + d.ctrl.dyna_nglbv
        + (d.ctrl.dyna_iu + d.ctrl.dyna_iv + d.ctrl.dyna_ia) * d.ctrl.dyna_numnp
          * d.ctrl.dyna_ndim = 4 ∧
      d.ctrl.dyna_nv1d * d.ctrl.dyna_nel2 = 0 ∧
      d.ctrl.dyna_nv2d * (d.ctrl.dyna_nel4 - d.ctrl.dyna_numrbe) = 11 ∧
      d.db_solids.map Element.stress = [[[⟨201⟩, ⟨202⟩, ⟨203⟩, ⟨204⟩, ⟨205⟩, ⟨206⟩]]] ∧
      d.db_shells.map Element.stress = [[[⟨301⟩, ⟨302⟩, ⟨303⟩, ⟨304⟩, ⟨305⟩, ⟨306⟩]]] ∧
      ({ bufD with current := segD } : Buffer).read_float_array (116 + 4) 6
        = .ok [⟨201⟩, ⟨202⟩, ⟨203⟩, ⟨204⟩, ⟨205⟩, ⟨206⟩] ∧
      ({ bufD with current := segD } : Buffer).read_float_array (116 + 15) 6
        = .ok [⟨305⟩, ⟨306⟩, ⟨307⟩, ⟨308⟩, ⟨309⟩, ⟨310⟩] ∧
      ({ bufD with current := segD } : Buffer).read_float_array (116 + 11) 6
        = .ok [⟨301⟩, ⟨302⟩, ⟨303⟩, ⟨304⟩, ⟨305⟩, ⟨306⟩] :=
  ⟨_, rfl, rfl, rfl, rfl, rfl, rfl, rfl, rfl, rfl, rfl⟩

theorem read_states_elem4_loop_first (fa : FloatArith) (c : Control) (p : ReadPlan)
    (b : Buffer) (i : Nat) (hi st : Int) (tmp : List F32) (hlt : st < hi) :
    ∀ (pre : List Element) (e : Element) (es xs1 : List Element),
      (∀ x ∈ pre, x.is_rigid = true) → e.is_rigid = false →
      D3plot.read_states_elem4_loop fa c p b i hi st tmp (pre ++ e :: es) = .ok xs1 →
      ∃ et es1, D3plot.read_states_elem4_element fa c p b i st tmp e = .ok et ∧
        xs1 = pre ++ et.1 :: es1 := by
  intro pre
  induction pre with
  | nil =>
    intro e es xs1 _ hr h
    unfold D3plot.read_states_elem4_loop at h
    simp only [List.nil_append] at h
    rw [db_loop_cons_ok] at h
    rcases h with ⟨_, r, zs, hb, _, rfl⟩ | ⟨hge, _⟩
    · rcases read_states_elem4_body_ok _ _ _ _ _ _ _ _ _ hb with ⟨h0, _⟩ | ⟨_, et, het, rfl⟩
      · rw [hr] at h0; cases h0
      · exact ⟨et, zs, het, rfl⟩
    · exact absurd hlt hge
  | cons x pre ih =>
    intro e es xs1 hpre hr h
    unfold D3plot.read_states_elem4_loop at h
    simp only [List.cons_append] at h
    rw [db_loop_cons_ok] at h
    rcases h with ⟨_, r, zs, hb, hl, rfl⟩ | ⟨hge, _⟩
    · rcases read_states_elem4_body_ok _ _ _ _ _ _ _ _ _ hb with ⟨_, rfl⟩ | ⟨h0, _⟩
      · obtain ⟨et, es1, het, rfl⟩ := ih e es zs
          (fun y hy => hpre y (List.mem_cons_of_mem _ hy)) hr hl
        exact ⟨et, es1, het, rfl⟩
      · rw [hpre x (List.mem_cons_self _ _)] at h0; cases h0
    · exact absurd hlt hge

/-- C1 (amended): within one state record the element blocks follow the node
block in the order solid, beam, shell.  `read_states_elem8` reads the solid
block from the record offset `1 + nglbv + (iu + iv + ia) * numnp * ndim` on:
that is where the record of the first solid is decoded.  `read_states_elem4`
reads the shell block from that offset plus `nv3d * nel8 + nv1d * nel2` on:
that is where the record of the first shell that is not rigid is decoded. -/
theorem element_blocks_start (fa : FloatArith) (iState : Nat) (d : D3plot) :
    (∀ (d8 : D3plot) (e : Element) (es : List Element),
      D3plot.read_states_elem8 fa iState d = .ok d8 → d.db_solids = e :: es →
      0 < d.ctrl.dyna_nv3d → 0 < d.ctrl.dyna_nel8 →
      ∃ e1 es1, d8.db_solids = e1 :: es1 ∧
        D3plot.read_states_elem8_element fa d.ctrl d.plan d.buffer iState
          (d.wordPosition + (1 + d.ctrl.dyna_nglbv
            + (d.ctrl.dyna_iu + d.ctrl.dyna_iv + d.ctrl.dyna_ia) * d.ctrl.dyna_numnp
              * d.ctrl.dyna_ndim)) e = .ok e1) ∧
    (∀ (d4 : D3plot) (pre : List Element) (e : Element) (es : List Element),
      D3plot.read_states_elem4 fa iState d = .ok d4 → d.db_shells = pre ++ e :: es →
      (∀ x ∈ pre, x.is_rigid = true) → e.is_rigid = false →
      0 < d.ctrl.dyna_nv2d → 0 < d.ctrl.dyna_nel4 - d.ctrl.dyna_numrbe →
      ∃ et es1, d4.db_shells = pre ++ et.1 :: es1 ∧
        D3plot.read_states_elem4_element fa d.ctrl d.plan d.buffer iState
          (d.wordPosition + (1 + d.ctrl.dyna_nglbv
            + (d.ctrl.dyna_iu + d.ctrl.dyna_iv + d.ctrl.dyna_ia) * d.ctrl.dyna_numnp
              * d.ctrl.dyna_ndim + d.ctrl.dyna_nv3d * d.ctrl.dyna_nel8
            + d.ctrl.dyna_nv1d * d.ctrl.dyna_nel2))
          (List.replicate 6 D3plot.zero_f) e = .ok et) := by
  refine ⟨?_, ?_⟩
  · intro d8 e es h hs h1 h2
    obtain ⟨_, ph⟩ := read_states_elem8_ok fa iState d d8 h
    rcases ph with ⟨_, hl⟩ | ⟨hn, _⟩
    · unfold D3plot.read_states_elem8_loop at hl
      rw [hs, db_loop_cons_ok] at hl
      rcases hl with ⟨_, r, zs, hb, _, e2⟩ | ⟨hge, _⟩
      · obtain ⟨e1, he1, rfl⟩ := read_states_elem8_body_ok _ _ _ _ _ _ _ _ _ hb
        refine ⟨e1, zs, e2, ?_⟩
        rw [← he1]
        congr 1
        unfold D3plot.elem8_start
        ring
      · exact absurd (by nlinarith [mul_pos h1 h2]) hge
    · exact absurd (fun hc => by omega) hn
  · intro d4 pre e es h hs hpre hr h1 h2
    obtain ⟨_, ph⟩ := read_states_elem4_ok fa iState d d4 h
    rcases ph with ⟨_, hl⟩ | ⟨hn, _⟩
    · rw [hs] at hl
      obtain ⟨et, es1, het, e2⟩ := read_states_elem4_loop_first fa _ _ _ iState _ _ _
        (by nlinarith [mul_pos h1 h2]) pre e es _ hpre hr hl
      refine ⟨et, es1, e2, ?_⟩
      rw [← het]
      congr 1
      unfold D3plot.elem4_start
      ring
    · exact absurd (fun hc => by omega) hn

set_option maxRecDepth 100000 in
/-- C1 (amended) on `fileD`: on the reader that stands at the state record at
word 116 with the stress in its plan, the solid is decoded at word
`116 + 4` and the shell at word `116 + 4 + 7 * 1 + 0`. -/
theorem element_blocks_start_witness :
    ∃ g d8 d4 e1 et,
      D3plot.open_geometry bufD false = .ok g ∧
      D3plot.read_states_elem8 sample_arith 0
        { g with buffer := { g.buffer with current := segD },
                 plan := { ReadPlan.init with stress_read := 6 } } = .ok d8 ∧
      D3plot.read_states_elem4 sample_arith 0
        { g with buffer := { g.buffer with current := segD },
                 plan := { ReadPlan.init with stress_read := 6 } } = .ok d4 ∧
      d8.db_solids = [e1] ∧ e1.stress = [[⟨201⟩, ⟨202⟩, ⟨203⟩, ⟨204⟩, ⟨205⟩, ⟨206⟩]] ∧
      d4.db_shells = [et] ∧ et.stress = [[⟨301⟩, ⟨302⟩, ⟨303⟩, ⟨304⟩, ⟨305⟩, ⟨306⟩]] := by
  have h0 : ∃ g d8 d4 e e' , D3plot.open_geometry bufD false = .ok g ∧
      D3plot.read_states_elem8 sample_arith 0
        { g with buffer := { g.buffer with current := segD },
                 plan := { ReadPlan.init with stress_read := 6 } } = .ok d8 ∧
      D3plot.read_states_elem4 sample_arith 0
        { g with buffer := { g.buffer with current := segD },
                 plan := { ReadPlan.init with stress_read := 6 } } = .ok d4 ∧
      g.db_solids = [e] ∧ g.db_shells = [e'] ∧ e'.is_rigid = false ∧
      g.ctrl.dyna_nv3d = 7 ∧ g.ctrl.dyna_nel8 = 1 ∧ g.ctrl.dyna_nv2d = 11 ∧
      g.ctrl.dyna_nel4 = 1 ∧ g.ctrl.dyna_numrbe = 0 ∧
      d8.db_solids.map Element.stress = [[[⟨201⟩, ⟨202⟩, ⟨203⟩, ⟨204⟩, ⟨205⟩, ⟨206⟩]]] ∧
      d4.db_shells.map Element.stress = [[[⟨301⟩, ⟨302⟩, ⟨303⟩, ⟨304⟩, ⟨305⟩, ⟨306⟩]]] :=
    ⟨_, _, _, _, _, rfl, rfl, rfl, rfl, rfl, rfl, rfl, rfl, rfl, rfl, rfl, rfl, rfl⟩
  obtain ⟨g, d8, d4, e, e', hg, h8, h4, hs, hsh, hr, n1, n2, n3, n4, n5, s8, s4⟩ := h0
  obtain ⟨k8, k4⟩ := element_blocks_start sample_arith 0
    { g with buffer := { g.buffer with current := segD },
             plan := { ReadPlan.init with stress_read := 6 } }
  obtain ⟨e1, es1, q1, _⟩ := k8 d8 e [] h8 hs (by simp only [n1]; decide)
    (by simp only [n2]; decide)
  obtain ⟨et, es4, q4, _⟩ := k4 d4 [] e' [] h4 (by simpa using hsh) (by simp) hr
    (by simp only [n3]; decide) (by simp only [n4, n5]; decide)
  rw [q1] at s8
  rw [q4] at s4
  simp only [List.map_cons, List.nil_append, List.cons.injEq, List.map_eq_nil_iff] at s8 s4
  obtain ⟨a1, a2⟩ := s8
  obtain ⟨b1, b2⟩ := s4
  subst a2 b2
  exact ⟨g, d8, d4, e1, et.1, hg, h8, h4, q1, a1, by simpa using q4, b1⟩

/-! ## C2: the displacements of the first segment -/

set_option maxRecDepth 100000 in
/-- C4 (code bug): on `fileB` the numbering block starts at word 67 with
`nsrh = 1`, `nsrb = 5` and `nel8 = 0`, so `nsrb = nsrh + nel8` is violated;
`read_geometry_numbering` still succeeds on the reader that stands there, and
the constructor accepts the whole file. -/
theorem read_geometry_numbering_accepts_wrong_nsrb :
    ∃ d0 r d,
      d0 = { D3plot.init bufB.read_geometryBuffer false with
              ctrl := { Control.init with
                dyna_narbs := 11, dyna_numnp := 1, dyna_nel8 := 0, dyna_nel2 := 0,
                dyna_nel4 := 0, dyna_nelth := 0, dyna_nmmat := 0, dyna_nummat2 := 0,
                dyna_nummat4 := 0, dyna_nummat8 := 0, dyna_nummatth := 0, dyna_nel48 := 0,
                dyna_extra := 0, dyna_nel20 := 0 },
              wordPosition := 67 } ∧
      d0.ctrl.dyna_narbs ≠ 0 ∧
      d0.buffer.read_int (d0.wordPosition + 1) = .ok 1 ∧
      d0.buffer.read_int (d0.wordPosition + 2) = .ok 5 ∧
      (5 : Int) ≠ 1 + d0.ctrl.dyna_nel8 ∧
      d0.read_geometry_numbering = .ok r ∧
      D3plot.new sample_arith 5 bufB [] false = .ok d :=
  ⟨_, _, _, rfl, by decide, rfl, rfl, by decide, rfl, rfl⟩

/-! ## C5: the derivation of `istrn` -/

set_option maxRecDepth 100000 in
/-- C5 (counterexample): the header of `fileA` has `idtdt = 0` and `nv2d = 0`,
so `idtdt > 100` fails and the expression
`nv2d - maxint * (6 * ioshl1 + ioshl2 + neips) + 8 * ioshl3 + 4 * ioshl4` is
`0`, not above 1; `read_header` succeeds and leaves `istrn = -1`, not `0`. -/
theorem read_header_istrn_counterexample :
    ∃ d, (D3plot.init bufA.read_geometryBuffer false).read_header = .ok d ∧
      ¬ d.ctrl.dyna_idtdt > 100 ∧
      ¬ d.ctrl.dyna_nv2d - d.ctrl.dyna_maxint *
          (6 * d.ctrl.dyna_ioshl1 + d.ctrl.dyna_ioshl2 + d.ctrl.dyna_neips)
          + 8 * d.ctrl.dyna_ioshl3 + 4 * d.ctrl.dyna_ioshl4 > 1 ∧
      d.ctrl.dyna_istrn = -1 ∧ d.ctrl.dyna_istrn ≠ 0 :=
  ⟨_, rfl, by decide, by decide, rfl, by decide⟩

/-- C5 (amended): after a successful `read_header`, `istrn` is
`idtdt mod 10000` when `idtdt > 100`.  Otherwise, when `nv2d > 0`, it is 1 if
the 32-bit value of
`nv2d - maxint * (6 * ioshl1 + ioshl2 + neips) + 8 * ioshl3 + 4 * ioshl4`
(with the decoded `maxint` and the normalised `ioshl` flags) is above 1 and 0
if not; the 32-bit value is the one in the range of `int32_t` that differs
from the mathematical value by a multiple of `2^32`, so it is the mathematical
value whenever that lies in the range.  When `idtdt ≤ 100` and `nv2d ≤ 0`,
`istrn` keeps the value it had before the call, which is `-1` on the reader
the constructor starts from. -/
theorem read_header_istrn (d d1 : D3plot) (h : d.read_header = .ok d1) :
    (d1.ctrl.dyna_idtdt > 100 → d1.ctrl.dyna_istrn = d1.ctrl.dyna_idtdt % 10000) ∧
    (¬ d1.ctrl.dyna_idtdt > 100 → d1.ctrl.dyna_nv2d > 0 →
      d1.ctrl.dyna_istrn = (if wrap32 d1.ctrl.istrn_expression > 1 then 1 else 0) ∧
      -2147483648 ≤ wrap32 d1.ctrl.istrn_expression ∧
      wrap32 d1.ctrl.istrn_expression < 2147483648 ∧
      (∃ q : Int, wrap32 d1.ctrl.istrn_expression = d1.ctrl.istrn_expression + q * 4294967296) ∧
      (-2147483648 ≤ d1.ctrl.istrn_expression → d1.ctrl.istrn_expression < 2147483648 →
        d1.ctrl.dyna_istrn = if d1.ctrl.istrn_expression > 1 then 1 else 0)) ∧
    (¬ d1.ctrl.dyna_idtdt > 100 → ¬ d1.ctrl.dyna_nv2d > 0 →
      d1.ctrl.dyna_istrn = d.ctrl.dyna_istrn) ∧
    (∀ (b : Buffer) (fz : Bool), d = D3plot.init b fz → ¬ d1.ctrl.dyna_idtdt > 100 →
      ¬ d1.ctrl.dyna_nv2d > 0 → d1.ctrl.dyna_istrn = -1) := by
  obtain ⟨_, _, _, hi⟩ := read_header_ok d d1 h
  unfold D3plot.derive_istrn at hi
  rw [istrn_expression_wrap] at hi
  refine ⟨?_, ?_, ?_, ?_⟩
  · intro h1
    rw [hi, if_pos h1, Int.tmod_eq_emod (by omega) (by decide)]
  · intro h1 h2
    rw [if_neg h1, if_pos h2] at hi
    have hr := wrap32_range d1.ctrl.istrn_expression
    refine ⟨hi, hr.1, hr.2, ?_, ?_⟩
    · have hm := (wrap32_modEq d1.ctrl.istrn_expression).symm.dvd
      obtain ⟨q, hq⟩ := hm
      exact ⟨q, by rw [mul_comm]; omega⟩
    · intro l1 l2
      rw [hi]
      unfold Control.istrn_expression at l1 l2 ⊢
      rw [wrap32_of_range _ l1 l2]
  · intro h1 h2
    rw [hi, if_neg h1, if_neg h2]
  · intro b fz hd h1 h2
    rw [hi, if_neg h1, if_neg h2, hd]
    rfl

set_option maxRecDepth 100000 in
/-- C5 (amended) on four headers.  `fileD` has `idtdt = 10000`, so `istrn = 0`.
With `nv2d = 11`, `maxint = 2` and `ioshl2` set the expression is 9 and
`istrn = 1`; with `nv2d = 2`, `maxint = 1` and `ioshl2` set it is 1 and
`istrn = 0`.  With `nv2d = 5`, `maxint = 4` and `neips = 2^30` the product is
`2^32`, the 32-bit value of the expression is 5 and `istrn = 1`, although the
mathematical value `5 - 2^32` is not above 1. -/
theorem read_header_istrn_witness :
    (∃ d1, (D3plot.init bufD.read_geometryBuffer false).read_header = .ok d1 ∧
      d1.ctrl.dyna_idtdt = 10000 ∧ d1.ctrl.dyna_istrn = 0) ∧
    (∃ d1, (header_reader [(11, 1), (15, 4), (33, 11), (36, 2), (44, 1000)]).read_header
        = .ok d1 ∧ d1.ctrl.istrn_expression = 9 ∧ d1.ctrl.dyna_istrn = 1) ∧
    (∃ d1, (header_reader [(11, 1), (15, 4), (33, 2), (36, 1), (44, 1000)]).read_header
        = .ok d1 ∧ d1.ctrl.istrn_expression = 1 ∧ d1.ctrl.dyna_istrn = 0) ∧
    (∃ d1, (header_reader [(11, 1), (15, 4), (33, 5), (35, 1073741824), (36, 4)]).read_header
        = .ok d1 ∧ d1.ctrl.istrn_expression = 5 - 4294967296 ∧
        wrap32 d1.ctrl.istrn_expression = 5 ∧ d1.ctrl.dyna_istrn = 1) := by
  have h : ∃ d1, (D3plot.init bufD.read_geometryBuffer false).read_header = .ok d1 ∧
      d1.ctrl.dyna_idtdt = 10000 := ⟨_, rfl, rfl⟩
  have ha : ∃ d1,
      (header_reader [(11, 1), (15, 4), (33, 11), (36, 2), (44, 1000)]).read_header = .ok d1 ∧
      d1.ctrl.dyna_idtdt = 0 ∧ d1.ctrl.dyna_nv2d = 11 ∧ d1.ctrl.istrn_expression = 9 :=
    ⟨_, rfl, rfl, rfl, rfl⟩
  have hb : ∃ d1,
      (header_reader [(11, 1), (15, 4), (33, 2), (36, 1), (44, 1000)]).read_header = .ok d1 ∧
      d1.ctrl.dyna_idtdt = 0 ∧ d1.ctrl.dyna_nv2d = 2 ∧ d1.ctrl.istrn_expression = 1 :=
    ⟨_, rfl, rfl, rfl, rfl⟩
  have hc : ∃ d1,
      (header_reader [(11, 1), (15, 4), (33, 5), (35, 1073741824), (36, 4)]).read_header
        = .ok d1 ∧
      d1.ctrl.dyna_idtdt = 0 ∧ d1.ctrl.dyna_nv2d = 5 ∧
      d1.ctrl.istrn_expression = 5 - 4294967296 ∧ wrap32 d1.ctrl.istrn_expression = 5 :=
    ⟨_, rfl, rfl, rfl, rfl, rfl⟩
  obtain ⟨d1, h1, h2⟩ := h
  obtain ⟨a, a1, a2, a3, a4⟩ := ha
  obtain ⟨b, b1, b2, b3, b4⟩ := hb
  obtain ⟨c, c1, c2, c3, c4, c5⟩ := hc
  have key := (read_header_istrn _ d1 h1).1 (by rw [h2]; decide)
  rw [h2] at key
  have ka := ((read_header_istrn _ a a1).2.1 (by rw [a2]; decide) (by rw [a3]; decide)).2.2.2.2
    (by rw [a4]; decide) (by rw [a4]; decide)
  have kb := ((read_header_istrn _ b b1).2.1 (by rw [b2]; decide) (by rw [b3]; decide)).2.2.2.2
    (by rw [b4]; decide) (by rw [b4]; decide)
  have kc := ((read_header_istrn _ c c1).2.1 (by rw [c2]; decide) (by rw [c3]; decide)).1
  rw [a4] at ka
  rw [b4] at kb
  rw [c5] at kc
  exact ⟨⟨d1, h1, h2, key⟩, ⟨a, a1, a4, ka⟩, ⟨b, b1, b4, kb⟩, ⟨c, c1, c4, c5, kc⟩⟩

/-! ## C6: a second request for a variable -/

set_option maxRecDepth 100000 in
/-- C6 (code bug): `fileA` holds accelerations (`ia = 1`) and one state.  After
the constructor has read `["accel"]` the node holds one acceleration entry,
but the flag `acc_is_read` is still unset (the block that sets the flags has
no statement for it), so a second `read_states(["accel"])` keeps `accel` in
its plan and appends the entry again. -/
theorem read_states_accel_twice :
    ∃ d d1, D3plot.new sample_arith 5 bufA ["accel"] false = .ok d ∧
      d.ctrl.dyna_ia = 1 ∧
      d.db_nodes.map Node.accel = [[[⟨31⟩, ⟨32⟩, ⟨33⟩]]] ∧
      d.loaded.acc_is_read = false ∧
      D3plot.read_states sample_arith 5 ["accel"] d = .ok d1 ∧
      d1.plan.acc_read = 6 ∧
      d1.db_nodes.map Node.accel = [[[⟨31⟩, ⟨32⟩, ⟨33⟩], [⟨31⟩, ⟨32⟩, ⟨33⟩]]] ∧
      d1.db_nodes ≠ d.db_nodes :=
  ⟨_, _, rfl, rfl, rfl, rfl, rfl, rfl, rfl, by decide⟩

/-! ## C7: two calls or one -/

/-- C7: on a reader that stands at word 0 in case its timestep table is empty
and its file is plain with at least two segments, a condition every reader
meets that the constructor built on any buffer, and for two request strings
that name two distinct primitive variables, `read_states([X])` followed by
`read_states([Y])` leaves the same store as the single call
`read_states([X, Y])`: the same nodes, beams, shells and solids with all
their result vectors, the same timestep table and the same loaded-flags. -/
theorem read_states_split (fa : FloatArith) (fuel1 fuel2 fuel3 : Nat)
    (sx sy : String) (vx vy : Var) (d d1 d2 d3 : D3plot)
    (hset : d.timesteps = [] → d.useFemzip = false → 2 ≤ d.buffer.states.length →
      d.wordPosition = 0)
    (hx : Var.classify sx = some vx) (hy : Var.classify sy = some vy) (hne : vx ≠ vy)
    (h1 : D3plot.read_states fa fuel1 [sx] d = .ok d1)
    (h2 : D3plot.read_states fa fuel2 [sy] d1 = .ok d2)
    (h3 : D3plot.read_states fa fuel3 [sx, sy] d = .ok d3) :
    (d2.db_nodes = d3.db_nodes ∧ d2.db_beams = d3.db_beams ∧ d2.db_shells = d3.db_shells ∧
      d2.db_solids = d3.db_solids ∧ d2.timesteps = d3.timesteps ∧ d2.loaded = d3.loaded) ∧
    (∀ (fuel0 : Nat) (buf : Buffer) (vars0 : List String) (fz : Bool),
      D3plot.new fa fuel0 buf vars0 fz = .ok d →
      d.timesteps = [] → d.useFemzip = false → 2 ≤ d.buffer.states.length →
      d.wordPosition = 0) :=
  ⟨read_states_two_calls fa fuel1 fuel2 fuel3 sx sy vx vy d d1 d2 d3 hset hx hy hne h1 h2 h3,
    fun fuel0 buf vars0 fz hnew => new_settled fa fuel0 buf vars0 fz d hnew⟩

set_option maxRecDepth 100000 in
/-- C7 on `fileA`: the reader is opened without variables, then the
displacements and the velocities are read in two calls and in one. -/
theorem read_states_split_witness :
    ∃ d d1 d2 d3 : D3plot,
      D3plot.new sample_arith 5 bufA [] false = .ok d ∧
      D3plot.read_states sample_arith 5 ["disp"] d = .ok d1 ∧
      D3plot.read_states sample_arith 5 ["vel"] d1 = .ok d2 ∧
      D3plot.read_states sample_arith 5 ["disp", "vel"] d = .ok d3 ∧
      d2.db_nodes = d3.db_nodes ∧ d2.db_beams = d3.db_beams ∧ d2.db_shells = d3.db_shells ∧
      d2.db_solids = d3.db_solids ∧ d2.timesteps = d3.timesteps ∧ d2.loaded = d3.loaded := by
  have h0 : ∃ d, D3plot.new sample_arith 5 bufA [] false = .ok d := ⟨_, rfl⟩
  obtain ⟨d, hd⟩ := h0
  have e1 : ∃ d1, D3plot.read_states sample_arith 5 ["disp"] d = .ok d1 := by
    have : ∃ d', D3plot.new sample_arith 5 bufA [] false = .ok d' ∧
        ∃ d1, D3plot.read_states sample_arith 5 ["disp"] d' = .ok d1 := ⟨_, rfl, _, rfl⟩
    obtain ⟨d', hd', r⟩ := this
    rw [hd] at hd'
    cases hd'
    exact r
  obtain ⟨d1, hd1⟩ := e1
  have e2 : ∃ d2, D3plot.read_states sample_arith 5 ["vel"] d1 = .ok d2 := by
    have : ∃ d', D3plot.new sample_arith 5 bufA [] false = .ok d' ∧
        ∃ d1', D3plot.read_states sample_arith 5 ["disp"] d' = .ok d1' ∧
        ∃ d2, D3plot.read_states sample_arith 5 ["vel"] d1' = .ok d2 :=
      ⟨_, rfl, _, rfl, _, rfl⟩
    obtain ⟨d', hd', d1', hd1', r⟩ := this
    rw [hd] at hd'
    cases hd'
    rw [hd1] at hd1'
    cases hd1'
    exact r
  obtain ⟨d2, hd2⟩ := e2
  have e3 : ∃ d3, D3plot.read_states sample_arith 5 ["disp", "vel"] d = .ok d3 := by
    have : ∃ d', D3plot.new sample_arith 5 bufA [] false = .ok d' ∧
        ∃ d3, D3plot.read_states sample_arith 5 ["disp", "vel"] d' = .ok d3 := ⟨_, rfl, _, rfl⟩
    obtain ⟨d', hd', r⟩ := this
    rw [hd] at hd'
    cases hd'
    exact r
  obtain ⟨d3, hd3⟩ := e3
  exact ⟨d, d1, d2, d3, hd, hd1, hd2, hd3,
    (read_states_split sample_arith 5 5 5 "disp" "vel" Var.disp Var.vel d d1 d2 d3
      (new_settled sample_arith 5 bufA [] false d hd) (by decide) (by decide) (by decide)
      hd1 hd2 hd3).1⟩

/-! ## C8: clearing and reading again -/

set_option maxRecDepth 100000 in
/-- C8 (failing input): `bufE` is a plain file of two segments without a
state.  The constructor with `["disp"]` records the position 100 of the
states, ends at word 0 of the last segment, marks the displacements as loaded
and leaves the timestep table empty.  After `clear(["disp"])` the call
`read_states(["disp"])` finds the table empty, takes itself for the first
invocation, records the word position 0 as the position of the states and
scans the first segment from there: it reads a state at word 0, while a fresh
reader that requests `["disp"]` holds no displacement. -/
theorem clear_then_read_stale_position :
    ∃ g d dc d1 f, D3plot.open_geometry bufE false = .ok g ∧ g.wordPosition = 100 ∧
      D3plot.new sample_arith 5 bufE ["disp"] false = .ok d ∧
      d.loaded.disp_is_read = true ∧ d.timesteps = [] ∧ d.wordPositionStates = 100 ∧
      d.wordPosition = 0 ∧
      D3plot.clear ["disp"] d = .ok dc ∧ dc.loaded.disp_is_read = false ∧
      dc.timesteps = [] ∧ dc.wordPosition = 0 ∧ dc.wordPositionStates = 100 ∧
      dc.read_states_rewind.wordPositionStates = 0 ∧
      D3plot.read_states sample_arith 5 ["disp"] dc = .ok d1 ∧
      d1.wordPositionStates = 0 ∧ d1.timesteps = [⟨7⟩] ∧
      D3plot.new sample_arith 5 bufE ["disp"] false = .ok f ∧
      d1.db_nodes.map Node.disp = [[[⟨11⟩, ⟨12⟩, ⟨13⟩]]] ∧
      f.db_nodes.map Node.disp = [[]] :=
  ⟨_, _, _, _, _, rfl, rfl, rfl, rfl, rfl, rfl, rfl, rfl, rfl, rfl, rfl, rfl, rfl, rfl, rfl, rfl,
    rfl, rfl, rfl⟩

/-! ## C9: the lengths of the node vectors -/

set_option maxRecDepth 100000 in
/-- C9 (counterexample): `fileC` has `iu = 2`, `iv = 1` and `ia = 1`, all
non-zero, and the constructor succeeds with `["disp", "vel", "accel"]`; the
file has one state, the node has one velocity and one acceleration entry, but
no displacement entry. -/
theorem node_vectors_counterexample :
    ∃ d, D3plot.new sample_arith 5 bufC ["disp", "vel", "accel"] false = .ok d ∧
      d.ctrl.dyna_iu ≠ 0 ∧ d.ctrl.dyna_iv ≠ 0 ∧ d.ctrl.dyna_ia ≠ 0 ∧
      d.timesteps.length = 1 ∧
      d.db_nodes.map (fun n => (n.disp.length, n.vel.length, n.accel.length)) = [(0, 1, 1)] :=
  ⟨_, rfl, by decide, by decide, by decide, rfl, rfl⟩

theorem sizes_of_fresh_nodes (v : Var) (T : Nat) (xs ys : List Node)
    (hf : ∀ n ∈ xs, n.fresh)
    (h : ys.map (Node.size v) = (xs.map (Node.size v)).map (fun n => n + T)) :
    ∀ n ∈ ys, (n.view v).length = T := by
  intro n hn
  have h1 : n.size v ∈ ys.map (Node.size v) := List.mem_map.mpr ⟨n, hn, rfl⟩
  rw [h] at h1
  simp only [List.map_map, List.mem_map, Function.comp] at h1
  obtain ⟨m, hm, e⟩ := h1
  obtain ⟨f1, f2, f3⟩ := hf m hm
  have : m.size v = 0 := by
    cases v <;> simp [Node.size, Node.view, f1, f2, f3]
  rw [this] at e
  simp only [Node.size] at e
  omega

/-- C9 (amended): on every file on which a reader opened with
`["disp", "vel", "accel"]` succeeds and whose header flags `iu`, `iv` and `ia`
are all 1, the `disp`, `vel` and `accel` vectors of every node have the same
length, the length of the timestep table.  Stated on the first call of
`read_states` on a reader `g` as the geometry stage leaves it (nothing read or
loaded, databases that fit the header and hold no results); the constructor
is the geometry stage followed by that call. -/
theorem node_vectors_length (fa : FloatArith) (fuel : Nat) (buf : Buffer) (fz : Bool)
    (g d : D3plot) (ho : Opened buf fz g)
    (hr : D3plot.read_states fa fuel ["disp", "vel", "accel"] g = .ok d)
    (hiu : d.ctrl.dyna_iu = 1) (hiv : d.ctrl.dyna_iv = 1) (hia : d.ctrl.dyna_ia = 1) :
    (∀ n ∈ d.db_nodes, n.disp.length = d.timesteps.length ∧
      n.vel.length = d.timesteps.length ∧ n.accel.length = d.timesteps.length) ∧
    (∀ (fuel1 : Nat) (vars : List String) (d1 : D3plot),
      D3plot.new fa fuel1 buf vars fz = .ok d1 ↔
        ∃ g1, D3plot.open_geometry buf fz = .ok g1 ∧ Opened buf fz g1 ∧
          D3plot.read_states fa fuel1 vars g1 = .ok d1) := by
  refine ⟨?_, fun fuel1 vars d1 => ⟨fun hn => ?_, fun hn => ?_⟩⟩
  rotate_left
  · obtain ⟨g1, hg1, hr1⟩ := (new_eq_ok fa fuel1 buf vars fz d1).1 hn
    exact ⟨g1, hg1, open_geometry_opened buf fz g1 hg1, hr1⟩
  · obtain ⟨g1, hg1, _, hr1⟩ := hn
    exact (new_eq_ok fa fuel1 buf vars fz d1).2 ⟨g1, hg1, hr1⟩
  obtain ⟨o1, _, o3, _, o5, o6, _⟩ := ho
  obtain ⟨hk, hparse, _⟩ := read_states_frame fa fuel _ g d hr
  have hc : d.ctrl = g.ctrl := hk.1
  -- the plan asks for the three variables
  have hplan : d.plan.disp_read ≠ 0 ∧ d.plan.vel_read ≠ 0 ∧ d.plan.acc_read ≠ 0 := by
    rw [o3] at hparse
    unfold D3plot.read_states_parse at hparse
    simp only [D3plot.read_states_parse_loop] at hparse
    rw [(read_states_parse_variable_classify g.ctrl Loaded.init ReadPlan.init "disp" Var.disp
      (by decide)).1 (by simp only [Var.present]; rw [← hc, hiu]; decide)] at hparse
    simp only at hparse
    rw [(read_states_parse_variable_classify g.ctrl Loaded.init _ "vel" Var.vel
      (by decide)).1 (by simp only [Var.present]; rw [← hc, hiv]; decide)] at hparse
    simp only at hparse
    rw [(read_states_parse_variable_classify g.ctrl Loaded.init _ "accel" Var.accel
      (by decide)).1 (by simp only [Var.present]; rw [← hc, hia]; decide)] at hparse
    simp only [Except.ok.injEq] at hparse
    rw [← hparse]
    exact ⟨by decide, by decide, by decide⟩
  have grow : ∀ v : Var, v.entry d.plan ≠ 0 → v.on_nodes g.ctrl →
      ∀ n ∈ d.db_nodes, (n.view v).length = d.timesteps.length := by
    intro v hv hon
    obtain ⟨k1, _, _⟩ := read_states_grow_gen v fa fuel fuel _ _ g d g d o1 hr rfl rfl rfl
      (Or.inr (rewind_position_nil g o1)) o5 hr hv
    exact sizes_of_fresh_nodes v _ _ _ o6 (k1 hon)
  intro n hn
  exact ⟨grow Var.disp hplan.1 (by simp only [Var.on_nodes]; rw [← hc]; exact hiu) n hn,
    grow Var.vel hplan.2.1 (by simp only [Var.on_nodes]; rw [← hc]; exact hiv) n hn,
    grow Var.accel hplan.2.2 (by simp only [Var.on_nodes]; rw [← hc]; exact hia) n hn⟩

set_option maxRecDepth 100000 in
/-- C9 (amended) on `fileA`, where `iu = iv = ia = 1`. -/
theorem node_vectors_length_witness :
    ∃ d, D3plot.new sample_arith 5 bufA ["disp", "vel", "accel"] false = .ok d ∧
      d.ctrl.dyna_iu = 1 ∧ d.ctrl.dyna_iv = 1 ∧ d.ctrl.dyna_ia = 1 ∧
      ∀ n ∈ d.db_nodes, n.disp.length = d.timesteps.length ∧
        n.vel.length = d.timesteps.length ∧ n.accel.length = d.timesteps.length := by
  have h : ∃ d, D3plot.new sample_arith 5 bufA ["disp", "vel", "accel"] false = .ok d ∧
      d.ctrl.dyna_iu = 1 ∧ d.ctrl.dyna_iv = 1 ∧ d.ctrl.dyna_ia = 1 := ⟨_, rfl, rfl, rfl, rfl⟩
  obtain ⟨d, h0, h1, h2, h3⟩ := h
  obtain ⟨g, hg, hr⟩ := (new_eq_ok sample_arith 5 bufA _ false d).1 h0
  exact ⟨d, h0, h1, h2, h3, (node_vectors_length sample_arith 5 bufA false g d
    (open_geometry_opened bufA false g hg) hr h1 h2 h3).1⟩

/-! ## C10: what a call of `read_states` advances -/

set_option maxRecDepth 100000 in
/-- C10 (failing input): `fileD` has one state, one solid and one shell that is
not rigid, with `nv2d = 11`, one layer and `ioshl2 = 1`, so the record of the
shell holds a plastic strain; `istrn = 0`.  A call of `read_states` with
`["disp", "plastic_strain"]` plans both variables.  The displacement of the
node and the plastic strain of the solid grow by one entry, the state of the
file, but the plastic strain of the shell does not grow. -/
theorem read_states_shell_not_advanced :
    ∃ d d1, D3plot.new sample_arith 5 bufD [] false = .ok d ∧
      D3plot.read_states sample_arith 5 ["disp", "plastic_strain"] d = .ok d1 ∧
      d1.plan.disp_read ≠ 0 ∧ d1.plan.plastic_strain_read ≠ 0 ∧
      d1.ctrl.dyna_nv2d = 11 ∧ d1.ctrl.dyna_maxint = 1 ∧ d1.ctrl.dyna_ioshl2 = 1 ∧
      d1.ctrl.dyna_istrn = 0 ∧ d1.timesteps.length = 1 ∧
      d.db_nodes.map (fun n => n.disp.length) = [0] ∧
      d1.db_nodes.map (fun n => n.disp.length) = [1] ∧
      d.db_solids.map (fun e => e.plastic_strain.length) = [0] ∧
      d1.db_solids.map (fun e => e.plastic_strain.length) = [1] ∧
      d.db_shells.map (fun e => (e.is_rigid, e.plastic_strain.length)) = [(false, 0)] ∧
      d1.db_shells.map (fun e => (e.is_rigid, e.plastic_strain.length)) = [(false, 0)] :=
  ⟨_, _, rfl, rfl, by decide, by decide, rfl, rfl, rfl, rfl, rfl, rfl, rfl, rfl, rfl, rfl, rfl⟩


/-! ## C11: rigid shells hold no results -/

/-- C11: on a reader whose rigid shells hold no results, as on every reader
whose geometry was decoded with success, after every sequence of calls of
`read_states` that succeed, the shells that are rigid are the ones that were
flagged, and every rigid shell holds an empty `stress`, `stress_mises`,
`strain`, `plastic_strain`, `energy` and history vector: the loop over the
shells never appends to a rigid shell. -/
theorem rigid_shells_stay_empty (fa : FloatArith) (calls : List (Nat × List String))
    (g d : D3plot) (hfresh : ∀ e ∈ g.db_shells, e.is_rigid = true → e.fresh)
    (h : D3plot.read_states_calls fa calls g = .ok d) :
    d.db_shells.map Element.is_rigid = g.db_shells.map Element.is_rigid ∧
    (∀ e ∈ d.db_shells, e.is_rigid = true →
      e.stress = [] ∧ e.stress_mises = [] ∧ e.strain = [] ∧ e.plastic_strain = [] ∧
      e.energy = [] ∧ e.history_vars = []) ∧
    (∀ (buf : Buffer) (fz : Bool), D3plot.open_geometry buf fz = .ok g →
      ∀ e ∈ g.db_shells, e.fresh) := by
  have hm := read_states_calls_shells_map Element.rigid_part
    read_states_elem4_body_rigid_part fa calls g d h
  refine ⟨?_, ?_, fun buf fz hg => (open_geometry_opened buf fz g hg).2.2.2.2.2.2.1⟩
  · have hk : (d.db_shells.map Element.rigid_part).map Option.isSome
        = (g.db_shells.map Element.rigid_part).map Option.isSome := by rw [hm]
    have hi : (fun e : Element => e.rigid_part.isSome) = Element.is_rigid := by
      funext e
      unfold Element.rigid_part
      cases e.is_rigid <;> rfl
    simpa only [List.map_map, Function.comp_def, hi] using hk
  · intro e he hr
    have h1 : some e ∈ d.db_shells.map Element.rigid_part :=
      List.mem_map.mpr ⟨e, he, by simp [Element.rigid_part, hr]⟩
    rw [hm] at h1
    obtain ⟨e0, he0, hq⟩ := List.mem_map.mp h1
    have h2 : e0 = e := by
      unfold Element.rigid_part at hq
      split at hq
      · exact Option.some.inj hq
      · cases hq
    subst h2
    obtain ⟨f1, f2, f3, f4, f5, f6⟩ := hfresh e0 he0 hr
    exact ⟨f4, f5, f3, f2, f1, f6⟩

set_option maxRecDepth 100000 in
/-- C11 on `fileR`, whose first shell is rigid: after three calls of
`read_states` the second shell holds a stress and an energy, the first
nothing. -/
theorem rigid_shells_stay_empty_witness :
    ∃ g d, D3plot.open_geometry bufR false = .ok g ∧
      D3plot.read_states_calls sample_arith
        [(5, ["stress max"]), (5, ["energy", "plastic_strain"]), (5, ["history shell 1"])] g
        = .ok d ∧
      d.db_shells.map Element.is_rigid = [true, false] ∧
      d.db_shells.map Element.energy = [[], [⟨311⟩]] ∧
      ∀ e ∈ d.db_shells, e.is_rigid = true →
        e.stress = [] ∧ e.stress_mises = [] ∧ e.strain = [] ∧ e.plastic_strain = [] ∧
        e.energy = [] ∧ e.history_vars = [] := by
  have h0 : ∃ g d, D3plot.open_geometry bufR false = .ok g ∧
      D3plot.read_states_calls sample_arith
        [(5, ["stress max"]), (5, ["energy", "plastic_strain"]), (5, ["history shell 1"])] g
        = .ok d ∧
      d.db_shells.map Element.is_rigid = [true, false] ∧
      d.db_shells.map Element.energy = [[], [⟨311⟩]] := ⟨_, _, rfl, rfl, rfl, rfl⟩
  obtain ⟨g, d, hg, hd, hr, he⟩ := h0
  exact ⟨g, d, hg, hd, hr, he, (rigid_shells_stay_empty sample_arith _ g d
    (fun e he2 _ => (open_geometry_opened bufR false g hg).2.2.2.2.2.2.1 e he2) hd).2.1⟩


/-! ## C12: which elements the geometry flags rigid -/

/-- C12: after a successful `read_geometry` the shell with index `i` among the
shells it added holds the five words of its connectivity record in the file,
and it is flagged `is_rigid` exactly when `mattyp = 1` and `irbtyp[mat - 1]` is
20, where `mat` is the fifth word of that record; no beam and no solid it added
is flagged rigid. -/
theorem read_geometry_rigid_flags (d d1 : D3plot) (h : d.read_geometry = .ok d1) :
    ∃ (beams shells solids : List Element) (pos : Int),
      d1.db_beams = d.db_beams ++ beams ∧ d1.db_shells = d.db_shells ++ shells ∧
      d1.db_solids = d.db_solids ++ solids ∧
      (∀ (i : Nat) (e : Element), shells[i]? = some e →
        d.buffer.read_int_array (pos + 5 * i) 5 = .ok e.record ∧
        ∃ mat, e.record[4]? = some mat ∧
          (e.is_rigid = true ↔
            d1.ctrl.dyna_mattyp = 1 ∧
              D3plot.vec_at d1.ctrl.dyna_irbtyp (mat - 1) = .ok 20)) ∧
      (∀ e ∈ beams, e.is_rigid = false) ∧ (∀ e ∈ solids, e.is_rigid = false) := by
  obtain ⟨rs2, rs4, rs8, ids2, ids4, ids8, beams, shells, solids, pos, b1, b2, b3, _, _, hbe, hsh,
    hso, hrec⟩ := read_geometry_elements d d1 h
  refine ⟨beams, shells, solids, pos, b1, b2, b3, ?_, ?_, ?_⟩
  · intro i e he
    obtain ⟨r, hr, hre, hfl⟩ := forall₂_getElem? _ _ _ (add_elements_flags _ _ _ _ _ _ _ hsh) i e he
    have hread := hrec i r hr
    obtain ⟨mat, hm, hlast⟩ := getLastD_of_length_five r (Buffer.read_int_array_length _ _ _ _ hread)
    rw [hre]
    refine ⟨hread, mat, hm, ?_⟩
    rw [hfl, hlast]
    constructor
    · intro hc
      exact ⟨hc.2.1, by simpa [sub_eq_add_neg] using hc.2.2⟩
    · intro hc
      exact ⟨rfl, hc.1, by simpa [sub_eq_add_neg] using hc.2⟩
  · intro e he
    obtain ⟨r, _, _, hfl⟩ := forall₂_of_mem _ _ _ (add_elements_flags _ _ _ _ _ _ _ hbe) e he
    cases hq : e.is_rigid with
    | false => rfl
    | true => exact absurd (hfl.mp hq).1 (by decide)
  · intro e he
    obtain ⟨r, _, _, hfl⟩ := forall₂_of_mem _ _ _ (add_elements_flags _ _ _ _ _ _ _ hso) e he
    cases hq : e.is_rigid with
    | false => rfl
    | true => exact absurd (hfl.mp hq).1 (by decide)

set_option maxRecDepth 100000 in
/-- C12 on `fileR`, where `irbtyp = [20, 0, 20]`: the shell of material 1 is
rigid, the shell of material 2 is not, and the solid of material 2, for which
`irbtyp[2] = 20`, is not flagged. -/
theorem read_geometry_rigid_flags_witness :
    ∃ d0 d d1, (D3plot.init bufR.read_geometryBuffer false).read_header = .ok d0 ∧
      d0.read_matsection = .ok d ∧ d.read_geometry = .ok d1 ∧
      d1.ctrl.dyna_mattyp = 1 ∧ d1.ctrl.dyna_irbtyp = [20, 0, 20] ∧
      d1.db_shells.map (fun e => (e.record, e.is_rigid))
        = [([1, 1, 1, 1, 1], true), ([1, 1, 1, 1, 2], false)] ∧
      d1.db_solids.map (fun e => (e.record, e.is_rigid)) = [([1, 1, 1, 1, 1, 1, 1, 1, 2], false)] ∧
      ∃ (beams shells solids : List Element) (pos : Int),
        d1.db_beams = d.db_beams ++ beams ∧ d1.db_shells = d.db_shells ++ shells ∧
        d1.db_solids = d.db_solids ++ solids ∧
        (∀ (i : Nat) (e : Element), shells[i]? = some e →
          d.buffer.read_int_array (pos + 5 * i) 5 = .ok e.record ∧
          ∃ mat, e.record[4]? = some mat ∧
            (e.is_rigid = true ↔
              d1.ctrl.dyna_mattyp = 1 ∧
                D3plot.vec_at d1.ctrl.dyna_irbtyp (mat - 1) = .ok 20)) ∧
        (∀ e ∈ beams, e.is_rigid = false) ∧ (∀ e ∈ solids, e.is_rigid = false) := by
  have h0 : ∃ d0 d d1, (D3plot.init bufR.read_geometryBuffer false).read_header = .ok d0 ∧
      d0.read_matsection = .ok d ∧ d.read_geometry = .ok d1 ∧
      d1.ctrl.dyna_mattyp = 1 ∧ d1.ctrl.dyna_irbtyp = [20, 0, 20] ∧
      d1.db_shells.map (fun e => (e.record, e.is_rigid))
        = [([1, 1, 1, 1, 1], true), ([1, 1, 1, 1, 2], false)] ∧
      d1.db_solids.map (fun e => (e.record, e.is_rigid))
        = [([1, 1, 1, 1, 1, 1, 1, 1, 2], false)] :=
    ⟨_, _, _, rfl, rfl, rfl, rfl, rfl, rfl, rfl⟩
  obtain ⟨d0, d, d1, h1, h2, h3, h4, h5, h6, h7⟩ := h0
  exact ⟨d0, d, d1, h1, h2, h3, h4, h5, h6, h7, read_geometry_rigid_flags d d1 h3⟩


/-! ## C13: the number of rigid shells -/

/-- C13: whenever `read_geometry` succeeds on the reader `read_matsection`
left, the number of shells it added with `is_rigid = true` equals `numrbe`,
which `read_geometry` does not change; `numrbe` is 0 when `mattyp = 0` and is
the first word of the material section otherwise.  So a file whose count of
flagged shells differs from that word makes `read_geometry` fail. -/
theorem read_geometry_rigid_count (d0 d d1 : D3plot)
    (hm : d0.read_matsection = .ok d) (h : d.read_geometry = .ok d1) :
    (∃ shells, d1.db_shells = d.db_shells ++ shells ∧
      ((shells.countP Element.get_is_rigid : Nat) : Int) = d1.ctrl.dyna_numrbe) ∧
    d1.ctrl.dyna_numrbe = d.ctrl.dyna_numrbe ∧
    (d0.ctrl.dyna_mattyp = 0 → d1.ctrl.dyna_numrbe = 0) ∧
    (d0.ctrl.dyna_mattyp ≠ 0 →
      d0.buffer.read_int d0.wordPosition = .ok d1.ctrl.dyna_numrbe) := by
  obtain ⟨nodes, beams, shells, solids, _, _, hs, _, _, _, _, _, _, hcnt, _, _, _, _, hctrl, _⟩ :=
    read_geometry_ok d d1 h
  have hn : d1.ctrl.dyna_numrbe = d.ctrl.dyna_numrbe := by rw [hctrl]
  refine ⟨⟨shells, hs, by rw [hn]; exact hcnt⟩, hn, ?_, ?_⟩
  · intro h0
    rw [hn]
    unfold D3plot.read_matsection at hm
    rw [if_pos h0] at hm
    cases hm
    rfl
  · intro h0
    rw [hn]
    unfold D3plot.read_matsection at hm
    rw [if_neg h0] at hm
    simp only [Except.bind_eq_ok, throw_if_eq_ok, pure, Except.pure, Except.ok.injEq] at hm
    obtain ⟨numrbe, h1, _, _, _, _, _, _, _, _, hm⟩ := hm
    subst hm
    exact h1

set_option maxRecDepth 100000 in
/-- C13 on `fileR`: the material section starts with `numrbe = 1` and one of
the two shells is rigid. -/
theorem read_geometry_rigid_count_witness :
    ∃ d0 d d1, (D3plot.init bufR.read_geometryBuffer false).read_header = .ok d0 ∧
      d0.read_matsection = .ok d ∧ d.read_geometry = .ok d1 ∧
      d.db_shells = [] ∧ d1.db_shells.countP Element.get_is_rigid = 1 ∧
      d1.ctrl.dyna_numrbe = 1 ∧
      (∃ shells, d1.db_shells = d.db_shells ++ shells ∧
        ((shells.countP Element.get_is_rigid : Nat) : Int) = d1.ctrl.dyna_numrbe) := by
  have h0 : ∃ d0 d d1, (D3plot.init bufR.read_geometryBuffer false).read_header = .ok d0 ∧
      d0.read_matsection = .ok d ∧ d.read_geometry = .ok d1 ∧
      d.db_shells = [] ∧ d1.db_shells.countP Element.get_is_rigid = 1 ∧
      d1.ctrl.dyna_numrbe = 1 := ⟨_, _, _, rfl, rfl, rfl, rfl, rfl, rfl⟩
  obtain ⟨d0, d, d1, h1, h2, h3, h4, h5, h6⟩ := h0
  exact ⟨d0, d, d1, h1, h2, h3, h4, h5, h6, (read_geometry_rigid_count d0 d d1 h2 h3).1⟩


/-! ## C14: the plastic strain of a shell -/

set_option maxRecDepth 100000 in
/-- C14 (failing input): `fileD` has `ioshl2 = 1`, `maxint = 1` and `istrn = 0`.
The request `"plastic_strain max"` is planned with the code 1 and the file has
one state, in which the record of the shell holds the plastic strain 307 at
offset 6 of its one layer; yet the shell, which is not rigid,
receives no plastic strain, as `read_states_elem4` appends the reduced value
only when `istrn` is not zero.  On `fileS`, where `istrn = 1`, the same request
appends the word at offset 6 of the layer. -/
theorem read_states_plastic_strain_dropped :
    ∃ d s, D3plot.new sample_arith 5 bufD ["plastic_strain max"] false = .ok d ∧
      d.ctrl.dyna_ioshl2 = 1 ∧ d.ctrl.dyna_maxint = 1 ∧ d.ctrl.dyna_istrn = 0 ∧
      d.plan.plastic_strain_read = 1 ∧ d.timesteps.length = 1 ∧
      segD[(shell_record_start d.ctrl d.wordPositionStates d.db_shells 0 + 6).toNat]?
        = some 307 ∧
      d.db_shells.map (fun e => (e.is_rigid, e.plastic_strain)) = [(false, [])] ∧
      D3plot.new sample_arith 5 bufS ["plastic_strain max"] false = .ok s ∧
      s.ctrl.dyna_ioshl2 = 1 ∧ s.ctrl.dyna_maxint = 1 ∧ s.ctrl.dyna_istrn = 1 ∧
      segS[(shell_record_start s.ctrl s.wordPositionStates s.db_shells 0 + 6).toNat]?
        = some 507 ∧
      s.db_shells.map (fun e => (e.is_rigid, e.plastic_strain)) = [(false, [⟨507⟩])] :=
  ⟨_, _, rfl, rfl, rfl, rfl, rfl, rfl, rfl, rfl, rfl, rfl, rfl, rfl, rfl, rfl⟩


/-! ## C15: a shell history variable with mode inner -/

set_option maxRecDepth 100000 in
/-- C15 (failing input): `fileH` has `maxint = 2` layers of eight words and
`neips = 1`.  The request `"history shell 1 inner"` plans the index 1 with the
mode 5.  In the record of the shell the history word of layer 0 is 308 (at
offset 7), that of layer 1 is 318 (at offset `8 + 7`).  The shell, which is not rigid, receives 318: the branch of the
mode inner in `read_states_elem4` tests `iLayer == 1`, not `iLayer == 0`. -/
theorem read_states_history_inner_layer_one :
    ∃ d, D3plot.new sample_arith 5 bufH ["history shell 1 inner"] false = .ok d ∧
      d.ctrl.dyna_maxint = 2 ∧ d.ctrl.dyna_neips = 1 ∧
      d.ctrl.dyna_ioshl1 = 1 ∧ d.ctrl.dyna_ioshl2 = 1 ∧
      d.plan.history_shell_read = [1] ∧ d.plan.history_shell_mode = [5] ∧
      d.timesteps.length = 1 ∧
      segH[(shell_record_start d.ctrl d.wordPositionStates d.db_shells 0 + 7).toNat]?
        = some 308 ∧
      segH[(shell_record_start d.ctrl d.wordPositionStates d.db_shells 0 + 8 + 7).toNat]?
        = some 318 ∧
      d.db_shells.map (fun e => (e.is_rigid, e.history_vars)) = [(false, [[⟨318⟩]])] :=
  ⟨_, rfl, rfl, rfl, rfl, rfl, rfl, rfl, rfl, rfl, rfl, rfl⟩


/-! ## C16: where a shell history variable is read -/

set_option maxRecDepth 100000 in
/-- C16 (failing input): `fileG` has `ioshl1 = 1`, `ioshl2 = 0`, `neips = 1` and
one layer, so the layer has the seven words 401 .. 407 and the history word 1
lies at the layer offset `6 * 1 + 0 + (1 - 1) = 6`, word 407.  The request
`"history shell 1 max"` gives the shell the word 408 at the layer offset 7,
which is behind the layer: `read_states_elem4` reads history variable `k` at
`layerStart + 6 + k` whatever `ioshl1` and `ioshl2` are. -/
theorem read_states_history_offset_fixed :
    ∃ d, D3plot.new sample_arith 5 bufG ["history shell 1 max"] false = .ok d ∧
      d.ctrl.dyna_ioshl1 = 1 ∧ d.ctrl.dyna_ioshl2 = 0 ∧ d.ctrl.dyna_neips = 1 ∧
      d.ctrl.dyna_maxint = 1 ∧
      d.plan.history_shell_read = [1] ∧ d.plan.history_shell_mode = [1] ∧
      d.timesteps.length = 1 ∧
      segG[(shell_record_start d.ctrl d.wordPositionStates d.db_shells 0
        + (6 * d.ctrl.dyna_ioshl1 + d.ctrl.dyna_ioshl2 + (1 - 1))).toNat]? = some 407 ∧
      segG[(shell_record_start d.ctrl d.wordPositionStates d.db_shells 0 + 7).toNat]?
        = some 408 ∧
      d.db_shells.map (fun e => (e.is_rigid, e.history_vars)) = [(false, [[⟨408⟩]])] :=
  ⟨_, rfl, rfl, rfl, rfl, rfl, rfl, rfl, rfl, rfl, rfl, rfl⟩


/-! ## C17: history indices above the limit -/

set_option maxRecDepth 100000 in
/-- C17 (counterexample): `fileH` has `neips = 1`.  The request
`"history shell 1 2 max"` plans the indices 1 and 2, of which 2 is above the
limit, and the history vector the shell receives for the one state has two
entries: the value for the index 1 and a zero for the index 2. -/
theorem history_vector_counterexample :
    ∃ d, D3plot.new sample_arith 5 bufH ["history shell 1 2 max"] false = .ok d ∧
      d.ctrl.dyna_neips = 1 ∧ d.plan.history_shell_read = [1, 2] ∧
      d.timesteps.length = 1 ∧
      d.db_shells.map (fun e => (e.is_rigid, e.history_vars))
        = [(false, [[⟨318⟩, ⟨0⟩]])] :=
  ⟨_, rfl, rfl, rfl, rfl, rfl⟩

/-- C17 (amended): history indices above the limit of the family are skipped
at read time, with a different result for the two families.  When history
variables of solids are in the plan, the body of the loop of
`read_states_elem8` hands a solid one history vector per state that has
exactly one entry per requested index within the limit `neiph`, in the order
of the request, namely the word at offset `6 + k` of its record for the index
`k`, and no entry for an index above the limit.  When history variables of
shells are in the plan, the body of the loop of `read_states_elem4` hands a
shell one history vector per state that has exactly one entry per requested
index, and the entry of an index above the limit `neips` is `0.f`. -/
theorem history_vector_entries (fa : FloatArith) (c : Control) (p : ReadPlan) (b : Buffer)
    (iState : Nat) (ii : Int) :
    (∀ e e1 : Element, D3plot.read_states_elem8_element fa c p b iState ii e = .ok e1 →
      p.history_solid_read ≠ [] →
      ∃ hv, e1.history_vars = e.history_vars ++ [hv] ∧
        List.Forall₂ (fun k x => b.read_float (ii + 6 + k) = .ok x)
          (p.history_solid_read.filter (fun k => decide (k ≤ c.dyna_neiph))) hv) ∧
    (∀ (tmp : List F32) (e : Element) (r : Element × List F32),
      D3plot.read_states_elem4_element fa c p b iState ii tmp e = .ok r →
      p.history_shell_read ≠ [] →
      ∃ hv, r.1.history_vars = e.history_vars ++ [hv] ∧
        hv.length = p.history_shell_read.length ∧
        ∀ (n : Nat) (k : Int), p.history_shell_read[n]? = some k → k > c.dyna_neips →
          hv[n]? = some D3plot.zero_f) := by
  refine ⟨?_, ?_⟩
  · intro e e1 h hne
    obtain ⟨eA, eB, eC, hA, hB, hC, hD⟩ := read_states_elem8_element_ok _ _ _ _ _ _ _ _ h
    have kA : eA.history_vars = e.history_vars := by
      rcases hA with ⟨_, t, _, hq⟩ | ⟨_, hq⟩
      · rw [hq]
        beta_reduce
        by_cases h1 : p.stress_read ≠ 0 <;> by_cases h2 : p.stress_mises_read ≠ 0 <;>
          (first | simp only [if_pos h1] | simp only [if_neg h1]) <;>
          (first | simp only [if_pos h2] | simp only [if_neg h2]) <;>
          simp only [Element.add_stress, Element.add_stress_mises]
      · rw [hq]
    have kB : eB.history_vars = e.history_vars := by
      rcases hB with ⟨_, x, _, hq⟩ | ⟨_, hq⟩
      · rw [hq]; exact kA
      · rw [hq]; exact kA
    have kC : eC.history_vars = e.history_vars := by
      rcases hC with ⟨_, t, _, hq⟩ | ⟨_, hq⟩
      · rw [hq]; exact kB
      · rw [hq]; exact kB
    rcases hD with ⟨_, hv, hhv, hq⟩ | ⟨hg, _⟩
    · refine ⟨hv, ?_, elem8_history_ok c b ii _ hv hhv⟩
      rw [hq]
      exact congrArg (fun l => l ++ [hv]) kC
    · exact absurd (by simpa using hne) hg
  · intro tmp e r h hne
    obtain ⟨lv, hlv, _, _, _, hh, _⟩ := read_states_elem4_element_fields _ _ _ _ _ _ _ _ _ h
    rw [if_pos (by simpa using hne)] at hh
    obtain ⟨l1, l2⟩ := elem4_layers_history_ok _ _ _ _ _ _ _ _ _ hlv
    simp only [List.length_replicate] at l1
    refine ⟨lv.history_vars, hh, l1, ?_⟩
    intro n k hn hk
    rw [l2 n k hn hk]
    have hlt : n < p.history_shell_read.length := by
      rcases Nat.lt_or_ge n p.history_shell_read.length with h1 | h1
      · exact h1
      · rw [List.getElem?_eq_none h1] at hn; cases hn
    simp [List.getElem?_replicate, hlt]

set_option maxRecDepth 100000 in
/-- C17 (amended) on `fileH`, where `neiph = 2` and `neips = 1`: with the solid
indices 1 and 3 and the shell indices 1 and 2 in the plan, the solid, whose
record starts at word 120, receives the one word at offset 7, and the shell,
whose record starts at word 129, receives two entries, the second one zero. -/
theorem history_vector_entries_witness :
    ∃ g e8 e4 e8a r4,
      D3plot.open_geometry bufH false = .ok g ∧
      g.db_solids[0]? = some e8 ∧ g.db_shells[0]? = some e4 ∧
      D3plot.read_states_elem8_element sample_arith g.ctrl
        { ReadPlan.init with history_solid_read := [1, 3], history_solid_mode := [6, 6],
                             history_shell_read := [1, 2], history_shell_mode := [1, 1] }
        { g.buffer with current := segH } 0 120 e8 = .ok e8a ∧
      D3plot.read_states_elem4_element sample_arith g.ctrl
        { ReadPlan.init with history_solid_read := [1, 3], history_solid_mode := [6, 6],
                             history_shell_read := [1, 2], history_shell_mode := [1, 1] }
        { g.buffer with current := segH } 0 129 (List.replicate 6 D3plot.zero_f) e4 = .ok r4 ∧
      e8a.history_vars = [[⟨208⟩]] ∧ r4.1.history_vars = [[⟨318⟩, ⟨0⟩]] ∧
      (∃ hv, e8a.history_vars = e8.history_vars ++ [hv] ∧
        List.Forall₂ (fun k x =>
            Buffer.read_float { g.buffer with current := segH } (120 + 6 + k) = .ok x)
          ([1, 3].filter (fun k => decide (k ≤ g.ctrl.dyna_neiph))) hv) ∧
      (∃ hv, r4.1.history_vars = e4.history_vars ++ [hv] ∧ hv.length = 2) := by
  have h0 : ∃ g e8 e4 e8a r4,
      D3plot.open_geometry bufH false = .ok g ∧
      g.db_solids[0]? = some e8 ∧ g.db_shells[0]? = some e4 ∧
      D3plot.read_states_elem8_element sample_arith g.ctrl
        { ReadPlan.init with history_solid_read := [1, 3], history_solid_mode := [6, 6],
                             history_shell_read := [1, 2], history_shell_mode := [1, 1] }
        { g.buffer with current := segH } 0 120 e8 = .ok e8a ∧
      D3plot.read_states_elem4_element sample_arith g.ctrl
        { ReadPlan.init with history_solid_read := [1, 3], history_solid_mode := [6, 6],
                             history_shell_read := [1, 2], history_shell_mode := [1, 1] }
        { g.buffer with current := segH } 0 129 (List.replicate 6 D3plot.zero_f) e4 = .ok r4 ∧
      e8a.history_vars = [[⟨208⟩]] ∧ r4.1.history_vars = [[⟨318⟩, ⟨0⟩]] :=
    ⟨_, _, _, _, _, rfl, rfl, rfl, rfl, rfl, rfl, rfl⟩
  obtain ⟨g, e8, e4, e8a, r4, hg, h8, h4, k8, k4, v8, v4⟩ := h0
  obtain ⟨hv8, q1, q2⟩ := (history_vector_entries sample_arith g.ctrl _ _ 0 120).1 e8 e8a k8
    (by simp)
  obtain ⟨hv4, q3, q4, _⟩ := (history_vector_entries sample_arith g.ctrl _ _ 0 129).2 _ e4 r4 k4
    (by simp)
  exact ⟨g, e8, e4, e8a, r4, hg, h8, h4, k8, k4, v8, v4, ⟨hv8, q1, q2⟩, ⟨hv4, q3, q4⟩⟩


/-! ## C18: the energy of a shell -/

set_option maxRecDepth 100000 in
/-- C18 (counterexample): `fileS` has `ioshl4 = 1`, `istrn = 1` and `nv2d = 23`.
The request `"energy"` is accepted and planned, the file holds one state, and
the shell, which is not rigid, receives no energy value. -/
theorem shell_energy_counterexample :
    ∃ d, D3plot.new sample_arith 5 bufS ["energy"] false = .ok d ∧
      d.ctrl.dyna_ioshl4 = 1 ∧ d.ctrl.dyna_istrn = 1 ∧ d.ctrl.dyna_nv2d = 23 ∧
      d.plan.energy_read ≠ 0 ∧ d.timesteps.length = 1 ∧
      d.db_shells.map (fun e => (e.is_rigid, e.energy)) = [(false, [])] :=
  ⟨_, rfl, rfl, rfl, rfl, by decide, rfl, rfl⟩

/-- C18 (amended): in a pass of `read_states_elem4` over the shells of a
database that fits the header, with `nv2d > 0`, `ioshl4` set and the energy in
the plan, every shell that is not rigid receives exactly one energy value, the
last word (offset `nv2d - 1`) of its record in the state, unless `istrn = 1`
and `nv2d < 45`; in that case it receives no energy value. -/
theorem shell_energy_last_word (fa : FloatArith) (iState : Nat) (d d4 : D3plot)
    (h : d.read_states_elem4 fa iState = .ok d4) (hsh : Shape d) (hnv : 0 < d.ctrl.dyna_nv2d)
    (hreq : d.plan.energy_read ≠ 0) (hio : d.ctrl.dyna_ioshl4 ≠ 0)
    (j : Nat) (e : Element) (hj : d.db_shells[j]? = some e) (hr : e.is_rigid = false) :
    ∃ e1, d4.db_shells[j]? = some e1 ∧
      ((d.ctrl.dyna_istrn = 1 → d.ctrl.dyna_nv2d ≥ 45) →
        ∃ x, d.buffer.read_float
            (shell_record_start d.ctrl d.wordPosition d.db_shells j + (d.ctrl.dyna_nv2d - 1))
            = .ok x ∧ e1.energy = e.energy ++ [x]) ∧
      (d.ctrl.dyna_istrn = 1 ∧ d.ctrl.dyna_nv2d < 45 → e1.energy = e.energy) := by
  obtain ⟨tmp, et, het, hj1⟩ := read_states_elem4_at fa iState d d4 h hsh hnv j e hj hr
  obtain ⟨lv, _, _, _, _, _, _, hen⟩ := read_states_elem4_element_fields _ _ _ _ _ _ _ _ _ het
  refine ⟨et.1, hj1, ?_, ?_⟩
  · intro hc
    rcases hen with ⟨_, x, hx, hq⟩ | ⟨hg, _⟩
    · refine ⟨x, ?_, hq⟩
      rw [← hx]
      congr 1
      ring
    · exact absurd ⟨hreq, hio, hc⟩ hg
  · intro hc
    rcases hen with ⟨hg, _⟩ | ⟨_, hq⟩
    · have := hg.2.2 hc.1
      omega
    · exact hq

set_option maxRecDepth 100000 in
/-- C18 (amended) on `fileD`, where `istrn = 0`: on the reader that stands at
the state record at word 116 with the energy in its plan, the shell receives
the last word 311 of its record. -/
theorem shell_energy_last_word_witness :
    ∃ g d4 e e1 x,
      D3plot.open_geometry bufD false = .ok g ∧
      D3plot.read_states_elem4 sample_arith 0
        { g with buffer := { g.buffer with current := segD },
                 plan := { ReadPlan.init with energy_read := 6 } } = .ok d4 ∧
      g.db_shells[0]? = some e ∧ d4.db_shells[0]? = some e1 ∧
      e1.energy = e.energy ++ [x] ∧ x = ⟨311⟩ := by
  have h0 : ∃ g d4 e, D3plot.open_geometry bufD false = .ok g ∧
      D3plot.read_states_elem4 sample_arith 0
        { g with buffer := { g.buffer with current := segD },
                 plan := { ReadPlan.init with energy_read := 6 } } = .ok d4 ∧
      g.db_shells[0]? = some e ∧ e.is_rigid = false ∧
      g.ctrl.dyna_nv2d = 11 ∧ g.ctrl.dyna_ioshl4 = 1 ∧ g.ctrl.dyna_istrn = 0 ∧
      d4.db_shells.map Element.energy = [[⟨311⟩]] ∧ e.energy = [] :=
    ⟨_, _, _, rfl, rfl, rfl, rfl, rfl, rfl, rfl, rfl, rfl⟩
  obtain ⟨g, d4, e, hg, h4, he, hr, n1, n2, n3, hen, hee⟩ := h0
  have hsh : Shape g := (open_geometry_opened bufD false g hg).2.2.2.2.1
  obtain ⟨e1, hj1, hyes, _⟩ := shell_energy_last_word sample_arith 0
    { g with buffer := { g.buffer with current := segD },
             plan := { ReadPlan.init with energy_read := 6 } } d4 h4 hsh
    (by show 0 < g.ctrl.dyna_nv2d; rw [n1]; decide) (by show (6 : Int) ≠ 0; decide)
    (by show g.ctrl.dyna_ioshl4 ≠ 0; rw [n2]; decide) 0 e he hr
  obtain ⟨x, _, hx⟩ := hyes (by
    intro hc
    have : g.ctrl.dyna_istrn = 1 := hc
    rw [n3] at this
    cases this)
  refine ⟨g, d4, e, e1, x, hg, h4, he, hj1, hx, ?_⟩
  have h5 : d4.db_shells[0]? = some e1 := hj1
  cases hs : d4.db_shells with
  | nil => rw [hs] at hen; cases hen
  | cons a as =>
    rw [hs] at hen h5
    simp only [List.getElem?_cons_zero, Option.some.injEq] at h5
    simp only [List.map_cons, List.cons.injEq] at hen
    rw [← h5, hen.1, hee] at hx
    simpa using hx.symm


/-! ## C19: the stress of a shell with the modes max and min -/

/-- C21: in a pass of `read_states_elem8` over the solids of a database that
fits the header, with `nv3d > 0`, solid `j` is decoded from the record that
starts at the word `rec = start + nv3d * j` of the solid block, so consecutive
records are `nv3d` words apart.  When the stress is in the plan the solid
receives the six words `rec .. rec + 5` as they are; when the plastic strain is
in the plan, the word `rec + 6`; when solid history is in the plan, one vector
whose entry for a requested index `k ≤ neiph` is the word `rec + 6 + k`; when
`istrn = 1` and the strain is in the plan, the six words
`rec + nv3d - 6 .. rec + nv3d - 1`; every stream grows by at most that one
entry, and the energy of the solid is never touched. -/
theorem solid_record_layout (fa : FloatArith) (iState : Nat) (d d8 : D3plot)
    (h : d.read_states_elem8 fa iState = .ok d8) (hsh : Shape d) (hnv : 0 < d.ctrl.dyna_nv3d)
    (j : Nat) (e : Element) (hj : d.db_solids[j]? = some e) (rec : Int)
    (hrec : rec = D3plot.elem8_start d.ctrl d.wordPosition + d.ctrl.dyna_nv3d * (j : Int)) :
    ∃ e1, d8.db_solids[j]? = some e1 ∧
      (d.plan.stress_read ≠ 0 → ∃ t, d.buffer.read_float_array rec 6 = .ok t ∧
        e1.stress = e.stress ++ [t] ∧ t.length = 6 ∧
        ∀ k : Nat, k < 6 → ∃ x, d.buffer.read_float (rec + k) = .ok x ∧ t[k]? = some x) ∧
      (d.plan.stress_read = 0 → e1.stress = e.stress) ∧
      (d.plan.plastic_strain_read ≠ 0 → ∃ x, d.buffer.read_float (rec + 6) = .ok x ∧
        e1.plastic_strain = e.plastic_strain ++ [x]) ∧
      (d.plan.plastic_strain_read = 0 → e1.plastic_strain = e.plastic_strain) ∧
      (d.plan.history_solid_read.length ≠ 0 → ∃ hv,
        e1.history_vars = e.history_vars ++ [hv] ∧
        List.Forall₂ (fun k x => d.buffer.read_float (rec + 6 + k) = .ok x)
          (d.plan.history_solid_read.filter (fun k => decide (k ≤ d.ctrl.dyna_neiph))) hv) ∧
      (d.plan.history_solid_read.length = 0 → e1.history_vars = e.history_vars) ∧
      (d.ctrl.dyna_istrn = 1 → d.plan.strain_read ≠ 0 →
        ∃ t, d.buffer.read_float_array (rec + d.ctrl.dyna_nv3d - 6) 6 = .ok t ∧
          e1.strain = e.strain ++ [t] ∧ t.length = 6 ∧
          ∀ k : Nat, k < 6 →
            ∃ x, d.buffer.read_float (rec + d.ctrl.dyna_nv3d - 6 + k) = .ok x ∧
              t[k]? = some x) ∧
      (¬ (d.ctrl.dyna_istrn = 1 ∧ d.plan.strain_read ≠ 0) → e1.strain = e.strain) ∧
      e1.energy = e.energy := by
  subst hrec
  obtain ⟨e1, he1, hj1⟩ := read_states_elem8_at fa iState d d8 h hsh hnv j e hj
  obtain ⟨f1, _, f3, f4, f5, f6⟩ := read_states_elem8_element_fields _ _ _ _ _ _ _ _ he1
  refine ⟨e1, hj1, ?_, ?_, ?_, ?_, ?_, ?_, ?_, ?_, f6⟩
  · intro hreq
    rcases f1 with ⟨_, t, ht, hs⟩ | ⟨hn, _⟩
    · exact ⟨t, ht, hs, Buffer.read_float_array_length _ _ _ _ ht,
        Buffer.read_float_array_get _ _ _ _ ht⟩
    · exact absurd hreq hn
  · intro hreq
    rcases f1 with ⟨hn, _⟩ | ⟨_, hs⟩
    · exact absurd hreq hn
    · exact hs
  · intro hreq
    rcases f3 with ⟨_, x, hx, hs⟩ | ⟨hn, _⟩
    · exact ⟨x, hx, hs⟩
    · exact absurd hreq hn
  · intro hreq
    rcases f3 with ⟨hn, _⟩ | ⟨_, hs⟩
    · exact absurd hreq hn
    · exact hs
  · intro hreq
    rcases f5 with ⟨_, hv, hhv, hs⟩ | ⟨hn, _⟩
    · exact ⟨hv, hs, elem8_history_ok _ _ _ _ _ hhv⟩
    · exact absurd hreq hn
  · intro hreq
    rcases f5 with ⟨hn, _⟩ | ⟨_, hs⟩
    · exact absurd hreq hn
    · exact hs
  · intro hst hreq
    rcases f4 with ⟨_, t, ht, hs⟩ | ⟨hn, _⟩
    · exact ⟨t, ht, hs, Buffer.read_float_array_length _ _ _ _ ht,
        Buffer.read_float_array_get _ _ _ _ ht⟩
    · exact absurd ⟨hst, hreq⟩ hn
  · intro hreq
    rcases f4 with ⟨hn, _⟩ | ⟨_, hs⟩
    · exact absurd hn hreq
    · exact hs

set_option maxRecDepth 100000 in
/-- C21 on `fileT`, whose solid record of 14 words (601 .. 614) starts at word
120: with stress, plastic strain, strain, the history index 1 and the energy in
the plan, the solid receives the stress 601 .. 606, the plastic strain 607, the
history word 608, the strain 609 .. 614 and no energy. -/
theorem solid_record_layout_witness :
    ∃ g d8 e e1,
      D3plot.open_geometry bufT false = .ok g ∧
      D3plot.read_states_elem8 sample_arith 0
        { g with buffer := { g.buffer with current := segT },
                 plan := { ReadPlan.init with stress_read := 6, plastic_strain_read := 6,
                                              strain_read := 6, energy_read := 6,
                                              history_solid_read := [1],
                                              history_solid_mode := [6] } } = .ok d8 ∧
      g.db_solids[0]? = some e ∧ d8.db_solids[0]? = some e1 ∧
      (D3plot.elem8_start g.ctrl g.wordPosition + g.ctrl.dyna_nv3d * ((0 : Nat) : Int)).toNat
        = 120 ∧
      e1.energy = e.energy ∧
      d8.db_solids.map Element.stress = [[[⟨601⟩, ⟨602⟩, ⟨603⟩, ⟨604⟩, ⟨605⟩, ⟨606⟩]]] ∧
      d8.db_solids.map Element.plastic_strain = [[⟨607⟩]] ∧
      d8.db_solids.map Element.history_vars = [[[⟨608⟩]]] ∧
      d8.db_solids.map Element.strain = [[[⟨609⟩, ⟨610⟩, ⟨611⟩, ⟨612⟩, ⟨613⟩, ⟨614⟩]]] ∧
      d8.db_solids.map Element.energy = [[]] := by
  have h0 : ∃ g d8 e, D3plot.open_geometry bufT false = .ok g ∧
      D3plot.read_states_elem8 sample_arith 0
        { g with buffer := { g.buffer with current := segT },
                 plan := { ReadPlan.init with stress_read := 6, plastic_strain_read := 6,
                                              strain_read := 6, energy_read := 6,
                                              history_solid_read := [1],
                                              history_solid_mode := [6] } } = .ok d8 ∧
      g.db_solids[0]? = some e ∧ g.ctrl.dyna_nv3d = 14 ∧
      (D3plot.elem8_start g.ctrl g.wordPosition + g.ctrl.dyna_nv3d * ((0 : Nat) : Int)).toNat
        = 120 ∧
      d8.db_solids.map Element.stress = [[[⟨601⟩, ⟨602⟩, ⟨603⟩, ⟨604⟩, ⟨605⟩, ⟨606⟩]]] ∧
      d8.db_solids.map Element.plastic_strain = [[⟨607⟩]] ∧
      d8.db_solids.map Element.history_vars = [[[⟨608⟩]]] ∧
      d8.db_solids.map Element.strain = [[[⟨609⟩, ⟨610⟩, ⟨611⟩, ⟨612⟩, ⟨613⟩, ⟨614⟩]]] ∧
      d8.db_solids.map Element.energy = [[]] :=
    ⟨_, _, _, rfl, rfl, rfl, rfl, rfl, rfl, rfl, rfl, rfl, rfl⟩
  obtain ⟨g, d8, e, hg, h8, he, n1, hpos, v1, v2, v3, v4, v5⟩ := h0
  have hsh : Shape g := (open_geometry_opened bufT false g hg).2.2.2.2.1
  obtain ⟨e1, hj1, _, _, _, _, _, _, _, _, hen⟩ := solid_record_layout sample_arith 0
    { g with buffer := { g.buffer with current := segT },
             plan := { ReadPlan.init with stress_read := 6, plastic_strain_read := 6,
                                          strain_read := 6, energy_read := 6,
                                          history_solid_read := [1],
                                          history_solid_mode := [6] } } d8 h8 hsh
    (by show 0 < g.ctrl.dyna_nv3d; rw [n1]; decide) 0 e he _ rfl
  exact ⟨g, d8, e, e1, hg, h8, he, hj1, hpos, hen, v1, v2, v3, v4, v5⟩


/-! ## C22: the reduction mode of a request string -/

/-- C22: for every string `s`, `read_states_parse_readMode s` is the code of
the first keyword in the order max (1), min (2), outer (3), mid (4), inner (5),
mean (6) that occurs as a substring of `s`, and 6 when none occurs; the result
is always in `1 .. 6`. -/
theorem read_states_parse_readMode_first (s : String) :
    D3plot.read_states_parse_readMode s = first_mode_keyword s ∧
    1 ≤ D3plot.read_states_parse_readMode s ∧ D3plot.read_states_parse_readMode s ≤ 6 := by
  refine ⟨?_, read_states_parse_readMode_pos s⟩
  unfold D3plot.read_states_parse_readMode first_mode_keyword mode_keywords
  by_cases h1 : D3plot.str_contains s "max" = true
  · simp only [List.find?, h1, if_true]
  by_cases h2 : D3plot.str_contains s "min" = true
  · simp only [List.find?, h1, h2, if_true, if_false, Bool.false_eq_true]
  by_cases h3 : D3plot.str_contains s "outer" = true
  · simp only [List.find?, h1, h2, h3, if_true, if_false, Bool.false_eq_true]
  by_cases h4 : D3plot.str_contains s "mid" = true
  · simp only [List.find?, h1, h2, h3, h4, if_true, if_false, Bool.false_eq_true]
  by_cases h5 : D3plot.str_contains s "inner" = true
  · simp only [List.find?, h1, h2, h3, h4, h5, if_true, if_false, Bool.false_eq_true]
  by_cases h6 : D3plot.str_contains s "mean" = true
  · simp only [List.find?, h1, h2, h3, h4, h5, h6, if_true, if_false, Bool.false_eq_true]
  · simp only [List.find?, h1, h2, h3, h4, h5, h6, if_false, Bool.false_eq_true]


/-! ## C23: the order of the tests of the parser -/

/-- C23: in `read_states_parse`, a request string that contains
`"stress_mises"` and none of `"disp"`, `"vel"`, `"accel"` sets the entry of the
Mises stress of the plan and no other entry, so a request list of that string
alone leaves the stress entry at 0; and a request string that contains
`"plastic_strain"` and none of `"disp"`, `"vel"`, `"accel"`, `"stress"` sets the
entry of the plastic strain and no other entry, leaves the strain entry at 0,
and is accepted whatever the header holds, also with `istrn = 0`. -/
theorem read_states_parse_order (c : Control) (l : Loaded) (p : ReadPlan) (s : String)
    (h1 : ¬ D3plot.str_contains s "disp" = true) (h2 : ¬ D3plot.str_contains s "vel" = true)
    (h3 : ¬ D3plot.str_contains s "accel" = true) :
    (D3plot.str_contains s "stress_mises" = true →
      D3plot.read_states_parse_variable c l p s
        = .ok { p with stress_mises_read :=
            if l.stress_mises_is_read = true then 0 else D3plot.read_states_parse_readMode s } ∧
      ∃ q, D3plot.read_states_parse c l [s] = .ok q ∧
        q = { ReadPlan.init with stress_mises_read :=
            if l.stress_mises_is_read = true then 0 else D3plot.read_states_parse_readMode s } ∧
        q.stress_read = 0) ∧
    (D3plot.str_contains s "plastic_strain" = true → ¬ D3plot.str_contains s "stress" = true →
      D3plot.read_states_parse_variable c l p s
        = .ok { p with plastic_strain_read :=
            if l.plastic_strain_is_read = true then 0
            else D3plot.read_states_parse_readMode s } ∧
      ∃ q, D3plot.read_states_parse c l [s] = .ok q ∧
        q = { ReadPlan.init with plastic_strain_read :=
            if l.plastic_strain_is_read = true then 0
            else D3plot.read_states_parse_readMode s } ∧
        q.strain_read = 0) := by
  refine ⟨?_, ?_⟩
  · intro hm
    have key : ∀ p0, D3plot.read_states_parse_variable c l p0 s
        = .ok { p0 with stress_mises_read :=
            if l.stress_mises_is_read = true then 0 else D3plot.read_states_parse_readMode s } := by
      intro p0
      unfold D3plot.read_states_parse_variable
      rw [if_neg h1, if_neg h2, if_neg h3, if_pos hm]
    refine ⟨key p, _, ?_, rfl, rfl⟩
    unfold D3plot.read_states_parse
    simp only [D3plot.read_states_parse_loop, key]
  · intro hm h4
    have h4m := not_str_contains_mono s _ _ stress_infix_stress_mises h4
    have key : ∀ p0, D3plot.read_states_parse_variable c l p0 s
        = .ok { p0 with plastic_strain_read :=
            if l.plastic_strain_is_read = true then 0
            else D3plot.read_states_parse_readMode s } := by
      intro p0
      unfold D3plot.read_states_parse_variable
      rw [if_neg h1, if_neg h2, if_neg h3, if_neg h4m, if_neg h4, if_pos hm]
    refine ⟨key p, _, ?_, rfl, rfl⟩
    unfold D3plot.read_states_parse
    simp only [D3plot.read_states_parse_loop, key]

/-- C23 on the strings `"stress_mises max"` and `"plastic_strain"` with a header
whose `istrn` is 0 and nothing loaded: the plans hold the code 1 for the Mises
stress and 0 for the stress, and the code 6 for the plastic strain and 0 for
the strain. -/
theorem read_states_parse_order_witness :
    (∃ q, D3plot.read_states_parse { Control.init with dyna_istrn := 0 } Loaded.init
        ["stress_mises max"] = .ok q ∧ q.stress_mises_read = 1 ∧ q.stress_read = 0) ∧
    (∃ q, D3plot.read_states_parse { Control.init with dyna_istrn := 0 } Loaded.init
        ["plastic_strain"] = .ok q ∧ q.plastic_strain_read = 6 ∧ q.strain_read = 0) := by
  obtain ⟨_, q, hq, he, h0⟩ := (read_states_parse_order { Control.init with dyna_istrn := 0 }
    Loaded.init ReadPlan.init "stress_mises max" (by decide) (by decide) (by decide)).1
    (by decide)
  obtain ⟨_, q2, hq2, he2, h02⟩ := (read_states_parse_order { Control.init with dyna_istrn := 0 }
    Loaded.init ReadPlan.init "plastic_strain" (by decide) (by decide) (by decide)).2
    (by decide) (by decide)
  refine ⟨⟨q, hq, ?_, h0⟩, ⟨q2, hq2, ?_, h02⟩⟩
  · rw [he]; rfl
  · rw [he2]; rfl


/-! ## C24: requests for variables the file does not hold -/

/-- C24: when the request list holds a string that asks for the
displacements while `iu = 0`, the velocities while `iv = 0`, the accelerations
while `ia = 0`, the strain while `istrn = 0`, or the energy while `ioshl4 = 0`,
`read_states` fails, and its error is the error of `read_states_parse`: the
call ends in the parser, which works on the header, the loaded-flags and the
request list only, before the buffer is asked for a state and before a result
vector, the timestep table or a flag is written.  A string that asks for the
stress, the Mises stress or the plastic strain is accepted by the parser
whatever the header flags `ioshl1` and `ioshl2` are. -/
theorem read_states_refuses_absent (fa : FloatArith) (fuel : Nat) (vars : List String)
    (d : D3plot) (s : String) (v : Var) (hs : s ∈ vars) (hv : Var.classify s = some v) :
    ((v = Var.disp ∧ d.ctrl.dyna_iu = 0) ∨ (v = Var.vel ∧ d.ctrl.dyna_iv = 0) ∨
      (v = Var.accel ∧ d.ctrl.dyna_ia = 0) ∨ (v = Var.strain ∧ d.ctrl.dyna_istrn = 0) ∨
      (v = Var.energy ∧ d.ctrl.dyna_ioshl4 = 0) →
      ∃ e, D3plot.read_states_parse d.ctrl d.loaded vars = .error e ∧
        D3plot.read_states fa fuel vars d = .error e) ∧
    (v = Var.stress ∨ v = Var.stress_mises ∨ v = Var.plastic_strain →
      (∀ p, ∃ p1, D3plot.read_states_parse_variable d.ctrl d.loaded p s = .ok p1) ∧
      ∃ q, D3plot.read_states_parse d.ctrl d.loaded [s] = .ok q) := by
  refine ⟨?_, ?_⟩
  · intro ha
    have hnp : ¬ v.present d.ctrl := by
      rcases ha with ⟨rfl, h0⟩ | ⟨rfl, h0⟩ | ⟨rfl, h0⟩ | ⟨rfl, h0⟩ | ⟨rfl, h0⟩ <;>
        simp [Var.present, h0]
    obtain ⟨e, he⟩ := read_states_parse_loop_error d.ctrl d.loaded s
      (fun p => (read_states_parse_variable_classify d.ctrl d.loaded p s v hv).2 hnp)
      vars ReadPlan.init hs
    have hp : D3plot.read_states_parse d.ctrl d.loaded vars = .error e := he
    exact ⟨e, hp, read_states_error_of_parse fa fuel vars d e (List.ne_nil_of_mem hs) hp⟩
  · intro ha
    have hp : v.present d.ctrl := by
      rcases ha with rfl | rfl | rfl <;> exact trivial
    refine ⟨fun p => ⟨_, (read_states_parse_variable_classify d.ctrl d.loaded p s v hv).1 hp⟩, ?_⟩
    unfold D3plot.read_states_parse
    simp only [D3plot.read_states_parse_loop,
      (read_states_parse_variable_classify d.ctrl d.loaded ReadPlan.init s v hv).1 hp]
    exact ⟨_, rfl⟩

set_option maxRecDepth 100000 in
/-- C24 on `fileG`, where `iv = 0`: the request list `["disp", "vel"]` makes
`read_states` fail on the reader the geometry stage left; and on `fileA`, where
`ioshl1 = 0`, the parser accepts `"stress"`. -/
theorem read_states_refuses_absent_witness :
    (∃ g e, D3plot.open_geometry bufG false = .ok g ∧ g.ctrl.dyna_iv = 0 ∧
      D3plot.read_states sample_arith 5 ["disp", "vel"] g = .error e) ∧
    (∃ g q, D3plot.open_geometry bufA false = .ok g ∧ g.ctrl.dyna_ioshl1 = 0 ∧
      D3plot.read_states_parse g.ctrl g.loaded ["stress"] = .ok q) := by
  have h0 : ∃ g, D3plot.open_geometry bufG false = .ok g ∧ g.ctrl.dyna_iv = 0 := ⟨_, rfl, rfl⟩
  have h1 : ∃ g, D3plot.open_geometry bufA false = .ok g ∧ g.ctrl.dyna_ioshl1 = 0 :=
    ⟨_, rfl, rfl⟩
  obtain ⟨g, hg, hiv⟩ := h0
  obtain ⟨a, ha, hio⟩ := h1
  obtain ⟨e, _, he⟩ := (read_states_refuses_absent sample_arith 5 ["disp", "vel"] g "vel" Var.vel
    (by simp) (by decide)).1 (Or.inr (Or.inl ⟨rfl, hiv⟩))
  obtain ⟨_, q, hq⟩ := (read_states_refuses_absent sample_arith 5 ["stress"] a "stress"
    Var.stress (by simp) (by decide)).2 (Or.inl rfl)
  exact ⟨⟨g, e, hg, hiv, he⟩, ⟨a, q, ha, hio, hq⟩⟩


/-! ## C25: unknown request strings -/

/-- C25: for every request list that holds a string with none of the
substrings `disp`, `vel`, `accel`, `stress`, `strain`, `energy`, `history`,
`read_states` fails, and its error is the error of `read_states_parse`: the
call ends in the parser, which works on the header, the loaded-flags and the
request list only, so no result vector, the timestep table and no loaded-flag
is written.  When the string is the only one of the list, the error is the one
for an undefined variable. -/
theorem read_states_refuses_unknown (fa : FloatArith) (fuel : Nat) (vars : List String)
    (d : D3plot) (s : String) (hs : s ∈ vars)
    (h1 : ¬ D3plot.str_contains s "disp" = true) (h2 : ¬ D3plot.str_contains s "vel" = true)
    (h3 : ¬ D3plot.str_contains s "accel" = true)
    (h4 : ¬ D3plot.str_contains s "stress" = true)
    (h5 : ¬ D3plot.str_contains s "strain" = true)
    (h6 : ¬ D3plot.str_contains s "energy" = true)
    (h7 : ¬ D3plot.str_contains s "history" = true) :
    (∃ e, D3plot.read_states_parse d.ctrl d.loaded vars = .error e ∧
      D3plot.read_states fa fuel vars d = .error e) ∧
    D3plot.read_states fa fuel [s] d
      = .error (Err.invalid_argument "Reading of variable is undefined") := by
  have hu := fun p => read_states_parse_variable_unknown d.ctrl d.loaded p s h1 h2 h3 h4 h5 h6 h7
  refine ⟨?_, ?_⟩
  · obtain ⟨e, he⟩ := read_states_parse_loop_error d.ctrl d.loaded s (fun p => ⟨_, hu p⟩)
      vars ReadPlan.init hs
    have hp : D3plot.read_states_parse d.ctrl d.loaded vars = .error e := he
    exact ⟨e, hp, read_states_error_of_parse fa fuel vars d e (List.ne_nil_of_mem hs) hp⟩
  · apply read_states_error_of_parse fa fuel [s] d _ (by simp)
    unfold D3plot.read_states_parse
    simp only [D3plot.read_states_parse_loop, hu]

set_option maxRecDepth 100000 in
/-- C25 on `fileA`: the request list `["disp", "pressure"]` makes `read_states`
fail on the reader the constructor built with `["disp"]`. -/
theorem read_states_refuses_unknown_witness :
    ∃ d e, D3plot.new sample_arith 5 bufA ["disp"] false = .ok d ∧
      D3plot.read_states sample_arith 5 ["disp", "pressure"] d = .error e ∧
      D3plot.read_states sample_arith 5 ["pressure"] d
        = .error (Err.invalid_argument "Reading of variable is undefined") := by
  have h0 : ∃ d, D3plot.new sample_arith 5 bufA ["disp"] false = .ok d := ⟨_, rfl⟩
  obtain ⟨d, hd⟩ := h0
  obtain ⟨⟨e, _, he⟩, h2⟩ := read_states_refuses_unknown sample_arith 5 ["disp", "pressure"] d
    "pressure" (by simp) (by decide) (by decide) (by decide) (by decide) (by decide) (by decide)
    (by decide)
  exact ⟨d, e, hd, he, h2⟩


/-! ## C26: an index written twice in one history request -/

set_option maxRecDepth 100000 in
/-- C26: an index written twice in one history request is erased once only.
With nothing loaded, the indices `1 1` of a request pass the three loops
unchanged, so the request `history shell 1 1` (and likewise
`history solid 1 1`) leaves the index 1 twice in the plan; and with the index
1 already loaded by an earlier read, one of the two is erased and the plan
still holds the loaded index 1. -/
theorem read_states_parse_history_repeated :
    D3plot.parse_history [] [] [1, 1] = .ok [1, 1] ∧
    D3plot.parse_history [1] [] [1, 1] = .ok [1] ∧
    (∃ p, D3plot.read_states_parse { Control.init with dyna_neips := 1 } Loaded.init
        ["history shell 1 1"] = .ok p ∧ p.history_shell_read = [1, 1] ∧
        p.history_shell_mode = [6, 6]) ∧
    (∃ p, D3plot.read_states_parse { Control.init with dyna_neiph := 1 } Loaded.init
        ["history solid 1 1"] = .ok p ∧ p.history_solid_read = [1, 1]) ∧
    (∃ p, D3plot.read_states_parse { Control.init with dyna_neips := 1 }
        { Loaded.init with history_shell_is_read := [1] }
        ["history shell 1 1"] = .ok p ∧ p.history_shell_read = [1] ∧
        1 ∈ ({ Loaded.init with history_shell_is_read := [1] } : Loaded).history_shell_is_read) ∧
    (∃ p, D3plot.read_states_parse { Control.init with dyna_neiph := 1 }
        { Loaded.init with history_solid_is_read := [1] }
        ["history solid 1 1"] = .ok p ∧ p.history_solid_read = [1]) :=
  ⟨rfl, rfl, ⟨_, rfl, rfl, rfl⟩, ⟨_, rfl, rfl⟩, ⟨_, rfl, rfl, by decide⟩, ⟨_, rfl, rfl⟩⟩


/-! ## C27: the decoding of `maxint` and `mdlopt` -/

/-- C27: a successful `read_header` has read a word `m` at position 36 and,
unless `m` is the minimum 32-bit integer, has decoded it so: for
`0 ≤ m ≤ 10000`, `mdlopt = 0` and `maxint = m`; for `-10000 ≤ m < 0`,
`mdlopt = 1` and `maxint = -m`; and when the absolute value of `m` exceeds
10000, `mdlopt = 2` and `maxint` is that value less 10000; so `maxint ≥ 0`.
In every case `mdlopt` is 0, 1 or 2 and the table of `read_states` that ends
with the error for an `mdlopt` that makes no sense gives a size.  The same
holds on every reader the constructor and calls of `read_states` lead to. -/
theorem read_header_mdlopt :
    (∀ d d1 : D3plot, d.read_header = .ok d1 →
      ∃ m, d.buffer.read_int 36 = .ok m ∧
        (m ≠ -2147483648 →
          (0 ≤ m → m ≤ 10000 → d1.ctrl.dyna_mdlopt = 0 ∧ d1.ctrl.dyna_maxint = m) ∧
          (m < 0 → -10000 ≤ m → d1.ctrl.dyna_mdlopt = 1 ∧ d1.ctrl.dyna_maxint = -m) ∧
          (10000 < m → d1.ctrl.dyna_mdlopt = 2 ∧ d1.ctrl.dyna_maxint = m - 10000) ∧
          (m < -10000 → d1.ctrl.dyna_mdlopt = 2 ∧ d1.ctrl.dyna_maxint = -m - 10000) ∧
          0 ≤ d1.ctrl.dyna_maxint) ∧
        (d1.ctrl.dyna_mdlopt = 0 ∨ d1.ctrl.dyna_mdlopt = 1 ∨ d1.ctrl.dyna_mdlopt = 2) ∧
        ∃ n, D3plot.deletion_vars d1.ctrl = .ok n) ∧
    (∀ (fa : FloatArith) (buf : Buffer) (fz : Bool) (calls : List (Nat × List String))
      (g d : D3plot), D3plot.open_geometry buf fz = .ok g →
      D3plot.read_states_calls fa calls g = .ok d →
      (d.ctrl.dyna_mdlopt = 0 ∨ d.ctrl.dyna_mdlopt = 1 ∨ d.ctrl.dyna_mdlopt = 2) ∧
      ∃ n, D3plot.deletion_vars d.ctrl = .ok n) := by
  have key : ∀ d d1 : D3plot, d.read_header = .ok d1 →
      ∃ m, d.buffer.read_int 36 = .ok m ∧
        ((0 ≤ m → m ≤ 10000 → d1.ctrl.dyna_mdlopt = 0 ∧ d1.ctrl.dyna_maxint = m) ∧
          (m < 0 → -10000 ≤ m → d1.ctrl.dyna_mdlopt = 1 ∧ d1.ctrl.dyna_maxint = -m) ∧
          (10000 < m → d1.ctrl.dyna_mdlopt = 2 ∧ d1.ctrl.dyna_maxint = m - 10000) ∧
          (m < -10000 → d1.ctrl.dyna_mdlopt = 2 ∧ d1.ctrl.dyna_maxint = -m - 10000) ∧
          0 ≤ d1.ctrl.dyna_maxint) ∧
        (d1.ctrl.dyna_mdlopt = 0 ∨ d1.ctrl.dyna_mdlopt = 1 ∨ d1.ctrl.dyna_mdlopt = 2) := by
    intro d d1 h
    obtain ⟨ft, n15, m, _, _, _, _, _, h36, hmd, hmx, _⟩ := read_header_words d d1 h
    refine ⟨m, h36, ?_, ?_⟩
    · rw [hmd, hmx]
      unfold abs32
      refine ⟨?_, ?_, ?_, ?_, ?_⟩
      · intro h0 h1
        constructor <;> (split_ifs <;> omega)
      · intro h0 h1
        constructor <;> (split_ifs <;> omega)
      · intro h0
        constructor <;> (split_ifs <;> omega)
      · intro h0
        constructor <;> (split_ifs <;> omega)
      · split_ifs <;> omega
    · rw [hmd]
      split_ifs <;> simp
  refine ⟨?_, ?_⟩
  · intro d d1 h
    obtain ⟨m, h36, hdec, hmd⟩ := key d d1 h
    exact ⟨m, h36, fun _ => hdec, hmd, deletion_vars_ok _ hmd⟩
  · intro fa buf fz calls g d hg hc
    obtain ⟨d1, d2, h1, _, _, e1, _⟩ := open_geometry_stages buf fz g hg
    obtain ⟨m, _, _, hmd⟩ := key _ d1 h1
    have hk := read_states_calls_ctrl fa calls g d hc
    have hmd2 : d.ctrl.dyna_mdlopt = 0 ∨ d.ctrl.dyna_mdlopt = 1 ∨ d.ctrl.dyna_mdlopt = 2 := by
      rw [hk, e1]
      exact hmd
    exact ⟨hmd2, deletion_vars_ok _ hmd2⟩

set_option maxRecDepth 100000 in
/-- C27 on two headers: the word `-3` at position 36 gives
`mdlopt = 1` and `maxint = 3`, and the word `10002` gives `mdlopt = 2` and
`maxint = 2`. -/
theorem read_header_mdlopt_witness :
    (∃ d1, (header_reader [(11, 1), (15, 4), (36, 4294967293)]).read_header = .ok d1 ∧
      d1.ctrl.dyna_mdlopt = 1 ∧ d1.ctrl.dyna_maxint = 3) ∧
    (∃ d1, (header_reader [(11, 1), (15, 4), (36, 10002)]).read_header = .ok d1 ∧
      d1.ctrl.dyna_mdlopt = 2 ∧ d1.ctrl.dyna_maxint = 2) := by
  have h0 : ∃ d1, (header_reader [(11, 1), (15, 4), (36, 4294967293)]).read_header = .ok d1 :=
    ⟨_, rfl⟩
  have h1 : ∃ d1, (header_reader [(11, 1), (15, 4), (36, 10002)]).read_header = .ok d1 :=
    ⟨_, rfl⟩
  obtain ⟨a, ha⟩ := h0
  obtain ⟨b, hb⟩ := h1
  obtain ⟨m, hm, hdec, _⟩ := read_header_mdlopt.1 _ a ha
  obtain ⟨k, hk, hdec2, _⟩ := read_header_mdlopt.1 _ b hb
  have em : m = -3 := by
    have e : (header_reader [(11, 1), (15, 4), (36, 4294967293)]).buffer.read_int 36
        = .ok (-3) := rfl
    exact Except.ok.inj (hm.symm.trans e)
  have ek : k = 10002 := by
    have e : (header_reader [(11, 1), (15, 4), (36, 10002)]).buffer.read_int 36
        = .ok 10002 := rfl
    exact Except.ok.inj (hk.symm.trans e)
  subst em
  subst ek
  obtain ⟨_, q1, _⟩ := hdec (by decide)
  obtain ⟨_, _, q2, _⟩ := hdec2 (by decide)
  exact ⟨⟨a, ha, q1 (by decide) (by decide)⟩, ⟨b, hb, q2 (by decide)⟩⟩


/-! ## C28: the decoding of the `ndim` word -/

/-- C28: with the word `n` at position 15, the decoding of `read_header` maps
5 and 7 to `mattyp = 1`, `ndim = 3` and 4 to `mattyp = 0`, `ndim = 3`, and a
successful `read_header` has stored exactly that result, so that then `n` is
4, 5 or 7, `ndim = 3` and `mattyp` is 0 or 1.  On a header that passes the
filetype test and whose title is read, every other `n` above 5 ends
`read_header` with the error for a rigid road surface and every remaining `n`
(3 among them) with the error for an invalid `ndim`. -/
theorem read_header_ndim (d : D3plot) (n : Int) (h15 : d.buffer.read_int 15 = .ok n) :
    (n = 5 ∨ n = 7 → D3plot.decode_ndim n = .ok (1, 3)) ∧
    (n = 4 → D3plot.decode_ndim n = .ok (0, 3)) ∧
    (∀ d1, d.read_header = .ok d1 →
      D3plot.decode_ndim n = .ok (d1.ctrl.dyna_mattyp, d1.ctrl.dyna_ndim) ∧
      (n = 4 ∨ n = 5 ∨ n = 7) ∧ d1.ctrl.dyna_ndim = 3 ∧
      d1.ctrl.dyna_mattyp = (if n = 4 then 0 else 1) ∧
      (d1.ctrl.dyna_mattyp = 0 ∨ d1.ctrl.dyna_mattyp = 1)) ∧
    (∀ ft, d.buffer.read_int 11 = .ok ft → (ft = 1 ∨ ft = 5 ∨ ft = 1001 ∨ ft = 1005) →
      (∃ title, d.buffer.read_str 0 10 = .ok title) → n ≠ 4 → n ≠ 5 → n ≠ 7 →
      (n > 5 → d.read_header = .error (Err.runtime_error
        "State data contains rigid road surface which can not be handled.")) ∧
      (¬ n > 5 → d.read_header
        = .error (Err.runtime_error "Invalid parameter dyna_ndim"))) := by
  refine ⟨?_, ?_, ?_, ?_⟩
  · intro h
    unfold D3plot.decode_ndim
    rw [if_pos h]
  · intro h
    unfold D3plot.decode_ndim
    rw [if_neg (by omega), if_pos h]
  · intro d1 h
    obtain ⟨ft, n15, m36, _, _, _, h15b, hdec, _⟩ := read_header_words d d1 h
    have e : n15 = n := Except.ok.inj (h15b.symm.trans h15)
    subst e
    obtain ⟨hn, hr⟩ := decode_ndim_ok _ _ hdec
    have hm : d1.ctrl.dyna_mattyp = (if n15 = 4 then 0 else 1) := congrArg Prod.fst hr
    have hd : d1.ctrl.dyna_ndim = 3 := congrArg Prod.snd hr
    refine ⟨hdec, hn, hd, hm, ?_⟩
    rw [hm]
    split
    · exact Or.inl rfl
    · exact Or.inr rfl
  · intro ft h11 hft ht h4 h5 h7
    obtain ⟨title, ht⟩ := ht
    have hft2 : ¬ ((if ft > 1000 then ft - 1000 else ft) ≠ 1 ∧
        (if ft > 1000 then ft - 1000 else ft) ≠ 5) := by
      rcases hft with rfl | rfl | rfl | rfl <;> decide
    obtain ⟨e1, e2⟩ := decode_ndim_error n h4 h5 h7
    exact ⟨fun h => read_header_ndim_error d ft n title _ h11 hft2 ht h15 (e1 h),
      fun h => read_header_ndim_error d ft n title _ h11 hft2 ht h15 (e2 h)⟩

set_option maxRecDepth 100000 in
/-- C28 on three headers: the word 5 at position 15 is accepted with
`mattyp = 1` and `ndim = 3`, the word 6 ends with the error for a rigid road
surface and the word 3 with the error for an invalid `ndim`. -/
theorem read_header_ndim_witness :
    (∃ d1, (header_reader [(11, 1), (15, 5)]).read_header = .ok d1 ∧
      d1.ctrl.dyna_mattyp = 1 ∧ d1.ctrl.dyna_ndim = 3) ∧
    (header_reader [(11, 1), (15, 6)]).read_header = .error (Err.runtime_error
      "State data contains rigid road surface which can not be handled.") ∧
    (header_reader [(11, 1), (15, 3)]).read_header
      = .error (Err.runtime_error "Invalid parameter dyna_ndim") := by
  have h0 : ∃ d1, (header_reader [(11, 1), (15, 5)]).read_header = .ok d1 := ⟨_, rfl⟩
  obtain ⟨a, ha⟩ := h0
  obtain ⟨_, _, hok, _⟩ := read_header_ndim (header_reader [(11, 1), (15, 5)]) 5 rfl
  obtain ⟨_, _, hd, hm, _⟩ := hok a ha
  refine ⟨⟨a, ha, hm, hd⟩, ?_, ?_⟩
  · exact ((read_header_ndim (header_reader [(11, 1), (15, 6)]) 6 rfl).2.2.2 1 rfl
      (Or.inl rfl) ⟨_, rfl⟩ (by decide) (by decide) (by decide)).1 (by decide)
  · exact ((read_header_ndim (header_reader [(11, 1), (15, 3)]) 3 rfl).2.2.2 1 rfl
      (Or.inl rfl) ⟨_, rfl⟩ (by decide) (by decide) (by decide)).2 (by decide)


/-! ## C29: the filetype word -/

set_option maxRecDepth 100000 in
/-- C29, counterexample: the filetype word 1002 is above 1000, and
`read_header` ends with the error of the filetype test, not with the error
for external ids of double length. -/
theorem read_header_filetype_counterexample :
    (header_reader [(11, 1002), (15, 4)]).buffer.read_int 11 = .ok 1002 ∧
    (header_reader [(11, 1002), (15, 4)]).read_header
      = .error (Err.runtime_error "Wrong filetype != 1 (or 5) in header of d3plot.") ∧
    (header_reader [(11, 1002), (15, 4)]).read_header
      ≠ .error (Err.runtime_error "Can not handle external ids with double length.") := by
  have h : (header_reader [(11, 1002), (15, 4)]).read_header
      = .error (Err.runtime_error "Wrong filetype != 1 (or 5) in header of d3plot.") := rfl
  refine ⟨rfl, h, ?_⟩
  rw [h]
  intro hc
  have hs := Err.runtime_error.inj (Except.error.inj hc)
  exact absurd hs (by decide)

/-- C29, amended: with a filetype word `ft` that is not 1 or 5, `read_header`
fails; for every `ft` other than 1001 and 1005 the error is the one of the
filetype test; for 1001 and 1005 (external ids of 8 bytes), on a header whose
words are readable and that passes every other test, the error is the one for
external ids of double length; and no header with `ft > 1000` is accepted. -/
theorem read_header_filetype (d : D3plot) (ft : Int) (h11 : d.buffer.read_int 11 = .ok ft) :
    (ft ≠ 1 → ft ≠ 5 → ∃ e, d.read_header = .error e) ∧
    (ft ≠ 1 → ft ≠ 5 → ft ≠ 1001 → ft ≠ 1005 → d.read_header
      = .error (Err.runtime_error "Wrong filetype != 1 (or 5) in header of d3plot.")) ∧
    (ft = 1001 ∨ ft = 1005 →
      (∃ title, d.buffer.read_str 0 10 = .ok title) →
      (∀ i : Int, 0 ≤ i → i ≤ 64 → ∃ w, d.buffer.read_int i = .ok w) →
      (d.buffer.read_int 15 = .ok 4 ∨ d.buffer.read_int 15 = .ok 5 ∨
        d.buffer.read_int 15 = .ok 7) →
      d.buffer.read_int 37 = .ok 0 → d.buffer.read_int 38 = .ok 0 →
      d.buffer.read_int 47 = .ok 0 → d.buffer.read_int 19 = .ok 0 →
      (∃ w, d.buffer.read_int 40 = .ok w ∧ ¬ w > 0) →
      d.read_header
        = .error (Err.runtime_error "Can not handle external ids with double length.")) ∧
    (ft > 1000 → ∀ d1, d.read_header ≠ .ok d1) := by
  have hacc : ∀ d1, d.read_header = .ok d1 → ft = 1 ∨ ft = 5 := by
    intro d1 h
    obtain ⟨ft1, _, _, h11b, hft, _⟩ := read_header_words d d1 h
    have e : ft1 = ft := Except.ok.inj (h11b.symm.trans h11)
    exact e ▸ hft
  refine ⟨?_, ?_, ?_, ?_⟩
  · intro h1 h5
    cases hr : d.read_header with
    | error e => exact ⟨e, rfl⟩
    | ok d1 =>
      rcases hacc d1 hr with h | h
      · exact absurd h h1
      · exact absurd h h5
  · intro h1 h5 h1001 h1005
    apply read_header_filetype_error d ft h11
    split <;> constructor <;> omega
  · intro hft ht hw h15 h37 h38 h47 h19 h40
    rcases h15 with h15 | h15 | h15
    · exact read_header_I8_error d ft 4 h11 hft ht hw h15 (Or.inl rfl) h37 h38 h47 h19 h40
    · exact read_header_I8_error d ft 5 h11 hft ht hw h15 (Or.inr (Or.inl rfl)) h37 h38 h47
        h19 h40
    · exact read_header_I8_error d ft 7 h11 hft ht hw h15 (Or.inr (Or.inr rfl)) h37 h38 h47
        h19 h40
  · intro hgt d1 h
    rcases hacc d1 h with h | h <;> omega

set_option maxRecDepth 100000 in
/-- C29 amended, on three headers: the filetype word 3 and the word 1002 end
with the error of the filetype test, and the word 1001 on a header that
passes the other tests ends with the error for ids of double length. -/
theorem read_header_filetype_witness :
    (header_reader [(11, 3), (15, 4)]).read_header
      = .error (Err.runtime_error "Wrong filetype != 1 (or 5) in header of d3plot.") ∧
    (header_reader [(11, 1002), (15, 4)]).read_header
      = .error (Err.runtime_error "Wrong filetype != 1 (or 5) in header of d3plot.") ∧
    (header_reader [(11, 1001), (15, 4)]).read_header
      = .error (Err.runtime_error "Can not handle external ids with double length.") := by
  refine ⟨?_, ?_, ?_⟩
  · exact (read_header_filetype (header_reader [(11, 3), (15, 4)]) 3 rfl).2.1
      (by decide) (by decide) (by decide) (by decide)
  · exact (read_header_filetype (header_reader [(11, 1002), (15, 4)]) 1002 rfl).2.1
      (by decide) (by decide) (by decide) (by decide)
  · refine (read_header_filetype (header_reader [(11, 1001), (15, 4)]) 1001 rfl).2.2.1
      (Or.inl rfl) ⟨_, rfl⟩ ?_ (Or.inl rfl) rfl rfl rfl rfl ⟨0, rfl, by decide⟩
    intro i h0 h64
    apply Buffer.read_int_of_lt _ i h0
    show i.toNat < 128
    omega


/-! ## C30: the checks at the end of `read_header` -/

/-- C30: `read_header` fails whenever the word of `nmsph` (37), `ngpsph` (38),
`ialemat` (47) or `it` (19) is not zero or the word of `nelth` (40) is
positive; when it succeeds these five values are stored as read, the first
four are zero and `nelth` is not positive, and the word position is 128 when
`extra` (word 57) is positive and 64 otherwise. -/
theorem read_header_checks (d : D3plot) :
    (∀ w, (d.buffer.read_int 37 = .ok w ∨ d.buffer.read_int 38 = .ok w ∨
        d.buffer.read_int 47 = .ok w ∨ d.buffer.read_int 19 = .ok w) → w ≠ 0 →
      ∃ e, d.read_header = .error e) ∧
    (∀ w, d.buffer.read_int 40 = .ok w → w > 0 → ∃ e, d.read_header = .error e) ∧
    (∀ d1, d.read_header = .ok d1 →
      d.buffer.read_int 37 = .ok d1.ctrl.dyna_nmsph ∧ d1.ctrl.dyna_nmsph = 0 ∧
      d.buffer.read_int 38 = .ok d1.ctrl.dyna_ngpsph ∧ d1.ctrl.dyna_ngpsph = 0 ∧
      d.buffer.read_int 47 = .ok d1.ctrl.dyna_ialemat ∧ d1.ctrl.dyna_ialemat = 0 ∧
      d.buffer.read_int 40 = .ok d1.ctrl.dyna_nelth ∧ ¬ d1.ctrl.dyna_nelth > 0 ∧
      d.buffer.read_int 19 = .ok d1.ctrl.dyna_it ∧ d1.ctrl.dyna_it = 0 ∧
      d.buffer.read_int 57 = .ok d1.ctrl.dyna_extra ∧
      d1.wordPosition = (if d1.ctrl.dyna_extra > 0 then 128 else 64)) := by
  refine ⟨?_, ?_, ?_⟩
  · intro w hw hne
    cases hr : d.read_header with
    | error e => exact ⟨e, rfl⟩
    | ok d1 =>
      exfalso
      obtain ⟨_, _, _, _, _, _, _, _, _, _, _, h37, z37, h38, z38, h47, z47, _, _, h19, z19, _⟩ :=
        read_header_words d d1 hr
      rcases hw with hw | hw | hw | hw
      · exact hne ((Except.ok.inj (hw.symm.trans h37)).trans z37)
      · exact hne ((Except.ok.inj (hw.symm.trans h38)).trans z38)
      · exact hne ((Except.ok.inj (hw.symm.trans h47)).trans z47)
      · exact hne ((Except.ok.inj (hw.symm.trans h19)).trans z19)
  · intro w hw hpos
    cases hr : d.read_header with
    | error e => exact ⟨e, rfl⟩
    | ok d1 =>
      exfalso
      obtain ⟨_, _, _, _, _, _, _, _, _, _, _, _, _, _, _, _, _, h40, z40, _⟩ :=
        read_header_words d d1 hr
      have e : w = d1.ctrl.dyna_nelth := Except.ok.inj (hw.symm.trans h40)
      exact z40 (e ▸ hpos)
  · intro d1 hr
    obtain ⟨_, _, _, _, _, _, _, _, _, _, _, h37, z37, h38, z38, h47, z47, h40, z40, h19, z19,
      h57, hp⟩ := read_header_words d d1 hr
    exact ⟨h37, z37, h38, z38, h47, z47, h40, z40, h19, z19, h57, hp⟩

set_option maxRecDepth 100000 in
/-- C30 on three headers: one with `nmsph = 1` and one with `nelth = 2` are
refused, and one with `extra = 1` is accepted with the word position 128. -/
theorem read_header_checks_witness :
    (∃ e, (header_reader [(11, 1), (15, 4), (37, 1)]).read_header = .error e) ∧
    (∃ e, (header_reader [(11, 1), (15, 4), (40, 2)]).read_header = .error e) ∧
    (∃ d1, (header_reader [(11, 1), (15, 4), (57, 1)]).read_header = .ok d1 ∧
      d1.ctrl.dyna_extra = 1 ∧ d1.wordPosition = 128 ∧ d1.ctrl.dyna_nmsph = 0) := by
  have h0 : ∃ d1, (header_reader [(11, 1), (15, 4), (57, 1)]).read_header = .ok d1 ∧
      d1.ctrl.dyna_extra = 1 := ⟨_, rfl, rfl⟩
  obtain ⟨a, ha, hx⟩ := h0
  obtain ⟨_, z37, _, _, _, _, _, _, _, _, _, hp⟩ :=
    (read_header_checks (header_reader [(11, 1), (15, 4), (57, 1)])).2.2 a ha
  refine ⟨?_, ?_, ⟨a, ha, hx, ?_, z37⟩⟩
  · exact (read_header_checks (header_reader [(11, 1), (15, 4), (37, 1)])).1 1
      (Or.inl rfl) (by decide)
  · exact (read_header_checks (header_reader [(11, 1), (15, 4), (40, 2)])).2.1 2 rfl
      (by decide)
  · rw [hp, hx]
    rfl


/-! ## C31: the material section -/

/-- C31: with `mattyp = 0`, `read_matsection` succeeds, sets `numrbe = 0` and
leaves the word position and `irbtyp` as they are.  With `mattyp = 1` it fails
with the error of its test when the word at `wordPosition + 1` differs from
`nmmat`; when it succeeds, `numrbe` is the word at `wordPosition`, the word at
`wordPosition + 1` is `nmmat`, the entries appended to `irbtyp` (which is
empty before, on a reader that comes from the header) are exactly the `nmmat`
words at `wordPosition + 2 .. wordPosition + 1 + nmmat` in their order, and
the word position is advanced by exactly `2 + nmmat`; and it does succeed when
these `2 + nmmat` words can be read, the second one is `nmmat`, and `nmmat` is
not negative. -/
theorem read_matsection_layout (d : D3plot) :
    (d.ctrl.dyna_mattyp = 0 →
      ∃ d1, d.read_matsection = .ok d1 ∧ d1.ctrl.dyna_numrbe = 0 ∧
        d1.wordPosition = d.wordPosition ∧ d1.ctrl.dyna_irbtyp = d.ctrl.dyna_irbtyp) ∧
    (d.ctrl.dyna_mattyp = 1 →
      (∀ r w, d.buffer.read_int d.wordPosition = .ok r →
        d.buffer.read_int (d.wordPosition + 1) = .ok w → w ≠ d.ctrl.dyna_nmmat →
        d.read_matsection
          = .error (Err.runtime_error "dyna_nmmat != nummat in matsection!")) ∧
      (∀ d1, d.read_matsection = .ok d1 →
        d.buffer.read_int d.wordPosition = .ok d1.ctrl.dyna_numrbe ∧
        d.buffer.read_int (d.wordPosition + 1) = .ok d.ctrl.dyna_nmmat ∧
        0 ≤ d.ctrl.dyna_nmmat ∧
        d1.wordPosition = d.wordPosition + 2 + d.ctrl.dyna_nmmat ∧
        ∃ irb, d1.ctrl.dyna_irbtyp = d.ctrl.dyna_irbtyp ++ irb ∧
          (d.ctrl.dyna_irbtyp = [] → d1.ctrl.dyna_irbtyp = irb) ∧
          (irb.length : Int) = d.ctrl.dyna_nmmat ∧
          ∀ k : Nat, (k : Int) < d.ctrl.dyna_nmmat →
            ∃ x, d.buffer.read_int (d.wordPosition + 2 + k) = .ok x ∧ irb[k]? = some x) ∧
      (∀ r, d.buffer.read_int d.wordPosition = .ok r →
        d.buffer.read_int (d.wordPosition + 1) = .ok d.ctrl.dyna_nmmat →
        0 ≤ d.ctrl.dyna_nmmat →
        (∀ k : Nat, (k : Int) < d.ctrl.dyna_nmmat →
          ∃ x, d.buffer.read_int (d.wordPosition + 2 + k) = .ok x) →
        ∃ d1, d.read_matsection = .ok d1)) := by
  refine ⟨?_, ?_⟩
  · intro h0
    refine ⟨{ d with ctrl := { d.ctrl with dyna_numrbe := 0 } }, ?_, rfl, rfl, rfl⟩
    unfold D3plot.read_matsection
    rw [if_pos h0]
  · intro h1
    have hne : ¬ d.ctrl.dyna_mattyp = 0 := by omega
    refine ⟨?_, ?_, ?_⟩
    · intro r w hr hw hd
      unfold D3plot.read_matsection
      rw [if_neg hne]
      simp only [hr, hw, bind, Except.bind, throw_if, if_pos hd]
    · intro d1 h
      unfold D3plot.read_matsection at h
      rw [if_neg hne] at h
      simp only [Except.bind_eq_ok, throw_if_eq_ok, pure, Except.pure, Except.ok.injEq] at h
      obtain ⟨numrbe, hr, w, hw, _, c0, _, c1, irb, hirb, h⟩ := h
      subst h
      have e0 : w = d.ctrl.dyna_nmmat := not_not.mp c0
      subst e0
      have hnn : 0 ≤ d.ctrl.dyna_nmmat := by omega
      have hl := Buffer.read_int_array_length _ _ _ _ hirb
      refine ⟨hr, hw, hnn, ?_, irb, rfl, ?_, ?_, ?_⟩
      · show d.wordPosition + (2 + d.ctrl.dyna_nmmat) = d.wordPosition + 2 + d.ctrl.dyna_nmmat
        ring
      · intro he
        show d.ctrl.dyna_irbtyp ++ irb = irb
        rw [he]
        rfl
      · rw [hl]
        exact Int.toNat_of_nonneg hnn
      · intro k hk
        exact Buffer.read_int_array_get _ _ _ _ hirb k (by omega)
    · intro r hr hw hnn hk
      obtain ⟨irb, hirb⟩ := Buffer.read_int_array_readable d.buffer d.ctrl.dyna_nmmat.toNat
        (d.wordPosition + 2) (fun c hc => hk c (by omega))
      refine ⟨{ d with
          ctrl := { d.ctrl with dyna_numrbe := r, dyna_irbtyp := d.ctrl.dyna_irbtyp ++ irb },
          wordPosition := d.wordPosition + (2 + d.ctrl.dyna_nmmat) }, ?_⟩
      unfold D3plot.read_matsection
      rw [if_neg hne]
      simp only [hr, hw, bind, Except.bind, throw_if, if_neg (not_not.mpr rfl),
        if_neg (not_lt.mpr hnn), hirb, pure, Except.pure]

set_option maxRecDepth 100000 in
/-- C31 on `fileR`, where `mattyp = 1` and `nmmat = 3`: the material section at
word 64 gives `numrbe = 1`, `irbtyp = [20, 0, 20]` and the word position 69;
and on `fileA`, where `mattyp = 0`, it leaves the position 64. -/
theorem read_matsection_layout_witness :
    (∃ d1 d2, (D3plot.init bufR.read_geometryBuffer false).read_header = .ok d1 ∧
      d1.read_matsection = .ok d2 ∧ d2.ctrl.dyna_numrbe = 1 ∧
      d2.ctrl.dyna_irbtyp = [20, 0, 20] ∧ d2.wordPosition = 69) ∧
    (∃ d1 d2, (D3plot.init bufA.read_geometryBuffer false).read_header = .ok d1 ∧
      d1.read_matsection = .ok d2 ∧ d2.ctrl.dyna_numrbe = 0 ∧ d2.wordPosition = 64) := by
  have h0 : ∃ d1 d2, (D3plot.init bufR.read_geometryBuffer false).read_header = .ok d1 ∧
      d1.read_matsection = .ok d2 ∧ d1.ctrl.dyna_mattyp = 1 ∧ d1.ctrl.dyna_nmmat = 3 ∧
      d1.wordPosition = 64 ∧ d1.ctrl.dyna_irbtyp = [] ∧
      d2.ctrl.dyna_numrbe = 1 ∧ d2.ctrl.dyna_irbtyp = [20, 0, 20] :=
    ⟨_, _, rfl, rfl, rfl, rfl, rfl, rfl, rfl, rfl⟩
  have h1 : ∃ d1, (D3plot.init bufA.read_geometryBuffer false).read_header = .ok d1 ∧
      d1.ctrl.dyna_mattyp = 0 ∧ d1.wordPosition = 64 := ⟨_, rfl, rfl, rfl⟩
  obtain ⟨d1, d2, k1, k2, m1, m2, m3, m4, m5, m6⟩ := h0
  obtain ⟨a1, j1, j2, j3⟩ := h1
  obtain ⟨_, _, _, hp, _⟩ := ((read_matsection_layout d1).2 m1).2.1 d2 k2
  obtain ⟨a2, j4, j5, j6, _⟩ := (read_matsection_layout a1).1 j2
  refine ⟨⟨d1, d2, k1, k2, m5, m6, ?_⟩, ⟨a1, a2, j1, j4, j5, ?_⟩⟩
  · rw [hp, m2, m3]
    rfl
  · rw [j6, j3]


/-! ## C32: the node and element stages of the geometry -/

/-- C32: when the four stages `read_geometry_nodes`, `read_geometry_elem8`,
`read_geometry_elem2` and `read_geometry_elem4` succeed in the order of
`read_geometry` (the skip of the thick shells between the solids and the
beams) and `nelth` is not negative, the counts `numnp`, `nel8`, `nel2` and
`nel4` are not negative and the word position is advanced by exactly
`ndim·numnp + 9·nel8 + (2·nel8 with the flag of 10-node solids) + 9·nelth +
6·nel2 + 5·nel4`; record `j` of the solids is the nine words of its record,
record `j` of the beams the words at the offsets 0, 1 and 5 of its six words,
and record `j` of the shells the five words of its record.  A successful
`read_geometry` has run these stages and stores these records as the
connectivity of the solids, beams and shells it adds.  The flag of the 10-node
solids is set by `read_header` exactly when the raw `nel8` word (position 23)
is negative, on a reader that has it unset before. -/
theorem read_geometry_stages_advance (d : D3plot) :
    (∀ (r1 : List (List F32) × D3plot) (r2 r3 r4 : List (List Int) × D3plot),
      d.read_geometry_nodes = .ok r1 → r1.2.read_geometry_elem8 = .ok r2 →
      r2.2.skip_thick_shells.read_geometry_elem2 = .ok r3 →
      r3.2.read_geometry_elem4 = .ok r4 → 0 ≤ d.ctrl.dyna_nelth →
      0 ≤ d.ctrl.dyna_numnp ∧ 0 ≤ d.ctrl.dyna_nel8 ∧ 0 ≤ d.ctrl.dyna_nel2 ∧
      0 ≤ d.ctrl.dyna_nel4 ∧
      r1.1.length = d.ctrl.dyna_numnp.toNat ∧ r2.1.length = d.ctrl.dyna_nel8.toNat ∧
      r3.1.length = d.ctrl.dyna_nel2.toNat ∧ r4.1.length = d.ctrl.dyna_nel4.toNat ∧
      r4.2.wordPosition = d.wordPosition + d.ctrl.dyna_ndim * d.ctrl.dyna_numnp
        + 9 * d.ctrl.dyna_nel8 + (if d.ctrl.own_nel10 = true then 2 * d.ctrl.dyna_nel8 else 0)
        + 9 * d.ctrl.dyna_nelth + 6 * d.ctrl.dyna_nel2 + 5 * d.ctrl.dyna_nel4 ∧
      (∀ (j : Nat) (x : List Int), r2.1[j]? = some x →
        d.buffer.read_int_array (r1.2.wordPosition + 9 * j) 9 = .ok x) ∧
      (∀ (j : Nat) (x : List Int), r3.1[j]? = some x →
        ∃ n0 n1 mat,
          d.buffer.read_int (r2.2.skip_thick_shells.wordPosition + 6 * j) = .ok n0 ∧
          d.buffer.read_int (r2.2.skip_thick_shells.wordPosition + 6 * j + 1) = .ok n1 ∧
          d.buffer.read_int (r2.2.skip_thick_shells.wordPosition + 6 * j + 5) = .ok mat ∧
          x = [n0, n1, mat]) ∧
      (∀ (j : Nat) (x : List Int), r4.1[j]? = some x →
        d.buffer.read_int_array (r3.2.wordPosition + 5 * j) 5 = .ok x)) ∧
    (∀ g, d.read_geometry = .ok g →
      ∃ (r1 : List (List F32) × D3plot) (r2 r3 r4 : List (List Int) × D3plot),
        d.read_geometry_nodes = .ok r1 ∧ r1.2.read_geometry_elem8 = .ok r2 ∧
        r2.2.skip_thick_shells.read_geometry_elem2 = .ok r3 ∧
        r3.2.read_geometry_elem4 = .ok r4 ∧
        g.db_solids.map Element.record = d.db_solids.map Element.record ++ r2.1 ∧
        g.db_beams.map Element.record = d.db_beams.map Element.record ++ r3.1 ∧
        g.db_shells.map Element.record = d.db_shells.map Element.record ++ r4.1) ∧
    (∀ d0 : D3plot, d0.read_header = .ok d → d0.ctrl.own_nel10 = false →
      ∃ w, d0.buffer.read_int 23 = .ok w ∧ (d.ctrl.own_nel10 = true ↔ w < 0) ∧
        d.ctrl.dyna_nel8 = (if w < 0 then -w else w)) := by
  refine ⟨?_, ?_, ?_⟩
  rotate_left 2
  · intro d0 h0 hf
    obtain ⟨w, hw, e1, e2, _⟩ := read_header_counts d0 d h0
    refine ⟨w, hw, ?_, ?_⟩
    · rw [e2, hf]
      split <;> simp [*]
    · rw [e1]
      unfold abs32
      split_ifs <;> omega
  · intro r1 r2 r3 r4 h1 h2 h3 h4 hth
    obtain ⟨e1, k1, k2⟩ := read_geometry_nodes_ok d r1 h1
    obtain ⟨e2, k3, k4⟩ := read_geometry_elem8_ok r1.2 r2 h2
    obtain ⟨p2, q2⟩ := read_geometry_elem8_records r1.2 r2 h2
    obtain ⟨k5, k6, p3, q3⟩ := read_geometry_elem2_records _ r3 h3
    have e3 := read_geometry_elem2_ok _ r3 h3
    obtain ⟨e4, k7, k8⟩ := read_geometry_elem4_ok r3.2 r4 h4
    have p4 := read_geometry_elem4_position r3.2 r4 h4
    have q4 := read_geometry_elem4_records r3.2 r4 h4
    have p1 := read_geometry_nodes_position d r1 h1
    have c1 : r1.2.ctrl = d.ctrl := by rw [e1]
    have b1 : r1.2.buffer = d.buffer := by rw [e1]
    have c2 : r2.2.ctrl = d.ctrl := by rw [e2, e1]
    have b2 : r2.2.buffer = d.buffer := by rw [e2, e1]
    have cs : r2.2.skip_thick_shells.ctrl = d.ctrl := by
      unfold D3plot.skip_thick_shells
      split <;> exact c2
    have bs : r2.2.skip_thick_shells.buffer = d.buffer := by
      unfold D3plot.skip_thick_shells
      split <;> exact b2
    have ps : r2.2.skip_thick_shells.wordPosition
        = r2.2.wordPosition + 9 * d.ctrl.dyna_nelth := by
      unfold D3plot.skip_thick_shells
      rw [c2]
      split
      · rfl
      · have : d.ctrl.dyna_nelth = 0 := by omega
        rw [this]
        simp
    have c3 : r3.2.ctrl = d.ctrl := by rw [e3]; exact cs
    have b3 : r3.2.buffer = d.buffer := by rw [e3]; exact bs
    rw [c1] at k3 k4 p2
    rw [b1] at q2
    rw [cs] at k5 k6 p3
    rw [bs] at q3
    rw [c3] at k7 k8 p4
    rw [b3] at q4
    refine ⟨k1, k3, k5, k7, k2, k4, k6, k8, ?_, q2, q3, q4⟩
    rw [p4, p3, ps, p2, p1]
  · intro g h
    obtain ⟨r1, r2, r3, r4, r5, a, n0, n1, n2, n3, beams, shells, solids, h1, h2, h3, h4, h5, _,
      hpa, _, _, _, _, hbe, _, hsh, _, _, hso, hg⟩ := read_geometry_trace d g h
    have fa := (read_geometry_stages_frame d r1 r2 r3 r4 r5 a h1 h2 h3 h4 h5 hpa).2.2.2.2.2.2.2
    have s1 : a.db_solids = d.db_solids := by rw [fa]
    have s2 : a.db_beams = d.db_beams := by rw [fa]
    have s3 : a.db_shells = d.db_shells := by rw [fa]
    refine ⟨r1, r2, r3, r4, h1, h2, h3, h4, ?_, ?_, ?_⟩
    · rw [hg]
      show (a.db_solids ++ solids).map Element.record = _
      rw [List.map_append, s1, add_elements_records _ _ _ _ _ _ _ hso]
    · rw [hg]
      show (a.db_beams ++ beams).map Element.record = _
      rw [List.map_append, s2, add_elements_records _ _ _ _ _ _ _ hbe]
    · rw [hg]
      show (a.db_shells ++ shells).map Element.record = _
      rw [List.map_append, s3, add_elements_records _ _ _ _ _ _ _ hsh]

set_option maxRecDepth 100000 in
/-- C32 on `fileQ`, whose raw `nel8` word is `-1`: the stages advance the word
position from 64 by `3 + 9 + 2 + 0 + 6 + 5 = 25` to 89, and the geometry
stores the solid record 11 .. 19, the beam record 31 32 36 and the shell
record 41 .. 45. -/
theorem read_geometry_stages_advance_witness :
    ∃ (d2 : D3plot) (r1 : List (List F32) × D3plot) (r2 r3 r4 : List (List Int) × D3plot)
      (g : D3plot),
      D3plot.open_geometry bufQ false = .ok g ∧
      d2.read_geometry = .ok g ∧ d2.wordPosition = 64 ∧ d2.ctrl.own_nel10 = true ∧
      d2.read_geometry_nodes = .ok r1 ∧ r1.2.read_geometry_elem8 = .ok r2 ∧
      r2.2.skip_thick_shells.read_geometry_elem2 = .ok r3 ∧
      r3.2.read_geometry_elem4 = .ok r4 ∧ r4.2.wordPosition = 89 ∧
      g.db_solids.map Element.record = [[11, 12, 13, 14, 15, 16, 17, 18, 19]] ∧
      g.db_beams.map Element.record = [[31, 32, 36]] ∧
      g.db_shells.map Element.record = [[41, 42, 43, 44, 45]] := by
  have h0 : ∃ (d1 d2 : D3plot) (r1 : List (List F32) × D3plot)
      (r2 r3 r4 : List (List Int) × D3plot) (g : D3plot),
      (D3plot.init bufQ.read_geometryBuffer false).read_header = .ok d1 ∧
      d1.read_matsection = .ok d2 ∧ d2.read_geometry = .ok g ∧
      D3plot.open_geometry bufQ false = .ok g ∧
      d2.wordPosition = 64 ∧ d2.ctrl.own_nel10 = true ∧
      d2.ctrl.dyna_ndim = 3 ∧ d2.ctrl.dyna_numnp = 1 ∧ d2.ctrl.dyna_nel8 = 1 ∧
      d2.ctrl.dyna_nelth = 0 ∧ d2.ctrl.dyna_nel2 = 1 ∧ d2.ctrl.dyna_nel4 = 1 ∧
      d2.read_geometry_nodes = .ok r1 ∧ r1.2.read_geometry_elem8 = .ok r2 ∧
      r2.2.skip_thick_shells.read_geometry_elem2 = .ok r3 ∧
      r3.2.read_geometry_elem4 = .ok r4 ∧
      g.db_solids.map Element.record = [[11, 12, 13, 14, 15, 16, 17, 18, 19]] ∧
      g.db_beams.map Element.record = [[31, 32, 36]] ∧
      g.db_shells.map Element.record = [[41, 42, 43, 44, 45]] :=
    ⟨_, _, _, _, _, _, _, rfl, rfl, rfl, rfl, rfl, rfl, rfl, rfl, rfl, rfl, rfl, rfl, rfl, rfl,
      rfl, rfl, rfl, rfl, rfl⟩
  obtain ⟨d1, d2, r1, r2, r3, r4, g, k1, k2, k3, k4, m1, m2, m3, m4, m5, m6, m7, m8, s1, s2, s3,
    s4, v1, v2, v3⟩ := h0
  obtain ⟨_, _, _, _, _, _, _, _, hp, _⟩ := (read_geometry_stages_advance d2).1 r1 r2 r3 r4
    s1 s2 s3 s4 (by rw [m6])
  refine ⟨d2, r1, r2, r3, r4, g, k4, k3, m1, m2, s1, s2, s3, s4, ?_, v1, v2, v3⟩
  rw [hp, m1, m2, m3, m4, m5, m6, m7, m8]
  rfl


/-! ## C33: the material ids of the numbering block -/

/-- C34: `read_geometry_parts`, started at the word position `p`, fails with
the error of its first test when the word at `p` is not 90001, and with the
error of its second test when the word at `p + 1` (`numprop`) is negative.
When it succeeds, the word at `p` is 90001, `numprop` is the word at `p + 1`
and is not negative, exactly `numprop` parts are added, part `i` with the word
at `p + 1 + i·19 + 1` as its id and the following 18 words as its name, and the
word position is `p + 1 + (numprop + 1)·19 + 1`.  A successful `read_geometry`
has run `read_geometry_parts` so, and the word at the resulting position is
the float `-999999`: otherwise `read_geometry` fails. -/
theorem read_geometry_parts_records (d : D3plot) :
    (∀ w, d.buffer.read_int d.wordPosition = .ok w → w ≠ 90001 →
      d.read_geometry_parts
        = .error (Err.runtime_error "ntype must be 90001 in part section.")) ∧
    (∀ n, d.buffer.read_int d.wordPosition = .ok 90001 →
      d.buffer.read_int (d.wordPosition + 1) = .ok n → n < 0 →
      d.read_geometry_parts = .error (Err.runtime_error
        "negative number of parts in part section makes no sense.")) ∧
    (∀ d1, d.read_geometry_parts = .ok d1 →
      d.buffer.read_int d.wordPosition = .ok 90001 ∧
      d.buffer.read_int (d.wordPosition + 1) = .ok d1.ctrl.dyna_numprop ∧
      0 ≤ d1.ctrl.dyna_numprop ∧
      ∃ ps, d1.db_parts = d.db_parts ++ ps ∧ ps.length = d1.ctrl.dyna_numprop.toNat ∧
        (∀ i : Nat, i < d1.ctrl.dyna_numprop.toNat →
          ∃ id name, d.buffer.read_int (d.wordPosition + 1 + 19 * i + 1) = .ok id ∧
            d.buffer.read_str (d.wordPosition + 1 + 19 * i + 1 + 1) 18 = .ok name ∧
            ps[i]? = some { partID := id, name := name }) ∧
        d1.wordPosition = d.wordPosition + (1 + (d1.ctrl.dyna_numprop + 1) * 19 + 1)) ∧
    (∀ g, d.read_geometry = .ok g →
      ∃ dp a : D3plot, dp.read_geometry_parts = .ok a ∧
        dp.buffer.current = d.buffer.parts ∧ dp.db_parts = d.db_parts ∧
        (d.useFemzip = true → dp.wordPosition = 1) ∧
        a.wordPosition = dp.wordPosition + (1 + (a.ctrl.dyna_numprop + 1) * 19 + 1) ∧
        a.isFileEnding a.wordPosition = .ok true ∧
        (∃ x, a.buffer.read_float a.wordPosition = .ok x ∧ x.bits = endmark_bits) ∧
        g.db_parts = a.db_parts ∧ g.ctrl.dyna_numprop = a.ctrl.dyna_numprop ∧
        g.wordPosition = a.wordPosition) := by
  refine ⟨?_, ?_, ?_, ?_⟩
  · intro w hw hne
    unfold D3plot.read_geometry_parts
    simp only [hw, bind, Except.bind, throw_if, if_pos hne]
  · intro n h0 h1 hneg
    unfold D3plot.read_geometry_parts
    simp only [h0, h1, bind, Except.bind, throw_if, if_neg (not_not.mpr rfl), if_pos hneg]
  · intro d1 h
    exact read_geometry_parts_layout d d1 h
  · intro g h
    obtain ⟨r1, r2, r3, r4, r5, a, n0, n1, n2, n3, beams, shells, solids, h1, h2, h3, h4, h5, _,
      hpa, hfin, _, _, _, _, _, _, _, _, _, hg⟩ := read_geometry_trace d g h
    obtain ⟨_, _, _, _, _, e5, ep, ea⟩ :=
      read_geometry_stages_frame d r1 r2 r3 r4 r5 a h1 h2 h3 h4 h5 hpa
    obtain ⟨_, _, _, ps, _, _, _, hpos⟩ := read_geometry_parts_layout _ a hpa
    refine ⟨r5.2.parts_reader, a, hpa, ?_, ?_, ?_, hpos, hfin, ?_, ?_, ?_, ?_⟩
    · rw [ep]
      rfl
    · rw [ep]
    · intro hz
      have hz5 : r5.2.useFemzip = true := by rw [e5]; exact hz
      unfold D3plot.parts_reader
      rw [if_pos hz5]
    · unfold D3plot.isFileEnding at hfin
      split at hfin
      · cases hfin
      · rename_i x hx
        refine ⟨x, hx, ?_⟩
        simp only [Except.ok.injEq, beq_iff_eq] at hfin
        exact hfin
    · rw [hg]
    · rw [hg]
    · rw [hg]

set_option maxRecDepth 100000 in
/-- C34 on `fileP`, whose part section starts at word 79 with `numprop = 2`:
the geometry registers the part 7 named `PART` and the part 9 named `B` and
ends at word 138, where the marker is; and a part section that starts with the
word 90002 is refused. -/
theorem read_geometry_parts_records_witness :
    (∃ g, D3plot.open_geometry bufP false = .ok g ∧
      g.db_parts = [{ partID := 7, name := "PART" }, { partID := 9, name := "B" }] ∧
      g.ctrl.dyna_numprop = 2 ∧ g.wordPosition = 138 ∧
      ∃ x, fileP[138]? = some x ∧ x = endmark_bits) ∧
    D3plot.read_geometry_parts
        { D3plot.init { bufP with current := [90002, 0] } false with wordPosition := 0 }
      = .error (Err.runtime_error "ntype must be 90001 in part section.") := by
  have h0 : ∃ d1 d2 g, (D3plot.init bufP.read_geometryBuffer false).read_header = .ok d1 ∧
      d1.read_matsection = .ok d2 ∧ d2.read_geometry = .ok g ∧
      D3plot.open_geometry bufP false = .ok g ∧
      g.db_parts = [{ partID := 7, name := "PART" }, { partID := 9, name := "B" }] ∧
      g.ctrl.dyna_numprop = 2 ∧ g.wordPosition = 138 ∧ fileP[138]? = some endmark_bits :=
    ⟨_, _, _, rfl, rfl, rfl, rfl, rfl, rfl, rfl, rfl⟩
  obtain ⟨d1, d2, g, k1, k2, k3, k4, v1, v2, v3, v4⟩ := h0
  obtain ⟨dp, a, _, _, _, _, _, _, _, ep, en, ew⟩ := (read_geometry_parts_records d2).2.2.2 g k3
  refine ⟨⟨g, k4, v1, v2, v3, _, v4, rfl⟩, ?_⟩
  exact (read_geometry_parts_records
    { D3plot.init { bufP with current := [90002, 0] } false with wordPosition := 0 }).1 90002
    rfl (by decide)


/-! ## C35: what `clear` deletes and what it keeps -/

/-- C35: `clear` accepts a list exactly when every string it works on (the list,
or the ten names for an empty list) names a kind.  For an accepted list and
every kind `k`: when a string names `k`, the vector of `k` is empty on every
node, shell and solid and the loaded-flag of `k` is reset; when no string names
`k`, the vectors of `k` on the nodes, shells and solids and its loaded-flag are
as before.  Node ids and coordinates, element ids, families, connectivity and
rigid flags, the beams, the parts, the table of timesteps, the header scalars,
the plan, the positions and the buffer are unchanged.  `clear` of the empty list
is `clear` of the ten names, and these name every kind. -/
theorem clear_effect (vars : List String) (d : D3plot) :
    ((∃ d1, D3plot.clear vars d = .ok d1) ↔
      ∀ s ∈ clear_names vars, ∃ ks, clear_kinds s = some ks) ∧
    (∀ d1 : D3plot, D3plot.clear vars d = .ok d1 →
      (∀ k : ClearKind,
        ((∃ s ∈ clear_names vars, ∃ ks, clear_kinds s = some ks ∧ k ∈ ks) →
          (∀ n ∈ d1.db_nodes, k.on_node n = []) ∧
          (∀ e ∈ d1.db_shells, ClearKind.on_element ClearKind.history_shell k e = []) ∧
          (∀ e ∈ d1.db_solids, ClearKind.on_element ClearKind.history_solid k e = []) ∧
          k.loaded d1.loaded = (false, [])) ∧
        ((¬ ∃ s ∈ clear_names vars, ∃ ks, clear_kinds s = some ks ∧ k ∈ ks) →
          d1.db_nodes.map k.on_node = d.db_nodes.map k.on_node ∧
          d1.db_shells.map (ClearKind.on_element ClearKind.history_shell k)
            = d.db_shells.map (ClearKind.on_element ClearKind.history_shell k) ∧
          d1.db_solids.map (ClearKind.on_element ClearKind.history_solid k)
            = d.db_solids.map (ClearKind.on_element ClearKind.history_solid k) ∧
          k.loaded d1.loaded = k.loaded d.loaded)) ∧
      d1.db_nodes.map Node.static = d.db_nodes.map Node.static ∧
      d1.db_shells.map Element.static = d.db_shells.map Element.static ∧
      d1.db_solids.map Element.static = d.db_solids.map Element.static ∧
      d1.db_beams = d.db_beams ∧ d1.db_parts = d.db_parts ∧ d1.timesteps = d.timesteps ∧
      d1.ctrl = d.ctrl ∧ d1.plan = d.plan ∧ d1.wordPosition = d.wordPosition ∧
      d1.wordPositionStates = d.wordPositionStates ∧ d1.useFemzip = d.useFemzip ∧
      d1.buffer = d.buffer) ∧
    D3plot.clear [] d = D3plot.clear clear_all_names d ∧
    (∀ k : ClearKind, ∃ s ∈ clear_all_names, ∃ ks, clear_kinds s = some ks ∧ k ∈ ks) := by
  have hcl : D3plot.clear vars d
      = (match D3plot.clear_flags D3plot.ClearFlags.init (clear_names vars) with
        | .error e => .error e
        | .ok f => .ok (D3plot.clear_apply f d)) := rfl
  refine ⟨⟨?_, ?_⟩, ?_, rfl, ?_⟩
  · rintro ⟨d1, h⟩
    rw [hcl] at h
    cases hf : D3plot.clear_flags D3plot.ClearFlags.init (clear_names vars) with
    | error e => rw [hf] at h; cases h
    | ok f => exact (clear_flags_spec _ _ _ hf).1
  · intro h
    obtain ⟨f, hf⟩ := clear_flags_accepts (clear_names vars) D3plot.ClearFlags.init h
    exact ⟨D3plot.clear_apply f d, by rw [hcl, hf]⟩
  · intro d1 h
    rw [hcl] at h
    cases hf : D3plot.clear_flags D3plot.ClearFlags.init (clear_names vars) with
    | error e => rw [hf] at h; cases h
    | ok f =>
      rw [hf] at h
      have hd : d1 = D3plot.clear_apply f d := (Except.ok.inj h).symm
      subst hd
      have hflag : ∀ k : ClearKind, k.flag f = true ↔
          ∃ s ∈ clear_names vars, ∃ ks, clear_kinds s = some ks ∧ k ∈ ks := by
        intro k
        rw [(clear_flags_spec _ _ _ hf).2 k, ClearKind.flag_start]
        simp
      obtain ⟨en, esh, eso, el, e1, e2, e3, e4, e5, e6, e7, e8, e9⟩ := clear_apply_fields f d
      refine ⟨fun k => ⟨?_, ?_⟩, ?_, ?_, ?_, e8, e9, e6, e1, e2, e3, e4, e5, e7⟩
      · intro hk
        have hkf : k.flag f = true := (hflag k).mpr hk
        refine ⟨?_, ?_, ?_, ?_⟩
        · intro n hn
          rw [en] at hn
          obtain ⟨m, _, rfl⟩ := List.mem_map.mp hn
          rw [ClearKind.on_node_clear, if_pos hkf]
        · intro e he
          rw [esh] at he
          obtain ⟨m, _, rfl⟩ := List.mem_map.mp he
          rw [ClearKind.on_element_clear f _ k m (Or.inl rfl), if_pos hkf]
        · intro e he
          rw [eso] at he
          obtain ⟨m, _, rfl⟩ := List.mem_map.mp he
          rw [ClearKind.on_element_clear f _ k m (Or.inr rfl), if_pos hkf]
        · rw [el k, if_pos hkf]
      · intro hk
        have hkf : ¬ k.flag f = true := fun c => hk ((hflag k).mp c)
        refine ⟨?_, ?_, ?_, ?_⟩
        · rw [en, List.map_map]
          apply List.map_congr_left
          intro n _
          show k.on_node (D3plot.clear_node f n) = k.on_node n
          rw [ClearKind.on_node_clear, if_neg hkf]
        · rw [esh, List.map_map]
          apply List.map_congr_left
          intro m _
          show ClearKind.on_element ClearKind.history_shell k
            (D3plot.clear_element f (ClearKind.history_shell.flag f) m) = _
          rw [ClearKind.on_element_clear f _ k m (Or.inl rfl), if_neg hkf]
        · rw [eso, List.map_map]
          apply List.map_congr_left
          intro m _
          show ClearKind.on_element ClearKind.history_solid k
            (D3plot.clear_element f (ClearKind.history_solid.flag f) m) = _
          rw [ClearKind.on_element_clear f _ k m (Or.inr rfl), if_neg hkf]
        · rw [el k, if_neg hkf]
      · rw [en, List.map_map]
        apply List.map_congr_left
        intro n _
        obtain ⟨a, b, _⟩ := clear_node_fields f n
        show ((D3plot.clear_node f n).nodeID, (D3plot.clear_node f n).coords) = (n.nodeID, n.coords)
        rw [a, b]
      · rw [esh, List.map_map]
        apply List.map_congr_left
        intro m _
        exact (clear_element_fields f _ m).1
      · rw [eso, List.map_map]
        apply List.map_congr_left
        intro m _
        exact (clear_element_fields f _ m).1
  · intro k
    cases k
    · exact ⟨"disp", by simp [clear_all_names], _, rfl, List.mem_singleton.mpr rfl⟩
    · exact ⟨"vel", by simp [clear_all_names], _, rfl, List.mem_singleton.mpr rfl⟩
    · exact ⟨"accel", by simp [clear_all_names], _, rfl, List.mem_singleton.mpr rfl⟩
    · exact ⟨"energy", by simp [clear_all_names], _, rfl, List.mem_singleton.mpr rfl⟩
    · exact ⟨"plastic_strain", by simp [clear_all_names], _, rfl, List.mem_singleton.mpr rfl⟩
    · exact ⟨"strain", by simp [clear_all_names], _, rfl, List.mem_singleton.mpr rfl⟩
    · exact ⟨"stress", by simp [clear_all_names], _, rfl, List.mem_singleton.mpr rfl⟩
    · exact ⟨"stress_mises", by simp [clear_all_names], _, rfl, List.mem_singleton.mpr rfl⟩
    · exact ⟨"history shell", by simp [clear_all_names], _, rfl, List.mem_singleton.mpr rfl⟩
    · exact ⟨"history solid", by simp [clear_all_names], _, rfl, List.mem_singleton.mpr rfl⟩

set_option maxRecDepth 100000 in
/-- C35 on `fileR`: after the constructor has read the displacement and the
plastic strain, `clear` of `plastic_strain` empties the plastic strain of the
solid and resets its flag, and keeps the displacement of the node, its flag and
the table of timesteps. -/
theorem clear_effect_witness :
    ∃ d d1, D3plot.new sample_arith 5 bufR ["disp", "plastic_strain max"] false = .ok d ∧
      D3plot.clear ["plastic_strain"] d = .ok d1 ∧
      d.db_solids.map Element.plastic_strain = [[⟨207⟩]] ∧
      d.loaded.plastic_strain_is_read = true ∧
      (∀ e ∈ d1.db_solids,
        ClearKind.on_element ClearKind.history_solid ClearKind.plastic_strain e = []) ∧
      ClearKind.plastic_strain.loaded d1.loaded = (false, []) ∧
      d1.db_nodes.map ClearKind.disp.on_node = [[[⟨11⟩, ⟨12⟩, ⟨13⟩]]] ∧
      ClearKind.disp.loaded d1.loaded = (true, []) ∧
      d1.timesteps = [⟨7⟩] := by
  have h0 : ∃ d d1, D3plot.new sample_arith 5 bufR ["disp", "plastic_strain max"] false = .ok d ∧
      D3plot.clear ["plastic_strain"] d = .ok d1 ∧
      d.db_solids.map Element.plastic_strain = [[⟨207⟩]] ∧
      d.loaded.plastic_strain_is_read = true ∧
      d.db_nodes.map ClearKind.disp.on_node = [[[⟨11⟩, ⟨12⟩, ⟨13⟩]]] ∧
      ClearKind.disp.loaded d.loaded = (true, []) ∧ d.timesteps = [⟨7⟩] :=
    ⟨_, _, rfl, rfl, rfl, rfl, rfl, rfl, rfl⟩
  obtain ⟨d, d1, hn, hc, h1, h2, h3, h4, h5⟩ := h0
  obtain ⟨hk, _, _, _, _, _, ht, _⟩ := (clear_effect ["plastic_strain"] d).2.1 d1 hc
  have hp := (hk ClearKind.plastic_strain).1
    ⟨"plastic_strain", by simp [clear_names], _, rfl, List.mem_singleton.mpr rfl⟩
  have hdisp := (hk ClearKind.disp).2 (by
    rintro ⟨s, hs, ks, hks, hm⟩
    simp only [clear_names, List.length_singleton, one_ne_zero, if_false,
      List.mem_singleton] at hs
    subst hs
    have e : clear_kinds "plastic_strain" = some [ClearKind.plastic_strain] := rfl
    rw [e] at hks
    cases hks
    simp at hm)
  exact ⟨d, d1, hn, hc, h1, h2, hp.2.2.1, hp.2.2.2, hdisp.1.trans h3, hdisp.2.2.2.trans h4,
    ht.trans h5⟩


/-! ## C36: the timestep table is built once -/

/-- C36: a call of `read_states` that succeeds on a reader whose timestep table
is not empty leaves the table and `wordPositionStates` as they are, whatever
the request list is; when the call does not return at once because nothing is
to be read, its walk over the segments starts with all segments ahead, at the
word position `wordPositionStates`, and without reading times.  On a reader
the constructor built with a table that is not empty, `wordPositionStates` is
the word position the geometry stage ended at, recorded by the call of
`read_states` in the constructor, and every sequence of later calls keeps the
table and that position. -/
theorem timesteps_built_once (fa : FloatArith) (fuel : Nat) (vars : List String) (d d1 : D3plot)
    (h : D3plot.read_states fa fuel vars d = .ok d1) (ht : d.timesteps ≠ []) :
    d1.timesteps = d.timesteps ∧ d1.wordPositionStates = d.wordPositionStates ∧
    (∃ plan, D3plot.read_states_parse d.ctrl d.loaded vars = .ok plan ∧
      ((D3plot.plan_is_empty plan ∧ d1 = { d with plan := plan }) ∨
       (¬ D3plot.plan_is_empty plan ∧
        ({ d with plan := plan } : D3plot).read_states_rewind.wordPosition
          = d.wordPositionStates ∧
        ({ d with plan := plan } : D3plot).read_states_rewind.buffer.pending
          = d.buffer.states ∧
        ∃ nDel r, D3plot.deletion_vars d.ctrl = .ok nDel ∧
          D3plot.read_states_files fa fuel (D3plot.state_length d.ctrl nDel) false
            d.buffer.states false 0 ({ d with plan := plan } : D3plot).read_states_rewind
            = .ok r ∧
          d1.timesteps = r.1.timesteps))) ∧
    (∀ (buf : Buffer) (fz : Bool) (vars0 : List String) (fuel0 : Nat) (g : D3plot),
      D3plot.open_geometry buf fz = .ok g → D3plot.read_states fa fuel0 vars0 g = .ok d →
      d.wordPositionStates = g.wordPosition) ∧
    (∀ (calls : List (Nat × List String)) (d2 : D3plot),
      D3plot.read_states_calls fa calls d = .ok d2 →
      d2.timesteps = d.timesteps ∧ d2.wordPositionStates = d.wordPositionStates) := by
  obtain ⟨_, _, _, _, _, _, t1, _, _⟩ := read_states_frame fa fuel vars d d1 h
  obtain ⟨e1, e2⟩ := t1 ht
  refine ⟨e1, e2, ?_, ?_, ?_⟩
  · obtain ⟨plan, hp, hr⟩ := read_states_ok fa fuel vars d d1 h
    refine ⟨plan, hp, ?_⟩
    rcases hr with ⟨he, _, hd⟩ | ⟨hne, hrun⟩
    · exact Or.inl ⟨he, hd⟩
    · right
      have hl : ¬ d.timesteps.length < 1 := by
        cases hd : d.timesteps with
        | nil => exact absurd hd ht
        | cons x xs => simp
      obtain ⟨nDel, r, hdel, hf, hq⟩ := read_states_run_ok fa fuel _ d1 hrun
      have hdec : decide (({ d with plan := plan } : D3plot).timesteps.length < 1) = false := by
        show decide (d.timesteps.length < 1) = false
        simpa using hl
      rw [hdec] at hf
      refine ⟨fun hc => hne ⟨hc, ht⟩, ?_, ?_, nDel, r, hdel, hf, ?_⟩
      · rw [read_states_rewind_plan]
        exact rewind_position_cons d ht
      · exact (read_states_rewind_fields _).2.2.2.2.1
      · rw [hq]
  · intro buf fz vars0 fuel0 g hg hr
    obtain ⟨_, _, _, _, _, _, _, t2, _⟩ := read_states_frame fa fuel0 vars0 g d hr
    exact t2 (open_geometry_opened buf fz g hg).1
  · intro calls d2 hc
    exact read_states_calls_timesteps fa calls d d2 ht hc

set_option maxRecDepth 100000 in
/-- C36 on `fileA`: the constructor with `disp` builds the table `[7]` and
records the position 100; a later call for `vel` keeps both and reads the
velocity of the state. -/
theorem timesteps_built_once_witness :
    ∃ g d d1, D3plot.open_geometry bufA false = .ok g ∧ g.wordPosition = 100 ∧
      D3plot.new sample_arith 5 bufA ["disp"] false = .ok d ∧
      D3plot.read_states sample_arith 5 ["vel"] d = .ok d1 ∧
      d.timesteps = [⟨7⟩] ∧ d.wordPositionStates = 100 ∧
      d1.timesteps = [⟨7⟩] ∧ d1.wordPositionStates = 100 ∧
      d1.db_nodes.map Node.vel = [[[⟨21⟩, ⟨22⟩, ⟨23⟩]]] := by
  have h0 : ∃ g d d1, D3plot.open_geometry bufA false = .ok g ∧ g.wordPosition = 100 ∧
      D3plot.read_states sample_arith 5 ["disp"] g = .ok d ∧
      D3plot.new sample_arith 5 bufA ["disp"] false = .ok d ∧
      D3plot.read_states sample_arith 5 ["vel"] d = .ok d1 ∧
      d.timesteps = [⟨7⟩] ∧ d1.db_nodes.map Node.vel = [[[⟨21⟩, ⟨22⟩, ⟨23⟩]]] :=
    ⟨_, _, _, rfl, rfl, rfl, rfl, rfl, rfl, rfl⟩
  obtain ⟨g, d, d1, hg, hp, hr, hn, h1, ht, hv⟩ := h0
  obtain ⟨e1, e2, _, e3, _⟩ := timesteps_built_once sample_arith 5 ["vel"] d d1 h1
    (by rw [ht]; exact List.cons_ne_nil _ _)
  have e4 := e3 bufA false ["disp"] 5 g hg hr
  exact ⟨g, d, d1, hg, hp, hn, h1, ht, e4.trans hp, e1.trans ht, e2.trans (e4.trans hp), hv⟩


/-! ## C37: the word position at the head of a state segment -/

/-- C37: at the head of a state segment the next segment is loaded.  In
compressed mode the head fails with the error of its test when the word at
position 2 of the segment differs from `numprop`, and otherwise sets the word
position to `1 + 1 + (numprop + 1)·19 + 1`; in plain mode the word position is
kept for the first segment and set to 0 for every later one.  The walk over
the segments takes the head of the first segment as the first one and the
head of every other segment as a later one, and it starts at
`wordPositionStates`: the position it records when the timestep table is
empty, and restores otherwise.  On a compressed reader the position recorded
by the first call after the geometry, which is the position behind the part
section, is `1 + 1 + (numprop + 1)·19 + 1` as well. -/
theorem read_states_segment_positions (ffd : Bool) (d : D3plot) :
    (d.useFemzip = true →
      (∀ w, d.buffer.read_nextState.read_int 2 = .ok w → w ≠ d.ctrl.dyna_numprop →
        D3plot.read_states_segment_head ffd d = .error (Err.runtime_error
          "Numprop in geometry section != numprop in states section!")) ∧
      (d.buffer.read_nextState.read_int 2 = .ok d.ctrl.dyna_numprop →
        D3plot.read_states_segment_head ffd d
          = .ok { d with buffer := d.buffer.read_nextState,
                         wordPosition := 1 + (1 + (d.ctrl.dyna_numprop + 1) * 19 + 1) })) ∧
    (d.useFemzip = false →
      D3plot.read_states_segment_head ffd d
        = .ok { d with buffer := d.buffer.read_nextState,
                       wordPosition := if ffd = true then 0 else d.wordPosition }) ∧
    (∀ (fa : FloatArith) (fuel : Nat) (len : Int) (tr : Bool) (seg : List Nat)
      (rest : List (List Nat)) (i : Nat),
      D3plot.read_states_files fa fuel len tr (seg :: rest) ffd i d
        = (D3plot.read_states_segment_head ffd d).bind (fun d1 =>
            (D3plot.read_states_loop fa len tr fuel i d1).bind (fun r =>
              D3plot.read_states_files fa fuel len tr rest true r.2 r.1))) ∧
    (∀ (fa : FloatArith) (fuel : Nat) (d1 : D3plot), D3plot.read_states_run fa fuel d = .ok d1 →
      ∃ nDel r, D3plot.deletion_vars d.ctrl = .ok nDel ∧
        D3plot.read_states_files fa fuel (D3plot.state_length d.ctrl nDel)
          (decide (d.timesteps.length < 1)) d.buffer.states false 0 d.read_states_rewind
          = .ok r ∧
        d.read_states_rewind.wordPosition = d.read_states_rewind.wordPositionStates ∧
        d.read_states_rewind.wordPosition
          = (if d.timesteps.length < 1 then d.wordPosition else d.wordPositionStates) ∧
        d1.wordPositionStates = d.read_states_rewind.wordPositionStates) ∧
    (∀ (buf : Buffer) (fa : FloatArith) (fuel : Nat) (vars : List String) (d1 : D3plot),
      D3plot.open_geometry buf true = .ok d → D3plot.read_states fa fuel vars d = .ok d1 →
      d.wordPosition = 1 + 1 + (d.ctrl.dyna_numprop + 1) * 19 + 1 ∧
      d1.wordPositionStates = 1 + 1 + (d1.ctrl.dyna_numprop + 1) * 19 + 1) := by
  refine ⟨?_, ?_, ?_, ?_, ?_⟩
  · intro hz
    refine ⟨?_, ?_⟩
    · intro w hw hne
      unfold D3plot.read_states_segment_head
      simp only [hz, Bool.true_eq_false, false_and, if_false, if_true, hw,
        if_pos (Ne.symm hne)]
    · intro hw
      unfold D3plot.read_states_segment_head
      simp only [hz, Bool.true_eq_false, false_and, if_false, if_true, hw,
        if_neg (not_not.mpr rfl)]
  · intro hz
    unfold D3plot.read_states_segment_head
    cases ffd <;> simp [hz]
  · intro fa fuel len tr seg rest i
    rw [D3plot.read_states_files]
    cases D3plot.read_states_segment_head ffd d with
    | error e => rfl
    | ok d1 =>
      show (match D3plot.read_states_loop fa len tr fuel i d1 with
        | Except.error e => Except.error e
        | Except.ok r => D3plot.read_states_files fa fuel len tr rest true r.2 r.1)
        = (D3plot.read_states_loop fa len tr fuel i d1).bind (fun r =>
            D3plot.read_states_files fa fuel len tr rest true r.2 r.1)
      cases D3plot.read_states_loop fa len tr fuel i d1 <;> rfl
  · intro fa fuel d1 h
    obtain ⟨nDel, r, hdel, hf, hq⟩ := read_states_run_ok fa fuel d d1 h
    obtain ⟨rw1, rw2⟩ := read_states_rewind_ok d
    refine ⟨nDel, r, hdel, hf, ?_, rw2, ?_⟩
    · rw [rw1]
    · obtain ⟨p1, _⟩ := read_states_files_preserved _ _ _ _ _ _ _ _ _ hf
      have hfx := p1.1
      simp only [D3plot.fixed, Prod.mk.injEq] at hfx
      rw [hq]
      exact hfx.2.2.2.1
  · intro buf fa fuel vars d1 hg hr
    obtain ⟨o1, _, _, _, _, _, _, _, o9⟩ := open_geometry_opened buf true d hg
    obtain ⟨k, _, _, _, _, _, _, t2, _⟩ := read_states_frame fa fuel vars d d1 hr
    have hp : d.wordPosition = 1 + 1 + (d.ctrl.dyna_numprop + 1) * 19 + 1 := by
      rw [o9 rfl]
      ring
    refine ⟨hp, ?_⟩
    rw [t2 o1, k.1]
    exact hp

set_option maxRecDepth 100000 in
/-- C37 on three files.  On the compressed file `bufZ` (`numprop = 1`) the
geometry ends at word 41, the constructor records 41, and both segments are
read from word 41 on (times 7 and 8); on `bufY`, whose second segment holds a
different `numprop`, the constructor fails; on the plain file `bufW` the
second segment is read from word 0 on. -/
theorem read_states_segment_positions_witness :
    (∃ g d, D3plot.open_geometry bufZ true = .ok g ∧ g.wordPosition = 41 ∧
      D3plot.read_states sample_arith 5 ["disp"] g = .ok d ∧
      d.wordPositionStates = 41 ∧ d.timesteps = [⟨7⟩, ⟨8⟩]) ∧
    D3plot.new sample_arith 5 bufY ["disp"] true = .error (Err.runtime_error
      "Numprop in geometry section != numprop in states section!") ∧
    (∃ g h1, D3plot.open_geometry bufW false = .ok g ∧
      D3plot.read_states_segment_head true
        { g with buffer := { g.buffer with pending := [segE] } } = .ok h1 ∧
      h1.wordPosition = 0 ∧ h1.buffer.current = segE) := by
  have h0 : ∃ g d, D3plot.open_geometry bufZ true = .ok g ∧
      D3plot.read_states sample_arith 5 ["disp"] g = .ok d ∧ g.ctrl.dyna_numprop = 1 ∧
      d.ctrl.dyna_numprop = 1 ∧ d.timesteps = [⟨7⟩, ⟨8⟩] := ⟨_, _, rfl, rfl, rfl, rfl, rfl⟩
  have h1 : ∃ g, D3plot.open_geometry bufW false = .ok g ∧ g.useFemzip = false :=
    ⟨_, rfl, rfl⟩
  obtain ⟨g, d, hg, hr, n1, n2, ht⟩ := h0
  obtain ⟨w, hw, hz⟩ := h1
  obtain ⟨p1, p2⟩ := (read_states_segment_positions false g).2.2.2.2 bufZ sample_arith 5
    ["disp"] d hg hr
  have hhead := (read_states_segment_positions true
    { w with buffer := { w.buffer with pending := [segE] } }).2.1 hz
  refine ⟨⟨g, d, hg, ?_, hr, ?_, ht⟩, rfl, ⟨w, _, hw, hhead, rfl, rfl⟩⟩
  · rw [p1, n1]
    rfl
  · rw [p2, n2]
    rfl


/-! ## C38: the loop over the shells -/

/-- C38: on a reader whose databases fit the header (so the shells are `nel4`
and the rigid ones `numrbe`), as on every reader that holds the header and the
shells of a successfully decoded geometry, with `nv2d > 0`, a pass of
`read_states_elem4` can only fail by a failure of the decoding of the record
of a shell of the database that is not rigid: the loop never asks the database
for a shell with an index `≥ nel4`.  When it succeeds the database holds the
same number of shells, every rigid shell is as before, and every shell that is
not rigid went through the body of the loop exactly once, at the word
`start + k · nv2d` of the shell block, where `k < nel4 - numrbe` is the number
of shells before it that are not rigid. -/
theorem shell_loop_visits (fa : FloatArith) (iState : Nat) (d : D3plot) (hsh : Shape d)
    (hnv : 0 < d.ctrl.dyna_nv2d) :
    (d.db_shells.length : Int) = d.ctrl.dyna_nel4 ∧
    ((d.db_shells.countP Element.get_is_rigid : Nat) : Int) = d.ctrl.dyna_numrbe ∧
    (∀ e, d.read_states_elem4 fa iState = .error e →
      ∃ (j : Nat) (x : Element) (tmp : List F32),
        d.db_shells[j]? = some x ∧ (j : Int) < d.ctrl.dyna_nel4 ∧ x.is_rigid = false ∧
        D3plot.read_states_elem4_element fa d.ctrl d.plan d.buffer iState
          (shell_record_start d.ctrl d.wordPosition d.db_shells j) tmp x = .error e) ∧
    (∀ d4, d.read_states_elem4 fa iState = .ok d4 →
      d4.db_shells.length = d.db_shells.length ∧
      ∀ (j : Nat) (x : Element), d.db_shells[j]? = some x →
        (j : Int) < d.ctrl.dyna_nel4 ∧
        (x.is_rigid = true → d4.db_shells[j]? = some x) ∧
        (x.is_rigid = false →
          ∃ (tmp : List F32) (et : Element × List F32) (k : Nat),
            k = (d.db_shells.take j).countP (fun e => !e.is_rigid) ∧
            (k : Int) < d.ctrl.dyna_nel4 - d.ctrl.dyna_numrbe ∧
            shell_record_start d.ctrl d.wordPosition d.db_shells j
              = D3plot.elem4_start d.ctrl d.wordPosition + d.ctrl.dyna_nv2d * k ∧
            D3plot.read_states_elem4_element fa d.ctrl d.plan d.buffer iState
              (D3plot.elem4_start d.ctrl d.wordPosition + d.ctrl.dyna_nv2d * k) tmp x
              = .ok et ∧
            d4.db_shells[j]? = some et.1)) ∧
    (∀ (buf : Buffer) (fz : Bool) (g : D3plot), D3plot.open_geometry buf fz = .ok g →
      Kept g d → Shape d) := by
  have hsh0 := hsh
  obtain ⟨_, _, _, s4, s5, s6, _, _⟩ := hsh
  have hlen : (d.db_shells.length : Int) = d.ctrl.dyna_nel4 := by
    rw [s5]
    exact Int.toNat_of_nonneg s4
  have hidx : ∀ (j : Nat) (x : Element), d.db_shells[j]? = some x →
      (j : Int) < d.ctrl.dyna_nel4 := by
    intro j x hx
    have hlt : j < d.db_shells.length := by
      rcases Nat.lt_or_ge j d.db_shells.length with h1 | h1
      · exact h1
      · rw [List.getElem?_eq_none h1] at hx; cases hx
    omega
  refine ⟨hlen, s6, ?_, ?_, fun buf fz g hg hk =>
    Shape.of_kept hk (open_geometry_opened buf fz g hg).2.2.2.2.1⟩
  · intro e he
    obtain ⟨j, x, tmp, hx, hr, hb⟩ := read_states_elem4_error fa iState d e he
      hsh0 hnv
    exact ⟨j, x, tmp, hx, hidx j x hx, hr, hb⟩
  · intro d4 h4
    obtain ⟨hl4, hrig⟩ := read_states_elem4_rigid fa iState d d4 h4
    refine ⟨hl4, ?_⟩
    intro j x hx
    refine ⟨hidx j x hx, hrig j x hx, ?_⟩
    intro hr
    obtain ⟨tmp, et, het, hj⟩ := read_states_elem4_at fa iState d d4 h4
      hsh0 hnv j x hx hr
    have hcount := countP_take_lt (fun x : Element => !x.is_rigid) d.db_shells j x hx
      (by simp [hr])
    have htot := countP_not_rigid_add d.db_shells
    refine ⟨tmp, et, _, rfl, ?_, rfl, het, hj⟩
    omega

set_option maxRecDepth 100000 in
/-- C38 on `fileR`, whose first shell is rigid and whose second shell is the
only one that is not: the pass over the state at word 136 leaves the first
shell as it is and gives the second shell the stress of the record at the
start of the shell block. -/
theorem shell_loop_visits_witness :
    ∃ g d4 x0 x1,
      D3plot.open_geometry bufR false = .ok g ∧
      D3plot.read_states_elem4 sample_arith 0
        { g with buffer := { g.buffer with current := segR },
                 plan := { ReadPlan.init with stress_read := 1 } } = .ok d4 ∧
      g.db_shells[0]? = some x0 ∧ x0.is_rigid = true ∧
      g.db_shells[1]? = some x1 ∧ x1.is_rigid = false ∧
      d4.db_shells.length = 2 ∧ d4.db_shells[0]? = some x0 ∧
      d4.db_shells.map Element.stress = [[], [[⟨301⟩, ⟨302⟩, ⟨303⟩, ⟨304⟩, ⟨305⟩, ⟨306⟩]]] := by
  have h0 : ∃ g d4 x0 x1,
      D3plot.open_geometry bufR false = .ok g ∧
      D3plot.read_states_elem4 sample_arith 0
        { g with buffer := { g.buffer with current := segR },
                 plan := { ReadPlan.init with stress_read := 1 } } = .ok d4 ∧
      g.db_shells[0]? = some x0 ∧ x0.is_rigid = true ∧
      g.db_shells[1]? = some x1 ∧ x1.is_rigid = false ∧ g.ctrl.dyna_nv2d = 11 ∧
      g.db_shells.length = 2 ∧
      d4.db_shells.map Element.stress = [[], [[⟨301⟩, ⟨302⟩, ⟨303⟩, ⟨304⟩, ⟨305⟩, ⟨306⟩]]] :=
    ⟨_, _, _, _, rfl, rfl, rfl, rfl, rfl, rfl, rfl, rfl, rfl⟩
  obtain ⟨g, d4, x0, x1, hg, h4, k0, r0, k1, r1, n1, l2, v⟩ := h0
  have hk : Kept g { g with buffer := { g.buffer with current := segR },
                            plan := { ReadPlan.init with stress_read := 1 } } :=
    ⟨rfl, rfl, rfl, rfl, rfl, rfl, rfl, rfl⟩
  obtain ⟨_, _, _, hok, _⟩ := shell_loop_visits sample_arith 0
    { g with buffer := { g.buffer with current := segR },
             plan := { ReadPlan.init with stress_read := 1 } }
    (Shape.of_kept hk (open_geometry_opened bufR false g hg).2.2.2.2.1)
    (by show 0 < g.ctrl.dyna_nv2d; rw [n1]; decide)
  obtain ⟨hl, hv⟩ := hok d4 h4
  obtain ⟨_, hr0, _⟩ := hv 0 x0 k0
  exact ⟨g, d4, x0, x1, hg, h4, k0, r0, k1, r1, hl.trans l2, hr0 r0, v⟩


/-! ## C39: a file without numbering block -/

set_option maxRecDepth 100000 in
/-- C39: on `fileN`, whose header is accepted with `narbs = 0`,
`read_geometry_numbering` returns the empty list at the end of the node block
(word 67, where the marker is), the part section is read, and the first access
`buffer_numbering[0]` of `read_geometry` is outside of that list: the geometry
stage ends with an index error. -/
theorem read_geometry_numbering_empty :
    ∃ (d1 d2 : D3plot) (r1 : List (List F32) × D3plot) (r2 r3 r4 r5 : List (List Int) × D3plot)
      (a : D3plot),
      (D3plot.init bufN.read_geometryBuffer false).read_header = .ok d1 ∧
      d1.ctrl.dyna_narbs = 0 ∧ d1.read_matsection = .ok d2 ∧
      d2.read_geometry_nodes = .ok r1 ∧ r1.2.read_geometry_elem8 = .ok r2 ∧
      r2.2.skip_thick_shells.read_geometry_elem2 = .ok r3 ∧
      r3.2.read_geometry_elem4 = .ok r4 ∧ r4.2.read_geometry_numbering = .ok r5 ∧
      r5.1 = [] ∧ r5.2.wordPosition = 67 ∧ r5.2.isFileEnding 67 = .ok true ∧
      r5.2.parts_reader.read_geometry_parts = .ok a ∧
      a.isFileEnding a.wordPosition = .ok true ∧
      D3plot.vec_at r5.1 0 = .error Err.index_error ∧
      d2.read_geometry = .error Err.index_error ∧
      D3plot.open_geometry bufN false = .error Err.index_error :=
  ⟨_, _, _, _, _, _, _, _, rfl, rfl, rfl, rfl, rfl, rfl, rfl, rfl, rfl, rfl, rfl, rfl, rfl, rfl,
    rfl, rfl⟩

/-! ## C40: the material table and the material of a solid -/

set_option maxRecDepth 100000 in
/-- C40: on `fileM`, where `mattyp = 1`, `nmmat = 3` and `irbtyp` holds the
three entries `[20, 0, 20]`, the material word of the solid is 3, within
`1 .. nmmat`; the solid loop looks `irbtyp` up at the index 3, which is outside
of the three entries (an access `irbtyp[3]` has no entry to return).  The
loop does not use what it reads, so the solid is added and the geometry is
decoded.  The lookup for a shell of material 3 would be `irbtyp[2]`, within
the table. -/
theorem read_geometry_irbtyp_solid :
    ∃ (d1 d2 : D3plot) (r1 : List (List F32) × D3plot) (r2 : List (List Int) × D3plot)
      (g : D3plot),
      (D3plot.init bufM.read_geometryBuffer false).read_header = .ok d1 ∧
      d1.read_matsection = .ok d2 ∧ d2.ctrl.dyna_mattyp = 1 ∧ d2.ctrl.dyna_nmmat = 3 ∧
      d2.ctrl.dyna_irbtyp = [20, 0, 20] ∧
      d2.read_geometry_nodes = .ok r1 ∧ r1.2.read_geometry_elem8 = .ok r2 ∧
      r2.1 = [[1, 1, 1, 1, 1, 1, 1, 1, 3]] ∧
      D3plot.irbtyp_indices 0 d2.ctrl r2.1 = [3] ∧
      ¬ (3 : Int) < (d2.ctrl.dyna_irbtyp.length : Int) ∧
      D3plot.vec_at d2.ctrl.dyna_irbtyp (([1, 1, 1, 1, 1, 1, 1, 1, 3] : List Int).getLastD 0 + 0)
        = .error Err.index_error ∧
      D3plot.vec_at d2.ctrl.dyna_irbtyp (([1, 1, 1, 1, 1, 1, 1, 1, 3] : List Int).getLastD 0 + -1)
        = .ok 20 ∧
      D3plot.add_elements ElementType.SOLID 0 false d2.ctrl [201] r2.1
        = .ok [add_element_byD3plot ElementType.SOLID 201 [1, 1, 1, 1, 1, 1, 1, 1, 3]] ∧
      D3plot.open_geometry bufM false = .ok g ∧
      g.db_solids = [add_element_byD3plot ElementType.SOLID 201 [1, 1, 1, 1, 1, 1, 1, 1, 3]] :=
  ⟨_, _, _, _, _, rfl, rfl, rfl, rfl, rfl, rfl, rfl, rfl, rfl, by decide, rfl, rfl, rfl, rfl, rfl⟩

end qd
